import Mathlib

/-!
# Execution engine of the i860 core (`src/dimension/i860dec.cpp`)

A shallow embedding of the instruction handlers, the address translator, the
memory access shim and the decoder, followed by the properties proved about
them.

Conventions of the embedding.

* `UINT32` / `INT32` values are natural numbers holding the 32-bit pattern;
  every operation that wraps in C is followed by an explicit `% 2 ^ 32`.
  A signed reading of a pattern is obtained with `toS32`.
* `float` / `double` values are carried as their 32-bit / 64-bit patterns.
  The arithmetic of the host on these patterns is a parameter (`HostFP`).
* The register files and the memory are total maps from an index to a value.
* The handlers that execute a delay slot call the decoder again; the
  recursion is bounded by a fuel argument and the result is `none` when the
  fuel does not suffice.
-/

namespace I860

/-! ## Machine words -/

/-- Truncation of a natural number to a `UINT32`. -/
def u32 (x : Nat) : Nat := x % 2 ^ 32

/-- Truncation of a natural number to a `UINT64`. -/
def u64 (x : Nat) : Nat := x % 2 ^ 64

/-- The C operator `~` on a `UINT32`. -/
def not32 (x : Nat) : Nat := 0xFFFFFFFF ^^^ (x % 2 ^ 32)

/-- The C operator `~` on a `UINT64`. -/
def not64 (x : Nat) : Nat := 0xFFFFFFFFFFFFFFFF ^^^ (x % 2 ^ 64)

/-- Unary minus on a `UINT32` / `INT32` pattern. -/
def neg32 (x : Nat) : Nat := (2 ^ 32 - x % 2 ^ 32) % 2 ^ 32

/-- Signed reading of a 32-bit pattern (the cast `(INT32)x`). -/
def toS32 (x : Nat) : Int :=
  if x % 2 ^ 32 < 2 ^ 31 then ((x % 2 ^ 32 : Nat) : Int) else ((x % 2 ^ 32 : Nat) : Int) - 2 ^ 32

/-- The 32-bit pattern of an integer (conversion to `UINT32`). -/
def ofInt32 (i : Int) : Nat := (i % 2 ^ 32).toNat

/-- Sign extend N-bit number: `t = x >> (n - 1); t = ((-t) << n) | x`. -/
def sign_ext (x n : Nat) : Nat :=
  let t := x >>> (n - 1)
  u32 (((neg32 t) <<< n) ||| x)

/-! ## Declarations of the device header

The class declaration (`i860.h`) is not part of the source file: the register
numbers, the trap flags, the field accessors and the compile-time switches used
by the handlers are reproduced here. -/

/-- Modelled from the spec: index of the fault instruction address register
(`CR_FIR`); the enumeration of the control registers is declared in the device
header. -/
def CR_FIR : Nat := 0

/-- Modelled from the spec: index of the processor status register (`CR_PSR`),
declared in the device header. -/
def CR_PSR : Nat := 1

/-- Modelled from the spec: index of the page-directory base register
(`CR_DIRBASE`), declared in the device header. -/
def CR_DIRBASE : Nat := 2

/-- Modelled from the spec: index of the debug breakpoint address register
(`CR_DB`), declared in the device header. -/
def CR_DB : Nat := 3

/-- Modelled from the spec: index of the floating-point status register
(`CR_FSR`), declared in the device header. -/
def CR_FSR : Nat := 4

/-- Modelled from the spec: index of the extended status register (`CR_EPSR`),
declared in the device header. -/
def CR_EPSR : Nat := 5

/-- Modelled from the spec: the normal-trap bit of the pending-trap bitmask
(`TRAP_NORMAL`), declared in the device header. -/
def TRAP_NORMAL : Nat := 0x01

/-- Modelled from the spec: the in-delay-slot bit of the pending-trap bitmask
(`TRAP_IN_DELAY_SLOT`), declared in the device header. -/
def TRAP_IN_DELAY_SLOT : Nat := 0x02

/-- Modelled from the spec: the external-interrupt bit of the pending-trap
bitmask (`TRAP_WAS_EXTERNAL`), declared in the device header. -/
def TRAP_WAS_EXTERNAL : Nat := 0x04

/-- Modelled from the spec: the fault/trap indicator bits of the status
register, IT, IN, IAT, DAT and FT (`PSR_ALL_TRAP_BITS_MASK`), declared in the
device header. -/
def PSR_ALL_TRAP_BITS_MASK : Nat := 0x00001f00

/-- Modelled from the spec: the status-register bits writable in supervisor
mode only (`PSR_SUPERVISOR_ONLY_MASK`), declared in the device header. -/
def PSR_SUPERVISOR_ONLY_MASK : Nat := 0x0000fff3

/-- Modelled from the spec: the compile-time switches of the configuration
header that change what a handler does (`TRACE_UNDEFINED_I860` and
`TRACE_UNALIGNED_MEM`); the other trace switches only add log output. -/
structure Config where
  /-- The switch `TRACE_UNDEFINED_I860`. -/
  trace_undefined : Bool
  /-- The switch `TRACE_UNALIGNED_MEM`. -/
  trace_unaligned : Bool

/-- Modelled from the spec: arithmetic of the host on `float` and `double`
values, which the handlers use through the C operators and `sqrt`; values are
32-bit and 64-bit patterns. -/
structure HostFP where
  /-- Product of two `double`. -/
  mul_d : Nat → Nat → Nat
  /-- Product of two `float`. -/
  mul_s : Nat → Nat → Nat
  /-- Sum of two `double`. -/
  add_d : Nat → Nat → Nat
  /-- Sum of two `float`. -/
  add_s : Nat → Nat → Nat
  /-- Difference of two `double`. -/
  sub_d : Nat → Nat → Nat
  /-- Difference of two `float`. -/
  sub_s : Nat → Nat → Nat
  /-- Quotient of two `double`. -/
  div_d : Nat → Nat → Nat
  /-- Quotient of two `float`. -/
  div_s : Nat → Nat → Nat
  /-- Square root of a `double`. -/
  sqrt_d : Nat → Nat
  /-- Square root of a `float`. -/
  sqrt_s : Nat → Nat
  /-- Conversion `(double)` of a `float`. -/
  to_d : Nat → Nat
  /-- Conversion `(float)` of a `double`. -/
  to_s : Nat → Nat
  /-- Conversion `(INT32)` of a `double`, as a 32-bit pattern. -/
  trunc_d : Nat → Nat
  /-- Conversion `(INT32)` of a `float`, as a 32-bit pattern. -/
  trunc_s : Nat → Nat
  /-- Comparison `==` of two `double`. -/
  eq_d : Nat → Nat → Bool
  /-- Comparison `==` of two `float`. -/
  eq_s : Nat → Nat → Bool
  /-- Comparison `<` of two `double`. -/
  lt_d : Nat → Nat → Bool
  /-- Comparison `<` of two `float`. -/
  lt_s : Nat → Nat → Bool
  /-- Comparison `<=` of two `double`. -/
  le_d : Nat → Nat → Bool
  /-- Comparison `<=` of two `float`. -/
  le_s : Nat → Nat → Bool

/-- Modelled from the spec: one stage of a floating-point pipeline, declared in
the device header: the value union `val` (eight bytes, the `float` member in
the low four) and the precision bit of the result status (`stat.mrp`,
`stat.arp`, `stat.irp` or `stat.lrp` according to the pipe). -/
structure Stage where
  /-- The eight bytes of the union `val`. -/
  val : Nat
  /-- The precision bit of `stat`. -/
  prec : Nat

/-- Modelled from the spec: the data members of the device class, declared in
the device header, together with the state of the collaborators the handlers
act on (physical memory, console buffer, halt line, debugger). Cells 6 and 7
of `cregs` and the bytes of `frg` from 128 on lie outside the declared arrays;
they are kept as cells of their own. -/
structure State where
  /-- Integer registers `m_iregs[32]`. -/
  iregs : Nat → Nat
  /-- Bytes of the floating-point registers `m_frg[32 * 4]`. -/
  frg : Nat → Nat
  /-- Control registers `m_cregs[6]`. -/
  cregs : Nat → Nat
  /-- Program counter `m_pc`. -/
  pc : Nat
  /-- The flag `m_pc_updated`. -/
  pc_updated : Nat
  /-- The bitmask `m_pending_trap`. -/
  pending_trap : Nat
  /-- The marker `m_exiting_readmem`. -/
  exiting_readmem : Nat
  /-- The marker `m_exiting_ifetch`. -/
  exiting_ifetch : Nat
  /-- The flag `m_fir_gets_trap_addr`. -/
  fir_gets_trap_addr : Nat
  /-- The dual-instruction-mode counter `m_dim`. -/
  dim : Nat
  /-- The union `m_KR`. -/
  KR : Nat
  /-- The union `m_KI`. -/
  KI : Nat
  /-- The union `m_T`. -/
  T : Nat
  /-- The register `m_merge`. -/
  merge : Nat
  /-- Multiplier pipeline `m_M[3]`. -/
  M : Nat → Stage
  /-- Adder pipeline `m_A[3]`. -/
  A : Nat → Stage
  /-- Load pipeline `m_L[3]`. -/
  L : Nat → Stage
  /-- Graphics pipeline `m_G`. -/
  G : Stage
  /-- Physical memory, one byte per address. -/
  mem : Nat → Nat
  /-- Characters collected in `m_console`. -/
  console : List Nat
  /-- The flag `m_break_on_next_msg`. -/
  break_on_next_msg : Bool
  /-- Set by `i860_halt`. -/
  halted : Bool
  /-- Number of calls of `debugger`. -/
  debugger_calls : Nat

/-- Field extraction `(x >> pos) & mask`, the shape of every `GET_` accessor. -/
def getField (x pos mask : Nat) : Nat := (x >>> pos) &&& mask

/-- Field replacement `(x & ~(mask << pos)) | ((v & mask) << pos)`, the shape of
every `SET_` accessor. -/
def setField (x pos mask v : Nat) : Nat :=
  (x &&& not32 (mask <<< pos)) ||| ((v &&& mask) <<< pos)

/-- Replacement of one cell of a register file or of the memory. -/
def upd {α : Type} (f : Nat → α) (a : Nat) (v : α) : Nat → α :=
  fun i => if i = a then v else f i

/-! ### Instruction fields -/

/-- Modelled from the spec: the accessor `get_isrc1` of the device header,
bits 15..11 of the instruction word. -/
def get_isrc1 (bits : Nat) : Nat := (bits >>> 11) &&& 0x1f

/-- Modelled from the spec: the accessor `get_isrc2` of the device header,
bits 25..21 of the instruction word. -/
def get_isrc2 (bits : Nat) : Nat := (bits >>> 21) &&& 0x1f

/-- Modelled from the spec: the accessor `get_idest` of the device header,
bits 20..16 of the instruction word. -/
def get_idest (bits : Nat) : Nat := (bits >>> 16) &&& 0x1f

/-- Modelled from the spec: the accessor `get_fsrc1` of the device header,
bits 15..11 of the instruction word. -/
def get_fsrc1 (bits : Nat) : Nat := (bits >>> 11) &&& 0x1f

/-- Modelled from the spec: the accessor `get_fsrc2` of the device header,
bits 25..21 of the instruction word. -/
def get_fsrc2 (bits : Nat) : Nat := (bits >>> 21) &&& 0x1f

/-- Modelled from the spec: the accessor `get_fdest` of the device header,
bits 20..16 of the instruction word. -/
def get_fdest (bits : Nat) : Nat := (bits >>> 16) &&& 0x1f

/-- Modelled from the spec: the accessor `get_creg` of the device header,
bits 23..21 of the instruction word. -/
def get_creg (bits : Nat) : Nat := (bits >>> 21) &&& 0x7

/-- Modelled from the spec: the accessor `get_imm16` of the device header, the
low 16 bits of the instruction word. -/
def get_imm16 (insn : Nat) : Nat := insn &&& 0xffff

/-! ### Control-register fields -/

/-- Replacement of a field of one control register. -/
def setCreg (s : State) (cr pos mask v : Nat) : State :=
  { s with cregs := upd s.cregs cr (setField (s.cregs cr) pos mask v) }

/-- Modelled from the spec: `GET_PSR_BR`, break-on-read enable, PSR bit 0. -/
def GET_PSR_BR (s : State) : Nat := getField (s.cregs CR_PSR) 0 1

/-- Modelled from the spec: `GET_PSR_BW`, break-on-write enable, PSR bit 1. -/
def GET_PSR_BW (s : State) : Nat := getField (s.cregs CR_PSR) 1 1

/-- Modelled from the spec: `GET_PSR_CC`, condition code, PSR bit 2. -/
def GET_PSR_CC (s : State) : Nat := getField (s.cregs CR_PSR) 2 1

/-- Modelled from the spec: `GET_PSR_LCC`, loop condition code, PSR bit 3. -/
def GET_PSR_LCC (s : State) : Nat := getField (s.cregs CR_PSR) 3 1

/-- Modelled from the spec: `GET_PSR_IM`, interrupt mask, PSR bit 4. -/
def GET_PSR_IM (s : State) : Nat := getField (s.cregs CR_PSR) 4 1

/-- Modelled from the spec: `GET_PSR_PIM`, shadow of the interrupt mask, PSR
bit 5. -/
def GET_PSR_PIM (s : State) : Nat := getField (s.cregs CR_PSR) 5 1

/-- Modelled from the spec: `GET_PSR_U`, user mode, PSR bit 6. -/
def GET_PSR_U (s : State) : Nat := getField (s.cregs CR_PSR) 6 1

/-- Modelled from the spec: `GET_PSR_PU`, shadow of the user mode, PSR bit 7. -/
def GET_PSR_PU (s : State) : Nat := getField (s.cregs CR_PSR) 7 1

/-- Modelled from the spec: `GET_PSR_IT`, instruction trap, PSR bit 8. -/
def GET_PSR_IT (s : State) : Nat := getField (s.cregs CR_PSR) 8 1

/-- Modelled from the spec: `GET_PSR_IN`, interrupt, PSR bit 9. -/
def GET_PSR_IN (s : State) : Nat := getField (s.cregs CR_PSR) 9 1

/-- Modelled from the spec: `GET_PSR_IAT`, instruction access fault, PSR
bit 10. -/
def GET_PSR_IAT (s : State) : Nat := getField (s.cregs CR_PSR) 10 1

/-- Modelled from the spec: `GET_PSR_DAT`, data access fault, PSR bit 11. -/
def GET_PSR_DAT (s : State) : Nat := getField (s.cregs CR_PSR) 11 1

/-- Modelled from the spec: `GET_PSR_FT`, floating-point trap, PSR bit 12. -/
def GET_PSR_FT (s : State) : Nat := getField (s.cregs CR_PSR) 12 1

/-- Modelled from the spec: `GET_PSR_SC`, shift count, PSR bits 21..17. -/
def GET_PSR_SC (s : State) : Nat := getField (s.cregs CR_PSR) 17 0x1f

/-- Modelled from the spec: `GET_PSR_PS`, pixel size, PSR bits 23..22. -/
def GET_PSR_PS (s : State) : Nat := getField (s.cregs CR_PSR) 22 0x3

/-- Modelled from the spec: `GET_PSR_PM`, pixel mask, PSR bits 31..24. -/
def GET_PSR_PM (s : State) : Nat := getField (s.cregs CR_PSR) 24 0xff

/-- Modelled from the spec: `SET_PSR_CC`. -/
def SET_PSR_CC (s : State) (v : Nat) : State := setCreg s CR_PSR 2 1 v

/-- Modelled from the spec: `SET_PSR_LCC`. -/
def SET_PSR_LCC (s : State) (v : Nat) : State := setCreg s CR_PSR 3 1 v

/-- Modelled from the spec: `SET_PSR_IM`. -/
def SET_PSR_IM (s : State) (v : Nat) : State := setCreg s CR_PSR 4 1 v

/-- Modelled from the spec: `SET_PSR_U`. -/
def SET_PSR_U (s : State) (v : Nat) : State := setCreg s CR_PSR 6 1 v

/-- Modelled from the spec: `SET_PSR_IT`. -/
def SET_PSR_IT (s : State) (v : Nat) : State := setCreg s CR_PSR 8 1 v

/-- Modelled from the spec: `SET_PSR_IN`. -/
def SET_PSR_IN (s : State) (v : Nat) : State := setCreg s CR_PSR 9 1 v

/-- Modelled from the spec: `SET_PSR_IAT`. -/
def SET_PSR_IAT (s : State) (v : Nat) : State := setCreg s CR_PSR 10 1 v

/-- Modelled from the spec: `SET_PSR_DAT`. -/
def SET_PSR_DAT (s : State) (v : Nat) : State := setCreg s CR_PSR 11 1 v

/-- Modelled from the spec: `SET_PSR_FT`. -/
def SET_PSR_FT (s : State) (v : Nat) : State := setCreg s CR_PSR 12 1 v

/-- Modelled from the spec: `SET_PSR_SC`. -/
def SET_PSR_SC (s : State) (v : Nat) : State := setCreg s CR_PSR 17 0x1f v

/-- Modelled from the spec: `SET_PSR_PM`. -/
def SET_PSR_PM (s : State) (v : Nat) : State := setCreg s CR_PSR 24 0xff v

/-- Modelled from the spec: `GET_EPSR_WP`, write protect, EPSR bit 14. -/
def GET_EPSR_WP (s : State) : Nat := getField (s.cregs CR_EPSR) 14 1

/-- Modelled from the spec: `GET_EPSR_INT`, state of the interrupt pin, EPSR
bit 17. -/
def GET_EPSR_INT (s : State) : Nat := getField (s.cregs CR_EPSR) 17 1

/-- Modelled from the spec: `GET_EPSR_BE`, big-endian mode, EPSR bit 23. -/
def GET_EPSR_BE (s : State) : Nat := getField (s.cregs CR_EPSR) 23 1

/-- Modelled from the spec: `GET_EPSR_OF`, overflow flag, EPSR bit 24. -/
def GET_EPSR_OF (s : State) : Nat := getField (s.cregs CR_EPSR) 24 1

/-- Modelled from the spec: `SET_EPSR_INT`. -/
def SET_EPSR_INT (s : State) (v : Nat) : State := setCreg s CR_EPSR 17 1 v

/-- Modelled from the spec: `SET_EPSR_OF`. -/
def SET_EPSR_OF (s : State) (v : Nat) : State := setCreg s CR_EPSR 24 1 v

/-- Modelled from the spec: `GET_DIRBASE_ATE`, address translation enable,
DIRBASE bit 0. -/
def GET_DIRBASE_ATE (s : State) : Nat := getField (s.cregs CR_DIRBASE) 0 1

/-- Modelled from the spec: `GET_DIRBASE_CS8`, code size 8 bits, DIRBASE
bit 7. -/
def GET_DIRBASE_CS8 (s : State) : Nat := getField (s.cregs CR_DIRBASE) 7 1

/-- Modelled from the spec: `GET_FSR_FTE`, floating-point trap enable, FSR
bit 5. -/
def GET_FSR_FTE (s : State) : Nat := getField (s.cregs CR_FSR) 5 1

/-- Modelled from the spec: `SET_FSR_SE`, source exception, FSR bit 8. -/
def SET_FSR_SE (s : State) (v : Nat) : State := setCreg s CR_FSR 8 1 v

/-! ### Register access -/

/-- Get general register value: `m_iregs[gr]`. -/
def get_iregval (s : State) (gr : Nat) : Nat := s.iregs gr

/-- Set general register value, watching for r0:
`m_iregs[gr] = (gr == 0 ? 0 : val)`. -/
def set_iregval (s : State) (gr val : Nat) : State :=
  { s with iregs := upd s.iregs gr (if gr = 0 then 0 else u32 val) }

/-- Little-endian value of the `n` bytes of `frg` from byte `i` on. -/
def frg_read (frg : Nat → Nat) (i : Nat) : Nat → Nat
  | 0 => 0
  | n + 1 => frg i % 256 + 256 * frg_read frg (i + 1) n

/-- Store of the `n` low bytes of `v`, least significant first, from byte `i`
of `frg` on. -/
def frg_write (frg : Nat → Nat) (i : Nat) : Nat → Nat → Nat → Nat
  | 0, _ => frg
  | n + 1, v => frg_write (upd frg i (v % 256)) (i + 1) n (v / 256)

/-- The read `*(float*)(&m_frg[fr * 4])`. -/
def get_fregval_s (s : State) (fr : Nat) : Nat := frg_read s.frg (fr * 4) 4

/-- The write `*(float*)(&m_frg[fr * 4]) = v`, done only `if (fr > 1)`. -/
def set_fregval_s (s : State) (fr v : Nat) : State :=
  if fr > 1 then { s with frg := frg_write s.frg (fr * 4) 4 v } else s

/-- The read `*(double*)(&m_frg[fr * 4])`. -/
def get_fregval_d (s : State) (fr : Nat) : Nat := frg_read s.frg (fr * 4) 8

/-- The write `*(double*)(&m_frg[fr * 4]) = d`, done only `if (fr > 1)`. -/
def set_fregval_d (s : State) (fr d : Nat) : State :=
  if fr > 1 then { s with frg := frg_write s.frg (fr * 4) 8 d } else s

/-- The `float` member of a value union. -/
def union_s (v : Nat) : Nat := v % 2 ^ 32

/-- Assignment to the `float` member of a value union: the low four bytes are
replaced. -/
def union_set_s (v x : Nat) : Nat := (v / 2 ^ 32) * 2 ^ 32 + x % 2 ^ 32

/-- The `double` member of a value union. -/
def union_d (v : Nat) : Nat := v % 2 ^ 64

/-- Assignment to the `double` member of a value union. -/
def union_set_d (_v x : Nat) : Nat := x % 2 ^ 64

/-- The test of `has_delay_slot`. -/
def has_delay_slot (insn : Nat) : Nat :=
  let opc := (insn >>> 26) &&& 0x3f
  if opc = 0x10 ∨ opc = 0x1a ∨ opc = 0x1b ∨ opc = 0x1d ∨ opc = 0x1f ∨ opc = 0x2d
      ∨ (opc = 0x13 ∧ insn &&& 3 = 2) then 1 else 0

/-! ## Raw memory primitives -/

/-- Modelled from the spec: the byte order of `read_physical` in little-endian
mode: the byte at the lowest address is the least significant. -/
def rd_le (mem : Nat → Nat) (a : Nat) : Nat → Nat
  | 0 => 0
  | n + 1 => mem (a % 2 ^ 32) % 256 + 256 * rd_le mem (a + 1) n

/-- Modelled from the spec: the byte order of `read_physical` in big-endian
mode: the byte at the lowest address is the most significant. -/
def rd_be (mem : Nat → Nat) (a : Nat) : Nat → Nat
  | 0 => 0
  | n + 1 => (mem (a % 2 ^ 32) % 256) * 256 ^ n + rd_be mem (a + 1) n

/-- Modelled from the spec: the byte order of `write_physical` in little-endian
mode. -/
def wr_le (mem : Nat → Nat) (a : Nat) : Nat → Nat → Nat → Nat
  | 0, _ => mem
  | n + 1, v => wr_le (upd mem (a % 2 ^ 32) (v % 256)) (a + 1) n (v / 256)

/-- Modelled from the spec: the byte order of `write_physical` in big-endian
mode. -/
def wr_be (mem : Nat → Nat) (a : Nat) : Nat → Nat → Nat → Nat
  | 0, _ => mem
  | n + 1, v => wr_be (upd mem (a % 2 ^ 32) ((v / 256 ^ n) % 256)) (a + 1) n v

/-- Modelled from the spec: `read_physical(address, size)`, the raw read of
the backing store, little- or big-endian per configured mode. -/
def read_physical (s : State) (addr size : Nat) : Nat :=
  if GET_EPSR_BE s ≠ 0 then rd_be s.mem addr size else rd_le s.mem addr size

/-- Modelled from the spec: `write_physical(address, size, value)`, the raw
write of the backing store, little- or big-endian per configured mode. -/
def write_physical (s : State) (addr size v : Nat) : State :=
  { s with mem := if GET_EPSR_BE s ≠ 0 then wr_be s.mem addr size v
                  else wr_le s.mem addr size v }

/-- Modelled from the spec: the primitive `rd8`, `read_physical` of size 1. -/
def rd8 (s : State) (addr : Nat) : Nat := read_physical s addr 1

/-- Modelled from the spec: the primitive `rd16`, `read_physical` of size 2. -/
def rd16 (s : State) (addr : Nat) : Nat := read_physical s addr 2

/-- Modelled from the spec: the primitive `rd32`, `read_physical` of size 4. -/
def rd32 (s : State) (addr : Nat) : Nat := read_physical s addr 4

/-- Modelled from the spec: the primitive `rd32i` used for instruction words
and page-table entries, `read_physical` of size 4. -/
def rd32i (s : State) (addr : Nat) : Nat := read_physical s addr 4

/-- Modelled from the spec: the primitive `rdcs8` used for instruction bytes in
CS8 mode, the byte at the address. -/
def rdcs8 (s : State) (addr : Nat) : Nat := s.mem (addr % 2 ^ 32) % 256

/-- Modelled from the spec: the primitive `wr8`, `write_physical` of size 1. -/
def wr8 (s : State) (addr v : Nat) : State := write_physical s addr 1 v

/-- Modelled from the spec: the primitive `wr16`, `write_physical` of size 2. -/
def wr16 (s : State) (addr v : Nat) : State := write_physical s addr 2 v

/-- Modelled from the spec: the primitive `wr32`, `write_physical` of size 4. -/
def wr32 (s : State) (addr v : Nat) : State := write_physical s addr 4 v

/-- Modelled from the spec: the primitive `wr32i` used for page-table entries,
`write_physical` of size 4. -/
def wr32i (s : State) (addr v : Nat) : State := write_physical s addr 4 v

/-- Modelled from the spec: `read_physical_block(address, size)`, the bytes of
a floating-point transfer in the order of the destination buffer: ascending
addresses in little-endian mode, descending addresses in big-endian mode (the
order the masked store of `fp_writemem_emu` uses). -/
def frddata (s : State) (addr size : Nat) : List Nat :=
  (List.range size).map (fun k =>
    if GET_EPSR_BE s ≠ 0 then s.mem ((addr + (size - 1 - k)) % 2 ^ 32) % 256
    else s.mem ((addr + k) % 2 ^ 32) % 256)

/-- Store of the bytes `data` at the positions `k, k + 1, ...` of a block of
`size` bytes at `addr`. -/
def fwr_bytes (be : Bool) (addr size : Nat) : Nat → List Nat → (Nat → Nat) → (Nat → Nat)
  | _, [], mem => mem
  | k, b :: bs, mem =>
    fwr_bytes be addr size (k + 1) bs
      (upd mem ((if be then addr + (size - 1 - k) else addr + k) % 2 ^ 32) (b % 256))

/-- Modelled from the spec: `write_physical_block(address, size, bytes)`, the
unmasked store of a floating-point transfer, in the byte order of
`frddata`. -/
def fwrdata (s : State) (addr size : Nat) (data : List Nat) : State :=
  { s with mem := fwr_bytes (GET_EPSR_BE s ≠ 0) addr size 0 (data.take size) s.mem }

/-- Modelled from the spec: `halt(reason)`, the collaborator `i860_halt`; the
request is recorded in the state. -/
def i860_halt (s : State) (state : Bool) : State := { s with halted := state }

/-- Modelled from the spec: `breakpoint_hit(kind, message)`, the collaborator
`debugger`; the call is counted. -/
def debugger (s : State) : State := { s with debugger_calls := s.debugger_calls + 1 }

/-- The unrecognized-opcode path: a log line, then `i860_halt(true)`. -/
def unrecog_opcode (s : State) (_pc _insn : Nat) : State := i860_halt s true

/-! ## Address translation -/

/-- The fault exit of the translator for a missing entry or a user-mode
violation: `SET_PSR_DAT (1)` for a data reference and `SET_PSR_IAT (1)`
otherwise, `m_pending_trap = TRAP_NORMAL`, dummy return 0. -/
def xlate_fault (s : State) (is_dataref : Bool) : Nat × State :=
  (0, { (if is_dataref then SET_PSR_DAT s 1 else SET_PSR_IAT s 1) with
          pending_trap := TRAP_NORMAL })

/-- The fault exit of the translator for a write violation: `SET_PSR_DAT (1)`,
`m_pending_trap = TRAP_NORMAL`, dummy return 0. -/
def xlate_fault_dat (s : State) : Nat × State :=
  (0, { SET_PSR_DAT s 1 with pending_trap := TRAP_NORMAL })

/-- Given a virtual address, perform the i860 address translation and return
the corresponding physical address together with the new state
(`get_address_translation`). The assertion `GET_DIRBASE_ATE ()` is a
precondition of the call. -/
def get_address_translation (s : State) (vaddr : Nat) (is_dataref is_write : Bool) :
    Nat × State :=
  let vdir := (vaddr >>> 22) &&& 0x3ff
  let vpage := (vaddr >>> 12) &&& 0x3ff
  let voffset := vaddr &&& 0xfff
  let dtb := s.cregs CR_DIRBASE &&& 0xfffff000
  let pg_dir_entry_a := dtb ||| (vdir <<< 2)
  let pg_dir_entry := rd32i s pg_dir_entry_a
  if pg_dir_entry &&& 1 = 0 then xlate_fault s is_dataref
  else if is_write = true ∧ is_dataref = true ∧ pg_dir_entry &&& 2 = 0
      ∧ (GET_PSR_U s ≠ 0 ∨ GET_EPSR_WP s ≠ 0) then xlate_fault_dat s
  else if GET_PSR_U s ≠ 0 ∧ pg_dir_entry &&& 4 = 0 then xlate_fault s is_dataref
  else
    let pfa1 := pg_dir_entry &&& 0xfffff000
    let pg_tbl_entry_a := pfa1 ||| (vpage <<< 2)
    let pg_tbl_entry := rd32i s pg_tbl_entry_a
    if pg_tbl_entry &&& 1 = 0 then xlate_fault s is_dataref
    else if is_write = true ∧ is_dataref = true ∧ pg_tbl_entry &&& 2 = 0
        ∧ (GET_PSR_U s ≠ 0 ∨ GET_EPSR_WP s ≠ 0) then xlate_fault_dat s
    else if GET_PSR_U s ≠ 0 ∧ pg_tbl_entry &&& 4 = 0 then xlate_fault s is_dataref
    else
      let ttpde := pg_dir_entry ||| 0x20
      let ttpte := pg_tbl_entry ||| 0x20
      let s1 := wr32i s pg_dir_entry_a ttpde
      let s2 := wr32i s1 pg_tbl_entry_a ttpte
      if is_write = true ∧ is_dataref = true ∧ pg_tbl_entry &&& 0x40 = 0 then
        xlate_fault_dat s2
      else
        let pfa2 := pg_tbl_entry &&& 0xfffff000
        (pfa2 ||| voffset, s2)

/-- Fetch of one instruction word (`ifetch`): the word, or `0xffeeffee` with
`m_exiting_ifetch` set when the translation faults. -/
def ifetch (s : State) (pc : Nat) : Nat × State :=
  if GET_DIRBASE_ATE s ≠ 0 then
    let r := get_address_translation s pc false false
    let s1 := { r.2 with exiting_ifetch := 0 }
    if s1.pending_trap ≠ 0 ∧ (GET_PSR_DAT s1 ≠ 0 ∨ GET_PSR_IAT s1 ≠ 0) then
      (0xffeeffee, { s1 with exiting_ifetch := 1 })
    else if GET_DIRBASE_CS8 s1 ≠ 0 ∨ r.1 ≥ 0xFFFE0000 then
      (rdcs8 s1 r.1 ||| (rdcs8 s1 (r.1 + 1) <<< 8) ||| (rdcs8 s1 (r.1 + 2) <<< 16)
        ||| (rdcs8 s1 (r.1 + 3) <<< 24), s1)
    else (rd32i s1 r.1, s1)
  else if GET_DIRBASE_CS8 s ≠ 0 ∨ pc ≥ 0xFFFE0000 then
    (rdcs8 s pc ||| (rdcs8 s (pc + 1) <<< 8) ||| (rdcs8 s (pc + 2) <<< 16)
      ||| (rdcs8 s (pc + 3) <<< 24), s)
  else (rd32i s pc, s)

/-! ## Memory access shim -/

/-- Read memory emulation (`readmemi_emu`): the value read and the new
state. -/
def readmemi_emu (s : State) (addr size : Nat) : Nat × State :=
  let r : Nat × State :=
    if GET_DIRBASE_ATE s ≠ 0 then get_address_translation s addr true false else (addr, s)
  if GET_DIRBASE_ATE s ≠ 0 ∧ r.2.pending_trap ≠ 0
      ∧ (GET_PSR_IAT r.2 ≠ 0 ∨ GET_PSR_DAT r.2 ≠ 0) then
    (0, { r.2 with exiting_readmem := 1 })
  else if r.1 &&& not32 (size - 1) = r.2.cregs CR_DB ∧ GET_PSR_BR r.2 ≠ 0 then
    (0, { SET_PSR_DAT r.2 1 with pending_trap := TRAP_NORMAL })
  else if size = 1 then (rd8 r.2 r.1 &&& 0xff, r.2)
  else if size = 2 then (rd16 r.2 r.1 &&& 0xffff, r.2)
  else if size = 4 then (rd32 r.2 r.1, r.2)
  else (0, r.2)

/-- Search of the pattern at the head of a character list. -/
def starts_with : List Nat → List Nat → Bool
  | [], _ => true
  | _ :: _, [] => false
  | p :: ps, c :: cs => p == c && starts_with ps cs

/-- The test `strstr (hay, pat) != 0` on character lists without the
terminator. -/
def strstr (pat : List Nat) : List Nat → Bool
  | [] => starts_with pat []
  | c :: cs => starts_with pat (c :: cs) || strstr pat cs

/-- The tab expansion `while (col++ % 16) m_console[m_console_idx++] = ' '` of
the console hook; at most 16 tests are needed. -/
def console_tab : Nat → Nat → List Nat → Nat × List Nat
  | 0, col, con => (col, con)
  | f + 1, col, con =>
    if col % 16 ≠ 0 then console_tab f (col + 1) (con ++ [32]) else (col + 1, con)

/-- The character loop of the console hook, for the remaining number of
characters, the pointer and the column. -/
def console_loop : Nat → State → Nat → Nat → State
  | 0, s, _, _ => s
  | n + 1, s, ptr, col =>
    let r := readmemi_emu s ptr 1
    let ch := r.1
    if ch = 13 then console_loop n r.2 (u32 (ptr + 1)) col
    else if ch = 9 then
      let t := console_tab 16 col r.2.console
      console_loop n { r.2 with console := t.2 } (u32 (ptr + 1)) t.1
    else
      console_loop n { r.2 with console := r.2.console ++ [ch] } (u32 (ptr + 1))
        (if ch = 10 then 0 else col + 1)

/-- The interception of the writes to the two console addresses at the head of
`writememi_emu`. -/
def console_hook (s : State) (addr data : Nat) : State :=
  if addr = 0xF83FE800 ∨ addr = 0xF80ff800 then
    if data = 0 then
      let r := readmemi_emu s (u32 (addr + 4)) 4
      let count := r.1
      if toS32 count < 1024 then
        let s1 := console_loop (if toS32 count ≤ 0 then 0 else count) r.2
          (u32 (u32 (addr + 4) + 4)) 0
        if strstr ("NeXTdimension Trap:".toList.map Char.toNat)
            (s1.console.takeWhile (fun c => c ≠ 0)) then
          { s1 with break_on_next_msg := true }
        else s1
      else r.2
    else if data = 4 then debugger s
    else if data = 5 then
      if s.break_on_next_msg then debugger { s with break_on_next_msg := false } else s
    else s
  else s

/-- Write memory emulation (`writememi_emu`). -/
def writememi_emu (s : State) (addr size data : Nat) : State :=
  let s0 := console_hook s addr data
  let r : Nat × State :=
    if GET_DIRBASE_ATE s0 ≠ 0 then get_address_translation s0 addr true true else (addr, s0)
  if GET_DIRBASE_ATE s0 ≠ 0 ∧ r.2.pending_trap ≠ 0
      ∧ (GET_PSR_IAT r.2 ≠ 0 ∨ GET_PSR_DAT r.2 ≠ 0) then
    { r.2 with exiting_readmem := 2 }
  else if r.1 &&& not32 (size - 1) = r.2.cregs CR_DB ∧ GET_PSR_BW r.2 ≠ 0 then
    { SET_PSR_DAT r.2 1 with pending_trap := TRAP_NORMAL }
  else if size = 1 then wr8 r.2 r.1 data
  else if size = 2 then wr16 r.2 r.1 data
  else if size = 4 then wr32 r.2 r.1 data
  else r.2

/-- Floating-point read mem routine (`fp_readmem_emu`): the bytes stored to
the destination buffer, `none` when the buffer is not touched, and the new
state. -/
def fp_readmem_emu (s : State) (addr size : Nat) : Option (List Nat) × State :=
  let r : Nat × State :=
    if GET_DIRBASE_ATE s ≠ 0 then get_address_translation s addr true false else (addr, s)
  if GET_DIRBASE_ATE s ≠ 0 ∧ r.2.pending_trap ≠ 0
      ∧ (GET_PSR_IAT r.2 ≠ 0 ∨ GET_PSR_DAT r.2 ≠ 0) then
    (none, { r.2 with exiting_readmem := 3 })
  else if r.1 &&& not32 (size - 1) = r.2.cregs CR_DB ∧ GET_PSR_BR r.2 ≠ 0 then
    (none, { SET_PSR_DAT r.2 1 with pending_trap := TRAP_NORMAL })
  else (some (frddata r.2 r.1 size), r.2)

/-- One line `if (wmask & bit) wr8 (a, v)` of the masked store. -/
def masked_wr8 (s : State) (wmask bit a v : Nat) : State :=
  if wmask &&& bit ≠ 0 then wr8 s a v else s

/-- Floating-point write mem routine (`fp_writemem_emu`); `data` holds the
bytes at the data pointer. -/
def fp_writemem_emu (s : State) (addr size : Nat) (data : List Nat) (wmask : Nat) : State :=
  let r : Nat × State :=
    if GET_DIRBASE_ATE s ≠ 0 then get_address_translation s addr true true else (addr, s)
  if GET_DIRBASE_ATE s ≠ 0 ∧ r.2.pending_trap ≠ 0 ∧ GET_PSR_DAT r.2 ≠ 0 then
    { r.2 with exiting_readmem := 4 }
  else if r.1 &&& not32 (size - 1) = r.2.cregs CR_DB ∧ GET_PSR_BW r.2 ≠ 0 then
    { SET_PSR_DAT r.2 1 with pending_trap := TRAP_NORMAL }
  else if size = 8 ∧ wmask ≠ 0xff then
    let a := r.1
    let d := fun k => data.getD k 0
    if GET_EPSR_BE r.2 ≠ 0 then
      let s1 := masked_wr8 r.2 wmask 0x80 (a + 7) (d 0)
      let s2 := masked_wr8 s1 wmask 0x40 (a + 6) (d 1)
      let s3 := masked_wr8 s2 wmask 0x20 (a + 5) (d 2)
      let s4 := masked_wr8 s3 wmask 0x10 (a + 4) (d 3)
      let s5 := masked_wr8 s4 wmask 0x08 (a + 3) (d 4)
      let s6 := masked_wr8 s5 wmask 0x04 (a + 2) (d 5)
      let s7 := masked_wr8 s6 wmask 0x02 (a + 1) (d 6)
      masked_wr8 s7 wmask 0x01 (a + 0) (d 7)
    else
      let s1 := masked_wr8 r.2 wmask 0x80 (a + 0) (d 0)
      let s2 := masked_wr8 s1 wmask 0x40 (a + 1) (d 1)
      let s3 := masked_wr8 s2 wmask 0x20 (a + 2) (d 2)
      let s4 := masked_wr8 s3 wmask 0x10 (a + 3) (d 3)
      let s5 := masked_wr8 s4 wmask 0x08 (a + 4) (d 4)
      let s6 := masked_wr8 s5 wmask 0x04 (a + 5) (d 5)
      let s7 := masked_wr8 s6 wmask 0x02 (a + 6) (d 6)
      masked_wr8 s7 wmask 0x01 (a + 7) (d 7)
  else fwrdata r.2 r.1 size data

/-- The `n` bytes of `frg` from byte `i` on, the buffer `&m_frg[i]`. -/
def frg_bytes (frg : Nat → Nat) (i n : Nat) : List Nat :=
  (List.range n).map (fun k => frg (i + k) % 256)

/-- Store of a byte list into `frg` from byte `i` on. -/
def frg_store (frg : Nat → Nat) (i : Nat) : List Nat → (Nat → Nat)
  | [] => frg
  | b :: bs => frg_store (upd frg i (b % 256)) (i + 1) bs

/-! ## Integer instruction handlers -/

/-- Execute "ld.c csrc2,idest" instruction. -/
def insn_ld_ctrl (cfg : Config) (s : State) (insn : Nat) : State :=
  let csrc2 := get_creg insn
  let idest := get_idest insn
  if cfg.trace_undefined = true ∧ csrc2 > 5 then s
  else if csrc2 = CR_FIR then
    if s.fir_gets_trap_addr ≠ 0 then
      { set_iregval s idest (s.cregs csrc2) with fir_gets_trap_addr := 0 }
    else
      let s1 := { s with cregs := upd s.cregs csrc2 s.pc }
      { set_iregval s1 idest (s1.cregs csrc2) with fir_gets_trap_addr := 0 }
  else set_iregval s idest (s.cregs csrc2)

/-- Execute "st.c isrc1,csrc2" instruction. -/
def insn_st_ctrl (cfg : Config) (s : State) (insn : Nat) : State :=
  let csrc2 := get_creg insn
  let isrc1 := get_isrc1 insn
  if cfg.trace_undefined = true ∧ csrc2 > 5 then s
  else
    let s1 :=
      if csrc2 = CR_DIRBASE ∧ get_iregval s isrc1 &&& 0x20 ≠ 0 then
        set_iregval s isrc1 (get_iregval s isrc1 &&& not32 0x20)
      else s
    if csrc2 = CR_EPSR then
      if GET_PSR_U s1 ≠ 0 then
        let enew := get_iregval s1 isrc1 &&& not32 (0x003e1fff ||| 0x00c06000)
        let tmp := s1.cregs CR_EPSR &&& (0x003e1fff ||| 0x00c06000)
        { s1 with cregs := upd s1.cregs CR_EPSR (enew ||| tmp) }
      else
        let enew := get_iregval s1 isrc1 &&& not32 0x003e1fff
        let tmp := s1.cregs CR_EPSR &&& 0x003e1fff
        { s1 with cregs := upd s1.cregs CR_EPSR (enew ||| tmp) }
    else if csrc2 = CR_PSR then
      if GET_PSR_U s1 ≠ 0 then
        let enew := get_iregval s1 isrc1 &&& not32 PSR_SUPERVISOR_ONLY_MASK
        let tmp := s1.cregs CR_PSR &&& PSR_SUPERVISOR_ONLY_MASK
        { s1 with cregs := upd s1.cregs CR_PSR (enew ||| tmp) }
      else { s1 with cregs := upd s1.cregs CR_PSR (get_iregval s1 isrc1) }
    else if csrc2 = CR_FSR then
      let enew := get_iregval s1 isrc1 &&& 0x003e01ef
      let tmp := s1.cregs CR_FSR &&& not32 0x003e01ef
      { s1 with cregs := upd s1.cregs CR_FSR (enew ||| tmp) }
    else if csrc2 ≠ CR_FIR then
      { s1 with cregs := upd s1.cregs csrc2 (get_iregval s1 isrc1) }
    else s1

/-- Operand size, in bytes, of the integer loads and stores: `sizes[4]`. -/
def ldst_size (i : Nat) : Nat := [1, 1, 2, 4].getD i 0

/-- Operand size, in bytes, of the floating-point loads and stores:
`sizes[4]`. -/
def fldst_size (i : Nat) : Nat := [8, 4, 16, 4].getD i 0

/-- The trap of the alignment check under `TRACE_UNALIGNED_MEM`. -/
def unaligned_trap (s : State) : State :=
  { SET_PSR_DAT s 1 with pending_trap := TRAP_NORMAL }

/-- Execute "ld.{s,b,l} isrc1(isrc2),idest" or
"ld.{s,b,l} #const(isrc2),idest". -/
def insn_ldx (cfg : Config) (s : State) (insn : Nat) : State :=
  let isrc1 := get_isrc1 insn
  let immsrc1 := sign_ext (get_imm16 insn) 16
  let isrc2 := get_isrc2 insn
  let idest := get_idest insn
  let size := ldst_size (((insn >>> 27) &&& 2) ||| (insn &&& 1))
  let form_disp_reg := insn &&& 0x04000000
  let eff :=
    if form_disp_reg ≠ 0 then u32 ((immsrc1 &&& not32 (size - 1)) + get_iregval s isrc2)
    else u32 (get_iregval s isrc1 + get_iregval s isrc2)
  if cfg.trace_unaligned = true ∧ eff &&& (size - 1) ≠ 0 then unaligned_trap s
  else if size < 4 then
    let r := readmemi_emu s eff size
    let readval := sign_ext r.1 (size * 8)
    if r.2.exiting_readmem ≠ 0 then r.2 else set_iregval r.2 idest readval
  else
    let r := readmemi_emu s eff size
    if r.2.exiting_readmem ≠ 0 then r.2 else set_iregval r.2 idest r.1

/-- Execute "st.x isrc1ni,#const(isrc2)" instruction. -/
def insn_stx (_cfg : Config) (s : State) (insn : Nat) : State :=
  let immsrc := sign_ext (((insn >>> 5) &&& 0xf800) ||| (insn &&& 0x07ff)) 16
  let isrc1 := get_isrc1 insn
  let isrc2 := get_isrc2 insn
  let size := ldst_size (((insn >>> 27) &&& 2) ||| (insn &&& 1))
  let eff := u32 ((immsrc &&& not32 (size - 1)) + get_iregval s isrc2)
  writememi_emu s eff size (get_iregval s isrc1)

/-- Execute "fst.y fdest,isrc1(isrc2)", "fst.y fdest,isrc1(isrc2)++",
"fst.y fdest,#const(isrc2)" or "fst.y fdest,#const(isrc2)++" instruction. -/
def insn_fsty (cfg : Config) (s : State) (insn : Nat) : State :=
  let isrc1 := get_isrc1 insn
  let immsrc1 := sign_ext (get_imm16 insn) 16
  let isrc2 := get_isrc2 insn
  let fdest := get_fdest insn
  let auto_inc := insn &&& 1
  let size := fldst_size ((insn >>> 1) &&& 3)
  let form_disp_reg := insn &&& 0x04000000
  let eff :=
    if form_disp_reg ≠ 0 then u32 ((immsrc1 &&& not32 (size - 1)) + get_iregval s isrc2)
    else u32 (get_iregval s isrc1 + get_iregval s isrc2)
  if cfg.trace_unaligned = true ∧ eff &&& (size - 1) ≠ 0 then unaligned_trap s
  else
    let s1 := if auto_inc ≠ 0 then set_iregval s isrc2 eff else s
    if auto_inc ≠ 0 ∧ cfg.trace_undefined = true ∧ isrc1 = isrc2 then s1
    else fp_writemem_emu s1 eff size (frg_bytes s1.frg (4 * fdest) size) 0xff

/-- Execute "fld.y isrc1(isrc2),fdest", "fld.y isrc1(isrc2)++,idest",
"fld.y #const(isrc2),fdest" or "fld.y #const(isrc2)++,idest", where
y = {l,d,q}. The temporary `bebuf` of the pipelined form is not initialised in
the source; its bytes are taken as zero when the read leaves it untouched. -/
def insn_fldy (cfg : Config) (s : State) (insn : Nat) : State :=
  let isrc1 := get_isrc1 insn
  let immsrc1 := sign_ext (get_imm16 insn) 16
  let isrc2 := get_isrc2 insn
  let fdest := get_fdest insn
  let auto_inc := insn &&& 1
  let piped := insn &&& 0x40000000
  let size := fldst_size ((insn >>> 1) &&& 3)
  let form_disp_reg := insn &&& 0x04000000
  if piped ≠ 0 ∧ size = 16 then unrecog_opcode s s.pc insn
  else
    let eff :=
      if form_disp_reg ≠ 0 then u32 ((immsrc1 &&& not32 (size - 1)) + get_iregval s isrc2)
      else u32 (get_iregval s isrc1 + get_iregval s isrc2)
    let s1 := if auto_inc ≠ 0 then set_iregval s isrc2 eff else s
    if auto_inc ≠ 0 ∧ cfg.trace_undefined = true ∧ isrc1 = isrc2 then s1
    else if cfg.trace_unaligned = true ∧ eff &&& (size - 1) ≠ 0 then unaligned_trap s1
    else if piped = 0 then
      let r := fp_readmem_emu s1 eff size
      let s2 : State :=
        match r.1 with
        | some bytes => { r.2 with frg := frg_store r.2.frg (4 * fdest) bytes }
        | none => r.2
      if fdest < 2 then { s2 with frg := frg_store s2.frg 0 [0, 0, 0, 0, 0, 0, 0, 0] }
      else s2
    else
      let r := fp_readmem_emu s1 eff size
      let bebuf : List Nat := r.1.getD [0, 0, 0, 0, 0, 0, 0, 0]
      let s2 := r.2
      if s2.pending_trap ≠ 0 ∧ s2.exiting_readmem ≠ 0 then s2
      else
        let s3 : State :=
          if (s2.L 1).prec ≠ 0 then
            { s2 with cregs := upd s2.cregs CR_FSR (s2.cregs CR_FSR ||| 0x04000000) }
          else
            { s2 with cregs := upd s2.cregs CR_FSR (s2.cregs CR_FSR &&& not32 0x04000000) }
        let s4 :=
          if (s3.L 2).prec ≠ 0 then set_fregval_d s3 fdest (union_d (s3.L 2).val)
          else set_fregval_s s3 fdest (union_s (s3.L 2).val)
        let l0 : Stage :=
          if size = 8 then
            { val := union_set_d (s4.L 0).val (frg_read (fun k => bebuf.getD k 0) 0 8), prec := 1 }
          else
            { val := union_set_s (s4.L 0).val (frg_read (fun k => bebuf.getD k 0) 0 4), prec := 0 }
        { s4 with L := upd (upd (upd s4.L 2 (s4.L 1)) 1 (s4.L 0)) 0 l0 }

/-- The loop of `insn_pstd` that builds the byte mask from the pixel mask, for
the remaining number of rounds, the index `i`, `orig_pm` and `wmask`. -/
def pstd_wmask (ps : Nat) : Nat → Nat → Nat → Nat → Nat
  | 0, _, _, wmask => wmask
  | f + 1, i, orig_pm, wmask =>
    if i < 8 then
      if ps = 0 then
        pstd_wmask ps f (i + 1) (orig_pm <<< 1)
          (if orig_pm &&& 0x80 ≠ 0 then wmask ||| (1 <<< (7 - i)) else wmask)
      else if ps = 1 then
        pstd_wmask ps f (i + 2) (orig_pm <<< 1)
          (if orig_pm &&& 0x08 ≠ 0 then wmask ||| (0x3 <<< (6 - i)) else wmask)
      else if ps = 2 then
        pstd_wmask ps f (i + 4) (orig_pm <<< 1)
          (if orig_pm &&& 0x02 ≠ 0 then wmask ||| (0xf <<< (4 - i)) else wmask)
      else 0xff
    else wmask

/-- Execute "pst.d fdest,#const(isrc2)" or "fst.d fdest,#const(isrc2)++"
instruction. -/
def insn_pstd (cfg : Config) (s : State) (insn : Nat) : State :=
  let immsrc1 := sign_ext (get_imm16 insn) 16
  let isrc2 := get_isrc2 insn
  let fdest := get_fdest insn
  let auto_inc := insn &&& 1
  let pm := GET_PSR_PM s
  let orig_pm := pm
  let ps := GET_PSR_PS s
  let eff := u32 ((immsrc1 &&& not32 (8 - 1)) + get_iregval s isrc2)
  if cfg.trace_unaligned = true ∧ eff &&& (8 - 1) ≠ 0 then unaligned_trap s
  else
    let s1 := if auto_inc ≠ 0 then set_iregval s isrc2 eff else s
    let pm1 :=
      if ps = 0 then (pm >>> 8) &&& 0x00
      else if ps = 1 then (pm >>> 4) &&& 0x0f
      else if ps = 2 then (pm >>> 2) &&& 0x3f
      else pm
    let s2 := SET_PSR_PM s1 pm1
    let wmask := pstd_wmask ps 8 0 orig_pm 0
    fp_writemem_emu s2 eff 8 (frg_bytes s2.frg (4 * fdest) 8) wmask

/-- Execute "ixfr isrc1ni,fdest" instruction. -/
def insn_ixfr (s : State) (insn : Nat) : State :=
  let isrc1 := get_isrc1 insn
  let fdest := get_fdest insn
  set_fregval_s s fdest (get_iregval s isrc1)

/-- The flag update of `addu`: CC and OF both receive the carry of bit 31. -/
def addu_core (s : State) (src1val isrc2 idest : Nat) : State :=
  let tmp_dest_val := u32 (src1val + get_iregval s isrc2)
  let tmp := u64 (src1val + get_iregval s isrc2)
  let s1 :=
    if (tmp >>> 32) &&& 1 ≠ 0 then SET_EPSR_OF (SET_PSR_CC s 1) 1
    else SET_EPSR_OF (SET_PSR_CC s 0) 0
  set_iregval s1 idest tmp_dest_val

/-- Execute "addu isrc1,isrc2,idest". -/
def insn_addu (s : State) (insn : Nat) : State :=
  addu_core s (get_iregval s (get_isrc1 insn)) (get_isrc2 insn) (get_idest insn)

/-- Execute "addu #const,isrc2,idest". -/
def insn_addu_imm (s : State) (insn : Nat) : State :=
  addu_core s (sign_ext (get_imm16 insn) 16) (get_isrc2 insn) (get_idest insn)

/-- The body shared by `insn_adds` and `insn_adds_imm` after the first source
operand is read: OF from the three sign bits by the test
`sa != sb && sa != sres`, CC from `(INT32)isrc2 < -(INT32)src1val` (the
negation wraps). -/
def adds_core (s : State) (src1val isrc2 idest : Nat) : State :=
  let tmp_dest_val := u32 (src1val + get_iregval s isrc2)
  let sa := src1val &&& 0x80000000
  let sb := get_iregval s isrc2 &&& 0x80000000
  let sres := tmp_dest_val &&& 0x80000000
  let s1 := if sa ≠ sb ∧ sa ≠ sres then SET_EPSR_OF s 1 else SET_EPSR_OF s 0
  let s2 :=
    if toS32 (get_iregval s1 isrc2) < toS32 (neg32 src1val) then SET_PSR_CC s1 1
    else SET_PSR_CC s1 0
  set_iregval s2 idest tmp_dest_val

/-- Execute "adds isrc1,isrc2,idest". -/
def insn_adds (s : State) (insn : Nat) : State :=
  adds_core s (get_iregval s (get_isrc1 insn)) (get_isrc2 insn) (get_idest insn)

/-- Execute "adds #const,isrc2,idest". -/
def insn_adds_imm (s : State) (insn : Nat) : State :=
  adds_core s (sign_ext (get_imm16 insn) 16) (get_isrc2 insn) (get_idest insn)

/-- The body shared by `insn_subu` and `insn_subu_imm`: CC set and OF cleared
when `isrc2 <= src1val` as unsigned numbers, and the converse otherwise. -/
def subu_core (s : State) (src1val isrc2 idest : Nat) : State :=
  let tmp_dest_val := u32 (src1val + (2 ^ 32 - u32 (get_iregval s isrc2)))
  let s1 :=
    if u32 (get_iregval s isrc2) ≤ u32 src1val then SET_EPSR_OF (SET_PSR_CC s 1) 0
    else SET_EPSR_OF (SET_PSR_CC s 0) 1
  set_iregval s1 idest tmp_dest_val

/-- Execute "subu isrc1,isrc2,idest". -/
def insn_subu (s : State) (insn : Nat) : State :=
  subu_core s (get_iregval s (get_isrc1 insn)) (get_isrc2 insn) (get_idest insn)

/-- Execute "subu #const,isrc2,idest". -/
def insn_subu_imm (s : State) (insn : Nat) : State :=
  subu_core s (sign_ext (get_imm16 insn) 16) (get_isrc2 insn) (get_idest insn)

/-- The body shared by `insn_subs` and `insn_subs_imm`: OF from the three sign
bits, CC from `(INT32)isrc2 > (INT32)src1val`. -/
def subs_core (s : State) (src1val isrc2 idest : Nat) : State :=
  let tmp_dest_val := u32 (src1val + (2 ^ 32 - u32 (get_iregval s isrc2)))
  let sa := src1val &&& 0x80000000
  let sb := get_iregval s isrc2 &&& 0x80000000
  let sres := tmp_dest_val &&& 0x80000000
  let s1 := if sa ≠ sb ∧ sa ≠ sres then SET_EPSR_OF s 1 else SET_EPSR_OF s 0
  let s2 :=
    if toS32 (get_iregval s1 isrc2) > toS32 src1val then SET_PSR_CC s1 1
    else SET_PSR_CC s1 0
  set_iregval s2 idest tmp_dest_val

/-- Execute "subs isrc1,isrc2,idest". -/
def insn_subs (s : State) (insn : Nat) : State :=
  subs_core s (get_iregval s (get_isrc1 insn)) (get_isrc2 insn) (get_idest insn)

/-- Execute "subs #const,isrc2,idest". -/
def insn_subs_imm (s : State) (insn : Nat) : State :=
  subs_core s (sign_ext (get_imm16 insn) 16) (get_isrc2 insn) (get_idest insn)

/-- The C shift `x << n` of a `UINT32` by a `UINT32` count. A count above 31
is outside the C standard; the count is taken modulo 32, as the shift
instructions of the host do. -/
def shl32 (x n : Nat) : Nat := u32 (x <<< (n % 32))

/-- The C shift `x >> n` of a `UINT32` by a `UINT32` count, the count taken
modulo 32. -/
def shr32 (x n : Nat) : Nat := u32 x >>> (n % 32)

/-- The C shift `(INT32)x >> n`, an arithmetic shift, the count taken modulo
32. -/
def sar32 (x n : Nat) : Nat := ofInt32 (toS32 x / 2 ^ (n % 32))

/-- Execute "shl isrc1,isrc2,idest". -/
def insn_shl (s : State) (insn : Nat) : State :=
  let src1val := get_iregval s (get_isrc1 insn)
  set_iregval s (get_idest insn) (shl32 (get_iregval s (get_isrc2 insn)) src1val)

/-- Execute "shl #const,isrc2,idest". -/
def insn_shl_imm (s : State) (insn : Nat) : State :=
  let src1val := sign_ext (get_imm16 insn) 16
  set_iregval s (get_idest insn) (shl32 (get_iregval s (get_isrc2 insn)) src1val)

/-- Execute "shr isrc1,isrc2,idest". -/
def insn_shr (s : State) (insn : Nat) : State :=
  let src1val := get_iregval s (get_isrc1 insn)
  let s1 := set_iregval s (get_idest insn) (shr32 (get_iregval s (get_isrc2 insn)) src1val)
  SET_PSR_SC s1 src1val

/-- Execute "shr #const,isrc2,idest". -/
def insn_shr_imm (s : State) (insn : Nat) : State :=
  let src1val := sign_ext (get_imm16 insn) 16
  let s1 := set_iregval s (get_idest insn) (shr32 (get_iregval s (get_isrc2 insn)) src1val)
  SET_PSR_SC s1 src1val

/-- Execute "shra isrc1,isrc2,idest". -/
def insn_shra (s : State) (insn : Nat) : State :=
  let src1val := get_iregval s (get_isrc1 insn)
  set_iregval s (get_idest insn) (sar32 (get_iregval s (get_isrc2 insn)) src1val)

/-- Execute "shra #const,isrc2,idest". -/
def insn_shra_imm (s : State) (insn : Nat) : State :=
  let src1val := sign_ext (get_imm16 insn) 16
  set_iregval s (get_idest insn) (sar32 (get_iregval s (get_isrc2 insn)) src1val)

/-- Execute "shrd isrc1ni,isrc2,idest" instruction. -/
def insn_shrd (s : State) (insn : Nat) : State :=
  let isrc1 := get_isrc1 insn
  let isrc2 := get_isrc2 insn
  let idest := get_idest insn
  let sc := GET_PSR_SC s
  let tmp :=
    if sc = 0 then get_iregval s isrc2
    else u32 (get_iregval s isrc1 <<< (32 - sc)) ||| (get_iregval s isrc2 >>> sc)
  set_iregval s idest tmp

/-- The tail shared by the logical instructions: CC is set when the result is
zero and cleared otherwise, then the result is written to idest. -/
def logic_result (s : State) (idest res : Nat) : State :=
  set_iregval (if res = 0 then SET_PSR_CC s 1 else SET_PSR_CC s 0) idest res

/-- Execute "and isrc1,isrc2,idest". -/
def insn_and (s : State) (insn : Nat) : State :=
  logic_result s (get_idest insn)
    (get_iregval s (get_isrc1 insn) &&& get_iregval s (get_isrc2 insn))

/-- Execute "and #const,isrc2,idest". -/
def insn_and_imm (s : State) (insn : Nat) : State :=
  logic_result s (get_idest insn) (get_imm16 insn &&& get_iregval s (get_isrc2 insn))

/-- Execute "andh #const,isrc2,idest". -/
def insn_andh_imm (s : State) (insn : Nat) : State :=
  logic_result s (get_idest insn)
    (u32 (get_imm16 insn <<< 16) &&& get_iregval s (get_isrc2 insn))

/-- Execute "andnot isrc1,isrc2,idest". -/
def insn_andnot (s : State) (insn : Nat) : State :=
  logic_result s (get_idest insn)
    (not32 (get_iregval s (get_isrc1 insn)) &&& get_iregval s (get_isrc2 insn))

/-- Execute "andnot #const,isrc2,idest". -/
def insn_andnot_imm (s : State) (insn : Nat) : State :=
  logic_result s (get_idest insn)
    (not32 (get_imm16 insn) &&& get_iregval s (get_isrc2 insn))

/-- Execute "andnoth #const,isrc2,idest". -/
def insn_andnoth_imm (s : State) (insn : Nat) : State :=
  logic_result s (get_idest insn)
    (not32 (u32 (get_imm16 insn <<< 16)) &&& get_iregval s (get_isrc2 insn))

/-- Execute "or isrc1,isrc2,idest". -/
def insn_or (s : State) (insn : Nat) : State :=
  logic_result s (get_idest insn)
    (get_iregval s (get_isrc1 insn) ||| get_iregval s (get_isrc2 insn))

/-- Execute "or #const,isrc2,idest". -/
def insn_or_imm (s : State) (insn : Nat) : State :=
  logic_result s (get_idest insn) (get_imm16 insn ||| get_iregval s (get_isrc2 insn))

/-- Execute "orh #const,isrc2,idest". -/
def insn_orh_imm (s : State) (insn : Nat) : State :=
  logic_result s (get_idest insn)
    (u32 (get_imm16 insn <<< 16) ||| get_iregval s (get_isrc2 insn))

/-- Execute "xor isrc1,isrc2,idest". -/
def insn_xor (s : State) (insn : Nat) : State :=
  logic_result s (get_idest insn)
    (get_iregval s (get_isrc1 insn) ^^^ get_iregval s (get_isrc2 insn))

/-- Execute "xor #const,isrc2,idest". -/
def insn_xor_imm (s : State) (insn : Nat) : State :=
  logic_result s (get_idest insn) (get_imm16 insn ^^^ get_iregval s (get_isrc2 insn))

/-- Execute "xorh #const,isrc2,idest". -/
def insn_xorh_imm (s : State) (insn : Nat) : State :=
  logic_result s (get_idest insn)
    (u32 (get_imm16 insn <<< 16) ^^^ get_iregval s (get_isrc2 insn))

/-- Execute "trap isrc1ni,isrc2,idest" instruction. -/
def insn_trap (s : State) (_insn : Nat) : State :=
  { SET_PSR_IT (debugger s) 1 with pending_trap := TRAP_NORMAL }

/-- Execute "intovr" instruction. -/
def insn_intovr (s : State) (_insn : Nat) : State :=
  if GET_EPSR_OF s ≠ 0 then { SET_PSR_IT s 1 with pending_trap := TRAP_NORMAL } else s

/-! ## Control-flow handlers -/

/-- The branch target of the instructions with a 16-bit split offset:
`(INT32)m_pc + 4 + (sbroff << 2)`. -/
def target_sbroff (s : State) (insn : Nat) : Nat :=
  let sbroff := sign_ext (((insn >>> 5) &&& 0xf800) ||| (insn &&& 0x07ff)) 16
  u32 (s.pc + 4 + u32 (sbroff <<< 2))

/-- The branch target of the instructions with a 26-bit offset:
`(INT32)m_pc + 4 + (lbroff << 2)`. -/
def target_lbroff (s : State) (insn : Nat) : Nat :=
  let lbroff := sign_ext (insn &&& 0x03ffffff) 26
  u32 (s.pc + 4 + u32 (lbroff <<< 2))

/-- The tail of the branches without delay slot: the target when the
comparison holds, `m_pc += 4` otherwise, and `m_pc_updated = 1`. -/
def branch_commit (s : State) (res : Bool) (target_addr : Nat) : State :=
  { s with pc := if res then target_addr else u32 (s.pc + 4), pc_updated := 1 }

/-- Execute "bte isrc1,isrc2,sbroff". -/
def insn_bte (s : State) (insn : Nat) : State :=
  let src1val := get_iregval s (get_isrc1 insn)
  branch_commit s (decide (src1val = get_iregval s (get_isrc2 insn))) (target_sbroff s insn)

/-- Execute "bte #const5,isrc2,sbroff". -/
def insn_bte_imm (s : State) (insn : Nat) : State :=
  let src1val := (insn >>> 11) &&& 0x1f
  branch_commit s (decide (src1val = get_iregval s (get_isrc2 insn))) (target_sbroff s insn)

/-- Execute "btne isrc1,isrc2,sbroff". -/
def insn_btne (s : State) (insn : Nat) : State :=
  let src1val := get_iregval s (get_isrc1 insn)
  branch_commit s (decide (src1val ≠ get_iregval s (get_isrc2 insn))) (target_sbroff s insn)

/-- Execute "btne #const5,isrc2,sbroff". -/
def insn_btne_imm (s : State) (insn : Nat) : State :=
  let src1val := (insn >>> 11) &&& 0x1f
  branch_commit s (decide (src1val ≠ get_iregval s (get_isrc2 insn))) (target_sbroff s insn)

/-- Execute "bc lbroff" instruction. -/
def insn_bc (s : State) (insn : Nat) : State :=
  branch_commit s (decide (GET_PSR_CC s = 1)) (target_lbroff s insn)

/-- Execute "bnc lbroff" instruction. -/
def insn_bnc (s : State) (insn : Nat) : State :=
  branch_commit s (decide (GET_PSR_CC s = 0)) (target_lbroff s insn)

/-- Execute the delay slot instruction: `m_pc += 4;
decode_exec (ifetch (orig_pc + 4), 0); m_pc = orig_pc`, with the decoder
given as `exec`. -/
def delay_slot (exec : State → Nat → Option State) (s : State) (orig_pc : Nat) :
    Option State :=
  let s1 := { s with pc := u32 (s.pc + 4) }
  let f := ifetch s1 (u32 (orig_pc + 4))
  match exec f.2 f.1 with
  | none => none
  | some s2 => some { s2 with pc := orig_pc }

/-- The abort of a delayed branch whose delay slot left a pending trap:
`m_pending_trap |= TRAP_IN_DELAY_SLOT`. -/
def delay_abort (s : State) : State :=
  { s with pending_trap := s.pending_trap ||| TRAP_IN_DELAY_SLOT }

/-- Execute "bc.t lbroff" instruction. -/
def insn_bct (exec : State → Nat → Option State) (s : State) (insn : Nat) : Option State :=
  let target_addr := target_lbroff s insn
  let orig_pc := s.pc
  if GET_PSR_CC s = 1 then
    match delay_slot exec s orig_pc with
    | none => none
    | some s1 =>
      if s1.pending_trap ≠ 0 then some (delay_abort s1)
      else some { s1 with pc := target_addr, pc_updated := 1 }
  else some { s with pc := u32 (s.pc + 8), pc_updated := 1 }

/-- Execute "bnc.t lbroff" instruction. -/
def insn_bnct (exec : State → Nat → Option State) (s : State) (insn : Nat) : Option State :=
  let target_addr := target_lbroff s insn
  let orig_pc := s.pc
  if GET_PSR_CC s = 0 then
    match delay_slot exec s orig_pc with
    | none => none
    | some s1 =>
      if s1.pending_trap ≠ 0 then some (delay_abort s1)
      else some { s1 with pc := target_addr, pc_updated := 1 }
  else some { s with pc := u32 (s.pc + 8), pc_updated := 1 }

/-- Execute "call lbroff" instruction. -/
def insn_call (exec : State → Nat → Option State) (s : State) (insn : Nat) : Option State :=
  let target_addr := target_lbroff s insn
  let orig_pc := s.pc
  match delay_slot exec s orig_pc with
  | none => none
  | some s1 =>
    if s1.pending_trap ≠ 0 then some (delay_abort s1)
    else some { set_iregval s1 1 (orig_pc + 8) with pc := target_addr, pc_updated := 1 }

/-- Execute "br lbroff". -/
def insn_br (exec : State → Nat → Option State) (s : State) (insn : Nat) : Option State :=
  let target_addr := target_lbroff s insn
  let orig_pc := s.pc
  match delay_slot exec s orig_pc with
  | none => none
  | some s1 =>
    if s1.pending_trap ≠ 0 then some (delay_abort s1)
    else some { s1 with pc := target_addr, pc_updated := 1 }

/-- Execute "bri isrc1ni" instruction. -/
def insn_bri (exec : State → Nat → Option State) (s : State) (insn : Nat) : Option State :=
  let isrc1 := get_isrc1 insn
  let orig_pc := s.pc
  let orig_psr := s.cregs CR_PSR
  let orig_src1_val := get_iregval s isrc1
  let s0 := { s with cregs := upd s.cregs CR_PSR (s.cregs CR_PSR &&& not32 PSR_ALL_TRAP_BITS_MASK) }
  match delay_slot exec s0 orig_pc with
  | none => none
  | some s1 =>
    if s1.pending_trap ≠ 0 then some (delay_abort s1)
    else
      let s2 :=
        if orig_psr &&& PSR_ALL_TRAP_BITS_MASK ≠ 0 then
          let a := SET_PSR_U s1 (GET_PSR_PU s1)
          let b := SET_PSR_IM a (GET_PSR_PIM a)
          { b with fir_gets_trap_addr := 0 }
        else s1
      some { s2 with pc := orig_src1_val, pc_updated := 1 }

/-- Execute "calli isrc1ni" instruction. -/
def insn_calli (exec : State → Nat → Option State) (s : State) (insn : Nat) : Option State :=
  let isrc1 := get_isrc1 insn
  let orig_pc := s.pc
  let orig_src1_val := get_iregval s isrc1
  let s0 := set_iregval s 1 (s.pc + 8)
  match delay_slot exec s0 orig_pc with
  | none => none
  | some s1 =>
    if s1.pending_trap ≠ 0 then some (delay_abort (set_iregval s1 1 orig_src1_val))
    else some { s1 with pc := orig_src1_val, pc_updated := 1 }

/-- Execute "bla isrc1ni,isrc2,sbroff" instruction. -/
def insn_bla (cfg : Config) (exec : State → Nat → Option State) (s : State) (insn : Nat) :
    Option State :=
  let isrc1 := get_isrc1 insn
  let isrc2 := get_isrc2 insn
  let orig_pc := s.pc
  let orig_isrc2val := get_iregval s isrc2
  if cfg.trace_undefined = true ∧ isrc1 = isrc2 then some s
  else
    let target_addr := target_sbroff s insn
    let lcc_tmp : Nat :=
      if toS32 (get_iregval s isrc2) ≥ toS32 (neg32 (get_iregval s isrc1)) then 1 else 0
    let s0 := set_iregval s isrc2 (get_iregval s isrc1 + orig_isrc2val)
    match delay_slot exec s0 orig_pc with
    | none => none
    | some s1 =>
      if s1.pending_trap ≠ 0 then some (delay_abort s1)
      else
        let s2 :=
          if GET_PSR_LCC s1 ≠ 0 then { s1 with pc := target_addr }
          else { s1 with pc := u32 (s1.pc + 8) }
        some { SET_PSR_LCC s2 lcc_tmp with pc_updated := 1 }

/-- Execute "flush #const(isrc2)" or "flush #const(isrc2)++" instruction. -/
def insn_flush (s : State) (insn : Nat) : State :=
  let src1val := sign_ext (get_imm16 insn) 16 &&& not32 (16 - 1)
  let isrc2 := get_isrc2 insn
  let auto_inc := insn &&& 1
  let eff := u32 (src1val + get_iregval s isrc2)
  if auto_inc ≠ 0 then set_iregval s isrc2 eff else s

/-! ## Floating-point pipeline engine -/

/-- Assignment `stage.val.d = x; stage.stat.<p> = 1`. -/
def stage_set_d (st : Stage) (x : Nat) : Stage :=
  { val := union_set_d st.val x, prec := 1 }

/-- Assignment `stage.val.s = x; stage.stat.<p> = 0`. -/
def stage_set_s (st : Stage) (x : Nat) : Stage :=
  { val := union_set_s st.val x, prec := 0 }

/-- The update `m_cregs[CR_FSR] |= bit` when the flag is set and
`m_cregs[CR_FSR] &= ~bit` otherwise. -/
def fsr_copy_bit (s : State) (flag bit : Nat) : State :=
  if flag ≠ 0 then { s with cregs := upd s.cregs CR_FSR (s.cregs CR_FSR ||| bit) }
  else { s with cregs := upd s.cregs CR_FSR (s.cregs CR_FSR &&& not32 bit) }

/-- Write of a result to fdest: as a double when the flag is set, as a single
otherwise. -/
def set_fregval_by (s : State) (flag fdest dbl sgl : Nat) : State :=
  if flag ≠ 0 then set_fregval_d s fdest dbl else set_fregval_s s fdest sgl

/-- Advance of the multiplier pipeline and write of the current calculation to
the first stage. -/
def advance_M (s : State) (num_stages res_prec dbl sgl : Nat) : State :=
  let m1 : Nat → Stage :=
    if num_stages = 3 then upd (upd s.M 2 (s.M 1)) 1 (s.M 0) else upd s.M 1 (s.M 0)
  { s with M := upd m1 0 (if res_prec ≠ 0 then stage_set_d (m1 0) dbl else stage_set_s (m1 0) sgl) }

/-- Advance of the adder pipeline and write of the current calculation to the
first stage. -/
def advance_A (s : State) (res_prec dbl sgl : Nat) : State :=
  let a1 : Nat → Stage := upd (upd s.A 2 (s.A 1)) 1 (s.A 0)
  { s with A := upd a1 0 (if res_prec ≠ 0 then stage_set_d (a1 0) dbl else stage_set_s (a1 0) sgl) }

/-- Execute "[p]fmul.{ss,sd,dd} fsrc1,fsrc2,fdest" instruction or
pfmul3.dd fsrc1,fsrc2,fdest. -/
def insn_fmul (fp : HostFP) (s : State) (insn : Nat) : State :=
  let fsrc1 := get_fsrc1 insn
  let fsrc2 := get_fsrc2 insn
  let fdest := get_fdest insn
  let src_prec := insn &&& 0x100
  let res_prec := insn &&& 0x080
  let piped := insn &&& 0x400
  let is_pfmul3 := insn &&& 0x4
  let num_stages := if src_prec ≠ 0 ∧ is_pfmul3 = 0 then 2 else 3
  if is_pfmul3 ≠ 0 ∧ insn &&& 0x180 ≠ 0x180 then unrecog_opcode s s.pc insn
  else if insn &&& 0x180 = 0x100 then unrecog_opcode s s.pc insn
  else
    let last := s.M (num_stages - 1)
    let dbl_last_stage_contents := if piped ≠ 0 ∧ last.prec ≠ 0 then union_d last.val else 0
    let sgl_last_stage_contents := if piped ≠ 0 ∧ last.prec = 0 then union_s last.val else 0
    let prod_d :=
      fp.mul_d (get_fregval_d s fsrc1)
        (if piped ≠ 0 ∧ fdest ≠ 0 ∧ fsrc2 = fdest then dbl_last_stage_contents
         else get_fregval_d s fsrc2)
    let prod_s :=
      fp.mul_s (get_fregval_s s fsrc1)
        (if piped ≠ 0 ∧ fdest ≠ 0 ∧ fsrc2 = fdest then sgl_last_stage_contents
         else get_fregval_s s fsrc2)
    let dbl_tmp_dest :=
      if src_prec ≠ 0 then (if res_prec ≠ 0 then prod_d else 0)
      else (if res_prec ≠ 0 then fp.to_d prod_s else 0)
    let sgl_tmp_dest :=
      if src_prec ≠ 0 then (if res_prec ≠ 0 then 0 else fp.to_s prod_d)
      else (if res_prec ≠ 0 then 0 else prod_s)
    if piped = 0 then set_fregval_by s res_prec fdest dbl_tmp_dest sgl_tmp_dest
    else
      let s1 := fsr_copy_bit s (s.M (num_stages - 2)).prec 0x10000000
      let s2 := set_fregval_by s1 (s1.M (num_stages - 1)).prec fdest
        dbl_last_stage_contents sgl_last_stage_contents
      advance_M s2 num_stages res_prec dbl_tmp_dest sgl_tmp_dest

/-- Execute "fmlow.dd fsrc1,fsrc2,fdest" instruction. -/
def insn_fmlow (s : State) (insn : Nat) : State :=
  let fsrc1 := get_fsrc1 insn
  let fsrc2 := get_fsrc2 insn
  let fdest := get_fdest insn
  let i1 := get_fregval_d s fsrc1
  let i2 := get_fregval_d s fsrc2
  if insn &&& 0x180 ≠ 0x180 then unrecog_opcode s s.pc insn
  else
    let tmp := u64 (i1 * i2) &&& 0x001fffffffffffff
    let tmp1 := tmp ||| ((i1 &&& 0x8000000000000000) ^^^ (i2 &&& 0x8000000000000000))
    set_fregval_d s fdest tmp1

/-- Execute [p]fadd.{ss,sd,dd} fsrc1,fsrc2,fdest (.ds disallowed above). -/
def insn_fadd_sub (fp : HostFP) (s : State) (insn : Nat) : State :=
  let fsrc1 := get_fsrc1 insn
  let fsrc2 := get_fsrc2 insn
  let fdest := get_fdest insn
  let src_prec := insn &&& 0x100
  let res_prec := insn &&& 0x080
  let piped := insn &&& 0x400
  let is_sub := insn &&& 1
  if insn &&& 0x180 = 0x100 then unrecog_opcode s s.pc insn
  else
    let last := s.A 2
    let dbl_last_stage_contents := if piped ≠ 0 ∧ last.prec ≠ 0 then union_d last.val else 0
    let sgl_last_stage_contents := if piped ≠ 0 ∧ last.prec = 0 then union_s last.val else 0
    let d1 :=
      if piped ≠ 0 ∧ fdest ≠ 0 ∧ fsrc1 = fdest then dbl_last_stage_contents
      else get_fregval_d s fsrc1
    let d2 :=
      if piped ≠ 0 ∧ fdest ≠ 0 ∧ fsrc2 = fdest then dbl_last_stage_contents
      else get_fregval_d s fsrc2
    let s1v :=
      if piped ≠ 0 ∧ fdest ≠ 0 ∧ fsrc1 = fdest then sgl_last_stage_contents
      else get_fregval_s s fsrc1
    let s2v :=
      if piped ≠ 0 ∧ fdest ≠ 0 ∧ fsrc2 = fdest then sgl_last_stage_contents
      else get_fregval_s s fsrc2
    let res_d := if is_sub ≠ 0 then fp.sub_d d1 d2 else fp.add_d d1 d2
    let res_s := if is_sub ≠ 0 then fp.sub_s s1v s2v else fp.add_s s1v s2v
    let dbl_tmp_dest :=
      if src_prec ≠ 0 then (if res_prec ≠ 0 then res_d else 0)
      else (if res_prec ≠ 0 then fp.to_d res_s else 0)
    let sgl_tmp_dest :=
      if src_prec ≠ 0 then (if res_prec ≠ 0 then 0 else fp.to_s res_d)
      else (if res_prec ≠ 0 then 0 else res_s)
    if piped = 0 then set_fregval_by s res_prec fdest dbl_tmp_dest sgl_tmp_dest
    else
      let s1 := fsr_copy_bit s (s.A 1).prec 0x20000000
      let s2 := set_fregval_by s1 (s1.A 2).prec fdest
        dbl_last_stage_contents sgl_last_stage_contents
      advance_A s2 res_prec dbl_tmp_dest sgl_tmp_dest

/-- Operand type `OP_SRC1` for the PFAM/PFMAM routine. -/
def OP_SRC1 : Nat := 0

/-- Operand type `OP_SRC2`. -/
def OP_SRC2 : Nat := 1

/-- Operand type `OP_KI`. -/
def OP_KI : Nat := 2

/-- Operand type `OP_KR`. -/
def OP_KR : Nat := 4

/-- Operand type `OP_T`. -/
def OP_T : Nat := 8

/-- Operand type `OP_MPIPE`. -/
def OP_MPIPE : Nat := 16

/-- Operand type `OP_APIPE`. -/
def OP_APIPE : Nat := 32

/-- The flag `FLAGM`: indicates PFMAM uses M rather than A pipe result. -/
def FLAGM : Nat := 64

/-- One row of the table that maps the DPC value to source operands. -/
structure SrcOpers where
  /-- First operand of the multiplier. -/
  M_unit_op1 : Nat
  /-- Second operand of the multiplier. -/
  M_unit_op2 : Nat
  /-- First operand of the adder. -/
  A_unit_op1 : Nat
  /-- Second operand of the adder. -/
  A_unit_op2 : Nat
  /-- Whether T is loaded. -/
  T_loaded : Nat
  /-- Whether KR or KI is loaded. -/
  K_loaded : Nat

/-- The table `src_opers[]`. -/
def src_opers : List SrcOpers :=
  [ ⟨OP_KR, OP_SRC2, OP_SRC1, OP_MPIPE, 0, 0⟩,
    ⟨OP_KR, OP_SRC2, OP_T, OP_MPIPE, 0, 1⟩,
    ⟨OP_KR, OP_SRC2, OP_SRC1, OP_APIPE ||| FLAGM, 1, 0⟩,
    ⟨OP_KR, OP_SRC2, OP_T, OP_APIPE ||| FLAGM, 1, 1⟩,
    ⟨OP_KI, OP_SRC2, OP_SRC1, OP_MPIPE, 0, 0⟩,
    ⟨OP_KI, OP_SRC2, OP_T, OP_MPIPE, 0, 1⟩,
    ⟨OP_KI, OP_SRC2, OP_SRC1, OP_APIPE ||| FLAGM, 1, 0⟩,
    ⟨OP_KI, OP_SRC2, OP_T, OP_APIPE ||| FLAGM, 1, 1⟩,
    ⟨OP_KR, OP_APIPE ||| FLAGM, OP_SRC1, OP_SRC2, 1, 0⟩,
    ⟨OP_SRC1, OP_SRC2, OP_APIPE ||| FLAGM, OP_MPIPE, 0, 0⟩,
    ⟨OP_KR, OP_APIPE ||| FLAGM, OP_SRC1, OP_SRC2, 0, 0⟩,
    ⟨OP_SRC1, OP_SRC2, OP_T, OP_APIPE ||| FLAGM, 1, 0⟩,
    ⟨OP_KI, OP_APIPE ||| FLAGM, OP_SRC1, OP_SRC2, 1, 0⟩,
    ⟨OP_SRC1, OP_SRC2, OP_T, OP_MPIPE, 0, 0⟩,
    ⟨OP_KI, OP_APIPE ||| FLAGM, OP_SRC1, OP_SRC2, 0, 0⟩,
    ⟨OP_SRC1, OP_SRC2, OP_T, OP_APIPE ||| FLAGM, 0, 0⟩ ]

/-- The operand selected by `optype`, read as a single
(`get_fval_from_optype_s`); the default case, an assertion in the source,
yields the initial `retval`. -/
def get_fval_from_optype_s (s : State) (insn optype : Nat) : Nat :=
  let fsrc1 := get_fsrc1 insn
  let fsrc2 := get_fsrc2 insn
  let ot := optype &&& not32 FLAGM
  if ot = OP_SRC1 then get_fregval_s s fsrc1
  else if ot = OP_SRC2 then get_fregval_s s fsrc2
  else if ot = OP_KI then union_s s.KI
  else if ot = OP_KR then union_s s.KR
  else if ot = OP_T then union_s s.T
  else if ot = OP_MPIPE then union_s (s.M 2).val
  else if ot = OP_APIPE then union_s (s.A 2).val
  else 0

/-- The operand selected by `optype`, read as a double
(`get_fval_from_optype_d`); the default case, an assertion in the source,
yields the initial `retval`. -/
def get_fval_from_optype_d (s : State) (insn optype : Nat) : Nat :=
  let fsrc1 := get_fsrc1 insn
  let fsrc2 := get_fsrc2 insn
  let ot := optype &&& not32 FLAGM
  if ot = OP_SRC1 then get_fregval_d s fsrc1
  else if ot = OP_SRC2 then get_fregval_d s fsrc2
  else if ot = OP_KI then union_d s.KI
  else if ot = OP_KR then union_d s.KR
  else if ot = OP_T then union_d s.T
  else if ot = OP_MPIPE then union_d (s.M 1).val
  else if ot = OP_APIPE then union_d (s.A 2).val
  else 0

/-- The PFMAM table adjustment of `insn_dualop`, made `if (is_pfam == 0)`:
`op = (op & FLAGM) ? OP_MPIPE : op`. -/
def pfmam_adjust (is_pfam op : Nat) : Nat :=
  if is_pfam = 0 then (if op &&& FLAGM ≠ 0 then OP_MPIPE else op) else op

/-- Execute pf[m]{a,s}m.{ss,sd,dd} fsrc1,fsrc2,fdest (FP dual ops). -/
def insn_dualop (fp : HostFP) (s : State) (insn : Nat) : State :=
  let fsrc1 := get_fsrc1 insn
  let fsrc2 := get_fsrc2 insn
  let fdest := get_fdest insn
  let src_prec := insn &&& 0x100
  let res_prec := insn &&& 0x080
  let is_pfam := insn &&& 0x400
  let is_sub := insn &&& 0x10
  let num_mul_stages := if src_prec ≠ 0 then 2 else 3
  let dpc := insn &&& 0xf
  let row := src_opers.getD dpc ⟨0, 0, 0, 0, 0, 0⟩
  let M_unit_op1 := row.M_unit_op1
  let T_loaded := row.T_loaded
  let K_loaded := row.K_loaded
  if insn &&& 0x180 = 0x100 then unrecog_opcode s s.pc insn
  else if is_pfam = 0 ∧ dpc = 16 then unrecog_opcode s s.pc insn
  else
    let M_unit_op2 := pfmam_adjust is_pfam row.M_unit_op2
    let A_unit_op1 := pfmam_adjust is_pfam row.A_unit_op1
    let A_unit_op2 := pfmam_adjust is_pfam row.A_unit_op2
    let lastM := s.M (num_mul_stages - 1)
    let dbl_last_Mstage_contents := if lastM.prec ≠ 0 then union_d lastM.val else 0
    let sgl_last_Mstage_contents := if lastM.prec ≠ 0 then 0 else union_s lastM.val
    let lastA := s.A 2
    let dbl_last_Astage_contents := if lastA.prec ≠ 0 then union_d lastA.val else 0
    let sgl_last_Astage_contents := if lastA.prec ≠ 0 then 0 else union_s lastA.val
    let dbl_bypass := if is_pfam ≠ 0 then dbl_last_Astage_contents else dbl_last_Mstage_contents
    let sgl_bypass := if is_pfam ≠ 0 then sgl_last_Astage_contents else sgl_last_Mstage_contents
    let mul_d :=
      fp.mul_d (get_fval_from_optype_d s insn M_unit_op1)
        (if M_unit_op2 = OP_SRC2 ∧ fdest ≠ 0 ∧ fsrc2 = fdest then dbl_bypass
         else get_fval_from_optype_d s insn M_unit_op2)
    let mul_s :=
      fp.mul_s (get_fval_from_optype_s s insn M_unit_op1)
        (if M_unit_op2 = OP_SRC2 ∧ fdest ≠ 0 ∧ fsrc2 = fdest then sgl_bypass
         else get_fval_from_optype_s s insn M_unit_op2)
    let dbl_tmp_dest_mul :=
      if src_prec ≠ 0 then (if res_prec ≠ 0 then mul_d else 0)
      else (if res_prec ≠ 0 then fp.to_d mul_s else 0)
    let sgl_tmp_dest_mul :=
      if src_prec ≠ 0 then (if res_prec ≠ 0 then 0 else fp.to_s mul_d)
      else (if res_prec ≠ 0 then 0 else mul_s)
    let ad1 :=
      if A_unit_op1 = OP_SRC1 ∧ fdest ≠ 0 ∧ fsrc1 = fdest then dbl_bypass
      else get_fval_from_optype_d s insn A_unit_op1
    let ad2 :=
      if A_unit_op2 = OP_SRC2 ∧ fdest ≠ 0 ∧ fsrc2 = fdest then dbl_bypass
      else get_fval_from_optype_d s insn A_unit_op2
    let as1 :=
      if A_unit_op1 = OP_SRC1 ∧ fdest ≠ 0 ∧ fsrc1 = fdest then sgl_bypass
      else get_fval_from_optype_s s insn A_unit_op1
    let as2 :=
      if A_unit_op2 = OP_SRC2 ∧ fdest ≠ 0 ∧ fsrc2 = fdest then sgl_bypass
      else get_fval_from_optype_s s insn A_unit_op2
    let dbl_tmp_dest_add :=
      if res_prec ≠ 0 then (if is_sub ≠ 0 then fp.sub_d ad1 ad2 else fp.add_d ad1 ad2) else 0
    let sgl_tmp_dest_add :=
      if res_prec ≠ 0 then 0 else (if is_sub ≠ 0 then fp.sub_s as1 as2 else fp.add_s as1 as2)
    let s1 : State :=
      if T_loaded ≠ 0 then
        if lastM.prec ≠ 0 then { s with T := union_set_d s.T dbl_last_Mstage_contents }
        else { s with T := union_set_s s.T sgl_last_Mstage_contents }
      else s
    let s2 : State :=
      if K_loaded ≠ 0 then
        if M_unit_op1 = OP_KI then
          if src_prec ≠ 0 then { s1 with KI := union_set_d s1.KI (get_fregval_d s1 fsrc1) }
          else { s1 with KI := union_set_s s1.KI (get_fregval_s s1 fsrc1) }
        else if M_unit_op1 = OP_KR then
          if src_prec ≠ 0 then { s1 with KR := union_set_d s1.KR (get_fregval_d s1 fsrc1) }
          else { s1 with KR := union_set_s s1.KR (get_fregval_s s1 fsrc1) }
        else s1
      else s1
    let s3 :=
      if is_pfam ≠ 0 then
        set_fregval_by s2 (s2.A 2).prec fdest dbl_last_Astage_contents sgl_last_Astage_contents
      else
        set_fregval_by s2 (s2.M (num_mul_stages - 1)).prec fdest
          dbl_last_Mstage_contents sgl_last_Mstage_contents
    let s4 := fsr_copy_bit s3 (s3.M (num_mul_stages - 2)).prec 0x10000000
    let s5 := advance_M s4 num_mul_stages res_prec dbl_tmp_dest_mul sgl_tmp_dest_mul
    let s6 := fsr_copy_bit s5 (s5.A 1).prec 0x20000000
    advance_A s6 res_prec dbl_tmp_dest_add sgl_tmp_dest_add

/-- The pattern of the `double` constant 1.0. -/
def one_d : Nat := 0x3FF0000000000000

/-- The pattern of the `float` constant 1.0. -/
def one_s : Nat := 0x3F800000

/-- Execute frcp.{ss,sd,dd} fsrc2,fdest (.ds disallowed above). The branch
`if (0 ...)` that would raise the source exception is dead code. -/
def insn_frcp (fp : HostFP) (s : State) (insn : Nat) : State :=
  let fsrc2 := get_fsrc2 insn
  let fdest := get_fdest insn
  let src_prec := insn &&& 0x100
  let res_prec := insn &&& 0x080
  if src_prec ≠ 0 then
    let v := get_fregval_d s fsrc2
    if fp.eq_d v 0 = true then s
    else
      let s1 := SET_FSR_SE s 0
      let v1 := v &&& 0xfffff00000000000
      let res := fp.div_d one_d v1 &&& 0xfffff00000000000
      if res_prec ≠ 0 then set_fregval_d s1 fdest res else set_fregval_s s1 fdest (fp.to_s res)
  else
    let v := get_fregval_s s fsrc2
    if fp.eq_d (fp.to_d v) 0 = true then s
    else
      let s1 := SET_FSR_SE s 0
      let v1 := v &&& 0xffff8000
      let res := fp.div_s one_s v1 &&& 0xffff8000
      if res_prec ≠ 0 then set_fregval_d s1 fdest (fp.to_d res) else set_fregval_s s1 fdest res

/-- Execute frsqr.{ss,sd,dd} fsrc2,fdest (.ds disallowed above). The branch
`if (0 ...)` that would raise the source exception is dead code. -/
def insn_frsqr (fp : HostFP) (s : State) (insn : Nat) : State :=
  let fsrc2 := get_fsrc2 insn
  let fdest := get_fdest insn
  let src_prec := insn &&& 0x100
  let res_prec := insn &&& 0x080
  if insn &&& 0x180 = 0x100 then unrecog_opcode s s.pc insn
  else if src_prec ≠ 0 then
    let v := get_fregval_d s fsrc2
    if fp.eq_d v 0 = true ∨ fp.lt_d v 0 = true then s
    else
      let s1 := SET_FSR_SE s 0
      let v1 := v &&& 0xfffff00000000000
      let res := fp.div_d one_d (fp.sqrt_d v1) &&& 0xfffff00000000000
      if res_prec ≠ 0 then set_fregval_d s1 fdest res else set_fregval_s s1 fdest (fp.to_s res)
  else
    let v := get_fregval_s s fsrc2
    if fp.eq_d (fp.to_d v) 0 = true ∨ fp.lt_d (fp.to_d v) 0 = true then s
    else
      let s1 := SET_FSR_SE s 0
      let v1 := v &&& 0xffff8000
      let res := fp.div_s one_s (fp.sqrt_s v1) &&& 0xffff8000
      if res_prec ≠ 0 then set_fregval_d s1 fdest (fp.to_d res) else set_fregval_s s1 fdest res

/-- Execute fxfr fsrc1,idest. -/
def insn_fxfr (s : State) (insn : Nat) : State :=
  set_iregval s (get_idest insn) (get_fregval_s s (get_fsrc1 insn))

/-- Execute [p]ftrunc.{ss,sd,dd} fsrc1,idest. -/
def insn_ftrunc (fp : HostFP) (s : State) (insn : Nat) : State :=
  let fsrc1 := get_fsrc1 insn
  let fdest := get_fdest insn
  let src_prec := insn &&& 0x100
  let res_prec := insn &&& 0x080
  let piped := insn &&& 0x400
  if insn &&& 0x080 = 0 then unrecog_opcode s s.pc insn
  else
    let s1 :=
      if src_prec ≠ 0 then set_fregval_s s fdest (fp.trunc_d (get_fregval_d s fsrc1))
      else set_fregval_s s fdest (fp.trunc_s (get_fregval_s s fsrc1))
    if piped ≠ 0 then set_fregval_by s1 res_prec fdest 0 0 else s1

/-- Execute [p]famov.{ss,sd,ds,dd} fsrc1,fdest. The temporary `sgl_tmp_dest`
is declared `double` in the source, so a single result is widened and narrowed
again. -/
def insn_famov (fp : HostFP) (s : State) (insn : Nat) : State :=
  let fsrc1 := get_fsrc1 insn
  let fdest := get_fdest insn
  let src_prec := insn &&& 0x100
  let res_prec := insn &&& 0x080
  let piped := insn &&& 0x400
  let dbl_tmp_dest :=
    if src_prec ≠ 0 then (if res_prec ≠ 0 then get_fregval_d s fsrc1 else 0)
    else (if res_prec ≠ 0 then fp.to_d (get_fregval_s s fsrc1) else 0)
  let sgl_tmp_dest :=
    if src_prec ≠ 0 then (if res_prec ≠ 0 then 0 else fp.to_d (fp.to_s (get_fregval_d s fsrc1)))
    else (if res_prec ≠ 0 then 0 else fp.to_d (get_fregval_s s fsrc1))
  if piped = 0 then set_fregval_by s res_prec fdest dbl_tmp_dest (fp.to_s sgl_tmp_dest)
  else
    let s1 := fsr_copy_bit s (s.A 1).prec 0x20000000
    let s2 := set_fregval_by s1 (s1.A 2).prec fdest (union_d (s1.A 2).val) (union_s (s1.A 2).val)
    advance_A s2 res_prec dbl_tmp_dest (fp.to_s sgl_tmp_dest)

/-- The write to fdest from the single stage of the graphics pipe, followed by
`m_G.val.d = dbl; m_G.stat.irp = 1`. -/
def commit_G (s : State) (fdest dbl : Nat) : State :=
  let s1 := set_fregval_by s s.G.prec fdest (union_d s.G.val) (union_s s.G.val)
  { s1 with G := stage_set_d s1.G dbl }

/-- Execute [p]fiadd/sub.{ss,dd} fsrc1,fsrc2,fdest. -/
def insn_fiadd_sub (s : State) (insn : Nat) : State :=
  let fsrc1 := get_fsrc1 insn
  let fsrc2 := get_fsrc2 insn
  let fdest := get_fdest insn
  let src_prec := insn &&& 0x100
  let res_prec := insn &&& 0x080
  let piped := insn &&& 0x400
  let is_sub := insn &&& 0x4
  if insn &&& 0x180 = 0x100 ∨ insn &&& 0x180 = 0x080 then unrecog_opcode s s.pc insn
  else
    let dv1 := get_fregval_d s fsrc1
    let dv2 := get_fregval_d s fsrc2
    let sv1 := get_fregval_s s fsrc1
    let sv2 := get_fregval_s s fsrc2
    let dbl_tmp_dest :=
      if src_prec ≠ 0 then
        (if res_prec ≠ 0 then
          (if is_sub ≠ 0 then u64 (dv1 + (2 ^ 64 - u64 dv2)) else u64 (dv1 + dv2))
         else 0)
      else 0
    let sgl_tmp_dest :=
      if src_prec ≠ 0 then 0
      else
        (if res_prec ≠ 0 then 0
         else (if is_sub ≠ 0 then u32 (sv1 + (2 ^ 64 - u64 sv2)) else u32 (sv1 + sv2)))
    if piped = 0 then set_fregval_by s res_prec fdest dbl_tmp_dest sgl_tmp_dest
    else
      let s1 := fsr_copy_bit s res_prec 0x08000000
      let s2 := set_fregval_by s1 s1.G.prec fdest (union_d s1.G.val) (union_s s1.G.val)
      { s2 with G := if res_prec ≠ 0 then stage_set_d s2.G dbl_tmp_dest
                     else stage_set_s s2.G sgl_tmp_dest }

/-- Execute pf{gt,le,eq}.{ss,dd} fsrc1,fsrc2,fdest. The comparison `v1 > v2`
is read as `v2 < v1`. -/
def insn_fcmp (fp : HostFP) (s : State) (insn : Nat) : State :=
  let fsrc1 := get_fsrc1 insn
  let fsrc2 := get_fsrc2 insn
  let fdest := get_fdest insn
  let src_prec := insn &&& 0x100
  let is_gt := decide (insn &&& 0x81 = 0x00)
  let is_le := decide (insn &&& 0x81 = 0x80)
  let gt : Bool :=
    if src_prec ≠ 0 then fp.lt_d (get_fregval_d s fsrc2) (get_fregval_d s fsrc1)
    else fp.lt_s (get_fregval_s s fsrc2) (get_fregval_s s fsrc1)
  let le : Bool :=
    if src_prec ≠ 0 then fp.le_d (get_fregval_d s fsrc1) (get_fregval_d s fsrc2)
    else fp.le_s (get_fregval_s s fsrc1) (get_fregval_s s fsrc2)
  let eq : Bool :=
    if src_prec ≠ 0 then fp.eq_d (get_fregval_d s fsrc1) (get_fregval_d s fsrc2)
    else fp.eq_s (get_fregval_s s fsrc1) (get_fregval_s s fsrc2)
  let cc : Nat :=
    if is_gt then (if gt then 1 else 0)
    else if is_le then (if le then 0 else 1)
    else (if eq then 1 else 0)
  let s0 := SET_PSR_CC s cc
  let s1 := fsr_copy_bit s0 (s0.A 1).prec 0x20000000
  let s2 := set_fregval_by s1 (s1.A 2).prec fdest (union_d (s1.A 2).val) (union_s (s1.A 2).val)
  advance_A s2 src_prec 0 0

/-- One round of the pixel loop of `insn_fzchk` for lanes of `w` bits: the
lane `i` of the result and the bit `b` of the pixel mask. -/
def fzchk_step (w : Nat) (iv1 iv2 : Nat) (acc : Nat × Nat) (i b : Nat) : Nat × Nat :=
  let ps1 := (iv1 >>> (i * w)) &&& (2 ^ w - 1)
  let ps2 := (iv2 >>> (i * w)) &&& (2 ^ w - 1)
  if ps2 ≤ ps1 then (acc.1 ||| (ps2 <<< (i * w)), (acc.2 ||| (1 <<< b)) % 256)
  else (acc.1 ||| (ps1 <<< (i * w)), acc.2 &&& (0xff ^^^ (1 <<< b)))

/-- Execute [p]fzchk{l,s} fsrc1,fsrc2,fdest. -/
def insn_fzchk (s : State) (insn : Nat) : State :=
  let fsrc1 := get_fsrc1 insn
  let fsrc2 := get_fsrc2 insn
  let fdest := get_fdest insn
  let piped := insn &&& 0x400
  let is_fzchks := insn &&& 8
  let iv1 := get_fregval_d s fsrc1
  let iv2 := get_fregval_d s fsrc2
  let pm := GET_PSR_PM s
  if insn &&& 0x180 ≠ 0x180 then unrecog_opcode s s.pc insn
  else
    let rp : Nat × Nat :=
      if is_fzchks ≠ 0 then
        let a0 : Nat × Nat := (0, (pm >>> 4) &&& 0x0f)
        let a1 := fzchk_step 16 iv1 iv2 a0 3 7
        let a2 := fzchk_step 16 iv1 iv2 a1 2 6
        let a3 := fzchk_step 16 iv1 iv2 a2 1 5
        fzchk_step 16 iv1 iv2 a3 0 4
      else
        let a0 : Nat × Nat := (0, (pm >>> 2) &&& 0x3f)
        let a1 := fzchk_step 32 iv1 iv2 a0 1 7
        fzchk_step 32 iv1 iv2 a1 0 6
    let s1 := { SET_PSR_PM s rp.2 with merge := 0 }
    if piped = 0 then set_fregval_d s1 fdest rp.1 else commit_G s1 fdest rp.1

/-- Execute [p]form.dd fsrc1,fdest. -/
def insn_form (s : State) (insn : Nat) : State :=
  let fsrc1 := get_fsrc1 insn
  let fdest := get_fdest insn
  let piped := insn &&& 0x400
  let iv1 := get_fregval_d s fsrc1
  if insn &&& 0x180 ≠ 0x180 then unrecog_opcode s s.pc insn
  else
    let dbl_tmp_dest := iv1 ||| s.merge
    let s1 := { s with merge := 0 }
    if piped = 0 then set_fregval_d s1 fdest dbl_tmp_dest else commit_G s1 fdest dbl_tmp_dest

/-- Execute [p]faddp fsrc1,fsrc2,fdest. -/
def insn_faddp (s : State) (insn : Nat) : State :=
  let fsrc1 := get_fsrc1 insn
  let fsrc2 := get_fsrc2 insn
  let fdest := get_fdest insn
  let piped := insn &&& 0x400
  let iv1 := get_fregval_d s fsrc1
  let iv2 := get_fregval_d s fsrc2
  let ps := GET_PSR_PS s
  let r := u64 (iv1 + iv2)
  let merge1 :=
    if ps = 0 then
      ((s.merge >>> 8) &&& not64 0xff00ff00ff00ff00) ||| (r &&& 0xff00ff00ff00ff00)
    else if ps = 1 then
      ((s.merge >>> 6) &&& not64 0xfc00fc00fc00fc00) ||| (r &&& 0xfc00fc00fc00fc00)
    else if ps = 2 then
      ((s.merge >>> 8) &&& not64 0xff000000ff000000) ||| (r &&& 0xff000000ff000000)
    else s.merge
  let s1 := { s with merge := merge1 }
  if piped = 0 then set_fregval_d s1 fdest r else commit_G s1 fdest r

/-- Execute [p]faddz fsrc1,fsrc2,fdest. -/
def insn_faddz (s : State) (insn : Nat) : State :=
  let fsrc1 := get_fsrc1 insn
  let fsrc2 := get_fsrc2 insn
  let fdest := get_fdest insn
  let piped := insn &&& 0x400
  let iv1 := get_fregval_d s fsrc1
  let iv2 := get_fregval_d s fsrc2
  let r := u64 (iv1 + iv2)
  let merge1 :=
    ((s.merge >>> 16) &&& not64 0xffff0000ffff0000) ||| (r &&& 0xffff0000ffff0000)
  let s1 := { s with merge := merge1 }
  if piped = 0 then set_fregval_d s1 fdest r else commit_G s1 fdest r

/-! ## Instruction decoder -/

/-- Flag for the decode table: more decoding necessary. -/
def DEC_MORE : Nat := 1

/-- Flag for the decode table: fully decoded, go. -/
def DEC_DECODED : Nat := 2

/-- The handler routines the decode tables point to (the member `insn_exec`
of a table entry), one name per `insn_` routine. -/
inductive Handler where
  | ldx
  | ixfr
  | stx
  | fldy
  | fsty
  | ld_ctrl
  | flush
  | st_ctrl
  | pstd
  | bri
  | trap
  | btne
  | btne_imm
  | bte
  | bte_imm
  | br
  | call
  | bc
  | bct
  | bnc
  | bnct
  | addu
  | addu_imm
  | subu
  | subu_imm
  | adds
  | adds_imm
  | subs
  | subs_imm
  | shl
  | shl_imm
  | shr
  | shr_imm
  | shrd
  | bla
  | shra
  | shra_imm
  | and_
  | and_imm
  | andh_imm
  | andnot
  | andnot_imm
  | andnoth_imm
  | or_
  | or_imm
  | orh_imm
  | xor_
  | xor_imm
  | xorh_imm
  | dualop
  | fmul
  | fmlow
  | frcp
  | frsqr
  | fadd_sub
  | famov
  | fcmp
  | ftrunc
  | fxfr
  | fiadd_sub
  | faddp
  | faddz
  | fzchk
  | form
  | calli
  | intovr
  deriving DecidableEq, Repr

/-- First-level decode table (i.e., for the 6 primary opcode bits): the
handler and the flags of each entry. -/
def decode_tbl : List (Option Handler × Nat) :=
  [
    (some Handler.ldx, DEC_DECODED), (some Handler.ldx, DEC_DECODED), (some Handler.ixfr, DEC_DECODED), (some Handler.stx, DEC_DECODED),
    (some Handler.ldx, DEC_DECODED), (some Handler.ldx, DEC_DECODED), (none, 0), (some Handler.stx, DEC_DECODED),
    (some Handler.fldy, DEC_DECODED), (some Handler.fldy, DEC_DECODED), (some Handler.fsty, DEC_DECODED), (some Handler.fsty, DEC_DECODED),
    (some Handler.ld_ctrl, DEC_DECODED), (some Handler.flush, DEC_DECODED), (some Handler.st_ctrl, DEC_DECODED), (some Handler.pstd, DEC_DECODED),
    (some Handler.bri, DEC_DECODED), (some Handler.trap, DEC_DECODED), (none, DEC_MORE), (none, DEC_MORE),
    (some Handler.btne, DEC_DECODED), (some Handler.btne_imm, DEC_DECODED), (some Handler.bte, DEC_DECODED), (some Handler.bte_imm, DEC_DECODED),
    (some Handler.fldy, DEC_DECODED), (some Handler.fldy, DEC_DECODED), (some Handler.br, DEC_DECODED), (some Handler.call, DEC_DECODED),
    (some Handler.bc, DEC_DECODED), (some Handler.bct, DEC_DECODED), (some Handler.bnc, DEC_DECODED), (some Handler.bnct, DEC_DECODED),
    (some Handler.addu, DEC_DECODED), (some Handler.addu_imm, DEC_DECODED), (some Handler.subu, DEC_DECODED), (some Handler.subu_imm, DEC_DECODED),
    (some Handler.adds, DEC_DECODED), (some Handler.adds_imm, DEC_DECODED), (some Handler.subs, DEC_DECODED), (some Handler.subs_imm, DEC_DECODED),
    (some Handler.shl, DEC_DECODED), (some Handler.shl_imm, DEC_DECODED), (some Handler.shr, DEC_DECODED), (some Handler.shr_imm, DEC_DECODED),
    (some Handler.shrd, DEC_DECODED), (some Handler.bla, DEC_DECODED), (some Handler.shra, DEC_DECODED), (some Handler.shra_imm, DEC_DECODED),
    (some Handler.and_, DEC_DECODED), (some Handler.and_imm, DEC_DECODED), (none, 0), (some Handler.andh_imm, DEC_DECODED),
    (some Handler.andnot, DEC_DECODED), (some Handler.andnot_imm, DEC_DECODED), (none, 0), (some Handler.andnoth_imm, DEC_DECODED),
    (some Handler.or_, DEC_DECODED), (some Handler.or_imm, DEC_DECODED), (none, 0), (some Handler.orh_imm, DEC_DECODED),
    (some Handler.xor_, DEC_DECODED), (some Handler.xor_imm, DEC_DECODED), (none, 0), (some Handler.xorh_imm, DEC_DECODED) ]

/-- Second-level decode table (i.e., for the 3 core escape opcode bits). -/
def core_esc_decode_tbl : List (Option Handler × Nat) :=
  [
    (none, 0), (none, 0), (some Handler.calli, DEC_DECODED), (none, 0),
    (some Handler.intovr, DEC_DECODED), (none, 0), (none, 0), (none, 0) ]

/-- Second-level decode table (i.e., for the 7 FP extended opcode bits). -/
def fp_decode_tbl : List (Option Handler × Nat) :=
  [
    (some Handler.dualop, DEC_DECODED), (some Handler.dualop, DEC_DECODED), (some Handler.dualop, DEC_DECODED), (some Handler.dualop, DEC_DECODED),
    (some Handler.dualop, DEC_DECODED), (some Handler.dualop, DEC_DECODED), (some Handler.dualop, DEC_DECODED), (some Handler.dualop, DEC_DECODED),
    (some Handler.dualop, DEC_DECODED), (some Handler.dualop, DEC_DECODED), (some Handler.dualop, DEC_DECODED), (some Handler.dualop, DEC_DECODED),
    (some Handler.dualop, DEC_DECODED), (some Handler.dualop, DEC_DECODED), (some Handler.dualop, DEC_DECODED), (some Handler.dualop, DEC_DECODED),
    (some Handler.dualop, DEC_DECODED), (some Handler.dualop, DEC_DECODED), (some Handler.dualop, DEC_DECODED), (some Handler.dualop, DEC_DECODED),
    (some Handler.dualop, DEC_DECODED), (some Handler.dualop, DEC_DECODED), (some Handler.dualop, DEC_DECODED), (some Handler.dualop, DEC_DECODED),
    (some Handler.dualop, DEC_DECODED), (some Handler.dualop, DEC_DECODED), (some Handler.dualop, DEC_DECODED), (some Handler.dualop, DEC_DECODED),
    (some Handler.dualop, DEC_DECODED), (some Handler.dualop, DEC_DECODED), (some Handler.dualop, DEC_DECODED), (some Handler.dualop, DEC_DECODED),
    (some Handler.fmul, DEC_DECODED), (some Handler.fmlow, DEC_DECODED), (some Handler.frcp, DEC_DECODED), (some Handler.frsqr, DEC_DECODED),
    (some Handler.fmul, DEC_DECODED), (none, 0), (none, 0), (none, 0),
    (none, 0), (none, 0), (none, 0), (none, 0),
    (none, 0), (none, 0), (none, 0), (none, 0),
    (some Handler.fadd_sub, DEC_DECODED), (some Handler.fadd_sub, DEC_DECODED), (none, 0), (some Handler.famov, DEC_DECODED),
    (some Handler.fcmp, DEC_DECODED), (some Handler.fcmp, DEC_DECODED), (none, 0), (none, 0),
    (none, 0), (none, 0), (some Handler.ftrunc, DEC_DECODED), (none, 0),
    (none, 0), (none, 0), (none, 0), (none, 0),
    (some Handler.fxfr, DEC_DECODED), (none, 0), (none, 0), (none, 0),
    (none, 0), (none, 0), (none, 0), (none, 0),
    (none, 0), (some Handler.fiadd_sub, DEC_DECODED), (none, 0), (none, 0),
    (none, 0), (some Handler.fiadd_sub, DEC_DECODED), (none, 0), (none, 0),
    (some Handler.faddp, DEC_DECODED), (some Handler.faddz, DEC_DECODED), (none, 0), (none, 0),
    (none, 0), (none, 0), (none, 0), (some Handler.fzchk, DEC_DECODED),
    (none, 0), (none, 0), (some Handler.form, DEC_DECODED), (none, 0),
    (none, 0), (none, 0), (none, 0), (some Handler.fzchk, DEC_DECODED),
    (none, 0), (none, 0), (none, 0), (none, 0),
    (none, 0), (none, 0), (none, 0), (none, 0),
    (none, 0), (none, 0), (none, 0), (none, 0),
    (none, 0), (none, 0), (none, 0), (none, 0),
    (none, 0), (none, 0), (none, 0), (none, 0),
    (none, 0), (none, 0), (none, 0), (none, 0),
    (none, 0), (none, 0), (none, 0), (none, 0),
    (none, 0), (none, 0), (none, 0), (none, 0) ]

/-- The call `(this->*insn_exec)(insn)` of a table entry; `exec` is the decoder
the delayed branches call for their delay slot. -/
def run_handler (cfg : Config) (fp : HostFP) (exec : State → Nat → Option State)
    (h : Handler) (s : State) (insn : Nat) : Option State :=
  match h with
  | .ldx => some (insn_ldx cfg s insn)
  | .ixfr => some (insn_ixfr s insn)
  | .stx => some (insn_stx cfg s insn)
  | .fldy => some (insn_fldy cfg s insn)
  | .fsty => some (insn_fsty cfg s insn)
  | .ld_ctrl => some (insn_ld_ctrl cfg s insn)
  | .flush => some (insn_flush s insn)
  | .st_ctrl => some (insn_st_ctrl cfg s insn)
  | .pstd => some (insn_pstd cfg s insn)
  | .bri => insn_bri exec s insn
  | .trap => some (insn_trap s insn)
  | .btne => some (insn_btne s insn)
  | .btne_imm => some (insn_btne_imm s insn)
  | .bte => some (insn_bte s insn)
  | .bte_imm => some (insn_bte_imm s insn)
  | .br => insn_br exec s insn
  | .call => insn_call exec s insn
  | .bc => some (insn_bc s insn)
  | .bct => insn_bct exec s insn
  | .bnc => some (insn_bnc s insn)
  | .bnct => insn_bnct exec s insn
  | .addu => some (insn_addu s insn)
  | .addu_imm => some (insn_addu_imm s insn)
  | .subu => some (insn_subu s insn)
  | .subu_imm => some (insn_subu_imm s insn)
  | .adds => some (insn_adds s insn)
  | .adds_imm => some (insn_adds_imm s insn)
  | .subs => some (insn_subs s insn)
  | .subs_imm => some (insn_subs_imm s insn)
  | .shl => some (insn_shl s insn)
  | .shl_imm => some (insn_shl_imm s insn)
  | .shr => some (insn_shr s insn)
  | .shr_imm => some (insn_shr_imm s insn)
  | .shrd => some (insn_shrd s insn)
  | .bla => insn_bla cfg exec s insn
  | .shra => some (insn_shra s insn)
  | .shra_imm => some (insn_shra_imm s insn)
  | .and_ => some (insn_and s insn)
  | .and_imm => some (insn_and_imm s insn)
  | .andh_imm => some (insn_andh_imm s insn)
  | .andnot => some (insn_andnot s insn)
  | .andnot_imm => some (insn_andnot_imm s insn)
  | .andnoth_imm => some (insn_andnoth_imm s insn)
  | .or_ => some (insn_or s insn)
  | .or_imm => some (insn_or_imm s insn)
  | .orh_imm => some (insn_orh_imm s insn)
  | .xor_ => some (insn_xor s insn)
  | .xor_imm => some (insn_xor_imm s insn)
  | .xorh_imm => some (insn_xorh_imm s insn)
  | .dualop => some (insn_dualop fp s insn)
  | .fmul => some (insn_fmul fp s insn)
  | .fmlow => some (insn_fmlow s insn)
  | .frcp => some (insn_frcp fp s insn)
  | .frsqr => some (insn_frsqr fp s insn)
  | .fadd_sub => some (insn_fadd_sub fp s insn)
  | .famov => some (insn_famov fp s insn)
  | .fcmp => some (insn_fcmp fp s insn)
  | .ftrunc => some (insn_ftrunc fp s insn)
  | .fxfr => some (insn_fxfr s insn)
  | .fiadd_sub => some (insn_fiadd_sub s insn)
  | .faddp => some (insn_faddp s insn)
  | .faddz => some (insn_faddz s insn)
  | .fzchk => some (insn_fzchk s insn)
  | .form => some (insn_form s insn)
  | .calli => insn_calli exec s insn
  | .intovr => some (insn_intovr s insn)

/-- The call of the handler of a table entry; an entry without handler is not
called (it never carries `DEC_DECODED`). -/
def call_entry (cfg : Config) (fp : HostFP) (exec : State → Nat → Option State)
    (e : Option Handler × Nat) (s : State) (insn : Nat) : Option State :=
  match e.1 with
  | some h => run_handler cfg fp exec h s insn
  | none => some s

/-- The body of the main decoder driver `decode_exec`, with the decoder that
the handlers re-enter given as `exec`. -/
def decode_exec_body (cfg : Config) (fp : HostFP) (exec : State → Nat → Option State)
    (s : State) (insn : Nat) : Option State :=
  let upper_6bits := (insn >>> 26) &&& 0x3f
  if s.exiting_ifetch ≠ 0 then some s
  else
    let e := decode_tbl.getD upper_6bits (none, 0)
    if e.2 &&& DEC_DECODED ≠ 0 then call_entry cfg fp exec e s insn
    else if e.2 &&& DEC_MORE ≠ 0 then
      if upper_6bits = 0x12 then
        let s1 : State :=
          if insn &&& 0x200 ≠ 0 then (if s.dim < 2 then { s with dim := s.dim + 1 } else s)
          else (if s.dim > 0 then { s with dim := s.dim - 1 } else s)
        let fe := fp_decode_tbl.getD (insn &&& 0x7f) (none, 0)
        if fe.2 &&& DEC_DECODED ≠ 0 then call_entry cfg fp exec fe s1 insn
        else some (unrecog_opcode s1 s1.pc insn)
      else if upper_6bits = 0x13 then
        let ce := core_esc_decode_tbl.getD (insn &&& 0x3) (none, 0)
        if ce.2 &&& DEC_DECODED ≠ 0 then call_entry cfg fp exec ce s insn
        else some (unrecog_opcode s s.pc insn)
      else some (unrecog_opcode s s.pc insn)
    else some (unrecog_opcode s s.pc insn)

/-- Main decoder driver (`decode_exec`). The first argument bounds the depth
of the re-entrant calls made for delay slots: with depth 0 a handler that
needs the decoder again gets no result. -/
def decode_exec (cfg : Config) (fp : HostFP) : Nat → State → Nat → Option State
  | 0 => decode_exec_body cfg fp (fun _ _ => none)
  | d + 1 => decode_exec_body cfg fp (decode_exec cfg fp d)

/-- The loop of `i860_reset` over the registers `i, i + 1, ...`, for the
remaining number of rounds. -/
def reset_regs : Nat → Nat → State → State
  | 0, _, s => s
  | n + 1, i, s => reset_regs n (i + 1) (set_fregval_s (set_iregval s i (0x55aa5500 ||| i)) i 0)

/-- Set-up all the default power-on/reset values (`i860_reset`). -/
def i860_reset (s : State) : State :=
  let s1 := { s with pc := 0xffffff00 }
  let s2 := reset_regs 32 0 s1
  let s3 := set_fregval_s (set_fregval_s (set_iregval s2 0 0) 0 0) 1 0
  let s4 := { s3 with cregs := upd s3.cregs CR_PSR 0 }
  let s5 := { s4 with cregs := upd s4.cregs CR_EPSR 0x00040701 }
  let s6 := { s5 with cregs := upd s5.cregs CR_DIRBASE 0x00000080 }
  let s7 := { s6 with cregs := upd s6.cregs CR_FIR 0x55aa5500 }
  let s8 := { s7 with cregs := upd s7.cregs CR_FSR 0x55aa5500 }
  let s9 := { s8 with KR := union_set_d s8.KR 0, KI := union_set_d s8.KI 0,
                      T := union_set_d s8.T 0, merge := 0x55aa5500,
                      fir_gets_trap_addr := 0, dim := 0 }
  i860_halt s9 false

/-- The external interface for indicating an external interrupt to the i860
(`i860_gen_interrupt`). -/
def i860_gen_interrupt (s : State) : State :=
  let s1 :=
    if GET_PSR_IM s ≠ 0 then
      { SET_PSR_IN s 1 with pending_trap := s.pending_trap ||| TRAP_WAS_EXTERNAL }
    else s
  SET_EPSR_INT s1 1

/-- The external interface for clearing the external interrupt
(`i860_clr_interrupt`). -/
def i860_clr_interrupt (s : State) : State := SET_EPSR_INT s 0

/-! ## Concrete inputs

States, configurations and instruction words at which the properties below
are evaluated. -/

/-- The configuration with both switches off. -/
def cfg0 : Config := { trace_undefined := false, trace_unaligned := false }

/-- A host arithmetic used to evaluate the handlers on concrete inputs: every
operation returns its first operand and every comparison is false. -/
def fp0 : HostFP :=
  { mul_d := fun a _ => a, mul_s := fun a _ => a, add_d := fun a _ => a,
    add_s := fun a _ => a, sub_d := fun a _ => a, sub_s := fun a _ => a,
    div_d := fun a _ => a, div_s := fun a _ => a, sqrt_d := fun a => a,
    sqrt_s := fun a => a, to_d := fun a => a, to_s := fun a => a,
    trunc_d := fun a => a, trunc_s := fun a => a, eq_d := fun _ _ => false,
    eq_s := fun _ _ => false, lt_d := fun _ _ => false, lt_s := fun _ _ => false,
    le_d := fun _ _ => false, le_s := fun _ _ => false }

/-- The state in which every register, flag and memory byte is zero. -/
def st0 : State :=
  { iregs := fun _ => 0, frg := fun _ => 0, cregs := fun _ => 0, pc := 0,
    pc_updated := 0, pending_trap := 0, exiting_readmem := 0, exiting_ifetch := 0,
    fir_gets_trap_addr := 0, dim := 0, KR := 0, KI := 0, T := 0, merge := 0,
    M := fun _ => { val := 0, prec := 0 }, A := fun _ => { val := 0, prec := 0 },
    L := fun _ => { val := 0, prec := 0 }, G := { val := 0, prec := 0 },
    mem := fun _ => 0, console := [], break_on_next_msg := false, halted := false,
    debugger_calls := 0 }

/-- The state `st0` with r1 = `a` and r2 = `b`. -/
def st_r12 (a b : Nat) : State :=
  { st0 with iregs := upd (upd st0.iregs 1 a) 2 b }

/-- The word of an instruction in the register format: primary opcode,
isrc2, idest and isrc1 fields. -/
def enc_r (opc isrc2 idest isrc1 : Nat) : Nat :=
  (opc <<< 26) ||| (isrc2 <<< 21) ||| (idest <<< 16) ||| (isrc1 <<< 11)

/-- The 32-bit pattern of the two's-complement reading of the low `n` bits of
`x`: the value the claims call the sign extension of an `n`-bit field. -/
def sext (n x : Nat) : Nat :=
  if x % 2 ^ n < 2 ^ (n - 1) then x % 2 ^ n else x % 2 ^ n + (2 ^ 32 - 2 ^ n)

/-- The state with the instruction word `w` stored at address 4 (little-endian
mode), the delay slot of a branch at address 0. -/
def st_slot (w : Nat) : State := { st0 with mem := wr_le st0.mem 4 4 w }

/-- The word of a `trap` instruction. -/
def w_trap : Nat := enc_r 0x11 0 0 0

/-- The word of a `br` with displacement 0. -/
def w_br : Nat := enc_r 0x1a 0 0 0

/-- The signed reading of the low `n` bits of `x`: the integer the claims call
the sign extension of an `n`-bit field. -/
def sval (n x : Nat) : Int :=
  if x % 2 ^ n < 2 ^ (n - 1) then ((x % 2 ^ n : Nat) : Int)
  else ((x % 2 ^ n : Nat) : Int) - 2 ^ n

/-- The word and the state on which a delayed branch executed in state `s` runs
its delay slot: the program counter advanced by 4 and the word fetched at
`orig_pc + 4`. -/
def slot_fetch (s : State) : Nat × State :=
  ifetch { s with pc := u32 (s.pc + 4) } (u32 (s.pc + 4))

/-- The state in which `bri` runs its delay slot: the trap bits of the status
register cleared. -/
def bri_pre (s : State) : State :=
  { s with cregs := upd s.cregs CR_PSR (s.cregs CR_PSR &&& not32 PSR_ALL_TRAP_BITS_MASK) }

/-- The state in which `calli` runs its delay slot: r1 already holds the return
pointer. -/
def calli_pre (s : State) : State := set_iregval s 1 (s.pc + 8)

/-- The state in which `bla` runs its delay slot: isrc2 already holds the
sum. -/
def bla_pre (s : State) (insn : Nat) : State :=
  set_iregval s (get_isrc2 insn) (s.iregs (get_isrc1 insn) + s.iregs (get_isrc2 insn))

/-- The state the delay slot of a branch at address 0 of `s` produces, for the
decoder without further re-entry. -/
def slot_result (s : State) : State :=
  (decode_exec cfg0 fp0 0 (slot_fetch s).2 (slot_fetch s).1).getD s

/-- The word of `calli r2`: core escape format, isrc1 = 2, escape opcode 2. -/
def w_calli_r2 : Nat := (0x13 <<< 26) ||| (2 <<< 11) ||| 2

/-- The state with r1 = 5, r2 = 0x100 and the word `slot` at address 4. -/
def st_calli (slot : Nat) : State :=
  { st0 with iregs := upd (upd st0.iregs 1 5) 2 0x100, mem := wr_le st0.mem 4 4 slot }

/-! ## Page-table walk, as the specification words it -/

/-- Address of the directory entry of a virtual address:
`(DIRBASE & 0xfffff000) | (V[31:22] << 2)`. -/
def pde_addr (s : State) (v : Nat) : Nat :=
  (s.cregs CR_DIRBASE &&& 0xfffff000) ||| (((v >>> 22) &&& 0x3ff) <<< 2)

/-- The directory entry `mem32[pde_addr]`. -/
def pde_val (s : State) (v : Nat) : Nat := rd32i s (pde_addr s v)

/-- Address of the page-table entry of a virtual address:
`(PDE & 0xfffff000) | (V[21:12] << 2)`. -/
def pte_addr (s : State) (v : Nat) : Nat :=
  (pde_val s v &&& 0xfffff000) ||| (((v >>> 12) &&& 0x3ff) <<< 2)

/-- The page-table entry `mem32[pte_addr]`. -/
def pte_val (s : State) (v : Nat) : Nat := rd32i s (pte_addr s v)

/-- Present / write-protection / user check on one entry, as the specification
words it: the present bit is clear, or the access is a data write and the
writable bit is clear while PSR.U or EPSR.WP is set, or PSR.U is set and the
user bit is clear. -/
def entry_faults (s : State) (e : Nat) (dr w : Bool) : Prop :=
  e &&& 1 = 0
    ∨ (w = true ∧ dr = true ∧ e &&& 2 = 0 ∧ (GET_PSR_U s ≠ 0 ∨ GET_EPSR_WP s ≠ 0))
    ∨ (GET_PSR_U s ≠ 0 ∧ e &&& 4 = 0)

instance (s : State) (e : Nat) (dr w : Bool) : Decidable (entry_faults s e dr w) := by
  unfold entry_faults
  exact inferInstance

/-- The fault condition of the translator, as the specification words it: the
directory entry fails its check, or (when the directory entry passes) the
page-table entry fails its check or the access is a data write and the
page-table dirty bit is clear. -/
def xlate_faults (s : State) (v : Nat) (dr w : Bool) : Prop :=
  entry_faults s (pde_val s v) dr w
    ∨ (¬ entry_faults s (pde_val s v) dr w
        ∧ (entry_faults s (pte_val s v) dr w
            ∨ (w = true ∧ dr = true ∧ pte_val s v &&& 0x40 = 0)))

instance (s : State) (v : Nat) (dr w : Bool) : Decidable (xlate_faults s v dr w) := by
  unfold xlate_faults
  exact inferInstance

/-- The state after the accessed bit has been written back to both
entries. -/
def accessed_writeback (s : State) (v : Nat) : State :=
  wr32i (wr32i s (pde_addr s v) (pde_val s v ||| 0x20)) (pte_addr s v) (pte_val s v ||| 0x20)

/-- A state with address translation on and the page directory at 0x1000
(DIRBASE = 0x1001), EPSR and PSR as given, in which the directory entry of the
virtual address `v` is `pde` and its page-table entry is `pte`. -/
def st_pg (epsr psr v pde pte : Nat) : State :=
  let s1 : State :=
    { st0 with cregs := upd (upd (upd st0.cregs CR_DIRBASE 0x1001) CR_EPSR epsr) CR_PSR psr }
  let s2 := wr32i s1 (pde_addr s1 v) pde
  wr32i s2 (pte_addr s2 v) pte

/-- The state `st_pg` for a write to the first console address on a page that
is present and user-accessible but not writable, with EPSR.WP set. -/
def st_console_wp : State := st_pg 0x4000 0 0xF83FE800 0x2007 0x3005


/-- The state `st_pg` for a write to the virtual address 0xABC on a page that
is present, writable and user-accessible, with the dirty bit clear. -/
def st_clean_page : State := st_pg 0 0 0xABC 0x2007 0x3007

/-- The word of "pfmul.ss fsrc1,fsrc2,fdest". -/
def w_pfmul_ss (fsrc1 fsrc2 fdest : Nat) : Nat := enc_r 0x12 fsrc2 fdest fsrc1 ||| 0x420

/-- The state `st0` with f4 = 2.0, f5 = 3.0, f6 = 4.0, f7 = 5.0, f10 = 6.0 and
f11 = 7.0 as singles, and with the single 0x11111111 in stage 0 of the
multiplier pipeline. -/
def st_mul : State :=
  let s := set_fregval_s (set_fregval_s (set_fregval_s (set_fregval_s (set_fregval_s
    (set_fregval_s st0 4 0x40000000) 5 0x40400000) 6 0x40800000) 7 0x40a00000)
    10 0x40c00000) 11 0x40e00000
  { s with M := upd s.M 0 { val := 0x11111111, prec := 0 } }

/-- The values `dbl_tmp_dest` and `sgl_tmp_dest` computed by `insn_fadd_sub`
before the write-back: the sum or difference of the two sources, each read
from its register or, in the pipelined form when the register is fdest (not
f0), taken from the captured last stage of the adder pipeline; the value of
the other precision keeps its initial 0.0. -/
def fadd_sub_tmp (fp : HostFP) (s : State) (insn : Nat) : Nat × Nat :=
  let fsrc1 := get_fsrc1 insn
  let fsrc2 := get_fsrc2 insn
  let fdest := get_fdest insn
  let src_prec := insn &&& 0x100
  let res_prec := insn &&& 0x080
  let piped := insn &&& 0x400
  let is_sub := insn &&& 1
  let last := s.A 2
  let dbl_last_stage_contents := if piped ≠ 0 ∧ last.prec ≠ 0 then union_d last.val else 0
  let sgl_last_stage_contents := if piped ≠ 0 ∧ last.prec = 0 then union_s last.val else 0
  let d1 :=
    if piped ≠ 0 ∧ fdest ≠ 0 ∧ fsrc1 = fdest then dbl_last_stage_contents
    else get_fregval_d s fsrc1
  let d2 :=
    if piped ≠ 0 ∧ fdest ≠ 0 ∧ fsrc2 = fdest then dbl_last_stage_contents
    else get_fregval_d s fsrc2
  let s1v :=
    if piped ≠ 0 ∧ fdest ≠ 0 ∧ fsrc1 = fdest then sgl_last_stage_contents
    else get_fregval_s s fsrc1
  let s2v :=
    if piped ≠ 0 ∧ fdest ≠ 0 ∧ fsrc2 = fdest then sgl_last_stage_contents
    else get_fregval_s s fsrc2
  let res_d := if is_sub ≠ 0 then fp.sub_d d1 d2 else fp.add_d d1 d2
  let res_s := if is_sub ≠ 0 then fp.sub_s s1v s2v else fp.add_s s1v s2v
  (if src_prec ≠ 0 then (if res_prec ≠ 0 then res_d else 0)
    else (if res_prec ≠ 0 then fp.to_d res_s else 0),
   if src_prec ≠ 0 then (if res_prec ≠ 0 then 0 else fp.to_s res_d)
    else (if res_prec ≠ 0 then 0 else res_s))

/-- The word of "pfadd.ss fsrc1,fsrc2,fdest". -/
def w_pfadd_ss (fsrc1 fsrc2 fdest : Nat) : Nat := enc_r 0x12 fsrc2 fdest fsrc1 ||| 0x430

/-- The state `st_mul` with the singles 0x22222222, 0x33333333 and 0x44444444
in stages 0, 1 and 2 of the adder pipeline. -/
def st_add : State :=
  { st_mul with A := upd (upd (upd st_mul.A 0 { val := 0x22222222, prec := 0 })
      1 { val := 0x33333333, prec := 0 }) 2 { val := 0x44444444, prec := 0 } }

/-- The values `dbl_tmp_dest` and `sgl_tmp_dest` computed by `insn_fmul`
before the write-back: the product of the two sources, the first read from its
register, the second read from its register or, in the pipelined form when the
register is fdest (not f0), taken from the captured last stage of the
multiplier pipeline; the value of the other precision keeps its initial
0.0. -/
def fmul_tmp (fp : HostFP) (s : State) (insn : Nat) : Nat × Nat :=
  let fsrc1 := get_fsrc1 insn
  let fsrc2 := get_fsrc2 insn
  let fdest := get_fdest insn
  let src_prec := insn &&& 0x100
  let res_prec := insn &&& 0x080
  let piped := insn &&& 0x400
  let is_pfmul3 := insn &&& 0x4
  let num_stages := if src_prec ≠ 0 ∧ is_pfmul3 = 0 then 2 else 3
  let last := s.M (num_stages - 1)
  let dbl_last_stage_contents := if piped ≠ 0 ∧ last.prec ≠ 0 then union_d last.val else 0
  let sgl_last_stage_contents := if piped ≠ 0 ∧ last.prec = 0 then union_s last.val else 0
  let prod_d :=
    fp.mul_d (get_fregval_d s fsrc1)
      (if piped ≠ 0 ∧ fdest ≠ 0 ∧ fsrc2 = fdest then dbl_last_stage_contents
       else get_fregval_d s fsrc2)
  let prod_s :=
    fp.mul_s (get_fregval_s s fsrc1)
      (if piped ≠ 0 ∧ fdest ≠ 0 ∧ fsrc2 = fdest then sgl_last_stage_contents
       else get_fregval_s s fsrc2)
  (if src_prec ≠ 0 then (if res_prec ≠ 0 then prod_d else 0)
    else (if res_prec ≠ 0 then fp.to_d prod_s else 0),
   if src_prec ≠ 0 then (if res_prec ≠ 0 then 0 else fp.to_s prod_d)
    else (if res_prec ≠ 0 then 0 else prod_s))

/-- The number of stages `insn_fmul` uses for a word: 2 for a double source
that is not pfmul3, 3 otherwise. -/
def fmul_stages (insn : Nat) : Nat :=
  if insn &&& 0x100 ≠ 0 ∧ insn &&& 0x4 = 0 then 2 else 3

/-- A host arithmetic in which every binary operation returns its second
operand, every unary operation its operand, and every comparison is false. -/
def fp_snd : HostFP :=
  { mul_d := fun _ b => b, mul_s := fun _ b => b, add_d := fun _ b => b,
    add_s := fun _ b => b, sub_d := fun _ b => b, sub_s := fun _ b => b,
    div_d := fun _ b => b, div_s := fun _ b => b, sqrt_d := fun a => a,
    sqrt_s := fun a => a, to_d := fun a => a, to_s := fun a => a,
    trunc_d := fun a => a, trunc_s := fun a => a, eq_d := fun _ _ => false,
    eq_s := fun _ _ => false, lt_d := fun _ _ => false, lt_s := fun _ _ => false,
    le_d := fun _ _ => false, le_s := fun _ _ => false }

/-- The state `st_mul` with the double 0x4000000040000000 in the last stage
M[2] of the multiplier pipeline and the single 3.0 in f9. -/
def st_mixed : State :=
  { set_fregval_s st_mul 9 0x40400000 with
    M := upd st_mul.M 2 { val := 0x4000000040000000, prec := 1 } }

/-- The state `st_mul` with the single 0x55555555 in the last stage M[2] of
the multiplier pipeline and the single 3.0 in f9. -/
def st_bypass : State :=
  { set_fregval_s st_mul 9 0x40400000 with
    M := upd st_mul.M 2 { val := 0x55555555, prec := 0 } }

/-- The word of a dual operation "pf[m]{a,s}m.ss fsrc1,fsrc2,fdest" with the
given P bit (0x400 or 0) and routing code. -/
def w_dualop_ss (p dpc fsrc1 fsrc2 fdest : Nat) : Nat := enc_r 0x12 fsrc2 fdest fsrc1 ||| p ||| dpc

/-- The state `st_add` with the single 0x66666666 in the last stage M[2] of
the multiplier pipeline. -/
def st_dual : State :=
  { st_add with M := upd st_add.M 2 { val := 0x66666666, prec := 0 } }

/-- The state `st0` with every memory byte pre-set to 0xEE. -/
def st_poison : State := { st0 with mem := fun _ => 0xEE }

/-- The effective address of `insn_pstd`: the displacement with its low three
bits chopped off plus the base register. -/
def pstd_eff (s : State) (insn : Nat) : Nat :=
  u32 ((sign_ext (get_imm16 insn) 16 &&& not32 (8 - 1)) + get_iregval s (get_isrc2 insn))

/-- The state in which `insn_pstd` calls `fp_writemem_emu` when the pixel size
is 1: after the auto-increment and the shift of PSR.PM. -/
def pstd_pre (s : State) (insn : Nat) : State :=
  SET_PSR_PM (if insn &&& 1 ≠ 0 then set_iregval s (get_isrc2 insn) (pstd_eff s insn) else s)
    ((GET_PSR_PM s >>> 4) &&& 0x0f)

/-- The state `st_poison` with pixel size 1 and pixel mask 0001 in PSR
(0x01400000), EPSR as given, and the bytes 0x11 .. 0x88 in f8/f9. -/
def st_pixel (epsr : Nat) : State :=
  { st_poison with
    cregs := upd (upd st_poison.cregs CR_PSR 0x01400000) CR_EPSR epsr
    frg := frg_store st_poison.frg 32 [0x11, 0x22, 0x33, 0x44, 0x55, 0x66, 0x77, 0x88] }

/-- The word of "pst.d f8,0x100(r0)". -/
def w_pstd : Nat := (0x0f <<< 26) ||| (8 <<< 16) ||| 0x100

/-- The translation step of the store of `insn_pstd` (pixel size 1): the
physical address and the state that `fp_writemem_emu` continues with. -/
def pstd_xlate (s : State) (insn : Nat) : Nat × State :=
  if GET_DIRBASE_ATE (pstd_pre s insn) ≠ 0 then
    get_address_translation (pstd_pre s insn) (pstd_eff s insn) true true
  else (pstd_eff s insn, pstd_pre s insn)

/-- The translation step at the head of the four memory-access routines: the
physical address and the state the routine continues with (the address itself
and the state unchanged when translation is off). -/
def shim_xlate (s : State) (addr : Nat) (is_write : Bool) : Nat × State :=
  if GET_DIRBASE_ATE s ≠ 0 then get_address_translation s addr true is_write else (addr, s)

/-- The test `((addr & ~(size - 1)) == m_cregs[CR_DB]) && enable` of the
memory-access routines on the physical address, with the enable bit given. -/
def db_match (p : Nat × State) (size enable : Nat) : Prop :=
  p.1 &&& not32 (size - 1) = p.2.cregs CR_DB ∧ enable ≠ 0

instance (p : Nat × State) (size enable : Nat) : Decidable (db_match p size enable) := by
  unfold db_match
  exact inferInstance

/-- The state `st_poison` with the breakpoint register DB = 0x100 and PSR as
given. -/
def st_db (psr : Nat) : State :=
  { st_poison with cregs := upd (upd st_poison.cregs CR_DB 0x100) CR_PSR psr }

/-- The state `st_pg` with translation on and a directory entry that is not
present for the virtual address 0xAB8, with PSR as given and r2 = 0xAB0. -/
def st_fault (psr : Nat) : State :=
  { st_pg 0 psr 0xAB8 0 0 with iregs := upd st0.iregs 2 0xAB0 }

/-- The word of "fld.l 8(r2)++,f8". -/
def w_fld_inc : Nat := (0x09 <<< 26) ||| (2 <<< 21) ||| (8 <<< 16) ||| 0x0B

/-- The word of "pst.d f8,8(r2)". -/
def w_pstd_r2 : Nat := (0x0f <<< 26) ||| (2 <<< 21) ||| (8 <<< 16) ||| 0x8

/-- The operand size of `insn_ldx` and `insn_stx`: bits 28 and 0 of the
word. -/
def ldst_size_of (insn : Nat) : Nat := ldst_size (((insn >>> 27) &&& 2) ||| (insn &&& 1))

/-- The effective address of `insn_stx`: the split immediate with its low bits
chopped off plus the base register. -/
def stx_eff (s : State) (insn : Nat) : Nat :=
  u32 ((sign_ext (((insn >>> 5) &&& 0xf800) ||| (insn &&& 0x07ff)) 16
    &&& not32 (ldst_size_of insn - 1)) + get_iregval s (get_isrc2 insn))

/-- The effective address of `insn_ldx`, in the disp+reg or the reg+reg
form. -/
def ldx_eff (s : State) (insn : Nat) : Nat :=
  if insn &&& 0x04000000 ≠ 0 then
    u32 ((sign_ext (get_imm16 insn) 16 &&& not32 (ldst_size_of insn - 1))
      + get_iregval s (get_isrc2 insn))
  else u32 (get_iregval s (get_isrc1 insn) + get_iregval s (get_isrc2 insn))

/-- The word of "st.s r1,0x10(r2)". -/
def w_st_s : Nat := (0x07 <<< 26) ||| (2 <<< 21) ||| (1 <<< 11) ||| 0x10

/-- The word of "ld.s 0x10(r2),r3". -/
def w_ld_s : Nat := (0x05 <<< 26) ||| (2 <<< 21) ||| (3 <<< 16) ||| 0x10

/-- A memory in which every word is the little-endian image of "br" with
displacement 0 (0x68000000). -/
def mem_brs : Nat → Nat := fun a => if a % 4 = 3 then 0x68 else 0

/-- The state `st0` with the memory `mem_brs`. -/
def st_brs : State := { st0 with mem := mem_brs }

/-- The update of the dual-instruction-mode counter that `decode_exec` makes
for a word of the floating-point escape format. -/
def dim_step (s : State) (insn : Nat) : State :=
  if insn &&& 0x200 ≠ 0 then (if s.dim < 2 then { s with dim := s.dim + 1 } else s)
  else (if s.dim > 0 then { s with dim := s.dim - 1 } else s)

/-- The zero registers stay zero from `s` to `t`: if r0 is 0 in `s` it is 0 in
`t`, and if the bytes 0..7 of the floating-point register file (f0 and f1) are
0 in `s` they are 0 in `t`. -/
def Keeps (s t : State) : Prop :=
  (s.iregs 0 = 0 → t.iregs 0 = 0)
    ∧ ((∀ b, b < 8 → s.frg b = 0) → ∀ b, b < 8 → t.frg b = 0)

/-- The relation `Keeps` for a result that may be missing. -/
def KeepsO (s : State) (o : Option State) : Prop := ∀ t, o = some t → Keeps s t

/-- The word of "fld.l 0(r0),f0": non-pipelined, displacement form, operand
size 4, destination f0. -/
def w_fld_f0 : Nat := enc_r 0x09 0 0 0 ||| 2

/-- Modelled from the spec: `GET_FSR_SE`, the source-exception bit of the
floating-point status register, FSR bit 8 (the bit `SET_FSR_SE` writes). -/
def GET_FSR_SE (s : State) : Nat := getField (s.cregs CR_FSR) 8 1

/-- The host arithmetic `fp0` with the comparison `==` true for equal
patterns. -/
def fp_eq : HostFP :=
  { fp0 with eq_d := fun a b => a == b, eq_s := fun a b => a == b }

/-- The word of "frcp.dd f6,f4". -/
def w_frcp_dd : Nat := (0x12 <<< 26) ||| (6 <<< 21) ||| (4 <<< 16) ||| 0x180 ||| 0x22

/-- The 16-bit split displacement field of bte, btne and bla:
`((insn >> 5) & 0xf800) | (insn & 0x07ff)`. -/
def sbroff_field (insn : Nat) : Nat := ((insn >>> 5) &&& 0xf800) ||| (insn &&& 0x07ff)

/-- The word of "intovr": core escape format (primary opcode 0x13) with the
escape opcode 4. -/
def w_intovr : Nat := (0x13 <<< 26) ||| 4

/-- The state `st0` with EPSR.OF set. -/
def st_of : State := SET_EPSR_OF st0 1

/-- The handler `decode_exec` selects for a word, by the flags of the table
entries: the entry of `decode_tbl` when flagged `DEC_DECODED`; under `DEC_MORE`
the entry `insn & 0x7f` of `fp_decode_tbl` for the primary opcode 0x12 and the
entry `insn & 0x3` of `core_esc_decode_tbl` for 0x13, when flagged
`DEC_DECODED`; none when the word is unrecognized. -/
def dispatched (insn : Nat) : Option Handler :=
  let upper_6bits := (insn >>> 26) &&& 0x3f
  let e := decode_tbl.getD upper_6bits (none, 0)
  if e.2 &&& DEC_DECODED ≠ 0 then e.1
  else if e.2 &&& DEC_MORE ≠ 0 then
    if upper_6bits = 0x12 then
      let fe := fp_decode_tbl.getD (insn &&& 0x7f) (none, 0)
      if fe.2 &&& DEC_DECODED ≠ 0 then fe.1 else none
    else if upper_6bits = 0x13 then
      let ce := core_esc_decode_tbl.getD (insn &&& 0x3) (none, 0)
      if ce.2 &&& DEC_DECODED ≠ 0 then ce.1 else none
    else none
  else none

/-- The state a handler selected by `decode_exec` runs in: for the primary
opcode 0x12 the dual-instruction-mode counter is updated first. -/
def dispatch_state (s : State) (insn : Nat) : State :=
  if (insn >>> 26) &&& 0x3f = 0x12 then dim_step s insn else s

/-- The seven operand kinds `get_fval_from_optype_s` and
`get_fval_from_optype_d` have a case for. -/
def operand_kinds : List Nat := [OP_SRC1, OP_SRC2, OP_KI, OP_KR, OP_T, OP_MPIPE, OP_APIPE]

/-- The word of "st.c r1,csrc2" for the control register `cr`. -/
def w_stc (cr : Nat) : Nat := (0x0e <<< 26) ||| (cr <<< 21) ||| (1 <<< 11)

/-- The state with r1 = 0x12345678, r2 = 0x9ABCDEF0 and the shift count `sc` in
PSR.SC. -/
def st_shrd (sc : Nat) : State := SET_PSR_SC (st_r12 0x12345678 0x9ABCDEF0) sc

/-- The word of "ld.l 0(r2),r3". -/
def w_ld_l : Nat := (0x05 <<< 26) ||| (2 <<< 21) ||| (3 <<< 16) ||| 0x1

/-- The state `st_db 1` (DB = 0x100, PSR.BR set, memory filled with 0xEE) with
r2 = 0x100 and r3 = 0x1234. -/
def st_db_ld : State :=
  { st_db 1 with iregs := upd (upd st0.iregs 2 0x100) 3 0x1234 }

/-- The state in which a handler runs its delay slot: `bri` has cleared the trap
bits of the status register, `calli` has written the return pointer to r1 and
`bla` the sum to isrc2; the other delayed handlers run it in the state they
were called in. -/
def handler_pre (h : Handler) (s : State) (insn : Nat) : State :=
  match h with
  | Handler.bri => bri_pre s
  | Handler.calli => calli_pre s
  | Handler.bla => bla_pre s insn
  | _ => s

/-- The state in which the handler `decode_exec` selects for `insn` runs its
delay slot. -/
def slot_pre (s : State) (insn : Nat) : State :=
  match dispatched insn with
  | some h => handler_pre h s insn
  | none => s

/-- The delay-slot word of `insn` executed in `s`: the word the delayed
handlers fetch at `orig_pc + 4` and pass to the re-entrant `decode_exec`. -/
def slot_word (s : State) (insn : Nat) : Nat := (slot_fetch (slot_pre s insn)).1

/-! # Properties -/

/-! ## Auxiliary facts -/

@[simp] theorem upd_same {α : Type} (f : Nat → α) (a : Nat) (v : α) : upd f a v a = v := by
  simp [upd]

theorem upd_other {α : Type} (f : Nat → α) (a b : Nat) (v : α) (h : b ≠ a) :
    upd f a v b = f b := by
  simp [upd, h]

theorem getField_one (y q : Nat) : getField y q 1 = (y.testBit q).toNat := by
  unfold getField
  rw [Nat.and_one_is_mod, Nat.toNat_testBit, Nat.shiftRight_eq_div_pow]

theorem testBit_one_iff (k : Nat) : Nat.testBit 1 k = decide (k = 0) := by
  cases k with
  | zero => rfl
  | succ n =>
    rw [Nat.testBit_to_div_mod]
    have : 1 / 2 ^ (n + 1) = 0 := Nat.div_eq_of_lt (Nat.one_lt_two_pow (Nat.succ_ne_zero n))
    simp [this]

theorem testBit_not32 (y q : Nat) :
    (not32 y).testBit q = (decide (q < 32) && !y.testBit q) := by
  unfold not32
  have h : (0xFFFFFFFF : Nat) = 2 ^ 32 - 1 := by norm_num
  rw [h, Nat.testBit_xor, Nat.testBit_two_pow_sub_one, Nat.testBit_mod_two_pow]
  by_cases hq : q < 32 <;> simp [hq]

theorem testBit_setField_one (x p v q : Nat) :
    (setField x p 1 v).testBit q =
      if q = p then v.testBit 0 else (decide (q < 32) && x.testBit q) := by
  unfold setField
  rw [Nat.testBit_or, Nat.testBit_and, testBit_not32, Nat.testBit_shiftLeft,
    Nat.testBit_shiftLeft, Nat.testBit_and, testBit_one_iff]
  by_cases hqp : q = p
  · subst hqp; simp
  · simp only [hqp, if_false]
    by_cases hge : q ≥ p
    · have : q - p ≠ 0 := by omega
      simp [hge, this]
      cases x.testBit q <;> simp
    · simp [hge]
      cases x.testBit q <;> simp

theorem getField_setField_same (x p v : Nat) :
    getField (setField x p 1 v) p 1 = v % 2 := by
  rw [getField_one, testBit_setField_one]
  simp only [if_true, Nat.toNat_testBit, pow_zero, Nat.div_one]

theorem getField_setField_other (x p v q : Nat) (hq : q < 32) (h : q ≠ p) :
    getField (setField x p 1 v) q 1 = getField x q 1 := by
  rw [getField_one, getField_one, testBit_setField_one]
  simp [h, hq]

theorem sign_ext_eq (n x : Nat) (hn : 0 < n) (hn32 : n ≤ 32) (hx : x < 2 ^ n) :
    sign_ext x n = if x < 2 ^ (n - 1) then x else x + (2 ^ 32 - 2 ^ n) := by
  obtain ⟨m, rfl⟩ : ∃ m, n = m + 1 := ⟨n - 1, by omega⟩
  have hx32 : x < 2 ^ 32 := lt_of_lt_of_le hx (Nat.pow_le_pow_right (by norm_num) hn32)
  have hpow : 2 ^ (m + 1) ≤ 2 ^ 32 := Nat.pow_le_pow_right (by norm_num) hn32
  simp only [sign_ext, Nat.add_sub_cancel, u32, neg32, Nat.shiftRight_eq_div_pow]
  have h2 : (2:Nat) ^ (m + 1) = 2 * 2 ^ m := by rw [pow_succ]; ring
  have hpos : 0 < 2 ^ m := Nat.pow_pos (by norm_num)
  by_cases h : x < 2 ^ m
  · rw [if_pos h, Nat.div_eq_of_lt h]
    have hx32b : x < 4294967296 := by simpa using hx32
    simp [Nat.mod_eq_of_lt hx32b]
  · rw [if_neg h]
    have hq : x / 2 ^ m = 1 := by
      apply Nat.div_eq_of_lt_le <;> omega
    rw [hq]
    have : (2 ^ 32 - 1 % 2 ^ 32) % 2 ^ 32 = 2 ^ 32 - 1 := by norm_num
    rw [this, Nat.shiftLeft_eq, Nat.mul_comm, ← Nat.mul_add_lt_is_or hx]
    have e : 2 ^ (m + 1) * (2 ^ 32 - 1) + x
        = (x + (2 ^ 32 - 2 ^ (m + 1))) + 2 ^ 32 * (2 ^ (m + 1) - 1) := by
      have h1 : 1 ≤ 2 ^ (m + 1) := by omega
      zify [hpow, h1, show 1 ≤ 2 ^ 32 from by norm_num]
      ring
    rw [e, Nat.add_mul_mod_self_left]
    apply Nat.mod_eq_of_lt
    omega

theorem sign_ext_sext (n x : Nat) (hn : 0 < n) (hn32 : n ≤ 32) (hx : x < 2 ^ n) :
    sign_ext x n = sext n x := by
  rw [sign_ext_eq n x hn hn32 hx, sext, Nat.mod_eq_of_lt hx]

theorem get_imm16_lt (insn : Nat) : get_imm16 insn < 2 ^ 16 := by
  unfold get_imm16
  exact Nat.and_lt_two_pow insn (by norm_num : (0xffff : Nat) < 2 ^ 16)

theorem sext_lt (n x : Nat) (_hn : 0 < n) (hn32 : n ≤ 32) : sext n x < 2 ^ 32 := by
  have hpow : 2 ^ n ≤ 2 ^ 32 := Nat.pow_le_pow_right (by norm_num) hn32
  have hx : x % 2 ^ n < 2 ^ n := Nat.mod_lt _ (Nat.pow_pos (by norm_num))
  unfold sext
  split <;> omega

theorem carry_bit (a b : Nat) (ha : a < 2 ^ 32) (hb : b < 2 ^ 32) :
    ((u64 (a + b) >>> 32) &&& 1 ≠ 0) ↔ 2 ^ 32 ≤ a + b := by
  unfold u64
  rw [Nat.and_one_is_mod, Nat.shiftRight_eq_div_pow]
  omega

theorem addu_core_spec (s : State) (a isrc2 idest : Nat)
    (ha : a < 2 ^ 32) (hb : s.iregs isrc2 < 2 ^ 32) :
    (idest ≠ 0 → (addu_core s a isrc2 idest).iregs idest = (a + s.iregs isrc2) % 2 ^ 32)
    ∧ GET_PSR_CC (addu_core s a isrc2 idest) = (if 2 ^ 32 ≤ a + s.iregs isrc2 then 1 else 0)
    ∧ GET_EPSR_OF (addu_core s a isrc2 idest)
        = (if 2 ^ 32 ≤ a + s.iregs isrc2 then 1 else 0) := by
  have hc := carry_bit a (s.iregs isrc2) ha hb
  simp only [addu_core, get_iregval]
  by_cases h : 2 ^ 32 ≤ a + s.iregs isrc2
  · rw [if_pos (hc.mpr h), if_pos h]
    refine ⟨?_, ?_, ?_⟩
    · intro hd; simp [set_iregval, hd, u32]
    · simp [GET_PSR_CC, SET_EPSR_OF, SET_PSR_CC, setCreg, set_iregval, upd, CR_PSR, CR_EPSR,
        getField_setField_same]
    · simp [GET_EPSR_OF, SET_EPSR_OF, SET_PSR_CC, setCreg, set_iregval, upd, CR_PSR, CR_EPSR,
        getField_setField_same]
  · rw [if_neg (fun x => h (hc.mp x)), if_neg h]
    refine ⟨?_, ?_, ?_⟩
    · intro hd; simp [set_iregval, hd, u32]
    · simp [GET_PSR_CC, SET_EPSR_OF, SET_PSR_CC, setCreg, set_iregval, upd, CR_PSR, CR_EPSR,
        getField_setField_same]
    · simp [GET_EPSR_OF, SET_EPSR_OF, SET_PSR_CC, setCreg, set_iregval, upd, CR_PSR, CR_EPSR,
        getField_setField_same]

theorem and_signbit (a : Nat) (h : a < 2 ^ 32) :
    a &&& 0x80000000 = if a < 2 ^ 31 then 0 else 0x80000000 := by
  have e : (0x80000000 : Nat) = 2 ^ 31 := by norm_num
  rw [e, Nat.and_two_pow, ← e]
  rw [Nat.toNat_testBit]
  split <;> omega

theorem toS32_of_lt (a : Nat) (h : a < 2 ^ 32) :
    toS32 a = if a < 2 ^ 31 then (a : Int) else (a : Int) - 2 ^ 32 := by
  unfold toS32
  rw [Nat.mod_eq_of_lt h]

theorem subu_core_spec (s : State) (a isrc2 idest : Nat)
    (ha : a < 2 ^ 32) (hb : s.iregs isrc2 < 2 ^ 32) :
    (idest ≠ 0 → ((subu_core s a isrc2 idest).iregs idest : Int)
        = ((a : Int) - (s.iregs isrc2 : Int)) % 2 ^ 32)
    ∧ GET_PSR_CC (subu_core s a isrc2 idest) = (if s.iregs isrc2 ≤ a then 1 else 0)
    ∧ GET_EPSR_OF (subu_core s a isrc2 idest) = (if s.iregs isrc2 ≤ a then 0 else 1) := by
  simp only [subu_core, get_iregval, u32, Nat.mod_eq_of_lt ha, Nat.mod_eq_of_lt hb]
  by_cases h : s.iregs isrc2 ≤ a
  · rw [if_pos h, if_pos h, if_pos h]
    refine ⟨?_, ?_, ?_⟩
    · intro hd; simp only [set_iregval, hd, if_false, upd_same, u32]; omega
    · simp [GET_PSR_CC, SET_EPSR_OF, SET_PSR_CC, setCreg, set_iregval, upd, CR_PSR, CR_EPSR,
        getField_setField_same]
    · simp [GET_EPSR_OF, SET_EPSR_OF, SET_PSR_CC, setCreg, set_iregval, upd, CR_PSR, CR_EPSR,
        getField_setField_same]
  · rw [if_neg h, if_neg h, if_neg h]
    refine ⟨?_, ?_, ?_⟩
    · intro hd; simp only [set_iregval, hd, if_false, upd_same, u32]; omega
    · simp [GET_PSR_CC, SET_EPSR_OF, SET_PSR_CC, setCreg, set_iregval, upd, CR_PSR, CR_EPSR,
        getField_setField_same]
    · simp [GET_EPSR_OF, SET_EPSR_OF, SET_PSR_CC, setCreg, set_iregval, upd, CR_PSR, CR_EPSR,
        getField_setField_same]

theorem flags_of_set (s : State) (o c d v : Nat) :
    GET_EPSR_OF (set_iregval (SET_PSR_CC (SET_EPSR_OF s o) c) d v) = o % 2
    ∧ GET_PSR_CC (set_iregval (SET_PSR_CC (SET_EPSR_OF s o) c) d v) = c % 2 := by
  constructor
  · simp [GET_EPSR_OF, SET_EPSR_OF, SET_PSR_CC, setCreg, set_iregval, upd, CR_PSR, CR_EPSR,
      getField_setField_same]
  · simp [GET_PSR_CC, SET_EPSR_OF, SET_PSR_CC, setCreg, set_iregval, upd, CR_PSR, CR_EPSR,
      getField_setField_same]

theorem subs_core_eq (s : State) (a isrc2 idest : Nat) :
    subs_core s a isrc2 idest =
      set_iregval
        (SET_PSR_CC
          (SET_EPSR_OF s
            (if a &&& 0x80000000 ≠ s.iregs isrc2 &&& 0x80000000
                ∧ a &&& 0x80000000 ≠ u32 (a + (2 ^ 32 - u32 (s.iregs isrc2))) &&& 0x80000000
              then 1 else 0))
          (if toS32 (s.iregs isrc2) > toS32 a then 1 else 0))
        idest (u32 (a + (2 ^ 32 - u32 (s.iregs isrc2)))) := by
  have e (x : State) (v : Nat) : (if toS32 ((SET_EPSR_OF x v).iregs isrc2) > toS32 a
      then SET_PSR_CC (SET_EPSR_OF x v) 1 else SET_PSR_CC (SET_EPSR_OF x v) 0)
      = SET_PSR_CC (SET_EPSR_OF x v) (if toS32 (x.iregs isrc2) > toS32 a then 1 else 0) := by
    show (if toS32 (x.iregs isrc2) > toS32 a then _ else _) = _
    split <;> rfl
  simp only [subs_core, get_iregval]
  split <;> rw [e]

theorem subs_core_spec (s : State) (a isrc2 idest : Nat)
    (ha : a < 2 ^ 32) (hb : s.iregs isrc2 < 2 ^ 32) :
    (idest ≠ 0 → ((subs_core s a isrc2 idest).iregs idest : Int)
        = ((a : Int) - (s.iregs isrc2 : Int)) % 2 ^ 32)
    ∧ GET_EPSR_OF (subs_core s a isrc2 idest)
        = (if toS32 a - toS32 (s.iregs isrc2) < -2 ^ 31
              ∨ 2 ^ 31 - 1 < toS32 a - toS32 (s.iregs isrc2) then 1 else 0)
    ∧ GET_PSR_CC (subs_core s a isrc2 idest)
        = (if toS32 (s.iregs isrc2) > toS32 a then 1 else 0) := by
  have hr : (a + (2 ^ 32 - s.iregs isrc2)) % 2 ^ 32 < 2 ^ 32 := Nat.mod_lt _ (by norm_num)
  rw [subs_core_eq]
  refine ⟨?_, ?_, ?_⟩
  · intro hd
    simp only [set_iregval, hd, if_false, upd_same, u32, Nat.mod_eq_of_lt hb]
    omega
  · rw [(flags_of_set _ _ _ _ _).1]
    simp only [u32, Nat.mod_eq_of_lt hb]
    rw [and_signbit a ha, and_signbit _ hb, and_signbit _ hr, toS32_of_lt a ha, toS32_of_lt _ hb]
    split_ifs <;> omega
  · rw [(flags_of_set _ _ _ _ _).2]
    split_ifs <;> rfl

theorem delay_slot_eq (exec : State → Nat → Option State) (s : State) :
    delay_slot exec s s.pc
      = (exec (slot_fetch s).2 (slot_fetch s).1).map (fun s2 => { s2 with pc := s.pc }) := by
  simp only [delay_slot, slot_fetch]
  split <;> simp_all

theorem target_lbroff_eq (s : State) (insn : Nat) :
    target_lbroff s insn
      = Int.toNat (((s.pc : Int) + 4 + 4 * sval 26 (insn &&& 0x03ffffff)) % 2 ^ 32) := by
  have hx : insn &&& 0x03ffffff < 2 ^ 26 :=
    Nat.and_lt_two_pow insn (by norm_num : (0x03ffffff : Nat) < 2 ^ 26)
  unfold target_lbroff
  simp only [sign_ext_sext 26 _ (by norm_num) (by norm_num) hx]
  unfold sext sval u32
  rw [Nat.mod_eq_of_lt hx, Nat.shiftLeft_eq]
  generalize insn &&& 0x03ffffff = x at hx ⊢
  split <;> omega

theorem target_sbroff_eq (s : State) (insn : Nat) :
    target_sbroff s insn
      = Int.toNat (((s.pc : Int) + 4
          + 4 * sval 16 (((insn >>> 5) &&& 0xf800) ||| (insn &&& 0x07ff))) % 2 ^ 32) := by
  have hx : ((insn >>> 5) &&& 0xf800) ||| (insn &&& 0x07ff) < 2 ^ 16 :=
    Nat.or_lt_two_pow (Nat.and_lt_two_pow _ (by norm_num : (0xf800 : Nat) < 2 ^ 16))
      (Nat.and_lt_two_pow _ (by norm_num : (0x07ff : Nat) < 2 ^ 16))
  unfold target_sbroff
  simp only [sign_ext_sext 16 _ (by norm_num) (by norm_num) hx]
  unfold sext sval u32
  rw [Nat.mod_eq_of_lt hx, Nat.shiftLeft_eq]
  generalize ((insn >>> 5) &&& 0xf800) ||| (insn &&& 0x07ff) = x at hx ⊢
  split <;> omega

theorem xlate_fault_frame (s : State) (dr : Bool) :
    ∃ c p m, (xlate_fault s dr).2 = { s with cregs := c, pending_trap := p, mem := m } := by
  cases dr <;> exact ⟨_, _, _, rfl⟩

theorem xlate_fault_dat_frame (s : State) :
    ∃ c p m, (xlate_fault_dat s).2 = { s with cregs := c, pending_trap := p, mem := m } :=
  ⟨_, _, _, rfl⟩

theorem frame_trans {s t u : State}
    (h1 : ∃ c p m, t = { s with cregs := c, pending_trap := p, mem := m })
    (h2 : ∃ c p m, u = { t with cregs := c, pending_trap := p, mem := m }) :
    ∃ c p m, u = { s with cregs := c, pending_trap := p, mem := m } := by
  obtain ⟨c, p, m, rfl⟩ := h1
  obtain ⟨c', p', m', rfl⟩ := h2
  exact ⟨_, _, _, rfl⟩

theorem wr32i_frame (s : State) (a v : Nat) :
    ∃ c p m, wr32i s a v = { s with cregs := c, pending_trap := p, mem := m } :=
  ⟨_, _, _, rfl⟩

theorem xlate_frame (s : State) (v : Nat) (dr w : Bool) :
    ∃ c p m, (get_address_translation s v dr w).2
      = { s with cregs := c, pending_trap := p, mem := m } := by
  unfold get_address_translation
  lift_lets
  intro vdir vpage voffset dtb pde_a pde
  split
  · exact xlate_fault_frame s dr
  split
  · exact xlate_fault_dat_frame s
  split
  · exact xlate_fault_frame s dr
  intro pfa1 pte_a pte
  split
  · exact xlate_fault_frame s dr
  split
  · exact xlate_fault_dat_frame s
  split
  · exact xlate_fault_frame s dr
  intro ttpde ttpte s1 s2
  have h2 : ∃ c p m, s2 = { s with cregs := c, pending_trap := p, mem := m } :=
    frame_trans (wr32i_frame s _ _) (wr32i_frame _ _ _)
  split
  · exact frame_trans h2 (xlate_fault_dat_frame s2)
  · exact h2

theorem ifetch_frame (s : State) (pc : Nat) :
    ∃ c p m e, (ifetch s pc).2
      = { s with cregs := c, pending_trap := p, mem := m, exiting_ifetch := e } := by
  obtain ⟨c, p, m, h⟩ := xlate_frame s pc false false
  unfold ifetch
  split
  · simp only []
    rw [h]
    split
    · exact ⟨_, _, _, _, rfl⟩
    split <;> exact ⟨_, _, _, _, rfl⟩
  · split <;> exact ⟨_, _, _, _, rfl⟩

theorem slot_fetch_iregs (s : State) : (slot_fetch s).2.iregs = s.iregs := by
  unfold slot_fetch
  obtain ⟨c, p, m, e, h⟩ := ifetch_frame { s with pc := u32 (s.pc + 4) } (u32 (s.pc + 4))
  rw [h]

theorem getField_one_le (y q : Nat) : getField y q 1 % 2 = getField y q 1 := by
  rw [getField_one]
  cases y.testBit q <;> rfl

theorem rd_le4 (mem : Nat → Nat) (a : Nat) (ha : a + 4 ≤ 2 ^ 32) :
    rd_le mem a 4 = mem a % 256 + 256 * (mem (a + 1) % 256 + 256 * (mem (a + 2) % 256
      + 256 * (mem (a + 3) % 256))) := by
  simp only [rd_le]
  rw [Nat.mod_eq_of_lt (by omega : a < 2 ^ 32), Nat.mod_eq_of_lt (by omega : a + 1 < 2 ^ 32),
    Nat.mod_eq_of_lt (by omega : a + 1 + 1 < 2 ^ 32),
    Nat.mod_eq_of_lt (by omega : a + 1 + 1 + 1 < 2 ^ 32)]
  simp [Nat.add_assoc]

theorem rd_be4 (mem : Nat → Nat) (a : Nat) (ha : a + 4 ≤ 2 ^ 32) :
    rd_be mem a 4 = mem a % 256 * 256 ^ 3 + (mem (a + 1) % 256 * 256 ^ 2
      + (mem (a + 2) % 256 * 256 ^ 1 + (mem (a + 3) % 256 * 256 ^ 0 + 0))) := by
  simp only [rd_be]
  rw [Nat.mod_eq_of_lt (by omega : a < 2 ^ 32), Nat.mod_eq_of_lt (by omega : a + 1 < 2 ^ 32),
    Nat.mod_eq_of_lt (by omega : a + 1 + 1 < 2 ^ 32),
    Nat.mod_eq_of_lt (by omega : a + 1 + 1 + 1 < 2 ^ 32)]

theorem wr_le4 (mem : Nat → Nat) (a v : Nat) (ha : a + 4 ≤ 2 ^ 32) :
    wr_le mem a 4 v = upd (upd (upd (upd mem a (v % 256)) (a + 1) (v / 256 % 256))
      (a + 2) (v / 256 / 256 % 256)) (a + 3) (v / 256 / 256 / 256 % 256) := by
  simp only [wr_le]
  rw [Nat.mod_eq_of_lt (by omega : a < 2 ^ 32), Nat.mod_eq_of_lt (by omega : a + 1 < 2 ^ 32),
    Nat.mod_eq_of_lt (by omega : a + 1 + 1 < 2 ^ 32),
    Nat.mod_eq_of_lt (by omega : a + 1 + 1 + 1 < 2 ^ 32)]

theorem wr_be4 (mem : Nat → Nat) (a v : Nat) (ha : a + 4 ≤ 2 ^ 32) :
    wr_be mem a 4 v = upd (upd (upd (upd mem a (v / 256 ^ 3 % 256)) (a + 1) (v / 256 ^ 2 % 256))
      (a + 2) (v / 256 ^ 1 % 256)) (a + 3) (v / 256 ^ 0 % 256) := by
  simp only [wr_be]
  rw [Nat.mod_eq_of_lt (by omega : a < 2 ^ 32), Nat.mod_eq_of_lt (by omega : a + 1 < 2 ^ 32),
    Nat.mod_eq_of_lt (by omega : a + 1 + 1 < 2 ^ 32),
    Nat.mod_eq_of_lt (by omega : a + 1 + 1 + 1 < 2 ^ 32)]

/-- Reading back a word just written. -/
theorem rd32_wr32_same (s : State) (a v : Nat) (ha : a + 4 ≤ 2 ^ 32) (hv : v < 2 ^ 32) :
    read_physical (write_physical s a 4 v) a 4 = v := by
  have hbe : GET_EPSR_BE (write_physical s a 4 v) = GET_EPSR_BE s := rfl
  unfold read_physical
  rw [hbe]
  unfold write_physical
  by_cases h : GET_EPSR_BE s ≠ 0
  · rw [if_pos h]
    simp only [if_pos h]
    rw [rd_be4 _ _ ha, wr_be4 _ _ _ ha]
    simp [upd]
    omega
  · rw [if_neg h]
    simp only [if_neg h]
    rw [rd_le4 _ _ ha, wr_le4 _ _ _ ha]
    simp [upd]
    omega

theorem upd4_other (m : Nat → Nat) (b x0 x1 x2 x3 c : Nat) (h : c < b ∨ b + 4 ≤ c) :
    upd (upd (upd (upd m b x0) (b + 1) x1) (b + 2) x2) (b + 3) x3 c = m c := by
  simp only [upd]
  repeat' split
  all_goals omega

/-- Reading a word disjoint from the word just written. -/
theorem rd32_wr32_other (s : State) (a b v : Nat) (ha : a + 4 ≤ 2 ^ 32) (hb : b + 4 ≤ 2 ^ 32)
    (hd : a + 4 ≤ b ∨ b + 4 ≤ a) :
    read_physical (write_physical s b 4 v) a 4 = read_physical s a 4 := by
  have hbe : GET_EPSR_BE (write_physical s b 4 v) = GET_EPSR_BE s := rfl
  unfold read_physical
  rw [hbe]
  unfold write_physical
  by_cases h : GET_EPSR_BE s ≠ 0
  · rw [if_pos h, if_pos h]
    simp only [if_pos h]
    rw [rd_be4 _ _ ha, rd_be4 _ _ ha, wr_be4 _ _ _ hb]
    rw [upd4_other _ _ _ _ _ _ a (by omega), upd4_other _ _ _ _ _ _ (a + 1) (by omega),
      upd4_other _ _ _ _ _ _ (a + 2) (by omega), upd4_other _ _ _ _ _ _ (a + 3) (by omega)]
  · rw [if_neg h, if_neg h]
    simp only [if_neg h]
    rw [rd_le4 _ _ ha, rd_le4 _ _ ha, wr_le4 _ _ _ hb]
    rw [upd4_other _ _ _ _ _ _ a (by omega), upd4_other _ _ _ _ _ _ (a + 1) (by omega),
      upd4_other _ _ _ _ _ _ (a + 2) (by omega), upd4_other _ _ _ _ _ _ (a + 3) (by omega)]

theorem read_physical4_lt (s : State) (a : Nat) : read_physical s a 4 < 2 ^ 32 := by
  unfold read_physical
  split
  · simp only [rd_be]
    have h1 := Nat.mod_lt (s.mem (a % 2 ^ 32)) (by norm_num : 256 > 0)
    have h2 := Nat.mod_lt (s.mem ((a + 1) % 2 ^ 32)) (by norm_num : 256 > 0)
    have h3 := Nat.mod_lt (s.mem ((a + 1 + 1) % 2 ^ 32)) (by norm_num : 256 > 0)
    have h4 := Nat.mod_lt (s.mem ((a + 1 + 1 + 1) % 2 ^ 32)) (by norm_num : 256 > 0)
    omega
  · simp only [rd_le]
    have h1 := Nat.mod_lt (s.mem (a % 2 ^ 32)) (by norm_num : 256 > 0)
    have h2 := Nat.mod_lt (s.mem ((a + 1) % 2 ^ 32)) (by norm_num : 256 > 0)
    have h3 := Nat.mod_lt (s.mem ((a + 1 + 1) % 2 ^ 32)) (by norm_num : 256 > 0)
    have h4 := Nat.mod_lt (s.mem ((a + 1 + 1 + 1) % 2 ^ 32)) (by norm_num : 256 > 0)
    omega

theorem xlate_unfold (s : State) (v : Nat) (dr w : Bool) :
    get_address_translation s v dr w =
      if pde_val s v &&& 1 = 0 then xlate_fault s dr
      else if w = true ∧ dr = true ∧ pde_val s v &&& 2 = 0
          ∧ (GET_PSR_U s ≠ 0 ∨ GET_EPSR_WP s ≠ 0) then xlate_fault_dat s
      else if GET_PSR_U s ≠ 0 ∧ pde_val s v &&& 4 = 0 then xlate_fault s dr
      else if pte_val s v &&& 1 = 0 then xlate_fault s dr
      else if w = true ∧ dr = true ∧ pte_val s v &&& 2 = 0
          ∧ (GET_PSR_U s ≠ 0 ∨ GET_EPSR_WP s ≠ 0) then xlate_fault_dat s
      else if GET_PSR_U s ≠ 0 ∧ pte_val s v &&& 4 = 0 then xlate_fault s dr
      else if w = true ∧ dr = true ∧ pte_val s v &&& 0x40 = 0 then
        xlate_fault_dat (accessed_writeback s v)
      else ((pte_val s v &&& 0xfffff000) ||| (v &&& 0xfff), accessed_writeback s v) := rfl

theorem xlate_not_faulting (s : State) (v : Nat) (dr w : Bool)
    (hd : ¬ entry_faults s (pde_val s v) dr w) (ht : ¬ entry_faults s (pte_val s v) dr w) :
    get_address_translation s v dr w =
      if w = true ∧ dr = true ∧ pte_val s v &&& 0x40 = 0 then
        xlate_fault_dat (accessed_writeback s v)
      else ((pte_val s v &&& 0xfffff000) ||| (v &&& 0xfff), accessed_writeback s v) := by
  unfold entry_faults at hd ht
  simp only [not_or] at hd ht
  obtain ⟨hd1, hd2, hd3⟩ := hd
  obtain ⟨ht1, ht2, ht3⟩ := ht
  rw [xlate_unfold, if_neg hd1, if_neg hd2, if_neg hd3, if_neg ht1, if_neg ht2, if_neg ht3]

theorem xlate_faulting (s : State) (v : Nat) (dr w : Bool)
    (h : entry_faults s (pde_val s v) dr w
      ∨ (¬ entry_faults s (pde_val s v) dr w ∧ entry_faults s (pte_val s v) dr w)) :
    get_address_translation s v dr w = xlate_fault s dr := by
  have hdat : ∀ e, (w = true ∧ dr = true ∧ e &&& 2 = 0 ∧ (GET_PSR_U s ≠ 0 ∨ GET_EPSR_WP s ≠ 0))
      → xlate_fault_dat s = xlate_fault s dr := by
    intro e he
    rw [he.2.1]
    rfl
  rw [xlate_unfold]
  by_cases h1 : pde_val s v &&& 1 = 0
  · rw [if_pos h1]
  rw [if_neg h1]
  by_cases h2 : w = true ∧ dr = true ∧ pde_val s v &&& 2 = 0
      ∧ (GET_PSR_U s ≠ 0 ∨ GET_EPSR_WP s ≠ 0)
  · rw [if_pos h2]; exact hdat _ h2
  rw [if_neg h2]
  by_cases h3 : GET_PSR_U s ≠ 0 ∧ pde_val s v &&& 4 = 0
  · rw [if_pos h3]
  rw [if_neg h3]
  by_cases h4 : pte_val s v &&& 1 = 0
  · rw [if_pos h4]
  rw [if_neg h4]
  by_cases h5 : w = true ∧ dr = true ∧ pte_val s v &&& 2 = 0
      ∧ (GET_PSR_U s ≠ 0 ∨ GET_EPSR_WP s ≠ 0)
  · rw [if_pos h5]; exact hdat _ h5
  rw [if_neg h5]
  by_cases h6 : GET_PSR_U s ≠ 0 ∧ pte_val s v &&& 4 = 0
  · rw [if_pos h6]
  exfalso
  rcases h with h | ⟨_, h⟩
  · rcases h with h | h | h
    · exact h1 h
    · exact h2 h
    · exact h3 h
  · rcases h with h | h | h
    · exact h4 h
    · exact h5 h
    · exact h6 h

theorem entry_addr_aligned (a y : Nat) :
    ((a &&& 0xfffff000) ||| ((y &&& 0x3ff) <<< 2)) % 4 = 0
      ∧ ((a &&& 0xfffff000) ||| ((y &&& 0x3ff) <<< 2)) + 4 ≤ 2 ^ 32 := by
  have h3 : ((a &&& 0xfffff000) ||| ((y &&& 0x3ff) <<< 2)) &&& (2 ^ 2 - 1) = 0 := by
    apply Nat.eq_of_testBit_eq
    intro i
    rw [Nat.testBit_and, Nat.testBit_or, Nat.testBit_and, Nat.testBit_shiftLeft,
      Nat.zero_testBit, Nat.testBit_two_pow_sub_one]
    rcases i with _ | _ | i
    · simp
    · simp
      intro _
      decide
    · simp
  rw [Nat.and_pow_two_sub_one_eq_mod] at h3
  have hlt : ((a &&& 0xfffff000) ||| ((y &&& 0x3ff) <<< 2)) < 2 ^ 32 := by
    apply Nat.or_lt_two_pow
    · exact Nat.and_lt_two_pow _ (by norm_num)
    · rw [Nat.shiftLeft_eq]
      have : y &&& 0x3ff ≤ 0x3ff := Nat.and_le_right
      omega
  constructor
  · simpa using h3
  · have h4 : ((a &&& 0xfffff000) ||| ((y &&& 0x3ff) <<< 2)) % 4 = 0 := by simpa using h3
    omega

theorem pde_addr_aligned (s : State) (v : Nat) :
    pde_addr s v % 4 = 0 ∧ pde_addr s v + 4 ≤ 2 ^ 32 := entry_addr_aligned _ _

theorem pte_addr_aligned (s : State) (v : Nat) :
    pte_addr s v % 4 = 0 ∧ pte_addr s v + 4 ≤ 2 ^ 32 := entry_addr_aligned _ _

theorem wr32i_cregs (s : State) (a v : Nat) : (wr32i s a v).cregs = s.cregs := rfl

/-- After the write-back both entries hold their previous value with the
accessed bit set. -/
theorem accessed_writeback_entries (s : State) (v : Nat) :
    rd32i (accessed_writeback s v) (pde_addr s v) = pde_val s v ||| 0x20
      ∧ rd32i (accessed_writeback s v) (pte_addr s v) = pte_val s v ||| 0x20 := by
  obtain ⟨hd4, hd⟩ := pde_addr_aligned s v
  obtain ⟨ht4, ht⟩ := pte_addr_aligned s v
  have hdv : pde_val s v ||| 0x20 < 2 ^ 32 :=
    Nat.or_lt_two_pow (read_physical4_lt s _) (by norm_num)
  have htv : pte_val s v ||| 0x20 < 2 ^ 32 :=
    Nat.or_lt_two_pow (read_physical4_lt s _) (by norm_num)
  unfold accessed_writeback rd32i wr32i
  refine ⟨?_, rd32_wr32_same _ _ _ ht htv⟩
  by_cases e : pde_addr s v = pte_addr s v
  · have ev : pde_val s v = pte_val s v := by
      unfold pte_val
      rw [← e]
      rfl
    rw [← e, ← ev]
    exact rd32_wr32_same _ _ _ hd hdv
  · rw [rd32_wr32_other _ _ _ _ hd ht (by omega)]
    exact rd32_wr32_same _ _ _ hd hdv

theorem wr32i_mem_other (s : State) (a v x : Nat) (ha : a + 4 ≤ 2 ^ 32)
    (hx : x < a ∨ a + 4 ≤ x) : (wr32i s a v).mem x = s.mem x := by
  unfold wr32i write_physical
  by_cases h : GET_EPSR_BE s ≠ 0
  · simp only [if_pos h]
    rw [wr_be4 _ _ _ ha]
    exact upd4_other _ _ _ _ _ _ _ hx
  · simp only [if_neg h]
    rw [wr_le4 _ _ _ ha]
    exact upd4_other _ _ _ _ _ _ _ hx

theorem accessed_writeback_mem_other (s : State) (v x : Nat)
    (hd : x < pde_addr s v ∨ pde_addr s v + 4 ≤ x)
    (ht : x < pte_addr s v ∨ pte_addr s v + 4 ≤ x) :
    (accessed_writeback s v).mem x = s.mem x := by
  unfold accessed_writeback
  rw [wr32i_mem_other _ _ _ _ (pte_addr_aligned s v).2 ht,
    wr32i_mem_other _ _ _ _ (pde_addr_aligned s v).2 hd]

theorem rd32i_congr (s t : State) (a : Nat) (hm : t.mem = s.mem)
    (hc : t.cregs CR_EPSR = s.cregs CR_EPSR) : rd32i t a = rd32i s a := by
  unfold rd32i read_physical GET_EPSR_BE
  rw [hm, hc]

theorem get_dat_set (s : State) : GET_PSR_DAT (SET_PSR_DAT s 1) = 1 := by
  unfold GET_PSR_DAT SET_PSR_DAT setCreg
  simp only [upd_same]
  rw [getField_setField_same]

theorem get_iat_set (s : State) : GET_PSR_IAT (SET_PSR_IAT s 1) = 1 := by
  unfold GET_PSR_IAT SET_PSR_IAT setCreg
  simp only [upd_same]
  rw [getField_setField_same]

theorem xlate_fault_flags (s : State) (dr : Bool) :
    (xlate_fault s dr).1 = 0 ∧ (xlate_fault s dr).2.pending_trap = TRAP_NORMAL
      ∧ (dr = true → GET_PSR_DAT (xlate_fault s dr).2 = 1)
      ∧ (dr = false → GET_PSR_IAT (xlate_fault s dr).2 = 1)
      ∧ (xlate_fault s dr).2.mem = s.mem := by
  refine ⟨rfl, rfl, ?_, ?_, ?_⟩
  · intro h; subst h; exact get_dat_set s
  · intro h; subst h; exact get_iat_set s
  · cases dr <;> rfl

theorem xlate_fault_dat_flags (s : State) :
    (xlate_fault_dat s).1 = 0 ∧ (xlate_fault_dat s).2.pending_trap = TRAP_NORMAL
      ∧ GET_PSR_DAT (xlate_fault_dat s).2 = 1
      ∧ (xlate_fault_dat s).2.mem = s.mem
      ∧ (xlate_fault_dat s).2.cregs CR_EPSR = s.cregs CR_EPSR := by
  refine ⟨rfl, rfl, get_dat_set s, rfl, ?_⟩
  exact upd_other s.cregs CR_PSR CR_EPSR (setField (s.cregs CR_PSR) 11 1 1)
    (show CR_EPSR ≠ CR_PSR by decide)

theorem console_hook_other (s : State) (addr data : Nat)
    (hc : addr ≠ 0xF83FE800 ∧ addr ≠ 0xF80ff800) : console_hook s addr data = s := by
  unfold console_hook
  rw [if_neg (by rintro (h | h); exact hc.1 h; exact hc.2 h)]

theorem writememi_emu_fault (s : State) (addr size data : Nat) (hate : GET_DIRBASE_ATE s ≠ 0)
    (hc : addr ≠ 0xF83FE800 ∧ addr ≠ 0xF80ff800) (t : State)
    (hx : (get_address_translation s addr true true).2 = t)
    (hp : t.pending_trap ≠ 0) (hdat : GET_PSR_DAT t = 1) :
    writememi_emu s addr size data = { t with exiting_readmem := 2 } := by
  unfold writememi_emu
  simp only [console_hook_other s addr data hc, if_pos hate, hx]
  rw [if_pos ⟨hate, hp, Or.inr (by rw [hdat]; decide)⟩]

theorem fp_writemem_emu_fault (s : State) (addr size : Nat) (data : List Nat) (wmask : Nat)
    (hate : GET_DIRBASE_ATE s ≠ 0) (t : State)
    (hx : (get_address_translation s addr true true).2 = t)
    (hp : t.pending_trap ≠ 0) (hdat : GET_PSR_DAT t = 1) :
    fp_writemem_emu s addr size data wmask = { t with exiting_readmem := 4 } := by
  unfold fp_writemem_emu
  simp only [if_pos hate, hx]
  rw [if_pos ⟨hate, hp, (by rw [hdat]; decide)⟩]

/-- A write through the shim that ends in a dirty-bit fault of the
translator, seen from the state `t` after the accessed-bit write-back. -/
theorem write_dirty_fault_state (t r : State) (e : Nat)
    (hr : r = { (xlate_fault_dat t).2 with exiting_readmem := e }) (a : Nat) :
    r.mem = t.mem ∧ rd32i r a = rd32i t a ∧ GET_PSR_DAT r = 1
      ∧ r.pending_trap = TRAP_NORMAL := by
  subst hr
  obtain ⟨_, _, c, _, e5⟩ := xlate_fault_dat_flags t
  exact ⟨rfl, rd32i_congr t _ a rfl e5, c, rfl⟩

theorem frg_write_below (frg : Nat → Nat) (i n v j : Nat) (h : j < i) :
    frg_write frg i n v j = frg j := by
  induction n generalizing frg i v with
  | zero => rfl
  | succ n ih =>
    simp only [frg_write]
    rw [ih _ _ _ (by omega), upd_other _ _ _ _ (by omega)]

theorem frg_read_write (frg : Nat → Nat) (i n v : Nat) :
    frg_read (frg_write frg i n v) i n = v % 256 ^ n := by
  induction n generalizing frg i v with
  | zero => simp [frg_read, Nat.mod_one]
  | succ n ih =>
    simp only [frg_write, frg_read]
    rw [ih, frg_write_below _ _ _ _ _ (by omega), upd_same, Nat.mod_mod, pow_succ,
      Nat.mul_comm (256 ^ n) 256, Nat.mod_mul]

theorem get_set_fregval_s (s : State) (fr v : Nat) (h : 1 < fr) :
    get_fregval_s (set_fregval_s s fr v) fr = v % 2 ^ 32 := by
  unfold get_fregval_s set_fregval_s
  rw [if_pos h]
  exact frg_read_write _ _ 4 _

theorem get_set_fregval_d (s : State) (fr v : Nat) (h : 1 < fr) :
    get_fregval_d (set_fregval_d s fr v) fr = v % 2 ^ 64 := by
  unfold get_fregval_d set_fregval_d
  rw [if_pos h]
  exact frg_read_write _ _ 8 _


theorem and_of_and_mask (w a b : Nat) (h : a &&& b = b) : w &&& b = (w &&& a) &&& b := by
  rw [Nat.land_assoc, h]

theorem fsr_copy_bit_M (s : State) (f b : Nat) : (fsr_copy_bit s f b).M = s.M := by
  unfold fsr_copy_bit
  split <;> rfl

theorem fsr_copy_bit_A (s : State) (f b : Nat) : (fsr_copy_bit s f b).A = s.A := by
  unfold fsr_copy_bit
  split <;> rfl

theorem fsr_copy_bit_frg (s : State) (f b : Nat) : (fsr_copy_bit s f b).frg = s.frg := by
  unfold fsr_copy_bit
  split <;> rfl

theorem insn_fmul_pss (fp : HostFP) (s : State) (w : Nat) (hp : w &&& 0x400 ≠ 0)
    (hsp : w &&& 0x100 = 0) (hrp : w &&& 0x080 = 0) (h3 : w &&& 0x4 = 0) :
    insn_fmul fp s w =
      advance_M
        (set_fregval_by (fsr_copy_bit s (s.M 1).prec 0x10000000) (s.M 2).prec (get_fdest w)
          (if (s.M 2).prec ≠ 0 then union_d (s.M 2).val else 0)
          (if (s.M 2).prec = 0 then union_s (s.M 2).val else 0))
        3 0 0
        (fp.mul_s (get_fregval_s s (get_fsrc1 w))
          (if get_fdest w ≠ 0 ∧ get_fsrc2 w = get_fdest w then
            (if (s.M 2).prec = 0 then union_s (s.M 2).val else 0)
           else get_fregval_s s (get_fsrc2 w))) := by
  have hv : w &&& 0x180 ≠ 0x100 := by
    intro h
    have := and_of_and_mask w 0x180 0x100 (by decide)
    rw [h, hsp] at this
    exact absurd this (by decide)
  unfold insn_fmul
  simp only [hp, hsp, hrp, h3, hv, ne_eq, not_true_eq_false, false_and, and_false, if_false,
    not_false_eq_true, true_and, if_true, fsr_copy_bit_M, Nat.reduceSub]

theorem set_fregval_by_M (s : State) (f d a b : Nat) : (set_fregval_by s f d a b).M = s.M := by
  unfold set_fregval_by set_fregval_d set_fregval_s
  split <;> split <;> rfl

theorem set_fregval_by_A (s : State) (f d a b : Nat) : (set_fregval_by s f d a b).A = s.A := by
  unfold set_fregval_by set_fregval_d set_fregval_s
  split <;> split <;> rfl

theorem union_s_set_s (v x : Nat) : union_s (union_set_s v x) = x % 2 ^ 32 := by
  unfold union_s union_set_s
  omega

theorem insn_fmul_pdd (fp : HostFP) (s : State) (w : Nat) (hp : w &&& 0x400 ≠ 0)
    (hsp : w &&& 0x100 ≠ 0) (hrp : w &&& 0x080 ≠ 0) (h3 : w &&& 0x4 = 0) :
    insn_fmul fp s w =
      advance_M
        (set_fregval_by (fsr_copy_bit s (s.M 0).prec 0x10000000) (s.M 1).prec (get_fdest w)
          (if (s.M 1).prec ≠ 0 then union_d (s.M 1).val else 0)
          (if (s.M 1).prec = 0 then union_s (s.M 1).val else 0))
        2 (w &&& 0x080)
        (fp.mul_d (get_fregval_d s (get_fsrc1 w))
          (if get_fdest w ≠ 0 ∧ get_fsrc2 w = get_fdest w then
            (if (s.M 1).prec ≠ 0 then union_d (s.M 1).val else 0)
           else get_fregval_d s (get_fsrc2 w))) 0 := by
  have hv : w &&& 0x180 ≠ 0x100 := by
    intro h
    have := and_of_and_mask w 0x180 0x080 (by decide)
    rw [h] at this
    exact hrp this
  unfold insn_fmul
  simp only [hp, hsp, hrp, h3, hv, ne_eq, not_true_eq_false, false_and, and_false, if_false,
    not_false_eq_true, true_and, if_true, fsr_copy_bit_M, Nat.reduceSub, and_self]

/-- One pipelined single-precision multiply: the stages move on by one, the
product enters stage 0 as a single, and the destination receives the old
stage 2. -/
theorem pfmul_ss_step (fp : HostFP) (s : State) (w : Nat) (hp : w &&& 0x400 ≠ 0)
    (hsp : w &&& 0x100 = 0) (hrp : w &&& 0x080 = 0) (h3 : w &&& 0x4 = 0) :
    ((insn_fmul fp s w).M 0).prec = 0
      ∧ union_s ((insn_fmul fp s w).M 0).val
          = fp.mul_s (get_fregval_s s (get_fsrc1 w))
              (if get_fdest w ≠ 0 ∧ get_fsrc2 w = get_fdest w then
                (if (s.M 2).prec = 0 then union_s (s.M 2).val else 0)
               else get_fregval_s s (get_fsrc2 w)) % 2 ^ 32
      ∧ (insn_fmul fp s w).M 1 = s.M 0
      ∧ (insn_fmul fp s w).M 2 = s.M 1
      ∧ ((s.M 2).prec = 0 → 2 ≤ get_fdest w →
          get_fregval_s (insn_fmul fp s w) (get_fdest w) = union_s (s.M 2).val) := by
  rw [insn_fmul_pss fp s w hp hsp hrp h3]
  generalize fp.mul_s _ _ = p
  refine ⟨?_, ?_, ?_, ?_, ?_⟩
  · simp [advance_M, stage_set_s]
  · simp only [advance_M, if_true, ne_eq, not_true_eq_false, if_false, upd_same, stage_set_s]
    exact union_s_set_s _ _
  · simp only [advance_M, if_true, set_fregval_by_M, fsr_copy_bit_M]
    rw [upd_other _ _ _ _ (by decide), upd_same]
  · simp only [advance_M, if_true, set_fregval_by_M, fsr_copy_bit_M]
    rw [upd_other _ _ _ _ (by decide), upd_other _ _ _ _ (by decide), upd_same]
  · intro h0 hd
    have e : ∀ t : State, ∀ n r d g, get_fregval_s (advance_M t n r d g) (get_fdest w)
        = get_fregval_s t (get_fdest w) := fun _ _ _ _ _ => rfl
    rw [e]
    unfold set_fregval_by
    rw [if_neg (by simp [h0]), if_pos h0, get_set_fregval_s _ _ _ (by omega)]
    unfold union_s
    exact Nat.mod_mod _ _

/-- One pipelined double-precision multiply (`pfmul.dd`): stage 1 receives the
old stage 0, the product enters stage 0 as a double, and the destination
receives the old stage 1. -/
theorem pfmul_dd_step (fp : HostFP) (s : State) (w : Nat) (hp : w &&& 0x400 ≠ 0)
    (hsp : w &&& 0x100 ≠ 0) (hrp : w &&& 0x080 ≠ 0) (h3 : w &&& 0x4 = 0) :
    ((insn_fmul fp s w).M 0).prec = 1
      ∧ union_d ((insn_fmul fp s w).M 0).val
          = fp.mul_d (get_fregval_d s (get_fsrc1 w))
              (if get_fdest w ≠ 0 ∧ get_fsrc2 w = get_fdest w then
                (if (s.M 1).prec ≠ 0 then union_d (s.M 1).val else 0)
               else get_fregval_d s (get_fsrc2 w)) % 2 ^ 64
      ∧ (insn_fmul fp s w).M 1 = s.M 0
      ∧ ((s.M 1).prec ≠ 0 → 2 ≤ get_fdest w →
          get_fregval_d (insn_fmul fp s w) (get_fdest w) = union_d (s.M 1).val) := by
  rw [insn_fmul_pdd fp s w hp hsp hrp h3]
  generalize fp.mul_d _ _ = p
  refine ⟨?_, ?_, ?_, ?_⟩
  · simp [advance_M, stage_set_d, hrp]
  · simp only [advance_M, hrp, ne_eq, not_false_eq_true, if_true, upd_same, stage_set_d,
      union_set_d, union_d]
    simp
  · simp only [advance_M, set_fregval_by_M, fsr_copy_bit_M]
    rw [upd_other _ _ _ _ (by decide)]
    simp
  · intro h0 hd
    have e : ∀ t : State, ∀ n r d g, get_fregval_d (advance_M t n r d g) (get_fdest w)
        = get_fregval_d t (get_fdest w) := fun _ _ _ _ _ => rfl
    rw [e]
    unfold set_fregval_by
    rw [if_pos h0, if_pos h0, get_set_fregval_d _ _ _ (by omega)]
    unfold union_d
    exact Nat.mod_mod _ _

theorem insn_fadd_sub_eq (fp : HostFP) (s : State) (insn : Nat) :
    insn_fadd_sub fp s insn =
      if insn &&& 0x180 = 0x100 then unrecog_opcode s s.pc insn
      else if insn &&& 0x400 = 0 then
        set_fregval_by s (insn &&& 0x080) (get_fdest insn) (fadd_sub_tmp fp s insn).1
          (fadd_sub_tmp fp s insn).2
      else
        advance_A
          (set_fregval_by (fsr_copy_bit s (s.A 1).prec 0x20000000)
            ((fsr_copy_bit s (s.A 1).prec 0x20000000).A 2).prec (get_fdest insn)
            (if insn &&& 0x400 ≠ 0 ∧ (s.A 2).prec ≠ 0 then union_d (s.A 2).val else 0)
            (if insn &&& 0x400 ≠ 0 ∧ (s.A 2).prec = 0 then union_s (s.A 2).val else 0))
          (insn &&& 0x080) (fadd_sub_tmp fp s insn).1 (fadd_sub_tmp fp s insn).2 := rfl

theorem set_fregval_by_get (s : State) (f fd d g : Nat) (h : 2 ≤ fd) :
    (f ≠ 0 → get_fregval_d (set_fregval_by s f fd d g) fd = d % 2 ^ 64)
      ∧ (f = 0 → get_fregval_s (set_fregval_by s f fd d g) fd = g % 2 ^ 32) := by
  unfold set_fregval_by
  constructor
  · intro hf
    rw [if_pos hf]
    exact get_set_fregval_d _ _ _ (by omega)
  · intro hf
    rw [if_neg (by simp [hf])]
    exact get_set_fregval_s _ _ _ (by omega)

theorem insn_fmul_eq (fp : HostFP) (s : State) (insn : Nat) :
    insn_fmul fp s insn =
      if insn &&& 0x4 ≠ 0 ∧ insn &&& 0x180 ≠ 0x180 then unrecog_opcode s s.pc insn
      else if insn &&& 0x180 = 0x100 then unrecog_opcode s s.pc insn
      else if insn &&& 0x400 = 0 then
        set_fregval_by s (insn &&& 0x080) (get_fdest insn) (fmul_tmp fp s insn).1
          (fmul_tmp fp s insn).2
      else
        advance_M
          (set_fregval_by (fsr_copy_bit s (s.M (fmul_stages insn - 2)).prec 0x10000000)
            ((fsr_copy_bit s (s.M (fmul_stages insn - 2)).prec 0x10000000).M
              (fmul_stages insn - 1)).prec (get_fdest insn)
            (if insn &&& 0x400 ≠ 0 ∧ (s.M (fmul_stages insn - 1)).prec ≠ 0 then
              union_d (s.M (fmul_stages insn - 1)).val else 0)
            (if insn &&& 0x400 ≠ 0 ∧ (s.M (fmul_stages insn - 1)).prec = 0 then
              union_s (s.M (fmul_stages insn - 1)).val else 0))
          (fmul_stages insn) (insn &&& 0x080) (fmul_tmp fp s insn).1
          (fmul_tmp fp s insn).2 := rfl

theorem advance_M_zero (s : State) (n r d g : Nat) :
    (advance_M s n r d g).M 0
      = if r ≠ 0 then stage_set_d (s.M 0) d else stage_set_s (s.M 0) g := by
  have e : (if n = 3 then upd (upd s.M 2 (s.M 1)) 1 (s.M 0) else upd s.M 1 (s.M 0)) 0
      = s.M 0 := by
    split <;> simp [upd]
  unfold advance_M
  simp only [upd_same, e]

theorem advance_A_zero (s : State) (r d g : Nat) :
    (advance_A s r d g).A 0
      = if r ≠ 0 then stage_set_d (s.A 0) d else stage_set_s (s.A 0) g := by
  have e : (upd (upd s.A 2 (s.A 1)) 1 (s.A 0)) 0 = s.A 0 := by
    simp [upd]
  unfold advance_A
  simp only [upd_same, e]

theorem advance_M_frg (s : State) (n r d g : Nat) : (advance_M s n r d g).frg = s.frg := rfl

theorem advance_A_frg (s : State) (r d g : Nat) : (advance_A s r d g).frg = s.frg := rfl

theorem set_fregval_by_frg (s t : State) (f fd d g : Nat) (h : t.frg = s.frg) :
    (set_fregval_by t f fd d g).frg = (set_fregval_by s f fd d g).frg := by
  unfold set_fregval_by set_fregval_d set_fregval_s
  split <;> split <;> simp [h]

theorem src_opers_values :
    ∀ dpc, dpc < 16 →
      ((src_opers.getD dpc ⟨0, 0, 0, 0, 0, 0⟩).M_unit_op2 = OP_SRC2
        ∨ (src_opers.getD dpc ⟨0, 0, 0, 0, 0, 0⟩).M_unit_op2 = OP_APIPE ||| FLAGM)
      ∧ ((src_opers.getD dpc ⟨0, 0, 0, 0, 0, 0⟩).A_unit_op1 = OP_SRC1
        ∨ (src_opers.getD dpc ⟨0, 0, 0, 0, 0, 0⟩).A_unit_op1 = OP_T
        ∨ (src_opers.getD dpc ⟨0, 0, 0, 0, 0, 0⟩).A_unit_op1 = OP_APIPE ||| FLAGM)
      ∧ ((src_opers.getD dpc ⟨0, 0, 0, 0, 0, 0⟩).A_unit_op2 = OP_SRC2
        ∨ (src_opers.getD dpc ⟨0, 0, 0, 0, 0, 0⟩).A_unit_op2 = OP_MPIPE
        ∨ (src_opers.getD dpc ⟨0, 0, 0, 0, 0, 0⟩).A_unit_op2 = OP_APIPE ||| FLAGM) := by
  decide

theorem and_15_lt (n : Nat) : n &&& 0xf < 16 := by
  have : n &&& 0xf ≤ 0xf := Nat.and_le_right
  omega

/-- The shape of the result of a dual operation that is not rejected: the
loads of T and of KR/KI, the write of fdest, and the advance of both
pipelines. -/
theorem insn_dualop_shape (fp : HostFP) (s : State) (insn : Nat)
    (hv : insn &&& 0x180 ≠ 0x100) :
    ∃ (t : State) (f1 d1 g1 f2 n r2 d2 g2 f3 r3 d3 g3 : Nat),
      insn_dualop fp s insn
        = advance_A (fsr_copy_bit (advance_M (fsr_copy_bit
            (set_fregval_by t f1 (get_fdest insn) d1 g1) f2 0x10000000) n r2 d2 g2)
            f3 0x20000000) r3 d3 g3
      ∧ (∃ a b c, t = { s with T := a, KR := b, KI := c }) := by
  have h16 : ¬ (insn &&& 0x400 = 0 ∧ insn &&& 0xf = 16) := by
    have := and_15_lt insn
    omega
  unfold insn_dualop
  lift_lets
  intro fsrc1 fsrc2 fdest src_prec res_prec is_pfam is_sub nms dpc row op1 tl kl
  intro m2 a1 a2 lastM dlm slm lastA dla sla dby sby muld muls dtm stm ad1 ad2 as1 as2 dta sta
    s1 s2 s3 s4 s5 s6
  rw [if_neg hv, if_neg h16]
  have e1 : ∃ a, s1 = { s with T := a } := by
    simp only [s1]
    split_ifs <;> exact ⟨_, rfl⟩
  obtain ⟨a, e1⟩ := e1
  have e2 : ∃ a b c, s2 = { s with T := a, KR := b, KI := c } := by
    simp only [s2]
    rw [e1]
    split_ifs <;> exact ⟨_, _, _, rfl⟩
  have hres : advance_A s6 res_prec dta sta
      = advance_A (fsr_copy_bit (advance_M (fsr_copy_bit s3 (s3.M (nms - 2)).prec 0x10000000)
          nms res_prec dtm stm) (s5.A 1).prec 0x20000000) res_prec dta sta := rfl
  rw [hres]
  by_cases hp : is_pfam ≠ 0
  · have e3 : s3 = set_fregval_by s2 (s2.A 2).prec fdest dla sla := if_pos hp
    rw [e3]
    exact ⟨s2, _, _, _, _, _, _, _, _, _, _, _, _, rfl, e2⟩
  · have e3 : s3 = set_fregval_by s2 (s2.M (nms - 1)).prec fdest dlm slm := if_neg hp
    rw [e3]
    exact ⟨s2, _, _, _, _, _, _, _, _, _, _, _, _, rfl, e2⟩


theorem fsr_copy_bit_halted (s : State) (f b : Nat) : (fsr_copy_bit s f b).halted = s.halted := by
  unfold fsr_copy_bit
  split <;> rfl

theorem set_fregval_by_halted (s : State) (f d a b : Nat) :
    (set_fregval_by s f d a b).halted = s.halted := by
  unfold set_fregval_by set_fregval_d set_fregval_s
  split <;> split <;> rfl

theorem advance_A_stages (s : State) (r d g : Nat) :
    (advance_A s r d g).A 1 = s.A 0 ∧ (advance_A s r d g).A 2 = s.A 1 := by
  unfold advance_A
  constructor
  · simp [upd]
  · simp [upd]

theorem masked_wr8_mem_other (s : State) (w b a v x : Nat) (h : x ≠ a % 2 ^ 32) :
    (masked_wr8 s w b a v).mem x = s.mem x := by
  unfold masked_wr8 wr8 write_physical
  split
  · simp only [wr_be, wr_le]
    split <;> exact upd_other _ _ _ _ h
  · rfl

theorem masked_wr8_mem_same (s : State) (w b a v : Nat) :
    (masked_wr8 s w b a v).mem (a % 2 ^ 32)
      = if w &&& b ≠ 0 then v % 256 else s.mem (a % 2 ^ 32) := by
  unfold masked_wr8 wr8 write_physical
  split
  · simp only [wr_be, wr_le]
    split <;> simp [upd]
  · rfl

theorem masked_wr8_cregs (s : State) (w b a v : Nat) :
    (masked_wr8 s w b a v).cregs = s.cregs := by
  unfold masked_wr8 wr8 write_physical
  split <;> rfl

/-- Effect of the masked store of `fp_writemem_emu` on memory. -/
theorem masked_store_aux (s : State) (addr : Nat) (data : List Nat) (wmask : Nat)
    (hm : wmask ≠ 0xff)
    (hnf : ¬ (GET_DIRBASE_ATE s ≠ 0
      ∧ (if GET_DIRBASE_ATE s ≠ 0 then get_address_translation s addr true true
          else (addr, s)).2.pending_trap ≠ 0
      ∧ GET_PSR_DAT (if GET_DIRBASE_ATE s ≠ 0 then get_address_translation s addr true true
          else (addr, s)).2 ≠ 0))
    (hbp : ¬ ((if GET_DIRBASE_ATE s ≠ 0 then get_address_translation s addr true true
          else (addr, s)).1 &&& not32 (8 - 1)
        = (if GET_DIRBASE_ATE s ≠ 0 then get_address_translation s addr true true
          else (addr, s)).2.cregs CR_DB
      ∧ GET_PSR_BW (if GET_DIRBASE_ATE s ≠ 0 then get_address_translation s addr true true
          else (addr, s)).2 ≠ 0)) :
    (∀ k, k < 8 →
      (fp_writemem_emu s addr 8 data wmask).mem
          (((if GET_DIRBASE_ATE s ≠ 0 then get_address_translation s addr true true
              else (addr, s)).1
            + (if GET_EPSR_BE (if GET_DIRBASE_ATE s ≠ 0 then
                  get_address_translation s addr true true else (addr, s)).2 ≠ 0
               then 7 - k else k)) % 2 ^ 32)
        = if wmask &&& (0x80 >>> k) ≠ 0 then data.getD k 0 % 256
          else (if GET_DIRBASE_ATE s ≠ 0 then get_address_translation s addr true true
              else (addr, s)).2.mem
            (((if GET_DIRBASE_ATE s ≠ 0 then get_address_translation s addr true true
                else (addr, s)).1
              + (if GET_EPSR_BE (if GET_DIRBASE_ATE s ≠ 0 then
                    get_address_translation s addr true true else (addr, s)).2 ≠ 0
                 then 7 - k else k)) % 2 ^ 32))
    ∧ (∀ x, (∀ k, k < 8 →
          x ≠ ((if GET_DIRBASE_ATE s ≠ 0 then get_address_translation s addr true true
              else (addr, s)).1 + k) % 2 ^ 32) →
        (fp_writemem_emu s addr 8 data wmask).mem x
          = (if GET_DIRBASE_ATE s ≠ 0 then get_address_translation s addr true true
              else (addr, s)).2.mem x) := by
  unfold fp_writemem_emu
  generalize (if GET_DIRBASE_ATE s ≠ 0 then get_address_translation s addr true true
    else (addr, s)) = p at hnf hbp ⊢
  obtain ⟨a, t⟩ := p
  simp only [] at hnf hbp ⊢
  rw [if_neg hnf, if_neg hbp, if_pos ⟨trivial, hm⟩]
  by_cases hbe : GET_EPSR_BE t ≠ 0
  · rw [if_pos hbe]
    constructor
    · intro k hk
      simp only [if_pos hbe]
      interval_cases k
      all_goals
        simp (disch := omega) only [masked_wr8_mem_other, masked_wr8_mem_same, Nat.add_zero,
          Nat.sub_zero, Nat.reduceSub, Nat.reduceShiftRight, List.getD_eq_getElem?_getD]
    · intro x hx
      have h0 := hx 0 (by decide)
      have h1 := hx 1 (by decide)
      have h2 := hx 2 (by decide)
      have h3 := hx 3 (by decide)
      have h4 := hx 4 (by decide)
      have h5 := hx 5 (by decide)
      have h6 := hx 6 (by decide)
      have h7 := hx 7 (by decide)
      simp (disch := assumption) only [masked_wr8_mem_other]
  · rw [if_neg hbe]
    constructor
    · intro k hk
      simp only [if_neg hbe]
      interval_cases k
      all_goals
        simp (disch := omega) only [masked_wr8_mem_other, masked_wr8_mem_same, Nat.add_zero,
          Nat.sub_zero, Nat.reduceSub, Nat.reduceShiftRight, List.getD_eq_getElem?_getD]
    · intro x hx
      have h0 := hx 0 (by decide)
      have h1 := hx 1 (by decide)
      have h2 := hx 2 (by decide)
      have h3 := hx 3 (by decide)
      have h4 := hx 4 (by decide)
      have h5 := hx 5 (by decide)
      have h6 := hx 6 (by decide)
      have h7 := hx 7 (by decide)
      simp (disch := assumption) only [masked_wr8_mem_other]

set_option maxRecDepth 100000 in
theorem pstd_wmask_low :
    ∀ pm, pm < 256 → pm &&& 0xf = 1 → pstd_wmask 1 8 0 pm 0 = 3 := by
  decide

theorem frg_bytes_getD (frg : Nat → Nat) (i k : Nat) (hk : k < 8) :
    (frg_bytes frg i 8).getD k 0 = frg (i + k) % 256 := by
  unfold frg_bytes
  interval_cases k <;> rfl


theorem GET_PSR_PM_lt (s : State) : GET_PSR_PM s < 256 := by
  unfold GET_PSR_PM getField
  have : (s.cregs CR_PSR >>> 24) &&& 0xff ≤ 0xff := Nat.and_le_right
  omega

theorem insn_pstd_ps1 (cfg : Config) (s : State) (insn : Nat) (hps : GET_PSR_PS s = 1)
    (hpm : GET_PSR_PM s &&& 0xf = 1)
    (hal : ¬ (cfg.trace_unaligned = true ∧ pstd_eff s insn &&& (8 - 1) ≠ 0)) :
    insn_pstd cfg s insn
      = fp_writemem_emu (pstd_pre s insn) (pstd_eff s insn) 8
          (frg_bytes s.frg (4 * get_fdest insn) 8) 3 := by
  have hw := pstd_wmask_low (GET_PSR_PM s) (GET_PSR_PM_lt s) hpm
  have hf : (pstd_pre s insn).frg = s.frg := by
    unfold pstd_pre
    split <;> rfl
  unfold insn_pstd
  lift_lets
  intro immsrc1 isrc2 fdest auto_inc pm orig_pm ps eff s1 pm1 s2 wmask
  have e1 : eff = pstd_eff s insn := rfl
  rw [if_neg (by rw [e1]; exact hal)]
  have e2 : s2 = pstd_pre s insn := by
    simp only [s2, pm1, ps, hps, pstd_pre]
    rfl
  have e3 : wmask = 3 := by
    simp only [wmask, ps, hps, orig_pm, pm]
    exact hw
  rw [e3, e2, e1, hf]

/-- Bytes written by `pst.d` for pixel size 1 and pixel mask 0001, in both
byte orders. -/
theorem pstd_low_pixel_aux (cfg : Config) (s : State) (insn : Nat) (hps : GET_PSR_PS s = 1)
    (hpm : GET_PSR_PM s &&& 0xf = 1)
    (hal : ¬ (cfg.trace_unaligned = true ∧ pstd_eff s insn &&& (8 - 1) ≠ 0))
    (hnf : ¬ (GET_DIRBASE_ATE (pstd_pre s insn) ≠ 0 ∧ (pstd_xlate s insn).2.pending_trap ≠ 0
      ∧ GET_PSR_DAT (pstd_xlate s insn).2 ≠ 0))
    (hbp : ¬ ((pstd_xlate s insn).1 &&& not32 (8 - 1) = (pstd_xlate s insn).2.cregs CR_DB
      ∧ GET_PSR_BW (pstd_xlate s insn).2 ≠ 0)) :
    (GET_EPSR_BE (pstd_xlate s insn).2 ≠ 0 →
      (insn_pstd cfg s insn).mem ((pstd_xlate s insn).1 % 2 ^ 32)
          = s.frg (4 * get_fdest insn + 7) % 256
      ∧ (insn_pstd cfg s insn).mem (((pstd_xlate s insn).1 + 1) % 2 ^ 32)
          = s.frg (4 * get_fdest insn + 6) % 256
      ∧ ∀ x, x ≠ (pstd_xlate s insn).1 % 2 ^ 32 → x ≠ ((pstd_xlate s insn).1 + 1) % 2 ^ 32 →
          (insn_pstd cfg s insn).mem x = (pstd_xlate s insn).2.mem x)
    ∧ (GET_EPSR_BE (pstd_xlate s insn).2 = 0 →
      (insn_pstd cfg s insn).mem (((pstd_xlate s insn).1 + 6) % 2 ^ 32)
          = s.frg (4 * get_fdest insn + 6) % 256
      ∧ (insn_pstd cfg s insn).mem (((pstd_xlate s insn).1 + 7) % 2 ^ 32)
          = s.frg (4 * get_fdest insn + 7) % 256
      ∧ ∀ x, x ≠ ((pstd_xlate s insn).1 + 6) % 2 ^ 32 →
          x ≠ ((pstd_xlate s insn).1 + 7) % 2 ^ 32 →
          (insn_pstd cfg s insn).mem x = (pstd_xlate s insn).2.mem x) := by
  rw [insn_pstd_ps1 cfg s insn hps hpm hal]
  have h := masked_store_aux (pstd_pre s insn) (pstd_eff s insn)
    (frg_bytes s.frg (4 * get_fdest insn) 8) 3 (by decide) hnf hbp
  have hp : (if GET_DIRBASE_ATE (pstd_pre s insn) ≠ 0 then
      get_address_translation (pstd_pre s insn) (pstd_eff s insn) true true
      else (pstd_eff s insn, pstd_pre s insn)) = pstd_xlate s insn := rfl
  rw [hp] at h
  generalize pstd_xlate s insn = p at h ⊢
  generalize fp_writemem_emu (pstd_pre s insn) (pstd_eff s insn) 8
    (frg_bytes s.frg (4 * get_fdest insn) 8) 3 = r at h ⊢
  obtain ⟨h1, h2⟩ := h
  have hg : ∀ k, k < 8 → (frg_bytes s.frg (4 * get_fdest insn) 8).getD k 0
      = s.frg (4 * get_fdest insn + k) % 256 := fun k hk => frg_bytes_getD _ _ k hk
  constructor
  · intro hbe
    simp only [if_pos hbe] at h1
    have k7 := h1 7 (by decide)
    have k6 := h1 6 (by decide)
    have k5 := h1 5 (by decide)
    have k4 := h1 4 (by decide)
    have k3 := h1 3 (by decide)
    have k2 := h1 2 (by decide)
    have k1 := h1 1 (by decide)
    have k0 := h1 0 (by decide)
    simp only [Nat.reduceSub, Nat.reduceShiftRight, Nat.reduceAnd, ne_eq, not_true_eq_false,
      if_false, Nat.add_zero, hg 7 (by decide), hg 6 (by decide), Nat.mod_mod,
      OfNat.ofNat_ne_zero, not_false_eq_true, if_true] at k0 k1 k2 k3 k4 k5 k6 k7
    refine ⟨k7, k6, ?_⟩
    intro x hx0 hx1
    by_cases e2 : x = (p.1 + 2) % 2 ^ 32
    · rw [e2]; exact k5
    by_cases e3 : x = (p.1 + 3) % 2 ^ 32
    · rw [e3]; exact k4
    by_cases e4 : x = (p.1 + 4) % 2 ^ 32
    · rw [e4]; exact k3
    by_cases e5 : x = (p.1 + 5) % 2 ^ 32
    · rw [e5]; exact k2
    by_cases e6 : x = (p.1 + 6) % 2 ^ 32
    · rw [e6]; exact k1
    by_cases e7 : x = (p.1 + 7) % 2 ^ 32
    · rw [e7]; exact k0
    apply h2
    intro k hk
    interval_cases k
    · simpa using hx0
    all_goals assumption
  · intro hbe
    simp only [hbe, ne_eq, not_true_eq_false, if_false] at h1
    have k7 := h1 7 (by decide)
    have k6 := h1 6 (by decide)
    have k5 := h1 5 (by decide)
    have k4 := h1 4 (by decide)
    have k3 := h1 3 (by decide)
    have k2 := h1 2 (by decide)
    have k1 := h1 1 (by decide)
    have k0 := h1 0 (by decide)
    simp only [Nat.reduceSub, Nat.reduceShiftRight, Nat.reduceAnd, ne_eq, not_true_eq_false,
      if_false, Nat.add_zero, hg 7 (by decide), hg 6 (by decide), Nat.mod_mod,
      OfNat.ofNat_ne_zero, not_false_eq_true, if_true] at k0 k1 k2 k3 k4 k5 k6 k7
    refine ⟨k6, k7, ?_⟩
    intro x hx6 hx7
    by_cases e0 : x = p.1 % 2 ^ 32
    · rw [e0]; exact k0
    by_cases e1 : x = (p.1 + 1) % 2 ^ 32
    · rw [e1]; exact k1
    by_cases e2 : x = (p.1 + 2) % 2 ^ 32
    · rw [e2]; exact k2
    by_cases e3 : x = (p.1 + 3) % 2 ^ 32
    · rw [e3]; exact k3
    by_cases e4 : x = (p.1 + 4) % 2 ^ 32
    · rw [e4]; exact k4
    by_cases e5 : x = (p.1 + 5) % 2 ^ 32
    · rw [e5]; exact k5
    apply h2
    intro k hk
    interval_cases k
    · simpa using e0
    all_goals assumption

theorem dat_trap_state (t : State) :
    GET_PSR_DAT ({ SET_PSR_DAT t 1 with pending_trap := TRAP_NORMAL } : State) = 1
      ∧ ({ SET_PSR_DAT t 1 with pending_trap := TRAP_NORMAL } : State).pending_trap = TRAP_NORMAL
      ∧ ({ SET_PSR_DAT t 1 with pending_trap := TRAP_NORMAL } : State).mem = t.mem :=
  ⟨get_dat_set t, rfl, rfl⟩

theorem rw_same_1 (s : State) (a v : Nat) :
    read_physical (write_physical s a 1 v) a 1 = v % 256 := by
  have hbe : GET_EPSR_BE (write_physical s a 1 v) = GET_EPSR_BE s := rfl
  unfold read_physical
  rw [hbe]
  unfold write_physical
  by_cases h : GET_EPSR_BE s ≠ 0
  · rw [if_pos h]
    simp only [if_pos h, rd_be, wr_be, upd_same]
    omega
  · rw [if_neg h]
    simp only [if_neg h, rd_le, wr_le, upd_same]
    omega

theorem rw_same_2 (s : State) (a v : Nat) :
    read_physical (write_physical s a 2 v) a 2 = v % 256 ^ 2 := by
  have hbe : GET_EPSR_BE (write_physical s a 2 v) = GET_EPSR_BE s := rfl
  have h01 : a % 2 ^ 32 ≠ (a + 1) % 2 ^ 32 := by omega
  unfold read_physical
  rw [hbe]
  unfold write_physical
  by_cases h : GET_EPSR_BE s ≠ 0
  · rw [if_pos h]
    simp only [if_pos h, rd_be, wr_be, upd_same, upd_other _ _ _ _ h01]
    omega
  · rw [if_neg h]
    simp only [if_neg h, rd_le, wr_le, upd_same, upd_other _ _ _ _ h01]
    omega

theorem rw_same_4 (s : State) (a v : Nat) :
    read_physical (write_physical s a 4 v) a 4 = v % 256 ^ 4 := by
  have hbe : GET_EPSR_BE (write_physical s a 4 v) = GET_EPSR_BE s := rfl
  have h01 : a % 2 ^ 32 ≠ (a + 1) % 2 ^ 32 := by omega
  have h02 : a % 2 ^ 32 ≠ (a + 1 + 1) % 2 ^ 32 := by omega
  have h03 : a % 2 ^ 32 ≠ (a + 1 + 1 + 1) % 2 ^ 32 := by omega
  have h12 : (a + 1) % 2 ^ 32 ≠ (a + 1 + 1) % 2 ^ 32 := by omega
  have h13 : (a + 1) % 2 ^ 32 ≠ (a + 1 + 1 + 1) % 2 ^ 32 := by omega
  have h23 : (a + 1 + 1) % 2 ^ 32 ≠ (a + 1 + 1 + 1) % 2 ^ 32 := by omega
  unfold read_physical
  rw [hbe]
  unfold write_physical
  by_cases h : GET_EPSR_BE s ≠ 0
  · rw [if_pos h]
    simp only [if_pos h, rd_be, wr_be, upd_same, upd_other _ _ _ _ h01, upd_other _ _ _ _ h02,
      upd_other _ _ _ _ h03, upd_other _ _ _ _ h12, upd_other _ _ _ _ h13,
      upd_other _ _ _ _ h23]
    omega
  · rw [if_neg h]
    simp only [if_neg h, rd_le, wr_le, upd_same, upd_other _ _ _ _ h01, upd_other _ _ _ _ h02,
      upd_other _ _ _ _ h03, upd_other _ _ _ _ h12, upd_other _ _ _ _ h13,
      upd_other _ _ _ _ h23]
    omega

theorem ldst_size_of_cases (insn : Nat) :
    ldst_size_of insn = 1 ∨ ldst_size_of insn = 2 ∨ ldst_size_of insn = 4 := by
  unfold ldst_size_of ldst_size
  have h1 : (insn >>> 27) &&& 2 = 0 ∨ (insn >>> 27) &&& 2 = 2 := by
    have := Nat.and_le_right (n := insn >>> 27) (m := 2)
    have h := Nat.and_pow_two_sub_one_eq_mod ((insn >>> 27) &&& 2) 1
    rw [Nat.land_assoc] at h
    simp at h
    omega
  have h2 : insn &&& 1 = 0 ∨ insn &&& 1 = 1 := by
    have := Nat.and_le_right (n := insn) (m := 1)
    omega
  rcases h1 with e1 | e1 <;> rcases h2 with e2 | e2 <;> rw [e1, e2] <;> decide


theorem writememi_emu_plain (s : State) (addr size data : Nat) (hate : GET_DIRBASE_ATE s = 0)
    (hc : addr ≠ 0xF83FE800 ∧ addr ≠ 0xF80ff800)
    (hbp : ¬ (addr &&& not32 (size - 1) = s.cregs CR_DB ∧ GET_PSR_BW s ≠ 0))
    (hs : size = 1 ∨ size = 2 ∨ size = 4) :
    writememi_emu s addr size data = write_physical s addr size data := by
  unfold writememi_emu
  simp only [console_hook_other s addr data hc, hate, ne_eq, not_true_eq_false, if_false,
    false_and]
  rw [if_neg hbp]
  rcases hs with h | h | h <;> subst h <;> rfl

theorem readmemi_emu_plain (s : State) (addr size : Nat) (hate : GET_DIRBASE_ATE s = 0)
    (hbp : ¬ (addr &&& not32 (size - 1) = s.cregs CR_DB ∧ GET_PSR_BR s ≠ 0))
    (hs : size = 1 ∨ size = 2 ∨ size = 4) :
    readmemi_emu s addr size = (read_physical s addr size % 256 ^ size, s) := by
  unfold readmemi_emu
  simp only [hate, ne_eq, not_true_eq_false, if_false, false_and]
  rw [if_neg hbp]
  rcases hs with h | h | h <;> subst h
  · simp only [if_true, rd8]
    rw [show (0xff : Nat) = 2 ^ 8 - 1 from rfl, Nat.and_pow_two_sub_one_eq_mod]
    norm_num
  · simp only [if_true, rd16, OfNat.ofNat_ne_one, if_false]
    rw [show (0xffff : Nat) = 2 ^ 16 - 1 from rfl, Nat.and_pow_two_sub_one_eq_mod]
    norm_num
  · simp only [if_true, rd32, OfNat.ofNat_ne_one, if_false, Nat.reduceEqDiff]
    have := read_physical4_lt s addr
    rw [Nat.mod_eq_of_lt (by simpa using this)]

theorem sext_mod (n x : Nat) : sext n (x % 2 ^ n) = sext n x := by
  unfold sext
  rw [Nat.mod_mod]

/-- Store followed by load of the same size at the same address. -/
theorem store_load_aux (cfg : Config) (s : State) (w_st w_ld : Nat)
    (hate : GET_DIRBASE_ATE s = 0) (hex : s.exiting_readmem = 0)
    (hsize : ldst_size_of w_ld = ldst_size_of w_st)
    (haddr : ldx_eff s w_ld = stx_eff s w_st)
    (hc : stx_eff s w_st ≠ 0xF83FE800 ∧ stx_eff s w_st ≠ 0xF80ff800)
    (hbw : ¬ (stx_eff s w_st &&& not32 (ldst_size_of w_st - 1) = s.cregs CR_DB
      ∧ GET_PSR_BW s ≠ 0))
    (hbr : ¬ (stx_eff s w_st &&& not32 (ldst_size_of w_st - 1) = s.cregs CR_DB
      ∧ GET_PSR_BR s ≠ 0))
    (hal : ¬ (cfg.trace_unaligned = true
      ∧ stx_eff s w_st &&& (ldst_size_of w_st - 1) ≠ 0))
    (hd : get_idest w_ld ≠ 0) :
    (insn_ldx cfg (insn_stx cfg s w_st) w_ld).iregs (get_idest w_ld)
      = if ldst_size_of w_st = 4 then u32 (s.iregs (get_isrc1 w_st))
        else sext (8 * ldst_size_of w_st) (s.iregs (get_isrc1 w_st)) := by
  have hs := ldst_size_of_cases w_st
  have e1 : insn_stx cfg s w_st
      = writememi_emu s (stx_eff s w_st) (ldst_size_of w_st) (get_iregval s (get_isrc1 w_st)) :=
    rfl
  rw [e1, writememi_emu_plain s _ _ _ hate hc hbw hs]
  generalize hA : stx_eff s w_st = A at *
  generalize hn : ldst_size_of w_st = n at *
  generalize hv : get_iregval s (get_isrc1 w_st) = v
  have hv' : s.iregs (get_isrc1 w_st) = v := hv
  rw [hv']
  have e2 : ldx_eff (write_physical s A n v) w_ld = A := haddr
  have hate' : GET_DIRBASE_ATE (write_physical s A n v) = 0 := hate
  have hbr' : ¬ (A &&& not32 (n - 1) = (write_physical s A n v).cregs CR_DB
      ∧ GET_PSR_BR (write_physical s A n v) ≠ 0) := hbr
  have hrd := readmemi_emu_plain (write_physical s A n v) A n hate' hbr' hs
  have e3 : insn_ldx cfg (write_physical s A n v) w_ld
      = (if cfg.trace_unaligned = true ∧ A &&& (n - 1) ≠ 0 then
          unaligned_trap (write_physical s A n v)
        else if n < 4 then
          (if (readmemi_emu (write_physical s A n v) A n).2.exiting_readmem ≠ 0 then
            (readmemi_emu (write_physical s A n v) A n).2
           else set_iregval (readmemi_emu (write_physical s A n v) A n).2 (get_idest w_ld)
            (sign_ext (readmemi_emu (write_physical s A n v) A n).1 (n * 8)))
        else
          (if (readmemi_emu (write_physical s A n v) A n).2.exiting_readmem ≠ 0 then
            (readmemi_emu (write_physical s A n v) A n).2
           else set_iregval (readmemi_emu (write_physical s A n v) A n).2 (get_idest w_ld)
            (readmemi_emu (write_physical s A n v) A n).1)) := by
    unfold insn_ldx
    have q1 : ldst_size (((w_ld >>> 27) &&& 2) ||| (w_ld &&& 1)) = n := hsize
    have q2 : (if w_ld &&& 0x04000000 ≠ 0 then
        u32 ((sign_ext (get_imm16 w_ld) 16
          &&& not32 (ldst_size (((w_ld >>> 27) &&& 2) ||| (w_ld &&& 1)) - 1))
          + get_iregval (write_physical s A n v) (get_isrc2 w_ld))
        else u32 (get_iregval (write_physical s A n v) (get_isrc1 w_ld)
          + get_iregval (write_physical s A n v) (get_isrc2 w_ld))) = A := e2
    rw [q1] at q2
    simp only [q1, q2]
  rw [e3, if_neg hal, hrd]
  have hex' : ¬ (write_physical s A n v).exiting_readmem ≠ 0 := by
    show ¬ s.exiting_readmem ≠ 0
    rw [hex]
    exact fun h => h rfl
  simp only [if_neg hex']
  have hget : ∀ (t : State) (x : Nat), (set_iregval t (get_idest w_ld) x).iregs (get_idest w_ld)
      = u32 x := by
    intro t x
    unfold set_iregval
    simp only [upd_same, if_neg hd]
  rcases hs with h | h | h <;> subst h
  · simp only [Nat.reduceLT, if_true, hget, OfNat.ofNat_ne_one, Nat.reduceEqDiff, if_false,
      OfNat.one_ne_ofNat]
    rw [rw_same_1]
    have e : v % 256 % 256 ^ 1 = v % 2 ^ 8 := by norm_num
    rw [e, show (1 * 8 : Nat) = 8 from rfl]
    show u32 (sign_ext (v % 2 ^ 8) 8) = sext 8 v
    rw [sign_ext_sext 8 _ (by norm_num) (by norm_num) (Nat.mod_lt _ (by norm_num)), sext_mod]
    exact Nat.mod_eq_of_lt (sext_lt 8 v (by norm_num) (by norm_num))
  · simp only [Nat.reduceLT, if_true, hget, OfNat.ofNat_ne_one, Nat.reduceEqDiff, if_false,
      OfNat.one_ne_ofNat]
    rw [rw_same_2]
    have e : v % 256 ^ 2 % 256 ^ 2 = v % 2 ^ 16 := by norm_num
    rw [e, show (2 * 8 : Nat) = 16 from rfl]
    show u32 (sign_ext (v % 2 ^ 16) 16) = sext 16 v
    rw [sign_ext_sext 16 _ (by norm_num) (by norm_num) (Nat.mod_lt _ (by norm_num)), sext_mod]
    exact Nat.mod_eq_of_lt (sext_lt 16 v (by norm_num) (by norm_num))
  · simp only [Nat.lt_irrefl, if_false, hget, if_true]
    rw [rw_same_4]
    unfold u32
    norm_num

theorem frg_write_zero (frg : Nat → Nat) (i n j : Nat) :
    frg_write frg i n 0 j = if i ≤ j ∧ j < i + n then 0 else frg j := by
  induction n generalizing frg i with
  | zero =>
    simp only [frg_write]
    rw [if_neg (by omega)]
  | succ n ih =>
    simp only [frg_write, Nat.zero_mod, Nat.zero_div]
    rw [ih]
    by_cases h1 : i + 1 ≤ j ∧ j < i + 1 + n
    · rw [if_pos h1, if_pos (by omega)]
    · rw [if_neg h1]
      by_cases h2 : j = i
      · subst h2
        rw [upd_same, if_pos (by omega)]
      · rw [upd_other _ _ _ _ h2, if_neg (by omega)]

/-- The registers after the loop of `i860_reset` over `i, ..., i + n - 1`. -/
theorem reset_regs_spec (n i : Nat) (s : State) :
    (∀ j, (reset_regs n i s).iregs j
        = if i ≤ j ∧ j < i + n then (if j = 0 then 0 else u32 (0x55aa5500 ||| j))
          else s.iregs j)
      ∧ (∀ b, (reset_regs n i s).frg b
        = if b / 4 > 1 ∧ i ≤ b / 4 ∧ b / 4 < i + n then 0 else s.frg b)
      ∧ (∃ r f, reset_regs n i s = { s with iregs := r, frg := f }) := by
  induction n generalizing i s with
  | zero =>
    refine ⟨fun j => ?_, fun b => ?_, ⟨s.iregs, s.frg, rfl⟩⟩
    · simp only [reset_regs]
      rw [if_neg (by omega)]
    · simp only [reset_regs]
      rw [if_neg (by omega)]
  | succ n ih =>
    obtain ⟨h1, h2, r, f, h3⟩ := ih (i + 1) (set_fregval_s (set_iregval s i (0x55aa5500 ||| i)) i 0)
    have hfr : ∀ b, (set_fregval_s (set_iregval s i (0x55aa5500 ||| i)) i 0).frg b
        = if b / 4 > 1 ∧ b / 4 = i then 0 else s.frg b := by
      intro b
      unfold set_fregval_s
      by_cases hi : i > 1
      · rw [if_pos hi]
        show frg_write s.frg (i * 4) 4 0 b = _
        rw [frg_write_zero]
        by_cases hb : i * 4 ≤ b ∧ b < i * 4 + 4
        · rw [if_pos hb, if_pos (by omega)]
        · rw [if_neg hb, if_neg (by omega)]
      · rw [if_neg hi, if_neg (by omega)]
        rfl
    have hir : ∀ j, (set_fregval_s (set_iregval s i (0x55aa5500 ||| i)) i 0).iregs j
        = if j = i then (if j = 0 then 0 else u32 (0x55aa5500 ||| j)) else s.iregs j := by
      intro j
      have e : (set_fregval_s (set_iregval s i (0x55aa5500 ||| i)) i 0).iregs
          = (set_iregval s i (0x55aa5500 ||| i)).iregs := by
        unfold set_fregval_s
        split <;> rfl
      rw [e]
      simp only [set_iregval]
      by_cases hj : j = i
      · subst hj
        rw [upd_same, if_pos rfl]
      · rw [upd_other _ _ _ _ hj, if_neg hj]
    refine ⟨fun j => ?_, fun b => ?_, ?_⟩
    · simp only [reset_regs]
      rw [h1, hir]
      by_cases c1 : i + 1 ≤ j ∧ j < i + 1 + n
      · rw [if_pos c1, if_pos (show i ≤ j ∧ j < i + (n + 1) by omega)]
      · rw [if_neg c1]
        by_cases c2 : j = i
        · rw [if_pos c2, if_pos (show i ≤ j ∧ j < i + (n + 1) by omega)]
        · rw [if_neg c2, if_neg (show ¬ (i ≤ j ∧ j < i + (n + 1)) by omega)]
    · simp only [reset_regs]
      rw [h2, hfr]
      by_cases c1 : b / 4 > 1 ∧ i + 1 ≤ b / 4 ∧ b / 4 < i + 1 + n
      · rw [if_pos c1, if_pos (show b / 4 > 1 ∧ i ≤ b / 4 ∧ b / 4 < i + (n + 1) by omega)]
      · rw [if_neg c1]
        by_cases c2 : b / 4 > 1 ∧ b / 4 = i
        · rw [if_pos c2, if_pos (show b / 4 > 1 ∧ i ≤ b / 4 ∧ b / 4 < i + (n + 1) by omega)]
        · rw [if_neg c2,
            if_neg (show ¬ (b / 4 > 1 ∧ i ≤ b / 4 ∧ b / 4 < i + (n + 1)) by omega)]
    · simp only [reset_regs]
      rw [h3]
      have e : ∃ r f, set_fregval_s (set_iregval s i (0x55aa5500 ||| i)) i 0
          = { s with iregs := r, frg := f } := by
        unfold set_fregval_s set_iregval
        split <;> exact ⟨_, _, rfl⟩
      obtain ⟨r', f', e⟩ := e
      rw [e]
      exact ⟨_, _, rfl⟩


/-- The state after `i860_reset`, with the register files of the loop. -/
theorem i860_reset_eq (s : State) :
    i860_reset s
      = { s with
          pc := 0xffffff00
          iregs := upd (reset_regs 32 0 { s with pc := 0xffffff00 }).iregs 0 0
          frg := (reset_regs 32 0 { s with pc := 0xffffff00 }).frg
          cregs := upd (upd (upd (upd (upd s.cregs CR_PSR 0) CR_EPSR 0x00040701)
            CR_DIRBASE 0x00000080) CR_FIR 0x55aa5500) CR_FSR 0x55aa5500
          KR := union_set_d s.KR 0
          KI := union_set_d s.KI 0
          T := union_set_d s.T 0
          merge := 0x55aa5500
          fir_gets_trap_addr := 0
          dim := 0
          halted := false } := by
  obtain ⟨_, _, r, f, h⟩ := reset_regs_spec 32 0 { s with pc := 0xffffff00 }
  unfold i860_reset
  simp only [h]
  rfl

theorem reset_state_aux (s : State) :
    (i860_reset s).pc = 0xffffff00
      ∧ get_iregval (i860_reset s) 0 = 0
      ∧ GET_DIRBASE_ATE (i860_reset s) = 0
      ∧ GET_EPSR_WP (i860_reset s) = 0
      ∧ GET_EPSR_BE (i860_reset s) = 0
      ∧ (∀ b, b < 8 → (i860_reset s).frg b = s.frg b)
      ∧ get_fregval_d (i860_reset s) 0 = get_fregval_d s 0 := by
  rw [i860_reset_eq]
  obtain ⟨_, h2, _⟩ := reset_regs_spec 32 0 { s with pc := 0xffffff00 }
  have hb : ∀ b, b < 8 → (reset_regs 32 0 { s with pc := 0xffffff00 }).frg b = s.frg b := by
    intro b hb
    rw [h2, if_neg (by omega)]
  have hd : upd (upd (upd (upd (upd s.cregs CR_PSR 0) CR_EPSR 0x00040701)
      CR_DIRBASE 0x00000080) CR_FIR 0x55aa5500) CR_FSR 0x55aa5500 CR_DIRBASE = 0x80 := by
    rw [upd_other _ CR_FSR CR_DIRBASE _ (by decide), upd_other _ CR_FIR CR_DIRBASE _ (by decide),
      upd_same]
  have he : upd (upd (upd (upd (upd s.cregs CR_PSR 0) CR_EPSR 0x00040701)
      CR_DIRBASE 0x00000080) CR_FIR 0x55aa5500) CR_FSR 0x55aa5500 CR_EPSR = 0x00040701 := by
    rw [upd_other _ CR_FSR CR_EPSR _ (by decide), upd_other _ CR_FIR CR_EPSR _ (by decide),
      upd_other _ CR_DIRBASE CR_EPSR _ (by decide), upd_same]
  refine ⟨rfl, ?_, ?_, ?_, ?_, hb, ?_⟩
  · unfold get_iregval
    simp only [upd_same]
  · unfold GET_DIRBASE_ATE
    simp only [hd]
    rfl
  · unfold GET_EPSR_WP
    simp only [he]
    rfl
  · unfold GET_EPSR_BE
    simp only [he]
    rfl
  simp only [get_fregval_d, frg_read, Nat.zero_mul, Nat.zero_add]
  rw [hb 0 (by decide), hb 1 (by decide), hb 2 (by decide), hb 3 (by decide), hb 4 (by decide),
    hb 5 (by decide), hb 6 (by decide), hb 7 (by decide)]

theorem reset_registers_aux (s : State) :
    (∀ i, 1 ≤ i → i ≤ 31 → get_iregval (i860_reset s) i = 0x55aa5500 ||| i)
      ∧ (∀ fr, 2 ≤ fr → fr ≤ 31 →
          get_fregval_s (i860_reset s) fr = 0
          ∧ ∀ k, k < 4 → (i860_reset s).frg (fr * 4 + k) = 0) := by
  rw [i860_reset_eq]
  obtain ⟨h1, h2, _⟩ := reset_regs_spec 32 0 { s with pc := 0xffffff00 }
  constructor
  · intro i hi1 hi2
    unfold get_iregval
    simp only []
    rw [upd_other _ 0 i _ (by omega), h1, if_pos (show 0 ≤ i ∧ i < 0 + 32 by omega),
      if_neg (show ¬ i = 0 by omega)]
    unfold u32
    apply Nat.mod_eq_of_lt
    exact Nat.or_lt_two_pow (by norm_num) (by omega)
  · intro fr hf1 hf2
    have hb : ∀ k, k < 4 → (reset_regs 32 0 { s with pc := 0xffffff00 }).frg (fr * 4 + k) = 0 := by
      intro k hk
      rw [h2, if_pos (by omega)]
    refine ⟨?_, hb⟩
    simp only [get_fregval_s, frg_read]
    have e0 := hb 0 (by decide)
    have e1 := hb 1 (by decide)
    have e2 := hb 2 (by decide)
    have e3 := hb 3 (by decide)
    simp only [Nat.add_zero] at e0
    rw [e0, show fr * 4 + 1 + 1 = fr * 4 + 2 from rfl, show fr * 4 + 2 + 1 = fr * 4 + 3 from rfl,
      e1, e2, e3]

theorem delay_slot_none (exec : State → Nat → Option State) (s : State) (pc : Nat)
    (h : delay_slot exec s pc = none) : ∃ t w, exec t w = none := by
  unfold delay_slot at h
  simp only [] at h
  split at h
  · exact ⟨_, _, by assumption⟩
  · exact absurd h (by simp)

theorem branch_tail_none {α : Type} (o : Option State) (f : State → Option α)
    (hf : ∀ x, f x ≠ none)
    (h : (match o with | none => none | some x => f x) = none) : o = none := by
  cases o with
  | none => rfl
  | some x => exact absurd h (hf x)

/-- A handler yields no result only when it is one of the seven handlers with
a delay slot and the decoder it re-enters yields none. -/
theorem run_handler_none (cfg : Config) (fp : HostFP) (exec : State → Nat → Option State)
    (h : Handler) (s : State) (insn : Nat) (hn : run_handler cfg fp exec h s insn = none) :
    h ∈ [Handler.bri, Handler.br, Handler.call, Handler.bct, Handler.bnct, Handler.bla,
        Handler.calli]
      ∧ ∃ t w, exec t w = none := by
  cases h
  case bri =>
    refine ⟨by decide, ?_⟩
    simp only [run_handler, insn_bri] at hn
    exact delay_slot_none exec _ _ (branch_tail_none _ _ (by intro x; split <;> simp) hn)
  case br =>
    refine ⟨by decide, ?_⟩
    simp only [run_handler, insn_br] at hn
    exact delay_slot_none exec _ _ (branch_tail_none _ _ (by intro x; split <;> simp) hn)
  case call =>
    refine ⟨by decide, ?_⟩
    simp only [run_handler, insn_call] at hn
    exact delay_slot_none exec _ _ (branch_tail_none _ _ (by intro x; split <;> simp) hn)
  case bct =>
    refine ⟨by decide, ?_⟩
    simp only [run_handler, insn_bct] at hn
    split at hn
    · exact delay_slot_none exec _ _ (branch_tail_none _ _ (by intro x; split <;> simp) hn)
    · exact absurd hn (by simp)
  case bnct =>
    refine ⟨by decide, ?_⟩
    simp only [run_handler, insn_bnct] at hn
    split at hn
    · exact delay_slot_none exec _ _ (branch_tail_none _ _ (by intro x; split <;> simp) hn)
    · exact absurd hn (by simp)
  case bla =>
    refine ⟨by decide, ?_⟩
    simp only [run_handler, insn_bla] at hn
    split at hn
    · exact absurd hn (by simp)
    · exact delay_slot_none exec _ _ (branch_tail_none _ _ (by intro x; split <;> simp) hn)
  case calli =>
    refine ⟨by decide, ?_⟩
    simp only [run_handler, insn_calli] at hn
    exact delay_slot_none exec _ _ (branch_tail_none _ _ (by intro x; split <;> simp) hn)
  all_goals exact absurd hn (by simp [run_handler])


set_option maxRecDepth 100000 in
theorem decode_tbl_delayed :
    ∀ opc, opc < 64 → ∀ h ∈ [Handler.bri, Handler.br, Handler.call, Handler.bct, Handler.bnct,
        Handler.bla, Handler.calli],
      (decode_tbl.getD opc (none, 0)).1 = some h →
        (opc = 0x10 ∨ opc = 0x1a ∨ opc = 0x1b ∨ opc = 0x1d ∨ opc = 0x1f ∨ opc = 0x2d) := by
  decide

set_option maxRecDepth 100000 in
theorem fp_decode_tbl_not_delayed :
    ∀ k, k < 128 → ∀ h ∈ [Handler.bri, Handler.br, Handler.call, Handler.bct, Handler.bnct,
        Handler.bla, Handler.calli],
      (fp_decode_tbl.getD k (none, 0)).1 ≠ some h := by
  decide

theorem core_esc_decode_tbl_delayed :
    ∀ k, k < 4 → ∀ h ∈ [Handler.bri, Handler.br, Handler.call, Handler.bct, Handler.bnct,
        Handler.bla, Handler.calli],
      (core_esc_decode_tbl.getD k (none, 0)).1 = some h → k = 2 := by
  decide

theorem and_mask_lt (n m : Nat) : n &&& m < m + 1 := by
  have : n &&& m ≤ m := Nat.and_le_right
  omega

theorem call_entry_none (cfg : Config) (fp : HostFP) (exec : State → Nat → Option State)
    (e : Option Handler × Nat) (s : State) (insn : Nat)
    (hn : call_entry cfg fp exec e s insn = none) :
    (∃ h ∈ [Handler.bri, Handler.br, Handler.call, Handler.bct, Handler.bnct, Handler.bla,
        Handler.calli], e.1 = some h) ∧ ∃ t w, exec t w = none := by
  unfold call_entry at hn
  split at hn
  · rename_i h he
    obtain ⟨h1, h2⟩ := run_handler_none cfg fp exec h s insn hn
    exact ⟨⟨h, h1, he⟩, h2⟩
  · exact absurd hn (by simp)

/-- The decoder yields no result only for a word with a delay slot whose
re-entrant call yields none. -/
theorem decode_exec_body_none (cfg : Config) (fp : HostFP) (exec : State → Nat → Option State)
    (s : State) (insn : Nat) (hn : decode_exec_body cfg fp exec s insn = none) :
    has_delay_slot insn = 1 ∧ ∃ t w, exec t w = none := by
  unfold decode_exec_body at hn
  simp only [] at hn
  have hopc : (insn >>> 26) &&& 0x3f < 64 := and_mask_lt _ _
  split at hn
  · exact absurd hn (by simp)
  split at hn
  · obtain ⟨⟨h, hm, he⟩, h2⟩ := call_entry_none cfg fp exec _ s insn hn
    refine ⟨?_, h2⟩
    have := decode_tbl_delayed _ hopc h hm he
    unfold has_delay_slot
    simp only []
    rw [if_pos (by tauto)]
  split at hn
  · split at hn
    · split at hn
      · obtain ⟨⟨h, hm, he⟩, _⟩ := call_entry_none cfg fp exec _ _ insn hn
        exact absurd he (fp_decode_tbl_not_delayed _ (and_mask_lt _ _) h hm)
      · exact absurd hn (by simp)
    · split at hn
      · split at hn
        · obtain ⟨⟨h, hm, he⟩, h2⟩ := call_entry_none cfg fp exec _ s insn hn
          refine ⟨?_, h2⟩
          have h3 := core_esc_decode_tbl_delayed _ (and_mask_lt insn 3) h hm he
          unfold has_delay_slot
          simp only []
          rw [if_pos (by tauto)]
        · exact absurd hn (by simp)
      · exact absurd hn (by simp)
  · exact absurd hn (by simp)


theorem decode_exec_body_br (cfg : Config) (fp : HostFP) (exec : State → Nat → Option State)
    (s : State) (he : s.exiting_ifetch = 0) :
    decode_exec_body cfg fp exec s w_br = insn_br exec s w_br := by
  have ht : decode_tbl.getD ((w_br >>> 26) &&& 0x3f) (none, 0)
      = (some Handler.br, DEC_DECODED) := by decide
  unfold decode_exec_body
  simp only [he, ne_eq, not_true_eq_false, if_false, ht]
  rfl

theorem ifetch_brs (s : State) (pc : Nat) (hm : s.mem = mem_brs) (hpc : pc % 4 = 0)
    (hate : GET_DIRBASE_ATE s = 0) (hbe : GET_EPSR_BE s = 0) :
    ifetch s pc = (w_br, s) := by
  have b0 : mem_brs (pc % 2 ^ 32) = 0 := by
    unfold mem_brs
    rw [if_neg (by omega)]
  have b1 : mem_brs ((pc + 1) % 2 ^ 32) = 0 := by
    unfold mem_brs
    rw [if_neg (by omega)]
  have b2 : mem_brs ((pc + 2) % 2 ^ 32) = 0 := by
    unfold mem_brs
    rw [if_neg (by omega)]
  have b3 : mem_brs ((pc + 3) % 2 ^ 32) = 0x68 := by
    unfold mem_brs
    rw [if_pos (by omega)]
  unfold ifetch
  rw [if_neg (by rw [hate]; exact fun h => h rfl)]
  split
  · simp only [rdcs8, hm, b0, b1, b2, b3]
    rfl
  · simp only [rd32i, read_physical, hbe, ne_eq, not_true_eq_false, if_false, rd_le, hm, b0, b1,
      show pc + 1 + 1 = pc + 2 from rfl, show pc + 2 + 1 = pc + 3 from rfl, b2, b3]
    rfl

/-- In a memory filled with "br", the decoder does not come back within any
number of re-entrant calls. -/
theorem decode_exec_brs (cfg : Config) (fp : HostFP) (d : Nat) :
    ∀ s : State, s.mem = mem_brs → s.pc % 4 = 0 → GET_DIRBASE_ATE s = 0 →
      GET_EPSR_BE s = 0 → s.exiting_ifetch = 0 → decode_exec cfg fp d s w_br = none := by
  induction d with
  | zero =>
    intro s hm hpc hate hbe he
    show decode_exec_body cfg fp (fun _ _ => none) s w_br = none
    rw [decode_exec_body_br cfg fp _ s he]
    unfold insn_br delay_slot
    simp only []
  | succ d ih =>
    intro s hm hpc hate hbe he
    show decode_exec_body cfg fp (decode_exec cfg fp d) s w_br = none
    rw [decode_exec_body_br cfg fp _ s he]
    unfold insn_br delay_slot
    simp only []
    rw [ifetch_brs { s with pc := u32 (s.pc + 4) } (u32 (s.pc + 4)) hm
      (by unfold u32; omega) hate hbe]
    simp only []
    rw [ih { s with pc := u32 (s.pc + 4) } hm (by show u32 (s.pc + 4) % 4 = 0; unfold u32; omega)
      hate hbe he]

set_option maxRecDepth 100000 in
theorem decode_tbl_more :
    ∀ opc, opc < 64 → (opc = 0x12 ∨ opc = 0x13) →
        (decode_tbl.getD opc (none, 0)).1 = none ∧ (decode_tbl.getD opc (none, 0)).2 = DEC_MORE := by
  decide

theorem core_esc_decode_tbl_flags :
    ∀ k, k < 4 →
      (k = 2 → (core_esc_decode_tbl.getD k (none, 0)).1 = some Handler.calli
         ∧ (core_esc_decode_tbl.getD k (none, 0)).2 = DEC_DECODED)
      ∧ (k ≠ 2 → (core_esc_decode_tbl.getD k (none, 0)).1 = none
         ∧ (core_esc_decode_tbl.getD k (none, 0)).2 = 0) := by
  decide

theorem and_3_of_and_7 (n : Nat) : n &&& 3 = (n &&& 7) &&& 3 := by
  rw [Nat.land_assoc]; rfl

theorem call_entry_some (cfg : Config) (fp : HostFP) (exec : State → Nat → Option State)
    (e : Option Handler × Nat) (h : Handler) (s : State) (insn : Nat) (he : e.1 = some h) :
    call_entry cfg fp exec e s insn = run_handler cfg fp exec h s insn := by
  unfold call_entry
  rw [he]

/-- The three ways `decode_exec_body` ends when `m_exiting_ifetch` is clear,
by the flags of the selected table entries. -/
theorem decode_exec_body_cases (cfg : Config) (fp : HostFP)
    (exec : State → Nat → Option State) (s : State) (insn : Nat)
    (he : s.exiting_ifetch = 0) :
    ((decode_tbl.getD ((insn >>> 26) &&& 0x3f) (none, 0)).2 = DEC_DECODED →
      decode_exec_body cfg fp exec s insn
        = call_entry cfg fp exec (decode_tbl.getD ((insn >>> 26) &&& 0x3f) (none, 0)) s insn)
    ∧ ((decode_tbl.getD ((insn >>> 26) &&& 0x3f) (none, 0)).2 = 0 →
      decode_exec_body cfg fp exec s insn = some (unrecog_opcode s s.pc insn))
    ∧ ((insn >>> 26) &&& 0x3f = 0x12 →
        (fp_decode_tbl.getD (insn &&& 0x7f) (none, 0)).2 = DEC_DECODED →
      decode_exec_body cfg fp exec s insn
        = call_entry cfg fp exec (fp_decode_tbl.getD (insn &&& 0x7f) (none, 0))
            (dim_step s insn) insn)
    ∧ ((insn >>> 26) &&& 0x3f = 0x12 →
        (fp_decode_tbl.getD (insn &&& 0x7f) (none, 0)).2 = 0 →
      decode_exec_body cfg fp exec s insn
        = some (unrecog_opcode (dim_step s insn) (dim_step s insn).pc insn))
    ∧ ((insn >>> 26) &&& 0x3f = 0x13 →
        (core_esc_decode_tbl.getD (insn &&& 0x3) (none, 0)).2 = DEC_DECODED →
      decode_exec_body cfg fp exec s insn
        = call_entry cfg fp exec (core_esc_decode_tbl.getD (insn &&& 0x3) (none, 0)) s insn)
    ∧ ((insn >>> 26) &&& 0x3f = 0x13 →
        (core_esc_decode_tbl.getD (insn &&& 0x3) (none, 0)).2 = 0 →
      decode_exec_body cfg fp exec s insn = some (unrecog_opcode s s.pc insn)) := by
  have hne : ¬ s.exiting_ifetch ≠ 0 := by rw [he]; exact fun h => h rfl
  have hm := decode_tbl_more ((insn >>> 26) &&& 0x3f) (and_mask_lt _ _)
  refine ⟨?_, ?_, ?_, ?_, ?_, ?_⟩
  · intro hf
    unfold decode_exec_body
    simp only [if_neg hne]
    rw [if_pos (by rw [hf]; decide)]
  · intro hf
    unfold decode_exec_body
    simp only [if_neg hne]
    rw [if_neg (by rw [hf]; decide), if_neg (by rw [hf]; decide)]
  · intro ho hf
    have e := (hm (Or.inl ho)).2
    unfold decode_exec_body
    simp only [if_neg hne]
    rw [if_neg (by rw [e]; decide), if_pos (by rw [e]; decide), if_pos ho,
      if_pos (by rw [hf]; decide)]
    rfl
  · intro ho hf
    have e := (hm (Or.inl ho)).2
    unfold decode_exec_body
    simp only [if_neg hne]
    rw [if_neg (by rw [e]; decide), if_pos (by rw [e]; decide), if_pos ho,
      if_neg (by rw [hf]; decide)]
    rfl
  · intro ho hf
    have e := (hm (Or.inr ho)).2
    unfold decode_exec_body
    simp only [if_neg hne]
    rw [if_neg (by rw [e]; decide), if_pos (by rw [e]; decide),
      if_neg (by rw [ho]; decide), if_pos ho, if_pos (by rw [hf]; decide)]
  · intro ho hf
    have e := (hm (Or.inr ho)).2
    unfold decode_exec_body
    simp only [if_neg hne]
    rw [if_neg (by rw [e]; decide), if_pos (by rw [e]; decide),
      if_neg (by rw [ho]; decide), if_pos ho, if_neg (by rw [hf]; decide)]

theorem keeps_refl (s : State) : Keeps s s := ⟨id, id⟩

theorem keeps_trans {s t u : State} (h1 : Keeps s t) (h2 : Keeps t u) : Keeps s u :=
  ⟨fun h => h2.1 (h1.1 h), fun h => h2.2 (h1.2 h)⟩

theorem keeps_of_regs {s t u : State} (hr : u.iregs = t.iregs ∧ u.frg = t.frg)
    (h : Keeps s t) : Keeps s u := by
  unfold Keeps
  rw [hr.1, hr.2]
  exact h

theorem keeps_ite {s a b : State} {c : Prop} [Decidable c] (ha : Keeps s a) (hb : Keeps s b) :
    Keeps s (if c then a else b) := by
  split
  · exact ha
  · exact hb

theorem keeps_mk {s t : State} (c : Nat → Nat) (p pu pt er ei fg dm kr ki tt mg : Nat)
    (m a l : Nat → Stage) (g : Stage) (mem : Nat → Nat) (con : List Nat) (bm hl : Bool)
    (dc : Nat) (h : Keeps s t) :
    Keeps s (State.mk t.iregs t.frg c p pu pt er ei fg dm kr ki tt mg m a l g mem con bm hl dc) :=
  h

theorem keeps_set_iregval {s t : State} (r v : Nat) (h : Keeps s t) :
    Keeps s (set_iregval t r v) := by
  refine ⟨fun h0 => ?_, h.2⟩
  show upd t.iregs r (if r = 0 then 0 else u32 v) 0 = 0
  unfold upd
  by_cases hr : r = 0
  · subst hr; simp
  · rw [if_neg (fun e => hr e.symm)]; exact h.1 h0

theorem keeps_set_fregval_s {s t : State} (fr v : Nat) (h : Keeps s t) :
    Keeps s (set_fregval_s t fr v) := by
  unfold set_fregval_s
  split
  · refine ⟨h.1, fun h0 b hb => ?_⟩
    show frg_write t.frg (fr * 4) 4 v b = 0
    rw [frg_write_below _ _ _ _ _ (by omega)]
    exact h.2 h0 b hb
  · exact h

theorem keeps_set_fregval_d {s t : State} (fr v : Nat) (h : Keeps s t) :
    Keeps s (set_fregval_d t fr v) := by
  unfold set_fregval_d
  split
  · refine ⟨h.1, fun h0 b hb => ?_⟩
    show frg_write t.frg (fr * 4) 8 v b = 0
    rw [frg_write_below _ _ _ _ _ (by omega)]
    exact h.2 h0 b hb
  · exact h

theorem xlate_regs (s : State) (v : Nat) (dr w : Bool) :
    (get_address_translation s v dr w).2.iregs = s.iregs
      ∧ (get_address_translation s v dr w).2.frg = s.frg := by
  unfold get_address_translation
  simp only []
  cases dr <;> split_ifs <;> exact ⟨rfl, rfl⟩

theorem ifetch_regs (s : State) (pc : Nat) :
    (ifetch s pc).2.iregs = s.iregs ∧ (ifetch s pc).2.frg = s.frg := by
  have h := xlate_regs s pc false false
  unfold ifetch
  simp only []
  split_ifs <;> first | exact ⟨rfl, rfl⟩ | exact h

theorem readmemi_emu_regs (s : State) (a n : Nat) :
    (readmemi_emu s a n).2.iregs = s.iregs ∧ (readmemi_emu s a n).2.frg = s.frg := by
  have h := xlate_regs s a true false
  unfold readmemi_emu
  simp only []
  split_ifs <;> first | exact ⟨rfl, rfl⟩ | exact h

theorem fp_readmem_emu_regs (s : State) (a n : Nat) :
    (fp_readmem_emu s a n).2.iregs = s.iregs ∧ (fp_readmem_emu s a n).2.frg = s.frg := by
  have h := xlate_regs s a true false
  unfold fp_readmem_emu
  simp only []
  split_ifs <;> first | exact ⟨rfl, rfl⟩ | exact h

theorem console_loop_regs (n : Nat) (s : State) (ptr col : Nat) :
    (console_loop n s ptr col).iregs = s.iregs ∧ (console_loop n s ptr col).frg = s.frg := by
  induction n generalizing s ptr col with
  | zero => exact ⟨rfl, rfl⟩
  | succ n ih =>
    have h := readmemi_emu_regs s ptr 1
    unfold console_loop
    simp only []
    split_ifs <;> exact ⟨(ih _ _ _).1.trans h.1, (ih _ _ _).2.trans h.2⟩

theorem console_hook_regs (s : State) (addr data : Nat) :
    (console_hook s addr data).iregs = s.iregs ∧ (console_hook s addr data).frg = s.frg := by
  have h := readmemi_emu_regs s (u32 (addr + 4)) 4
  unfold console_hook
  simp only []
  split_ifs <;> first
    | exact ⟨rfl, rfl⟩
    | exact h
    | exact ⟨(console_loop_regs _ _ _ _).1.trans h.1, (console_loop_regs _ _ _ _).2.trans h.2⟩

theorem writememi_emu_regs (s : State) (a n d : Nat) :
    (writememi_emu s a n d).iregs = s.iregs ∧ (writememi_emu s a n d).frg = s.frg := by
  have h0 := console_hook_regs s a d
  have h := xlate_regs (console_hook s a d) a true true
  unfold writememi_emu
  simp only []
  split_ifs <;> first
    | exact h0
    | exact ⟨h.1.trans h0.1, h.2.trans h0.2⟩

theorem masked_wr8_iregs (s : State) (w b a v : Nat) : (masked_wr8 s w b a v).iregs = s.iregs := by
  unfold masked_wr8
  split <;> rfl

theorem masked_wr8_frg (s : State) (w b a v : Nat) : (masked_wr8 s w b a v).frg = s.frg := by
  unfold masked_wr8
  split <;> rfl

theorem fp_writemem_emu_regs (s : State) (a n : Nat) (data : List Nat) (wmask : Nat) :
    (fp_writemem_emu s a n data wmask).iregs = s.iregs
      ∧ (fp_writemem_emu s a n data wmask).frg = s.frg := by
  have h := xlate_regs s a true true
  unfold fp_writemem_emu
  simp only []
  split_ifs <;> first
    | exact ⟨rfl, rfl⟩
    | exact h
    | (simp only [masked_wr8_iregs, masked_wr8_frg]; first | exact ⟨trivial, trivial⟩ | exact h)

theorem keeps_readmemi {s t : State} (a n : Nat) (h : Keeps s t) :
    Keeps s (readmemi_emu t a n).2 := keeps_of_regs (readmemi_emu_regs t a n) h

theorem keeps_writememi {s t : State} (a n d : Nat) (h : Keeps s t) :
    Keeps s (writememi_emu t a n d) := keeps_of_regs (writememi_emu_regs t a n d) h

theorem keeps_fp_readmem {s t : State} (a n : Nat) (h : Keeps s t) :
    Keeps s (fp_readmem_emu t a n).2 := keeps_of_regs (fp_readmem_emu_regs t a n) h

theorem keeps_fp_writemem {s t : State} (a n : Nat) (data : List Nat) (w : Nat) (h : Keeps s t) :
    Keeps s (fp_writemem_emu t a n data w) := keeps_of_regs (fp_writemem_emu_regs t a n data w) h

theorem frg_store_below (frg : Nat → Nat) (i : Nat) (l : List Nat) (j : Nat) (h : j < i) :
    frg_store frg i l j = frg j := by
  induction l generalizing frg i with
  | nil => rfl
  | cons b bs ih =>
    simp only [frg_store]
    rw [ih _ _ (by omega), upd_other _ _ _ _ (by omega)]

theorem frg_store_zero8 (frg : Nat → Nat) (b : Nat) (hb : b < 8) :
    frg_store frg 0 [0, 0, 0, 0, 0, 0, 0, 0] b = 0 := by
  have h : b = 0 ∨ b = 1 ∨ b = 2 ∨ b = 3 ∨ b = 4 ∨ b = 5 ∨ b = 6 ∨ b = 7 := by omega
  rcases h with h | h | h | h | h | h | h | h <;> subst h <;> simp [frg_store, upd]

theorem keeps_store_high {s t : State} (i : Nat) (l : List Nat) (hi : 8 ≤ i) (h : Keeps s t) :
    Keeps s { t with frg := frg_store t.frg i l } := by
  refine ⟨h.1, fun h0 b hb => ?_⟩
  show frg_store t.frg i l b = 0
  rw [frg_store_below _ _ _ _ (by omega)]
  exact h.2 h0 b hb

theorem keeps_zero_low {s t : State} (h : Keeps s t) :
    Keeps s { t with frg := frg_store t.frg 0 [0, 0, 0, 0, 0, 0, 0, 0] } :=
  ⟨h.1, fun _ b hb => frg_store_zero8 _ b hb⟩

theorem keeps_commit_G {s t : State} (fdest dbl : Nat) (h : Keeps s t) :
    Keeps s (commit_G t fdest dbl) := by
  apply keeps_trans h
  repeat (first
    | exact keeps_refl _
    | apply keeps_set_iregval
    | apply keeps_set_fregval_s
    | apply keeps_set_fregval_d
    | apply keeps_readmemi
    | apply keeps_writememi
    | apply keeps_fp_readmem
    | apply keeps_fp_writemem
    | apply keeps_ite
    | apply keeps_mk)

theorem keeps_insn_faddp (s : State) (insn : Nat) : Keeps s (insn_faddp s insn) :=
  keeps_ite
    (keeps_set_fregval_d _ _ (keeps_of_regs ⟨rfl, rfl⟩ (keeps_refl s)))
    (keeps_commit_G _ _ (keeps_of_regs ⟨rfl, rfl⟩ (keeps_refl s)))

theorem keeps_insn_faddz (s : State) (insn : Nat) : Keeps s (insn_faddz s insn) :=
  keeps_ite
    (keeps_set_fregval_d _ _ (keeps_of_regs ⟨rfl, rfl⟩ (keeps_refl s)))
    (keeps_commit_G _ _ (keeps_of_regs ⟨rfl, rfl⟩ (keeps_refl s)))

theorem keeps_insn_dualop (fp : HostFP) (s : State) (insn : Nat) :
    Keeps s (insn_dualop fp s insn) := by
  by_cases hv : insn &&& 0x180 = 0x100
  · have e : insn_dualop fp s insn = unrecog_opcode s s.pc insn := by
      unfold insn_dualop
      lift_lets
      intros
      exact if_pos hv
    rw [e]
    exact keeps_of_regs ⟨rfl, rfl⟩ (keeps_refl s)
  · obtain ⟨t, f1, d1, g1, f2, n, r2, d2, g2, f3, r3, d3, g3, e, a, b, c, et⟩ :=
      insn_dualop_shape fp s insn hv
    rw [e, et]
    repeat (first
      | exact keeps_refl _
      | apply keeps_set_iregval
      | apply keeps_set_fregval_s
      | apply keeps_set_fregval_d
      | apply keeps_readmemi
      | apply keeps_writememi
      | apply keeps_fp_readmem
      | apply keeps_fp_writemem
      | apply keeps_ite
      | apply keeps_mk)

theorem keeps_insn_fldy (cfg : Config) (s : State) (insn : Nat) :
    Keeps s (insn_fldy cfg s insn) := by
  unfold insn_fldy
  lift_lets
  intro isrc1 immsrc1 isrc2 fdest auto_inc piped size fdr eff s1 r src s2 bebuf s3 s4 l0
  have h1 : Keeps s s1 := keeps_ite (keeps_set_iregval _ _ (keeps_refl s)) (keeps_refl s)
  have hr : Keeps s r.2 := keeps_fp_readmem _ _ h1
  have h2 : ¬ fdest < 2 → Keeps s s2 := by
    intro hf
    simp only [s2]
    split
    · exact keeps_store_high _ _ (by omega) hr
    · exact hr
  have hi : s.iregs 0 = 0 → s2.iregs 0 = 0 := by
    intro h0
    simp only [s2]
    split
    · exact hr.1 h0
    · exact hr.1 h0
  have h2z : Keeps s { s2 with frg := frg_store s2.frg 0 [0, 0, 0, 0, 0, 0, 0, 0] } :=
    ⟨hi, fun _ b hb => frg_store_zero8 _ b hb⟩
  have h3 : Keeps s s3 := keeps_ite (keeps_of_regs ⟨rfl, rfl⟩ hr) (keeps_of_regs ⟨rfl, rfl⟩ hr)
  have h4 : Keeps s s4 := keeps_ite (keeps_set_fregval_d _ _ h3) (keeps_set_fregval_s _ _ h3)
  apply keeps_ite
  · exact keeps_of_regs ⟨rfl, rfl⟩ (keeps_refl s)
  apply keeps_ite
  · exact h1
  apply keeps_ite
  · exact keeps_of_regs ⟨rfl, rfl⟩ h1
  apply keeps_ite
  · split
    · exact h2z
    · rename_i hf
      exact h2 hf
  apply keeps_ite
  · exact hr
  · exact keeps_of_regs ⟨rfl, rfl⟩ h4

theorem keeps_insn_ldx (cfg : Config) (s : State) (insn : Nat) : Keeps s (insn_ldx cfg s insn) := by
  repeat (first
    | exact keeps_refl _
    | apply keeps_set_iregval
    | apply keeps_set_fregval_s
    | apply keeps_set_fregval_d
    | apply keeps_readmemi
    | apply keeps_writememi
    | apply keeps_fp_readmem
    | apply keeps_fp_writemem
    | apply keeps_ite
    | apply keeps_mk)

theorem keeps_insn_ixfr (s : State) (insn : Nat) : Keeps s (insn_ixfr s insn) := by
  repeat (first
    | exact keeps_refl _
    | apply keeps_set_iregval
    | apply keeps_set_fregval_s
    | apply keeps_set_fregval_d
    | apply keeps_readmemi
    | apply keeps_writememi
    | apply keeps_fp_readmem
    | apply keeps_fp_writemem
    | apply keeps_ite
    | apply keeps_mk)

theorem keeps_insn_stx (cfg : Config) (s : State) (insn : Nat) : Keeps s (insn_stx cfg s insn) := by
  repeat (first
    | exact keeps_refl _
    | apply keeps_set_iregval
    | apply keeps_set_fregval_s
    | apply keeps_set_fregval_d
    | apply keeps_readmemi
    | apply keeps_writememi
    | apply keeps_fp_readmem
    | apply keeps_fp_writemem
    | apply keeps_ite
    | apply keeps_mk)

theorem keeps_insn_fsty (cfg : Config) (s : State) (insn : Nat) : Keeps s (insn_fsty cfg s insn) := by
  repeat (first
    | exact keeps_refl _
    | apply keeps_set_iregval
    | apply keeps_set_fregval_s
    | apply keeps_set_fregval_d
    | apply keeps_readmemi
    | apply keeps_writememi
    | apply keeps_fp_readmem
    | apply keeps_fp_writemem
    | apply keeps_ite
    | apply keeps_mk)

theorem keeps_insn_ld_ctrl (cfg : Config) (s : State) (insn : Nat) : Keeps s (insn_ld_ctrl cfg s insn) := by
  repeat (first
    | exact keeps_refl _
    | apply keeps_set_iregval
    | apply keeps_set_fregval_s
    | apply keeps_set_fregval_d
    | apply keeps_readmemi
    | apply keeps_writememi
    | apply keeps_fp_readmem
    | apply keeps_fp_writemem
    | apply keeps_ite
    | apply keeps_mk)

theorem keeps_insn_flush (s : State) (insn : Nat) : Keeps s (insn_flush s insn) := by
  repeat (first
    | exact keeps_refl _
    | apply keeps_set_iregval
    | apply keeps_set_fregval_s
    | apply keeps_set_fregval_d
    | apply keeps_readmemi
    | apply keeps_writememi
    | apply keeps_fp_readmem
    | apply keeps_fp_writemem
    | apply keeps_ite
    | apply keeps_mk)

theorem keeps_insn_st_ctrl (cfg : Config) (s : State) (insn : Nat) : Keeps s (insn_st_ctrl cfg s insn) := by
  repeat (first
    | exact keeps_refl _
    | apply keeps_set_iregval
    | apply keeps_set_fregval_s
    | apply keeps_set_fregval_d
    | apply keeps_readmemi
    | apply keeps_writememi
    | apply keeps_fp_readmem
    | apply keeps_fp_writemem
    | apply keeps_ite
    | apply keeps_mk)

theorem keeps_insn_pstd (cfg : Config) (s : State) (insn : Nat) : Keeps s (insn_pstd cfg s insn) := by
  repeat (first
    | exact keeps_refl _
    | apply keeps_set_iregval
    | apply keeps_set_fregval_s
    | apply keeps_set_fregval_d
    | apply keeps_readmemi
    | apply keeps_writememi
    | apply keeps_fp_readmem
    | apply keeps_fp_writemem
    | apply keeps_ite
    | apply keeps_mk)

theorem keeps_insn_trap (s : State) (insn : Nat) : Keeps s (insn_trap s insn) := by
  repeat (first
    | exact keeps_refl _
    | apply keeps_set_iregval
    | apply keeps_set_fregval_s
    | apply keeps_set_fregval_d
    | apply keeps_readmemi
    | apply keeps_writememi
    | apply keeps_fp_readmem
    | apply keeps_fp_writemem
    | apply keeps_ite
    | apply keeps_mk)

theorem keeps_insn_btne (s : State) (insn : Nat) : Keeps s (insn_btne s insn) := by
  repeat (first
    | exact keeps_refl _
    | apply keeps_set_iregval
    | apply keeps_set_fregval_s
    | apply keeps_set_fregval_d
    | apply keeps_readmemi
    | apply keeps_writememi
    | apply keeps_fp_readmem
    | apply keeps_fp_writemem
    | apply keeps_ite
    | apply keeps_mk)

theorem keeps_insn_btne_imm (s : State) (insn : Nat) : Keeps s (insn_btne_imm s insn) := by
  repeat (first
    | exact keeps_refl _
    | apply keeps_set_iregval
    | apply keeps_set_fregval_s
    | apply keeps_set_fregval_d
    | apply keeps_readmemi
    | apply keeps_writememi
    | apply keeps_fp_readmem
    | apply keeps_fp_writemem
    | apply keeps_ite
    | apply keeps_mk)

theorem keeps_insn_bte (s : State) (insn : Nat) : Keeps s (insn_bte s insn) := by
  repeat (first
    | exact keeps_refl _
    | apply keeps_set_iregval
    | apply keeps_set_fregval_s
    | apply keeps_set_fregval_d
    | apply keeps_readmemi
    | apply keeps_writememi
    | apply keeps_fp_readmem
    | apply keeps_fp_writemem
    | apply keeps_ite
    | apply keeps_mk)

theorem keeps_insn_bte_imm (s : State) (insn : Nat) : Keeps s (insn_bte_imm s insn) := by
  repeat (first
    | exact keeps_refl _
    | apply keeps_set_iregval
    | apply keeps_set_fregval_s
    | apply keeps_set_fregval_d
    | apply keeps_readmemi
    | apply keeps_writememi
    | apply keeps_fp_readmem
    | apply keeps_fp_writemem
    | apply keeps_ite
    | apply keeps_mk)

theorem keeps_insn_bc (s : State) (insn : Nat) : Keeps s (insn_bc s insn) := by
  repeat (first
    | exact keeps_refl _
    | apply keeps_set_iregval
    | apply keeps_set_fregval_s
    | apply keeps_set_fregval_d
    | apply keeps_readmemi
    | apply keeps_writememi
    | apply keeps_fp_readmem
    | apply keeps_fp_writemem
    | apply keeps_ite
    | apply keeps_mk)

theorem keeps_insn_bnc (s : State) (insn : Nat) : Keeps s (insn_bnc s insn) := by
  repeat (first
    | exact keeps_refl _
    | apply keeps_set_iregval
    | apply keeps_set_fregval_s
    | apply keeps_set_fregval_d
    | apply keeps_readmemi
    | apply keeps_writememi
    | apply keeps_fp_readmem
    | apply keeps_fp_writemem
    | apply keeps_ite
    | apply keeps_mk)

theorem keeps_insn_addu (s : State) (insn : Nat) : Keeps s (insn_addu s insn) := by
  repeat (first
    | exact keeps_refl _
    | apply keeps_set_iregval
    | apply keeps_set_fregval_s
    | apply keeps_set_fregval_d
    | apply keeps_readmemi
    | apply keeps_writememi
    | apply keeps_fp_readmem
    | apply keeps_fp_writemem
    | apply keeps_ite
    | apply keeps_mk)

theorem keeps_insn_addu_imm (s : State) (insn : Nat) : Keeps s (insn_addu_imm s insn) := by
  repeat (first
    | exact keeps_refl _
    | apply keeps_set_iregval
    | apply keeps_set_fregval_s
    | apply keeps_set_fregval_d
    | apply keeps_readmemi
    | apply keeps_writememi
    | apply keeps_fp_readmem
    | apply keeps_fp_writemem
    | apply keeps_ite
    | apply keeps_mk)

theorem keeps_insn_subu (s : State) (insn : Nat) : Keeps s (insn_subu s insn) := by
  repeat (first
    | exact keeps_refl _
    | apply keeps_set_iregval
    | apply keeps_set_fregval_s
    | apply keeps_set_fregval_d
    | apply keeps_readmemi
    | apply keeps_writememi
    | apply keeps_fp_readmem
    | apply keeps_fp_writemem
    | apply keeps_ite
    | apply keeps_mk)

theorem keeps_insn_subu_imm (s : State) (insn : Nat) : Keeps s (insn_subu_imm s insn) := by
  repeat (first
    | exact keeps_refl _
    | apply keeps_set_iregval
    | apply keeps_set_fregval_s
    | apply keeps_set_fregval_d
    | apply keeps_readmemi
    | apply keeps_writememi
    | apply keeps_fp_readmem
    | apply keeps_fp_writemem
    | apply keeps_ite
    | apply keeps_mk)

theorem keeps_insn_adds (s : State) (insn : Nat) : Keeps s (insn_adds s insn) := by
  repeat (first
    | exact keeps_refl _
    | apply keeps_set_iregval
    | apply keeps_set_fregval_s
    | apply keeps_set_fregval_d
    | apply keeps_readmemi
    | apply keeps_writememi
    | apply keeps_fp_readmem
    | apply keeps_fp_writemem
    | apply keeps_ite
    | apply keeps_mk)

theorem keeps_insn_adds_imm (s : State) (insn : Nat) : Keeps s (insn_adds_imm s insn) := by
  repeat (first
    | exact keeps_refl _
    | apply keeps_set_iregval
    | apply keeps_set_fregval_s
    | apply keeps_set_fregval_d
    | apply keeps_readmemi
    | apply keeps_writememi
    | apply keeps_fp_readmem
    | apply keeps_fp_writemem
    | apply keeps_ite
    | apply keeps_mk)

theorem keeps_insn_subs (s : State) (insn : Nat) : Keeps s (insn_subs s insn) := by
  repeat (first
    | exact keeps_refl _
    | apply keeps_set_iregval
    | apply keeps_set_fregval_s
    | apply keeps_set_fregval_d
    | apply keeps_readmemi
    | apply keeps_writememi
    | apply keeps_fp_readmem
    | apply keeps_fp_writemem
    | apply keeps_ite
    | apply keeps_mk)

theorem keeps_insn_subs_imm (s : State) (insn : Nat) : Keeps s (insn_subs_imm s insn) := by
  repeat (first
    | exact keeps_refl _
    | apply keeps_set_iregval
    | apply keeps_set_fregval_s
    | apply keeps_set_fregval_d
    | apply keeps_readmemi
    | apply keeps_writememi
    | apply keeps_fp_readmem
    | apply keeps_fp_writemem
    | apply keeps_ite
    | apply keeps_mk)

theorem keeps_insn_shl (s : State) (insn : Nat) : Keeps s (insn_shl s insn) := by
  repeat (first
    | exact keeps_refl _
    | apply keeps_set_iregval
    | apply keeps_set_fregval_s
    | apply keeps_set_fregval_d
    | apply keeps_readmemi
    | apply keeps_writememi
    | apply keeps_fp_readmem
    | apply keeps_fp_writemem
    | apply keeps_ite
    | apply keeps_mk)

theorem keeps_insn_shl_imm (s : State) (insn : Nat) : Keeps s (insn_shl_imm s insn) := by
  repeat (first
    | exact keeps_refl _
    | apply keeps_set_iregval
    | apply keeps_set_fregval_s
    | apply keeps_set_fregval_d
    | apply keeps_readmemi
    | apply keeps_writememi
    | apply keeps_fp_readmem
    | apply keeps_fp_writemem
    | apply keeps_ite
    | apply keeps_mk)

theorem keeps_insn_shr (s : State) (insn : Nat) : Keeps s (insn_shr s insn) := by
  repeat (first
    | exact keeps_refl _
    | apply keeps_set_iregval
    | apply keeps_set_fregval_s
    | apply keeps_set_fregval_d
    | apply keeps_readmemi
    | apply keeps_writememi
    | apply keeps_fp_readmem
    | apply keeps_fp_writemem
    | apply keeps_ite
    | apply keeps_mk)

theorem keeps_insn_shr_imm (s : State) (insn : Nat) : Keeps s (insn_shr_imm s insn) := by
  repeat (first
    | exact keeps_refl _
    | apply keeps_set_iregval
    | apply keeps_set_fregval_s
    | apply keeps_set_fregval_d
    | apply keeps_readmemi
    | apply keeps_writememi
    | apply keeps_fp_readmem
    | apply keeps_fp_writemem
    | apply keeps_ite
    | apply keeps_mk)

theorem keeps_insn_shrd (s : State) (insn : Nat) : Keeps s (insn_shrd s insn) := by
  repeat (first
    | exact keeps_refl _
    | apply keeps_set_iregval
    | apply keeps_set_fregval_s
    | apply keeps_set_fregval_d
    | apply keeps_readmemi
    | apply keeps_writememi
    | apply keeps_fp_readmem
    | apply keeps_fp_writemem
    | apply keeps_ite
    | apply keeps_mk)

theorem keeps_insn_shra (s : State) (insn : Nat) : Keeps s (insn_shra s insn) := by
  repeat (first
    | exact keeps_refl _
    | apply keeps_set_iregval
    | apply keeps_set_fregval_s
    | apply keeps_set_fregval_d
    | apply keeps_readmemi
    | apply keeps_writememi
    | apply keeps_fp_readmem
    | apply keeps_fp_writemem
    | apply keeps_ite
    | apply keeps_mk)

theorem keeps_insn_shra_imm (s : State) (insn : Nat) : Keeps s (insn_shra_imm s insn) := by
  repeat (first
    | exact keeps_refl _
    | apply keeps_set_iregval
    | apply keeps_set_fregval_s
    | apply keeps_set_fregval_d
    | apply keeps_readmemi
    | apply keeps_writememi
    | apply keeps_fp_readmem
    | apply keeps_fp_writemem
    | apply keeps_ite
    | apply keeps_mk)

theorem keeps_insn_and (s : State) (insn : Nat) : Keeps s (insn_and s insn) := by
  repeat (first
    | exact keeps_refl _
    | apply keeps_set_iregval
    | apply keeps_set_fregval_s
    | apply keeps_set_fregval_d
    | apply keeps_readmemi
    | apply keeps_writememi
    | apply keeps_fp_readmem
    | apply keeps_fp_writemem
    | apply keeps_ite
    | apply keeps_mk)

theorem keeps_insn_and_imm (s : State) (insn : Nat) : Keeps s (insn_and_imm s insn) := by
  repeat (first
    | exact keeps_refl _
    | apply keeps_set_iregval
    | apply keeps_set_fregval_s
    | apply keeps_set_fregval_d
    | apply keeps_readmemi
    | apply keeps_writememi
    | apply keeps_fp_readmem
    | apply keeps_fp_writemem
    | apply keeps_ite
    | apply keeps_mk)

theorem keeps_insn_andh_imm (s : State) (insn : Nat) : Keeps s (insn_andh_imm s insn) := by
  repeat (first
    | exact keeps_refl _
    | apply keeps_set_iregval
    | apply keeps_set_fregval_s
    | apply keeps_set_fregval_d
    | apply keeps_readmemi
    | apply keeps_writememi
    | apply keeps_fp_readmem
    | apply keeps_fp_writemem
    | apply keeps_ite
    | apply keeps_mk)

theorem keeps_insn_andnot (s : State) (insn : Nat) : Keeps s (insn_andnot s insn) := by
  repeat (first
    | exact keeps_refl _
    | apply keeps_set_iregval
    | apply keeps_set_fregval_s
    | apply keeps_set_fregval_d
    | apply keeps_readmemi
    | apply keeps_writememi
    | apply keeps_fp_readmem
    | apply keeps_fp_writemem
    | apply keeps_ite
    | apply keeps_mk)

theorem keeps_insn_andnot_imm (s : State) (insn : Nat) : Keeps s (insn_andnot_imm s insn) := by
  repeat (first
    | exact keeps_refl _
    | apply keeps_set_iregval
    | apply keeps_set_fregval_s
    | apply keeps_set_fregval_d
    | apply keeps_readmemi
    | apply keeps_writememi
    | apply keeps_fp_readmem
    | apply keeps_fp_writemem
    | apply keeps_ite
    | apply keeps_mk)

theorem keeps_insn_andnoth_imm (s : State) (insn : Nat) : Keeps s (insn_andnoth_imm s insn) := by
  repeat (first
    | exact keeps_refl _
    | apply keeps_set_iregval
    | apply keeps_set_fregval_s
    | apply keeps_set_fregval_d
    | apply keeps_readmemi
    | apply keeps_writememi
    | apply keeps_fp_readmem
    | apply keeps_fp_writemem
    | apply keeps_ite
    | apply keeps_mk)

theorem keeps_insn_or (s : State) (insn : Nat) : Keeps s (insn_or s insn) := by
  repeat (first
    | exact keeps_refl _
    | apply keeps_set_iregval
    | apply keeps_set_fregval_s
    | apply keeps_set_fregval_d
    | apply keeps_readmemi
    | apply keeps_writememi
    | apply keeps_fp_readmem
    | apply keeps_fp_writemem
    | apply keeps_ite
    | apply keeps_mk)

theorem keeps_insn_or_imm (s : State) (insn : Nat) : Keeps s (insn_or_imm s insn) := by
  repeat (first
    | exact keeps_refl _
    | apply keeps_set_iregval
    | apply keeps_set_fregval_s
    | apply keeps_set_fregval_d
    | apply keeps_readmemi
    | apply keeps_writememi
    | apply keeps_fp_readmem
    | apply keeps_fp_writemem
    | apply keeps_ite
    | apply keeps_mk)

theorem keeps_insn_orh_imm (s : State) (insn : Nat) : Keeps s (insn_orh_imm s insn) := by
  repeat (first
    | exact keeps_refl _
    | apply keeps_set_iregval
    | apply keeps_set_fregval_s
    | apply keeps_set_fregval_d
    | apply keeps_readmemi
    | apply keeps_writememi
    | apply keeps_fp_readmem
    | apply keeps_fp_writemem
    | apply keeps_ite
    | apply keeps_mk)

theorem keeps_insn_xor (s : State) (insn : Nat) : Keeps s (insn_xor s insn) := by
  repeat (first
    | exact keeps_refl _
    | apply keeps_set_iregval
    | apply keeps_set_fregval_s
    | apply keeps_set_fregval_d
    | apply keeps_readmemi
    | apply keeps_writememi
    | apply keeps_fp_readmem
    | apply keeps_fp_writemem
    | apply keeps_ite
    | apply keeps_mk)

theorem keeps_insn_xor_imm (s : State) (insn : Nat) : Keeps s (insn_xor_imm s insn) := by
  repeat (first
    | exact keeps_refl _
    | apply keeps_set_iregval
    | apply keeps_set_fregval_s
    | apply keeps_set_fregval_d
    | apply keeps_readmemi
    | apply keeps_writememi
    | apply keeps_fp_readmem
    | apply keeps_fp_writemem
    | apply keeps_ite
    | apply keeps_mk)

theorem keeps_insn_xorh_imm (s : State) (insn : Nat) : Keeps s (insn_xorh_imm s insn) := by
  repeat (first
    | exact keeps_refl _
    | apply keeps_set_iregval
    | apply keeps_set_fregval_s
    | apply keeps_set_fregval_d
    | apply keeps_readmemi
    | apply keeps_writememi
    | apply keeps_fp_readmem
    | apply keeps_fp_writemem
    | apply keeps_ite
    | apply keeps_mk)

theorem keeps_insn_fmul (fp : HostFP) (s : State) (insn : Nat) : Keeps s (insn_fmul fp s insn) := by
  repeat (first
    | exact keeps_refl _
    | apply keeps_set_iregval
    | apply keeps_set_fregval_s
    | apply keeps_set_fregval_d
    | apply keeps_readmemi
    | apply keeps_writememi
    | apply keeps_fp_readmem
    | apply keeps_fp_writemem
    | apply keeps_ite
    | apply keeps_mk)

theorem keeps_insn_fmlow (s : State) (insn : Nat) : Keeps s (insn_fmlow s insn) := by
  repeat (first
    | exact keeps_refl _
    | apply keeps_set_iregval
    | apply keeps_set_fregval_s
    | apply keeps_set_fregval_d
    | apply keeps_readmemi
    | apply keeps_writememi
    | apply keeps_fp_readmem
    | apply keeps_fp_writemem
    | apply keeps_ite
    | apply keeps_mk)

theorem keeps_insn_frcp (fp : HostFP) (s : State) (insn : Nat) : Keeps s (insn_frcp fp s insn) := by
  repeat (first
    | exact keeps_refl _
    | apply keeps_set_iregval
    | apply keeps_set_fregval_s
    | apply keeps_set_fregval_d
    | apply keeps_readmemi
    | apply keeps_writememi
    | apply keeps_fp_readmem
    | apply keeps_fp_writemem
    | apply keeps_ite
    | apply keeps_mk)

theorem keeps_insn_frsqr (fp : HostFP) (s : State) (insn : Nat) : Keeps s (insn_frsqr fp s insn) := by
  repeat (first
    | exact keeps_refl _
    | apply keeps_set_iregval
    | apply keeps_set_fregval_s
    | apply keeps_set_fregval_d
    | apply keeps_readmemi
    | apply keeps_writememi
    | apply keeps_fp_readmem
    | apply keeps_fp_writemem
    | apply keeps_ite
    | apply keeps_mk)

theorem keeps_insn_fadd_sub (fp : HostFP) (s : State) (insn : Nat) : Keeps s (insn_fadd_sub fp s insn) := by
  repeat (first
    | exact keeps_refl _
    | apply keeps_set_iregval
    | apply keeps_set_fregval_s
    | apply keeps_set_fregval_d
    | apply keeps_readmemi
    | apply keeps_writememi
    | apply keeps_fp_readmem
    | apply keeps_fp_writemem
    | apply keeps_ite
    | apply keeps_mk)

theorem keeps_insn_famov (fp : HostFP) (s : State) (insn : Nat) : Keeps s (insn_famov fp s insn) := by
  repeat (first
    | exact keeps_refl _
    | apply keeps_set_iregval
    | apply keeps_set_fregval_s
    | apply keeps_set_fregval_d
    | apply keeps_readmemi
    | apply keeps_writememi
    | apply keeps_fp_readmem
    | apply keeps_fp_writemem
    | apply keeps_ite
    | apply keeps_mk)

theorem keeps_insn_fcmp (fp : HostFP) (s : State) (insn : Nat) : Keeps s (insn_fcmp fp s insn) := by
  repeat (first
    | exact keeps_refl _
    | apply keeps_set_iregval
    | apply keeps_set_fregval_s
    | apply keeps_set_fregval_d
    | apply keeps_readmemi
    | apply keeps_writememi
    | apply keeps_fp_readmem
    | apply keeps_fp_writemem
    | apply keeps_ite
    | apply keeps_mk)

theorem keeps_insn_ftrunc (fp : HostFP) (s : State) (insn : Nat) : Keeps s (insn_ftrunc fp s insn) := by
  repeat (first
    | exact keeps_refl _
    | apply keeps_set_iregval
    | apply keeps_set_fregval_s
    | apply keeps_set_fregval_d
    | apply keeps_readmemi
    | apply keeps_writememi
    | apply keeps_fp_readmem
    | apply keeps_fp_writemem
    | apply keeps_ite
    | apply keeps_mk)

theorem keeps_insn_fxfr (s : State) (insn : Nat) : Keeps s (insn_fxfr s insn) := by
  repeat (first
    | exact keeps_refl _
    | apply keeps_set_iregval
    | apply keeps_set_fregval_s
    | apply keeps_set_fregval_d
    | apply keeps_readmemi
    | apply keeps_writememi
    | apply keeps_fp_readmem
    | apply keeps_fp_writemem
    | apply keeps_ite
    | apply keeps_mk)

theorem keeps_insn_fiadd_sub (s : State) (insn : Nat) : Keeps s (insn_fiadd_sub s insn) := by
  repeat (first
    | exact keeps_refl _
    | apply keeps_set_iregval
    | apply keeps_set_fregval_s
    | apply keeps_set_fregval_d
    | apply keeps_readmemi
    | apply keeps_writememi
    | apply keeps_fp_readmem
    | apply keeps_fp_writemem
    | apply keeps_ite
    | apply keeps_mk)

theorem keeps_insn_fzchk (s : State) (insn : Nat) : Keeps s (insn_fzchk s insn) := by
  repeat (first
    | exact keeps_refl _
    | apply keeps_set_iregval
    | apply keeps_set_fregval_s
    | apply keeps_set_fregval_d
    | apply keeps_readmemi
    | apply keeps_writememi
    | apply keeps_fp_readmem
    | apply keeps_fp_writemem
    | apply keeps_ite
    | apply keeps_mk)

theorem keeps_insn_form (s : State) (insn : Nat) : Keeps s (insn_form s insn) := by
  repeat (first
    | exact keeps_refl _
    | apply keeps_set_iregval
    | apply keeps_set_fregval_s
    | apply keeps_set_fregval_d
    | apply keeps_readmemi
    | apply keeps_writememi
    | apply keeps_fp_readmem
    | apply keeps_fp_writemem
    | apply keeps_ite
    | apply keeps_mk)

theorem keeps_insn_intovr (s : State) (insn : Nat) : Keeps s (insn_intovr s insn) := by
  repeat (first
    | exact keeps_refl _
    | apply keeps_set_iregval
    | apply keeps_set_fregval_s
    | apply keeps_set_fregval_d
    | apply keeps_readmemi
    | apply keeps_writememi
    | apply keeps_fp_readmem
    | apply keeps_fp_writemem
    | apply keeps_ite
    | apply keeps_mk)

theorem keepsO_of_some {s t : State} (h : Keeps s t) : KeepsO s (some t) := by
  intro u hu
  cases hu
  exact h

theorem keepsO_of_none (s : State) : KeepsO s none := by
  intro u hu
  cases hu

theorem keepsO_ite {s : State} {a b : Option State} {c : Prop} [Decidable c]
    (ha : KeepsO s a) (hb : KeepsO s b) : KeepsO s (if c then a else b) := by
  split
  · exact ha
  · exact hb

theorem keepsO_bind {s : State} (o : Option State) (f : State → Option State) :
    KeepsO s o → (∀ x, Keeps s x → KeepsO s (f x)) →
      KeepsO s (match o with | none => none | some x => f x) := by
  intro ho hf
  cases o with
  | none => exact keepsO_of_none s
  | some x => exact hf x (ho x rfl)

theorem keeps_delay_slot (exec : State → Nat → Option State)
    (hexec : ∀ t w, KeepsO t (exec t w)) {s t : State} (pc : Nat) (h : Keeps s t) :
    KeepsO s (delay_slot exec t pc) := by
  unfold delay_slot
  lift_lets
  intro s1 f
  have hf : Keeps s f.2 := keeps_of_regs (ifetch_regs s1 _) (keeps_of_regs ⟨rfl, rfl⟩ h)
  exact keepsO_bind (exec f.2 f.1) (fun s2 => Option.some { s2 with pc := pc })
    (fun u hu => keeps_trans hf (hexec _ _ u hu))
    (fun x hx => keepsO_of_some (keeps_of_regs ⟨rfl, rfl⟩ hx))

theorem keeps_insn_bct (exec : State → Nat → Option State)
    (hexec : ∀ t w, KeepsO t (exec t w)) (s : State) (insn : Nat) :
    KeepsO s (insn_bct exec s insn) := by
  unfold insn_bct
  simp only []
  apply keepsO_ite
  · refine keepsO_bind _ _ (keeps_delay_slot exec hexec _ (keeps_refl s)) (fun x hx => ?_)
    repeat (first
      | assumption
      | apply keeps_set_iregval
      | apply keeps_ite
      | apply keeps_mk
      | apply keepsO_ite
      | apply keepsO_of_some)
  · exact keepsO_of_some (keeps_of_regs ⟨rfl, rfl⟩ (keeps_refl s))

theorem keeps_insn_bnct (exec : State → Nat → Option State)
    (hexec : ∀ t w, KeepsO t (exec t w)) (s : State) (insn : Nat) :
    KeepsO s (insn_bnct exec s insn) := by
  unfold insn_bnct
  simp only []
  apply keepsO_ite
  · refine keepsO_bind _ _ (keeps_delay_slot exec hexec _ (keeps_refl s)) (fun x hx => ?_)
    repeat (first
      | assumption
      | apply keeps_set_iregval
      | apply keeps_ite
      | apply keeps_mk
      | apply keepsO_ite
      | apply keepsO_of_some)
  · exact keepsO_of_some (keeps_of_regs ⟨rfl, rfl⟩ (keeps_refl s))

theorem keeps_insn_call (exec : State → Nat → Option State)
    (hexec : ∀ t w, KeepsO t (exec t w)) (s : State) (insn : Nat) :
    KeepsO s (insn_call exec s insn) := by
  unfold insn_call
  simp only []
  refine keepsO_bind _ _ (keeps_delay_slot exec hexec _ (keeps_refl s)) (fun x hx => ?_)
  repeat (first
    | assumption
    | apply keeps_set_iregval
    | apply keeps_ite
    | apply keeps_mk
    | apply keepsO_ite
    | apply keepsO_of_some)

theorem keeps_insn_br (exec : State → Nat → Option State)
    (hexec : ∀ t w, KeepsO t (exec t w)) (s : State) (insn : Nat) :
    KeepsO s (insn_br exec s insn) := by
  unfold insn_br
  simp only []
  refine keepsO_bind _ _ (keeps_delay_slot exec hexec _ (keeps_refl s)) (fun x hx => ?_)
  repeat (first
    | assumption
    | apply keeps_set_iregval
    | apply keeps_ite
    | apply keeps_mk
    | apply keepsO_ite
    | apply keepsO_of_some)

theorem keeps_insn_bri (exec : State → Nat → Option State)
    (hexec : ∀ t w, KeepsO t (exec t w)) (s : State) (insn : Nat) :
    KeepsO s (insn_bri exec s insn) := by
  unfold insn_bri
  simp only []
  refine keepsO_bind _ _ (keeps_delay_slot exec hexec _ (keeps_of_regs ⟨rfl, rfl⟩ (keeps_refl s))) (fun x hx => ?_)
  repeat (first
    | assumption
    | apply keeps_set_iregval
    | apply keeps_ite
    | apply keeps_mk
    | apply keepsO_ite
    | apply keepsO_of_some)

theorem keeps_insn_calli (exec : State → Nat → Option State)
    (hexec : ∀ t w, KeepsO t (exec t w)) (s : State) (insn : Nat) :
    KeepsO s (insn_calli exec s insn) := by
  unfold insn_calli
  simp only []
  refine keepsO_bind _ _ (keeps_delay_slot exec hexec _ (keeps_set_iregval _ _ (keeps_refl s))) (fun x hx => ?_)
  repeat (first
    | assumption
    | apply keeps_set_iregval
    | apply keeps_ite
    | apply keeps_mk
    | apply keepsO_ite
    | apply keepsO_of_some)

theorem keeps_insn_bla (cfg : Config) (exec : State → Nat → Option State)
    (hexec : ∀ t w, KeepsO t (exec t w)) (s : State) (insn : Nat) :
    KeepsO s (insn_bla cfg exec s insn) := by
  unfold insn_bla
  simp only []
  apply keepsO_ite
  · exact keepsO_of_some (keeps_refl s)
  · refine keepsO_bind _ _ (keeps_delay_slot exec hexec _ (keeps_set_iregval _ _ (keeps_refl s))) (fun x hx => ?_)
    repeat (first
      | assumption
      | apply keeps_set_iregval
      | apply keeps_ite
      | apply keeps_mk
      | apply keepsO_ite
      | apply keepsO_of_some)

theorem keeps_run_handler (cfg : Config) (fp : HostFP) (exec : State → Nat → Option State)
    (hexec : ∀ t w, KeepsO t (exec t w)) (h : Handler) (s : State) (insn : Nat) :
    KeepsO s (run_handler cfg fp exec h s insn) := by
  cases h
  case ldx => exact keepsO_of_some (keeps_insn_ldx _ _ _)
  case ixfr => exact keepsO_of_some (keeps_insn_ixfr _ _)
  case stx => exact keepsO_of_some (keeps_insn_stx _ _ _)
  case fldy => exact keepsO_of_some (keeps_insn_fldy _ _ _)
  case fsty => exact keepsO_of_some (keeps_insn_fsty _ _ _)
  case ld_ctrl => exact keepsO_of_some (keeps_insn_ld_ctrl _ _ _)
  case flush => exact keepsO_of_some (keeps_insn_flush _ _)
  case st_ctrl => exact keepsO_of_some (keeps_insn_st_ctrl _ _ _)
  case pstd => exact keepsO_of_some (keeps_insn_pstd _ _ _)
  case bri => exact keeps_insn_bri exec hexec s insn
  case trap => exact keepsO_of_some (keeps_insn_trap _ _)
  case btne => exact keepsO_of_some (keeps_insn_btne _ _)
  case btne_imm => exact keepsO_of_some (keeps_insn_btne_imm _ _)
  case bte => exact keepsO_of_some (keeps_insn_bte _ _)
  case bte_imm => exact keepsO_of_some (keeps_insn_bte_imm _ _)
  case br => exact keeps_insn_br exec hexec s insn
  case call => exact keeps_insn_call exec hexec s insn
  case bc => exact keepsO_of_some (keeps_insn_bc _ _)
  case bct => exact keeps_insn_bct exec hexec s insn
  case bnc => exact keepsO_of_some (keeps_insn_bnc _ _)
  case bnct => exact keeps_insn_bnct exec hexec s insn
  case addu => exact keepsO_of_some (keeps_insn_addu _ _)
  case addu_imm => exact keepsO_of_some (keeps_insn_addu_imm _ _)
  case subu => exact keepsO_of_some (keeps_insn_subu _ _)
  case subu_imm => exact keepsO_of_some (keeps_insn_subu_imm _ _)
  case adds => exact keepsO_of_some (keeps_insn_adds _ _)
  case adds_imm => exact keepsO_of_some (keeps_insn_adds_imm _ _)
  case subs => exact keepsO_of_some (keeps_insn_subs _ _)
  case subs_imm => exact keepsO_of_some (keeps_insn_subs_imm _ _)
  case shl => exact keepsO_of_some (keeps_insn_shl _ _)
  case shl_imm => exact keepsO_of_some (keeps_insn_shl_imm _ _)
  case shr => exact keepsO_of_some (keeps_insn_shr _ _)
  case shr_imm => exact keepsO_of_some (keeps_insn_shr_imm _ _)
  case shrd => exact keepsO_of_some (keeps_insn_shrd _ _)
  case bla => exact keeps_insn_bla cfg exec hexec s insn
  case shra => exact keepsO_of_some (keeps_insn_shra _ _)
  case shra_imm => exact keepsO_of_some (keeps_insn_shra_imm _ _)
  case and_ => exact keepsO_of_some (keeps_insn_and _ _)
  case and_imm => exact keepsO_of_some (keeps_insn_and_imm _ _)
  case andh_imm => exact keepsO_of_some (keeps_insn_andh_imm _ _)
  case andnot => exact keepsO_of_some (keeps_insn_andnot _ _)
  case andnot_imm => exact keepsO_of_some (keeps_insn_andnot_imm _ _)
  case andnoth_imm => exact keepsO_of_some (keeps_insn_andnoth_imm _ _)
  case or_ => exact keepsO_of_some (keeps_insn_or _ _)
  case or_imm => exact keepsO_of_some (keeps_insn_or_imm _ _)
  case orh_imm => exact keepsO_of_some (keeps_insn_orh_imm _ _)
  case xor_ => exact keepsO_of_some (keeps_insn_xor _ _)
  case xor_imm => exact keepsO_of_some (keeps_insn_xor_imm _ _)
  case xorh_imm => exact keepsO_of_some (keeps_insn_xorh_imm _ _)
  case dualop => exact keepsO_of_some (keeps_insn_dualop _ _ _)
  case fmul => exact keepsO_of_some (keeps_insn_fmul _ _ _)
  case fmlow => exact keepsO_of_some (keeps_insn_fmlow _ _)
  case frcp => exact keepsO_of_some (keeps_insn_frcp _ _ _)
  case frsqr => exact keepsO_of_some (keeps_insn_frsqr _ _ _)
  case fadd_sub => exact keepsO_of_some (keeps_insn_fadd_sub _ _ _)
  case famov => exact keepsO_of_some (keeps_insn_famov _ _ _)
  case fcmp => exact keepsO_of_some (keeps_insn_fcmp _ _ _)
  case ftrunc => exact keepsO_of_some (keeps_insn_ftrunc _ _ _)
  case fxfr => exact keepsO_of_some (keeps_insn_fxfr _ _)
  case fiadd_sub => exact keepsO_of_some (keeps_insn_fiadd_sub _ _)
  case faddp => exact keepsO_of_some (keeps_insn_faddp _ _)
  case faddz => exact keepsO_of_some (keeps_insn_faddz _ _)
  case fzchk => exact keepsO_of_some (keeps_insn_fzchk _ _)
  case form => exact keepsO_of_some (keeps_insn_form _ _)
  case calli => exact keeps_insn_calli exec hexec s insn
  case intovr => exact keepsO_of_some (keeps_insn_intovr _ _)

theorem keeps_call_entry (cfg : Config) (fp : HostFP) (exec : State → Nat → Option State)
    (hexec : ∀ t w, KeepsO t (exec t w)) (e : Option Handler × Nat) {s t : State} (insn : Nat)
    (h : Keeps s t) : KeepsO s (call_entry cfg fp exec e t insn) := by
  unfold call_entry
  cases e.1 with
  | none => exact keepsO_of_some h
  | some hd =>
    intro u hu
    exact keeps_trans h (keeps_run_handler cfg fp exec hexec hd t insn u hu)

theorem keeps_decode_exec_body (cfg : Config) (fp : HostFP) (exec : State → Nat → Option State)
    (hexec : ∀ t w, KeepsO t (exec t w)) (s : State) (insn : Nat) :
    KeepsO s (decode_exec_body cfg fp exec s insn) := by
  unfold decode_exec_body
  lift_lets
  intro u6 e s1 fe ce
  have h1 : Keeps s s1 := by
    repeat (first
      | exact keeps_refl _
      | apply keeps_ite
      | apply keeps_mk)
  have hu : ∀ {t : State}, Keeps s t → KeepsO s (Option.some (unrecog_opcode t t.pc insn)) :=
    fun ht => keepsO_of_some (keeps_of_regs ⟨rfl, rfl⟩ ht)
  repeat (first
    | exact keepsO_of_some (keeps_refl s)
    | exact hu (keeps_refl s)
    | exact hu h1
    | exact keeps_call_entry cfg fp exec hexec _ insn (keeps_refl s)
    | exact keeps_call_entry cfg fp exec hexec _ insn h1
    | apply keepsO_ite)

theorem keeps_decode_exec (cfg : Config) (fp : HostFP) (d : Nat) :
    ∀ (s : State) (insn : Nat), KeepsO s (decode_exec cfg fp d s insn) := by
  induction d with
  | zero =>
    intro s insn
    exact keeps_decode_exec_body cfg fp _ (fun t _ => keepsO_of_none t) s insn
  | succ d ih =>
    intro s insn
    exact keeps_decode_exec_body cfg fp _ ih s insn

theorem decode_exec_returns (cfg : Config) (fp : HostFP) (d : Nat) (s : State) (insn : Nat)
    (h : has_delay_slot insn = 0) : (decode_exec cfg fp d s insn).isSome = true := by
  cases hr : decode_exec cfg fp d s insn with
  | some t => rfl
  | none =>
    have hb : ∃ exec, decode_exec_body cfg fp exec s insn = none := by
      cases d with
      | zero => exact ⟨_, hr⟩
      | succ d => exact ⟨_, hr⟩
    obtain ⟨exec, hb⟩ := hb
    have := (decode_exec_body_none cfg fp exec s insn hb).1
    omega

theorem set_fsr_se_zero (s : State) :
    (SET_FSR_SE s 0).pending_trap = s.pending_trap
      ∧ (SET_FSR_SE s 0).cregs CR_PSR = s.cregs CR_PSR
      ∧ GET_FSR_SE (SET_FSR_SE s 0) = 0
      ∧ (SET_FSR_SE s 0).iregs = s.iregs := by
  refine ⟨rfl, ?_, ?_, rfl⟩
  · exact upd_other s.cregs CR_FSR CR_PSR (setField (s.cregs CR_FSR) 8 1 0) (show CR_PSR ≠ CR_FSR by decide)
  · unfold GET_FSR_SE SET_FSR_SE setCreg
    simp only [upd_same]
    exact getField_setField_same _ _ _

/-- What a state reached from `s` by `SET_FSR_SE (0)` and register writes, or
`s` itself, or `s` halted, keeps. -/
theorem no_source_exception_aux (s t : State)
    (h : t = s ∨ t = unrecog_opcode s s.pc 0
      ∨ ∃ (f : Nat → Nat), t = { SET_FSR_SE s 0 with frg := f }) :
    t.pending_trap = s.pending_trap ∧ GET_PSR_FT t = GET_PSR_FT s
      ∧ (GET_FSR_SE t = 0 ∨ GET_FSR_SE t = GET_FSR_SE s) := by
  rcases h with h | h | ⟨f, h⟩
  · subst h
    exact ⟨rfl, rfl, Or.inr rfl⟩
  · subst h
    exact ⟨rfl, rfl, Or.inr rfl⟩
  · subst h
    obtain ⟨h1, h2, h3, _⟩ := set_fsr_se_zero s
    refine ⟨h1, ?_, Or.inl h3⟩
    show getField ((SET_FSR_SE s 0).cregs CR_PSR) 12 1 = getField (s.cregs CR_PSR) 12 1
    rw [h2]

theorem set_fregval_frg_form (s : State) (fr v : Nat) :
    (∃ f : Nat → Nat, set_fregval_d s fr v = { s with frg := f })
      ∧ (∃ f : Nat → Nat, set_fregval_s s fr v = { s with frg := f }) := by
  unfold set_fregval_d set_fregval_s
  constructor <;> split <;> exact ⟨_, rfl⟩

theorem insn_frcp_shape (fp : HostFP) (s : State) (insn : Nat) :
    insn_frcp fp s insn = s
      ∨ ∃ (f : Nat → Nat), insn_frcp fp s insn = { SET_FSR_SE s 0 with frg := f } := by
  unfold insn_frcp
  simp only []
  split_ifs
  all_goals first
    | exact Or.inl rfl
    | exact Or.inr (set_fregval_frg_form _ _ _).1
    | exact Or.inr (set_fregval_frg_form _ _ _).2

theorem insn_frsqr_shape (fp : HostFP) (s : State) (insn : Nat) :
    insn_frsqr fp s insn = s ∨ insn_frsqr fp s insn = unrecog_opcode s s.pc 0
      ∨ ∃ (f : Nat → Nat), insn_frsqr fp s insn = { SET_FSR_SE s 0 with frg := f } := by
  unfold insn_frsqr
  simp only []
  split_ifs
  all_goals first
    | exact Or.inl rfl
    | exact Or.inr (Or.inl rfl)
    | exact Or.inr (Or.inr (set_fregval_frg_form _ _ _).1)
    | exact Or.inr (Or.inr (set_fregval_frg_form _ _ _).2)

theorem and_shifted_mask (x k n : Nat) : x &&& (2 ^ k * (2 ^ n - 1)) = 2 ^ k * (x / 2 ^ k % 2 ^ n) := by
  apply Nat.eq_of_testBit_eq
  intro i
  rw [Nat.testBit_and, Nat.testBit_mul_pow_two, Nat.testBit_mul_pow_two,
    Nat.testBit_two_pow_sub_one, Nat.testBit_mod_two_pow, ← Nat.shiftRight_eq_div_pow,
    Nat.testBit_shiftRight]
  by_cases h : k ≤ i
  · have e : k + (i - k) = i := by omega
    simp [h, e]
    by_cases h2 : i - k < n <;> simp [h2]
  · simp [h]

theorem sbroff_field_eq (insn : Nat) :
    sbroff_field insn = 2 ^ 11 * (insn / 2 ^ 16 % 2 ^ 5) + insn % 2 ^ 11 := by
  unfold sbroff_field
  have h1 : (insn >>> 5) &&& 0xf800 = 2 ^ 11 * (insn / 2 ^ 16 % 2 ^ 5) := by
    have := and_shifted_mask (insn >>> 5) 11 5
    rw [show (2 ^ 11 * (2 ^ 5 - 1) : Nat) = 0xf800 by norm_num] at this
    rw [this, Nat.shiftRight_eq_div_pow, Nat.div_div_eq_div_mul]
    norm_num
  have h2 : insn &&& 0x07ff = insn % 2 ^ 11 := Nat.and_pow_two_sub_one_eq_mod insn 11
  rw [h1, h2]
  exact (Nat.mul_add_lt_is_or (Nat.mod_lt _ (by norm_num)) _).symm

theorem branch_commit_eq (s : State) (c : Prop) [Decidable c] (t : Nat) :
    branch_commit s (decide c) t
      = { s with pc := if c then t else (s.pc + 4) % 2 ^ 32, pc_updated := 1 } := by
  unfold branch_commit u32
  by_cases h : c <;> simp [h]

set_option maxRecDepth 100000 in
theorem decode_tbl_shape :
    ∀ opc, opc < 64 →
      ((decode_tbl.getD opc (none, 0)).1.isSome = true
          ∧ (decode_tbl.getD opc (none, 0)).2 = DEC_DECODED)
        ∨ ((decode_tbl.getD opc (none, 0)).1 = none ∧ (decode_tbl.getD opc (none, 0)).2 = 0)
        ∨ ((decode_tbl.getD opc (none, 0)).1 = none
            ∧ (decode_tbl.getD opc (none, 0)).2 = DEC_MORE ∧ (opc = 0x12 ∨ opc = 0x13)) := by
  decide

set_option maxRecDepth 100000 in
theorem fp_decode_tbl_shape :
    ∀ k, k < 128 →
      ((fp_decode_tbl.getD k (none, 0)).1.isSome = true
          ∧ (fp_decode_tbl.getD k (none, 0)).2 = DEC_DECODED)
        ∨ ((fp_decode_tbl.getD k (none, 0)).1 = none ∧ (fp_decode_tbl.getD k (none, 0)).2 = 0) := by
  decide

theorem decode_tbl_delayed_entries :
    ∀ opc ∈ [0x10, 0x1a, 0x1b, 0x1d, 0x1f, 0x2d],
      (decode_tbl.getD opc (none, 0)).2 = DEC_DECODED
        ∧ ∃ h ∈ [Handler.bri, Handler.br, Handler.call, Handler.bct, Handler.bnct,
            Handler.bla, Handler.calli], (decode_tbl.getD opc (none, 0)).1 = some h := by
  decide

theorem isSome_cases {α : Type} (o : Option α) (h : o.isSome = true) : ∃ x, o = some x := by
  cases o with
  | none => exact absurd h (by simp)
  | some x => exact ⟨x, rfl⟩

/-- The decoder runs the handler `dispatched` selects, in the state
`dispatch_state`, and takes the unrecognized-opcode path when there is
none. -/
theorem decode_exec_body_dispatched (cfg : Config) (fp : HostFP)
    (exec : State → Nat → Option State) (s : State) (insn : Nat)
    (he : s.exiting_ifetch = 0) :
    decode_exec_body cfg fp exec s insn
      = match dispatched insn with
        | some h => run_handler cfg fp exec h (dispatch_state s insn) insn
        | none =>
          some (unrecog_opcode (dispatch_state s insn) (dispatch_state s insn).pc insn) := by
  obtain ⟨b1, b2, b3, b4, b5, b6⟩ := decode_exec_body_cases cfg fp exec s insn he
  have hopc : (insn >>> 26) &&& 0x3f < 64 := and_mask_lt _ _
  have hd : DEC_DECODED &&& DEC_DECODED ≠ 0 := by decide
  have hm1 : ¬ DEC_MORE &&& DEC_DECODED ≠ 0 := by decide
  have hm2 : DEC_MORE &&& DEC_MORE ≠ 0 := by decide
  have hz1 : ¬ (0 : Nat) &&& DEC_DECODED ≠ 0 := by decide
  have hz2 : ¬ (0 : Nat) &&& DEC_MORE ≠ 0 := by decide
  rcases decode_tbl_shape _ hopc with ⟨h1, h2⟩ | ⟨h1, h2⟩ | ⟨h1, h2, h3⟩
  · obtain ⟨h, hh⟩ := isSome_cases _ h1
    have hne : (insn >>> 26) &&& 0x3f ≠ 0x12 := by
      intro e
      have := (decode_tbl_more _ hopc (Or.inl e)).1
      rw [hh] at this
      exact absurd this (by simp)
    have ed : dispatched insn = some h := by
      unfold dispatched
      simp only []
      rw [h2, if_pos hd, hh]
    have es : dispatch_state s insn = s := if_neg hne
    rw [ed, es, b1 h2]
    exact call_entry_some cfg fp exec _ h s insn hh
  · have hne : (insn >>> 26) &&& 0x3f ≠ 0x12 := by
      intro e
      have := (decode_tbl_more _ hopc (Or.inl e)).2
      rw [h2] at this
      exact absurd this (by decide)
    have ed : dispatched insn = none := by
      unfold dispatched
      simp only []
      rw [h2, if_neg hz1, if_neg hz2]
    have es : dispatch_state s insn = s := if_neg hne
    rw [ed, es, b2 h2]
  · rcases h3 with ho | ho
    · have es : dispatch_state s insn = dim_step s insn := if_pos ho
      rcases fp_decode_tbl_shape _ (and_mask_lt insn 0x7f) with ⟨f1, f2⟩ | ⟨f1, f2⟩
      · obtain ⟨h, hh⟩ := isSome_cases _ f1
        have ed : dispatched insn = some h := by
          unfold dispatched
          simp only []
          rw [h2, if_neg hm1, if_pos hm2, if_pos ho, f2, if_pos hd, hh]
        rw [ed, es, b3 ho f2]
        exact call_entry_some cfg fp exec _ h _ insn hh
      · have ed : dispatched insn = none := by
          unfold dispatched
          simp only []
          rw [h2, if_neg hm1, if_pos hm2, if_pos ho, f2, if_neg hz1]
        rw [ed, es, b4 ho f2]
    · have hne : (insn >>> 26) &&& 0x3f ≠ 0x12 := by rw [ho]; decide
      have es : dispatch_state s insn = s := if_neg hne
      obtain ⟨c1, c2⟩ := core_esc_decode_tbl_flags _ (and_mask_lt insn 3)
      by_cases h3 : insn &&& 3 = 2
      · have ed : dispatched insn = some Handler.calli := by
          unfold dispatched
          simp only []
          rw [h2, if_neg hm1, if_pos hm2, if_neg hne, if_pos ho, (c1 h3).2, if_pos hd, (c1 h3).1]
        rw [ed, es, b5 ho (c1 h3).2]
        exact call_entry_some cfg fp exec _ Handler.calli s insn (c1 h3).1
      · have ed : dispatched insn = none := by
          unfold dispatched
          simp only []
          rw [h2, if_neg hm1, if_pos hm2, if_neg hne, if_pos ho, (c2 h3).2, if_neg hz1]
        rw [ed, es, b6 ho (c2 h3).2]

theorem has_delay_slot_iff_aux (insn : Nat) :
    (has_delay_slot insn = 1 ↔
      ∃ h ∈ [Handler.bri, Handler.br, Handler.call, Handler.bct, Handler.bnct, Handler.bla,
          Handler.calli], dispatched insn = some h)
      ∧ (has_delay_slot insn = 1 ∨ has_delay_slot insn = 0) := by
  have hopc : (insn >>> 26) &&& 0x3f < 64 := and_mask_lt _ _
  have hd : DEC_DECODED &&& DEC_DECODED ≠ 0 := by decide
  have hm1 : ¬ DEC_MORE &&& DEC_DECODED ≠ 0 := by decide
  have hm2 : DEC_MORE &&& DEC_MORE ≠ 0 := by decide
  have hz1 : ¬ (0 : Nat) &&& DEC_DECODED ≠ 0 := by decide
  have hz2 : ¬ (0 : Nat) &&& DEC_MORE ≠ 0 := by decide
  refine ⟨⟨fun h1 => ?_, fun ⟨h, hm, hh⟩ => ?_⟩, ?_⟩
  · unfold has_delay_slot at h1
    simp only [] at h1
    split at h1
    · rename_i hc
      have h6 : (insn >>> 26) &&& 0x3f ∈ [0x10, 0x1a, 0x1b, 0x1d, 0x1f, 0x2d]
          ∨ ((insn >>> 26) &&& 0x3f = 0x13 ∧ insn &&& 3 = 2) := by
        simp only [List.mem_cons, List.mem_singleton]
        tauto
      rcases h6 with h6 | ⟨ho, h3⟩
      · obtain ⟨e2, h, hm, hh⟩ := decode_tbl_delayed_entries _ h6
        refine ⟨h, hm, ?_⟩
        unfold dispatched
        simp only []
        rw [e2, if_pos hd, hh]
      · obtain ⟨c1, _⟩ := core_esc_decode_tbl_flags _ (and_mask_lt insn 3)
        have h2 := (decode_tbl_more _ hopc (Or.inr ho)).2
        refine ⟨Handler.calli, by decide, ?_⟩
        unfold dispatched
        simp only []
        rw [h2, if_neg hm1, if_pos hm2, if_neg (by rw [ho]; decide), if_pos ho, (c1 h3).2,
          if_pos hd, (c1 h3).1]
    · exact absurd h1 (by decide)
  · unfold dispatched at hh
    simp only [] at hh
    unfold has_delay_slot
    simp only []
    split at hh
    · have := decode_tbl_delayed _ hopc h hm hh
      rw [if_pos (by tauto)]
    · split at hh
      · split at hh
        · split at hh
          · exact absurd hh (fp_decode_tbl_not_delayed _ (and_mask_lt insn 0x7f) h hm)
          · exact absurd hh (by simp)
        · split at hh
          · rename_i ho
            split at hh
            · have h3 := core_esc_decode_tbl_delayed _ (and_mask_lt insn 3) h hm hh
              rw [if_pos (Or.inr (Or.inr (Or.inr (Or.inr (Or.inr (Or.inr ⟨ho, h3⟩))))))]
            · exact absurd hh (by simp)
          · exact absurd hh (by simp)
      · exact absurd hh (by simp)
  · unfold has_delay_slot
    simp only []
    split
    · exact Or.inl rfl
    · exact Or.inr rfl

theorem pfmam_adjust_cases (p op : Nat) :
    pfmam_adjust p op = pfmam_adjust 0 op ∨ pfmam_adjust p op = op := by
  unfold pfmam_adjust
  by_cases h : p = 0
  · left; rw [if_pos h, if_pos rfl]
  · right; rw [if_neg h]

theorem src_opers_rows :
    src_opers.length = 16
      ∧ ∀ row ∈ src_opers,
          row.M_unit_op1 &&& not32 FLAGM ∈ operand_kinds
          ∧ row.M_unit_op2 &&& not32 FLAGM ∈ operand_kinds
          ∧ row.A_unit_op1 &&& not32 FLAGM ∈ operand_kinds
          ∧ row.A_unit_op2 &&& not32 FLAGM ∈ operand_kinds
          ∧ pfmam_adjust 0 row.M_unit_op2 &&& not32 FLAGM ∈ operand_kinds
          ∧ pfmam_adjust 0 row.A_unit_op1 &&& not32 FLAGM ∈ operand_kinds
          ∧ pfmam_adjust 0 row.A_unit_op2 &&& not32 FLAGM ∈ operand_kinds
          ∧ (row.K_loaded ≠ 0 → row.M_unit_op1 = OP_KI ∨ row.M_unit_op1 = OP_KR) := by
  decide

theorem merge_masked (a b m n : Nat) (h : n &&& m = 0) :
    ((a &&& n) ||| (b &&& m)) &&& m = b &&& m
      ∧ ((a &&& n) ||| (b &&& m)) &&& n = a &&& n := by
  have hb : ∀ i, (n.testBit i && m.testBit i) = false := by
    intro i
    rw [← Nat.testBit_and, h, Nat.zero_testBit]
  constructor
  · apply Nat.eq_of_testBit_eq
    intro i
    have hi := hb i
    simp only [Nat.testBit_and, Nat.testBit_or]
    revert hi
    cases a.testBit i <;> cases b.testBit i <;> cases m.testBit i <;> cases n.testBit i <;> simp
  · apply Nat.eq_of_testBit_eq
    intro i
    have hi := hb i
    simp only [Nat.testBit_and, Nat.testBit_or]
    revert hi
    cases a.testBit i <;> cases b.testBit i <;> cases m.testBit i <;> cases n.testBit i <;> simp

/-- The control-register file after "st.c" to a register other than
DIRBASE (and within 0..5): the branch taken by the register number. -/
theorem insn_st_ctrl_cregs (cfg : Config) (s : State) (insn : Nat)
    (hd : get_creg insn ≠ CR_DIRBASE) (h5 : get_creg insn ≤ 5) :
    insn_st_ctrl cfg s insn
      = if get_creg insn = CR_EPSR then
          if GET_PSR_U s ≠ 0 then
            { s with cregs := (upd s.cregs CR_EPSR
                ((s.iregs (get_isrc1 insn) &&& not32 (0x003e1fff ||| 0x00c06000))
                  ||| (s.cregs CR_EPSR &&& (0x003e1fff ||| 0x00c06000)))) }
          else
            { s with cregs := (upd s.cregs CR_EPSR
                ((s.iregs (get_isrc1 insn) &&& not32 0x003e1fff)
                  ||| (s.cregs CR_EPSR &&& 0x003e1fff))) }
        else if get_creg insn = CR_PSR then
          if GET_PSR_U s ≠ 0 then
            { s with cregs := (upd s.cregs CR_PSR
                ((s.iregs (get_isrc1 insn) &&& not32 PSR_SUPERVISOR_ONLY_MASK)
                  ||| (s.cregs CR_PSR &&& PSR_SUPERVISOR_ONLY_MASK))) }
          else { s with cregs := upd s.cregs CR_PSR (s.iregs (get_isrc1 insn)) }
        else if get_creg insn = CR_FSR then
          { s with cregs := (upd s.cregs CR_FSR
                ((s.iregs (get_isrc1 insn) &&& 0x003e01ef)
                  ||| (s.cregs CR_FSR &&& not32 0x003e01ef))) }
        else if get_creg insn ≠ CR_FIR then
          { s with cregs := upd s.cregs (get_creg insn) (s.iregs (get_isrc1 insn)) }
        else s := by
  unfold insn_st_ctrl get_iregval
  simp only []
  rw [if_neg (show ¬ (cfg.trace_undefined = true ∧ get_creg insn > 5) from
    fun h => absurd h.2 (by omega))]
  simp only [if_neg (show ¬ (get_creg insn = CR_DIRBASE ∧ s.iregs (get_isrc1 insn) &&& 0x20 ≠ 0)
    from fun h => hd h.1)]

theorem shrd_value (a b sc : Nat) (hb : b < 2 ^ 32) (h0 : 0 < sc)
    (h32 : sc < 32) :
    u32 (a <<< (32 - sc)) ||| (b >>> sc) = ((a * 2 ^ 32 + b) >>> sc) % 2 ^ 32 := by
  have hp : (2 : Nat) ^ 32 = 2 ^ (32 - sc) * 2 ^ sc := by
    rw [← pow_add]
    congr 1
    omega
  have hps : 0 < 2 ^ sc := Nat.pow_pos (by norm_num)
  have hpk : 0 < 2 ^ (32 - sc) := Nat.pow_pos (by norm_num)
  have hbq : b / 2 ^ sc < 2 ^ (32 - sc) := by
    rw [Nat.div_lt_iff_lt_mul hps, ← hp]
    exact hb
  -- the left operand
  have e1 : u32 (a <<< (32 - sc)) = 2 ^ (32 - sc) * (a % 2 ^ sc) := by
    unfold u32
    rw [Nat.shiftLeft_eq, hp, Nat.mul_comm a, Nat.mul_mod_mul_left]
  -- the shifted 64-bit quantity
  have e2 : (a * 2 ^ 32 + b) / 2 ^ sc = a * 2 ^ (32 - sc) + b / 2 ^ sc := by
    rw [hp, ← Nat.mul_assoc, Nat.add_comm, Nat.add_mul_div_right _ _ hps, Nat.add_comm]
  rw [e1, Nat.shiftRight_eq_div_pow, Nat.shiftRight_eq_div_pow, e2,
    ← Nat.mul_add_lt_is_or hbq]
  have e3 : a * 2 ^ (32 - sc) = 2 ^ (32 - sc) * (a % 2 ^ sc) + 2 ^ 32 * (a / 2 ^ sc) := by
    have := Nat.mod_add_div a (2 ^ sc)
    calc a * 2 ^ (32 - sc) = (a % 2 ^ sc + 2 ^ sc * (a / 2 ^ sc)) * 2 ^ (32 - sc) := by rw [this]
      _ = 2 ^ (32 - sc) * (a % 2 ^ sc) + 2 ^ 32 * (a / 2 ^ sc) := by rw [hp]; ring
  have hlt : 2 ^ (32 - sc) * (a % 2 ^ sc) + b / 2 ^ sc < 2 ^ 32 := by
    have h1 : a % 2 ^ sc + 1 ≤ 2 ^ sc := Nat.mod_lt _ hps
    calc 2 ^ (32 - sc) * (a % 2 ^ sc) + b / 2 ^ sc
        < 2 ^ (32 - sc) * (a % 2 ^ sc) + 2 ^ (32 - sc) := by omega
      _ = 2 ^ (32 - sc) * (a % 2 ^ sc + 1) := by ring
      _ ≤ 2 ^ (32 - sc) * 2 ^ sc := Nat.mul_le_mul_left _ h1
      _ = 2 ^ 32 := hp.symm
  rw [e3, Nat.add_right_comm, Nat.add_mul_mod_self_left, Nat.mod_eq_of_lt hlt]

theorem GET_PSR_SC_lt (s : State) : GET_PSR_SC s < 32 := by
  unfold GET_PSR_SC getField
  exact and_mask_lt _ 0x1f

theorem adds_core_eq (s : State) (a isrc2 idest : Nat) :
    adds_core s a isrc2 idest =
      set_iregval
        (SET_PSR_CC
          (SET_EPSR_OF s
            (if a &&& 0x80000000 ≠ s.iregs isrc2 &&& 0x80000000
                ∧ a &&& 0x80000000 ≠ u32 (a + s.iregs isrc2) &&& 0x80000000
              then 1 else 0))
          (if toS32 (s.iregs isrc2) < toS32 (neg32 a) then 1 else 0))
        idest (u32 (a + s.iregs isrc2)) := by
  have e (x : State) (v : Nat) : (if toS32 ((SET_EPSR_OF x v).iregs isrc2) < toS32 (neg32 a)
      then SET_PSR_CC (SET_EPSR_OF x v) 1 else SET_PSR_CC (SET_EPSR_OF x v) 0)
      = SET_PSR_CC (SET_EPSR_OF x v)
          (if toS32 (x.iregs isrc2) < toS32 (neg32 a) then 1 else 0) := by
    show (if toS32 (x.iregs isrc2) < toS32 (neg32 a) then _ else _) = _
    split <;> rfl
  simp only [adds_core, get_iregval]
  split <;> rw [e]

theorem toS32_neg32 (a : Nat) (ha : a < 2 ^ 32) :
    toS32 (neg32 a) = if a = 2 ^ 31 then -2 ^ 31 else - toS32 a := by
  unfold toS32 neg32
  rw [Nat.mod_eq_of_lt ha]
  split_ifs <;> omega

theorem adds_core_cc (s : State) (a isrc2 idest : Nat)
    (ha : a < 2 ^ 32) (hb : s.iregs isrc2 < 2 ^ 32) :
    (a ≠ 0x80000000 →
        (GET_PSR_CC (adds_core s a isrc2 idest) = 1 ↔ toS32 (s.iregs isrc2) < - toS32 a)
        ∧ (GET_PSR_CC (adds_core s a isrc2 idest) = 0 ↔ toS32 (s.iregs isrc2) ≥ - toS32 a))
      ∧ (a = 0x80000000 →
        GET_PSR_CC (adds_core s a isrc2 idest) = 0
        ∧ toS32 (s.iregs isrc2) < - toS32 a
        ∧ toS32 a + toS32 (s.iregs isrc2) < 0) := by
  rw [adds_core_eq, (flags_of_set _ _ _ _ _).2, toS32_neg32 a ha]
  have hbS := toS32_of_lt _ hb
  constructor
  · intro hne
    rw [if_neg (show ¬ a = 2 ^ 31 by norm_num at hne ⊢; exact hne)]
    by_cases h : toS32 (s.iregs isrc2) < - toS32 a
    · rw [if_pos h]
      exact ⟨⟨fun _ => h, fun _ => by decide⟩,
        ⟨fun e => absurd e (by decide), fun e => absurd h (not_lt.mpr e)⟩⟩
    · rw [if_neg h]
      exact ⟨⟨fun e => absurd e (by decide), fun e => absurd e h⟩,
        ⟨fun _ => not_lt.mp h, fun _ => by decide⟩⟩
  · intro he
    rw [if_pos (show a = 2 ^ 31 by rw [he]; norm_num)]
    have haS : toS32 a = -2 ^ 31 := by rw [he]; decide
    rw [haS, hbS]
    have hlt : ¬ ((if s.iregs isrc2 < 2 ^ 31 then (s.iregs isrc2 : Int)
        else (s.iregs isrc2 : Int) - 2 ^ 32) < -2 ^ 31) := by
      split_ifs <;> omega
    rw [if_neg hlt]
    refine ⟨by decide, ?_, ?_⟩
    · split_ifs <;> omega
    · split_ifs <;> omega

theorem sign_ext_zero (n : Nat) : sign_ext 0 n = 0 := by
  unfold sign_ext neg32 u32
  simp

theorem map_none_aux {α β : Type} (o : Option α) (f : α → β) (h : o.map f = none) : o = none := by
  cases o with
  | none => rfl
  | some x => exact absurd h (by simp)

/-- A delayed handler yields no result only when the re-entrant call for its
delay-slot word yields none. -/
theorem run_handler_none_slot (cfg : Config) (fp : HostFP) (exec : State → Nat → Option State)
    (h : Handler) (s : State) (insn : Nat) (hn : run_handler cfg fp exec h s insn = none) :
    exec (slot_fetch (handler_pre h s insn)).2 (slot_fetch (handler_pre h s insn)).1 = none := by
  have hm := (run_handler_none cfg fp exec h s insn hn).1
  simp only [List.mem_cons, List.mem_singleton, List.mem_nil_iff, or_false] at hm
  rcases hm with e | e | e | e | e | e | e <;> subst e
  · simp only [run_handler, insn_bri] at hn
    have h1 := branch_tail_none _ _ (by intro x; split <;> simp) hn
    have h2 := delay_slot_eq exec (bri_pre s)
    rw [show (bri_pre s).pc = s.pc from rfl] at h2
    exact map_none_aux _ _ (h2.symm.trans h1)
  · simp only [run_handler, insn_br] at hn
    have h1 := branch_tail_none _ _ (by intro x; split <;> simp) hn
    exact map_none_aux _ _ ((delay_slot_eq exec s).symm.trans h1)
  · simp only [run_handler, insn_call] at hn
    have h1 := branch_tail_none _ _ (by intro x; split <;> simp) hn
    exact map_none_aux _ _ ((delay_slot_eq exec s).symm.trans h1)
  · simp only [run_handler, insn_bct] at hn
    split at hn
    · have h1 := branch_tail_none _ _ (by intro x; split <;> simp) hn
      exact map_none_aux _ _ ((delay_slot_eq exec s).symm.trans h1)
    · exact absurd hn (by simp)
  · simp only [run_handler, insn_bnct] at hn
    split at hn
    · have h1 := branch_tail_none _ _ (by intro x; split <;> simp) hn
      exact map_none_aux _ _ ((delay_slot_eq exec s).symm.trans h1)
    · exact absurd hn (by simp)
  · simp only [run_handler, insn_bla] at hn
    split at hn
    · exact absurd hn (by simp)
    · have h1 := branch_tail_none _ _ (by intro x; split <;> simp) hn
      have h2 := delay_slot_eq exec (bla_pre s insn)
      rw [show (bla_pre s insn).pc = s.pc from rfl] at h2
      exact map_none_aux _ _ (h2.symm.trans h1)
  · simp only [run_handler, insn_calli] at hn
    have h1 := branch_tail_none _ _ (by intro x; split <;> simp) hn
    have h2 := delay_slot_eq exec (calli_pre s)
    rw [show (calli_pre s).pc = s.pc from rfl] at h2
    exact map_none_aux _ _ (h2.symm.trans h1)

/-- The decoder yields no result only when the word has a delay slot and the
re-entrant call for its delay-slot word yields none. -/
theorem decode_exec_body_none_slot (cfg : Config) (fp : HostFP)
    (exec : State → Nat → Option State) (s : State) (insn : Nat)
    (hn : decode_exec_body cfg fp exec s insn = none) :
    has_delay_slot insn = 1
      ∧ exec (slot_fetch (slot_pre s insn)).2 (slot_word s insn) = none := by
  have hd := (decode_exec_body_none cfg fp exec s insn hn).1
  refine ⟨hd, ?_⟩
  have he : s.exiting_ifetch = 0 := by
    by_contra hc
    unfold decode_exec_body at hn
    simp only [] at hn
    rw [if_pos hc] at hn
    exact absurd hn (by simp)
  have hs : dispatch_state s insn = s := by
    unfold dispatch_state
    rw [if_neg]
    intro e
    unfold has_delay_slot at hd
    simp [e] at hd
  rw [decode_exec_body_dispatched cfg fp exec s insn he, hs] at hn
  unfold slot_word slot_pre
  cases hh : dispatched insn with
  | none =>
    rw [hh] at hn
    exact absurd hn (by simp)
  | some h =>
    rw [hh] at hn
    exact run_handler_none_slot cfg fp exec h s insn hn

/-! ## Integer arithmetic -/

/-- C8: for 32-bit source values `addu` writes the sum modulo 2^32 to the
destination register (when it is not r0) and sets both PSR.CC and EPSR.OF to
the carry out of bit 31, that is to 1 exactly when the sum of the two sources
as natural numbers reaches 2^32; the first source is register isrc1 in the
register form and the sign-extended 16-bit immediate in the immediate form. -/
theorem addu_sets_carry (s : State) (insn : Nat)
    (ha : s.iregs (get_isrc1 insn) < 2 ^ 32) (hb : s.iregs (get_isrc2 insn) < 2 ^ 32) :
    ((get_idest insn ≠ 0 → (insn_addu s insn).iregs (get_idest insn)
          = (s.iregs (get_isrc1 insn) + s.iregs (get_isrc2 insn)) % 2 ^ 32)
      ∧ GET_PSR_CC (insn_addu s insn)
          = (if 2 ^ 32 ≤ s.iregs (get_isrc1 insn) + s.iregs (get_isrc2 insn) then 1 else 0)
      ∧ GET_EPSR_OF (insn_addu s insn)
          = (if 2 ^ 32 ≤ s.iregs (get_isrc1 insn) + s.iregs (get_isrc2 insn) then 1 else 0))
    ∧ ((get_idest insn ≠ 0 → (insn_addu_imm s insn).iregs (get_idest insn)
          = (sext 16 (get_imm16 insn) + s.iregs (get_isrc2 insn)) % 2 ^ 32)
      ∧ GET_PSR_CC (insn_addu_imm s insn)
          = (if 2 ^ 32 ≤ sext 16 (get_imm16 insn) + s.iregs (get_isrc2 insn) then 1 else 0)
      ∧ GET_EPSR_OF (insn_addu_imm s insn)
          = (if 2 ^ 32 ≤ sext 16 (get_imm16 insn) + s.iregs (get_isrc2 insn) then 1 else 0)) := by
  constructor
  · exact addu_core_spec s _ _ _ ha hb
  · have h := addu_core_spec s (sext 16 (get_imm16 insn)) (get_isrc2 insn) (get_idest insn)
      (sext_lt 16 _ (by norm_num) (by norm_num)) hb
    simpa only [insn_addu_imm, sign_ext_sext 16 _ (by norm_num) (by norm_num)
      (get_imm16_lt insn)] using h

/-- C8, the example of the claim: `addu r1,r2,r3` with r1 = 0xFFFFFFFF and
r2 = 1 leaves r3 = 0, CC = 1 and OF = 1. -/
theorem addu_sets_carry_witness :
    ((st_r12 0xFFFFFFFF 1).iregs (get_isrc1 (enc_r 0x20 2 3 1)) < 2 ^ 32
      ∧ (st_r12 0xFFFFFFFF 1).iregs (get_isrc2 (enc_r 0x20 2 3 1)) < 2 ^ 32)
    ∧ (insn_addu (st_r12 0xFFFFFFFF 1) (enc_r 0x20 2 3 1)).iregs 3 = 0
    ∧ GET_PSR_CC (insn_addu (st_r12 0xFFFFFFFF 1) (enc_r 0x20 2 3 1)) = 1
    ∧ GET_EPSR_OF (insn_addu (st_r12 0xFFFFFFFF 1) (enc_r 0x20 2 3 1)) = 1 := by
  have h := (addu_sets_carry (st_r12 0xFFFFFFFF 1) (enc_r 0x20 2 3 1)
    (by decide) (by decide)).1
  refine ⟨⟨by decide, by decide⟩, ?_, ?_, ?_⟩
  · exact (h.1 (by decide)).trans (by decide)
  · exact h.2.1.trans (by decide)
  · exact h.2.2.trans (by decide)

/-- C9: for 32-bit source values `subu` writes (a - b) mod 2^32 to the
destination register (when it is not r0), sets PSR.CC to 1 exactly when
b <= a as unsigned numbers (no borrow) and sets EPSR.OF to the negation of CC;
a is register isrc1 in the register form and the sign-extended 16-bit
immediate in the immediate form, b is register isrc2. -/
theorem subu_sets_borrow (s : State) (insn : Nat)
    (ha : s.iregs (get_isrc1 insn) < 2 ^ 32) (hb : s.iregs (get_isrc2 insn) < 2 ^ 32) :
    ((get_idest insn ≠ 0 → ((insn_subu s insn).iregs (get_idest insn) : Int)
          = ((s.iregs (get_isrc1 insn) : Int) - (s.iregs (get_isrc2 insn) : Int)) % 2 ^ 32)
      ∧ GET_PSR_CC (insn_subu s insn)
          = (if s.iregs (get_isrc2 insn) ≤ s.iregs (get_isrc1 insn) then 1 else 0)
      ∧ GET_EPSR_OF (insn_subu s insn)
          = (if s.iregs (get_isrc2 insn) ≤ s.iregs (get_isrc1 insn) then 0 else 1))
    ∧ ((get_idest insn ≠ 0 → ((insn_subu_imm s insn).iregs (get_idest insn) : Int)
          = ((sext 16 (get_imm16 insn) : Int) - (s.iregs (get_isrc2 insn) : Int)) % 2 ^ 32)
      ∧ GET_PSR_CC (insn_subu_imm s insn)
          = (if s.iregs (get_isrc2 insn) ≤ sext 16 (get_imm16 insn) then 1 else 0)
      ∧ GET_EPSR_OF (insn_subu_imm s insn)
          = (if s.iregs (get_isrc2 insn) ≤ sext 16 (get_imm16 insn) then 0 else 1)) := by
  constructor
  · exact subu_core_spec s _ _ _ ha hb
  · have h := subu_core_spec s (sext 16 (get_imm16 insn)) (get_isrc2 insn) (get_idest insn)
      (sext_lt 16 _ (by norm_num) (by norm_num)) hb
    simpa only [insn_subu_imm, sign_ext_sext 16 _ (by norm_num) (by norm_num)
      (get_imm16_lt insn)] using h

/-- C9 at a concrete input: `subu r1,r2,r3` with r1 = 1 and r2 = 2 leaves
r3 = 0xFFFFFFFF, CC = 0 (a borrow) and OF = 1. -/
theorem subu_sets_borrow_witness :
    ((st_r12 1 2).iregs (get_isrc1 (enc_r 0x22 2 3 1)) < 2 ^ 32
      ∧ (st_r12 1 2).iregs (get_isrc2 (enc_r 0x22 2 3 1)) < 2 ^ 32)
    ∧ ((insn_subu (st_r12 1 2) (enc_r 0x22 2 3 1)).iregs 3 : Int) = 0xFFFFFFFF
    ∧ GET_PSR_CC (insn_subu (st_r12 1 2) (enc_r 0x22 2 3 1)) = 0
    ∧ GET_EPSR_OF (insn_subu (st_r12 1 2) (enc_r 0x22 2 3 1)) = 1 := by
  have h := (subu_sets_borrow (st_r12 1 2) (enc_r 0x22 2 3 1) (by decide) (by decide)).1
  refine ⟨⟨by decide, by decide⟩, ?_, ?_, ?_⟩
  · exact (h.1 (by decide)).trans (by decide)
  · exact h.2.1.trans (by decide)
  · exact h.2.2.trans (by decide)

/-- C10, the code at the example of the claim: `adds r1,r2,r3` with
r1 = 0x7FFFFFFF and r2 = 1 writes 0x80000000 to r3 and leaves EPSR.OF clear,
although the signed sum 2^31 is outside the 32-bit range. -/
theorem adds_overflow_not_flagged :
    (insn_adds (st_r12 0x7FFFFFFF 1) (enc_r 0x24 2 3 1)).iregs 3 = 0x80000000
    ∧ GET_EPSR_OF (insn_adds (st_r12 0x7FFFFFFF 1) (enc_r 0x24 2 3 1)) = 0
    ∧ ¬ (-2 ^ 31 ≤ toS32 0x7FFFFFFF + toS32 1 ∧ toS32 0x7FFFFFFF + toS32 1 ≤ 2 ^ 31 - 1) := by
  refine ⟨by decide, by decide, by decide⟩

/-- C11: for 32-bit source values `subs` writes (a - b) mod 2^32 to the
destination register (when it is not r0), sets EPSR.OF exactly when the
difference of the signed readings lies outside [-2^31, 2^31 - 1] and sets
PSR.CC exactly when b > a as signed integers; a is register isrc1 in the
register form and the sign-extended 16-bit immediate in the immediate form,
b is register isrc2. -/
theorem subs_signed_flags (s : State) (insn : Nat)
    (ha : s.iregs (get_isrc1 insn) < 2 ^ 32) (hb : s.iregs (get_isrc2 insn) < 2 ^ 32) :
    ((get_idest insn ≠ 0 → ((insn_subs s insn).iregs (get_idest insn) : Int)
          = ((s.iregs (get_isrc1 insn) : Int) - (s.iregs (get_isrc2 insn) : Int)) % 2 ^ 32)
      ∧ GET_EPSR_OF (insn_subs s insn)
          = (if toS32 (s.iregs (get_isrc1 insn)) - toS32 (s.iregs (get_isrc2 insn)) < -2 ^ 31
              ∨ 2 ^ 31 - 1 < toS32 (s.iregs (get_isrc1 insn)) - toS32 (s.iregs (get_isrc2 insn))
            then 1 else 0)
      ∧ GET_PSR_CC (insn_subs s insn)
          = (if toS32 (s.iregs (get_isrc2 insn)) > toS32 (s.iregs (get_isrc1 insn))
            then 1 else 0))
    ∧ ((get_idest insn ≠ 0 → ((insn_subs_imm s insn).iregs (get_idest insn) : Int)
          = ((sext 16 (get_imm16 insn) : Int) - (s.iregs (get_isrc2 insn) : Int)) % 2 ^ 32)
      ∧ GET_EPSR_OF (insn_subs_imm s insn)
          = (if toS32 (sext 16 (get_imm16 insn)) - toS32 (s.iregs (get_isrc2 insn)) < -2 ^ 31
              ∨ 2 ^ 31 - 1 < toS32 (sext 16 (get_imm16 insn)) - toS32 (s.iregs (get_isrc2 insn))
            then 1 else 0)
      ∧ GET_PSR_CC (insn_subs_imm s insn)
          = (if toS32 (s.iregs (get_isrc2 insn)) > toS32 (sext 16 (get_imm16 insn))
            then 1 else 0)) := by
  constructor
  · exact subs_core_spec s _ _ _ ha hb
  · have h := subs_core_spec s (sext 16 (get_imm16 insn)) (get_isrc2 insn) (get_idest insn)
      (sext_lt 16 _ (by norm_num) (by norm_num)) hb
    simpa only [insn_subs_imm, sign_ext_sext 16 _ (by norm_num) (by norm_num)
      (get_imm16_lt insn)] using h

/-- C11 at a concrete input: `subs r1,r2,r3` with r1 = 0x80000000 (-2^31) and
r2 = 1 leaves r3 = 0x7FFFFFFF, OF = 1 and CC = 1. -/
theorem subs_signed_flags_witness :
    ((st_r12 0x80000000 1).iregs (get_isrc1 (enc_r 0x26 2 3 1)) < 2 ^ 32
      ∧ (st_r12 0x80000000 1).iregs (get_isrc2 (enc_r 0x26 2 3 1)) < 2 ^ 32)
    ∧ ((insn_subs (st_r12 0x80000000 1) (enc_r 0x26 2 3 1)).iregs 3 : Int) = 0x7FFFFFFF
    ∧ GET_EPSR_OF (insn_subs (st_r12 0x80000000 1) (enc_r 0x26 2 3 1)) = 1
    ∧ GET_PSR_CC (insn_subs (st_r12 0x80000000 1) (enc_r 0x26 2 3 1)) = 1 := by
  have h := (subs_signed_flags (st_r12 0x80000000 1) (enc_r 0x26 2 3 1)
    (by decide) (by decide)).1
  refine ⟨⟨by decide, by decide⟩, ?_, ?_, ?_⟩
  · exact (h.1 (by decide)).trans (by decide)
  · exact h.2.1.trans (by decide)
  · exact h.2.2.trans (by decide)

/-! ## Delayed branches -/

/-- C1: when the delay-slot instruction of `br` (the word fetched at PC + 4,
executed by the decoder with the program counter at PC + 4) returns a state
without pending trap, the state after `br` is that state with the program
counter (PC + 4 + 4 * sign_ext26(insn & 0x03ffffff)) mod 2^32 and the
pc-updated flag set; the same holds for the decoder called on a word with
primary opcode 0x1a. -/
theorem br_commits (cfg : Config) (fp : HostFP) (d : Nat) (s : State) (insn : Nat) (s' : State)
    (hX : decode_exec cfg fp d (slot_fetch s).2 (slot_fetch s).1 = some s')
    (ht : s'.pending_trap = 0) :
    insn_br (decode_exec cfg fp d) s insn
      = some { s' with
          pc := Int.toNat (((s.pc : Int) + 4 + 4 * sval 26 (insn &&& 0x03ffffff)) % 2 ^ 32),
          pc_updated := 1 }
    ∧ (s.exiting_ifetch = 0 → (insn >>> 26) &&& 0x3f = 0x1a →
        decode_exec cfg fp (d + 1) s insn
          = some { s' with
              pc := Int.toNat (((s.pc : Int) + 4 + 4 * sval 26 (insn &&& 0x03ffffff)) % 2 ^ 32),
              pc_updated := 1 }) := by
  have h1 : insn_br (decode_exec cfg fp d) s insn
      = some { s' with
          pc := Int.toNat (((s.pc : Int) + 4 + 4 * sval 26 (insn &&& 0x03ffffff)) % 2 ^ 32),
          pc_updated := 1 } := by
    simp only [insn_br, delay_slot_eq, hX, Option.map, ht, ne_eq, not_true_eq_false, if_false,
      target_lbroff_eq]
  refine ⟨h1, ?_⟩
  intro h0 hop
  rw [← h1]
  simp only [decode_exec, decode_exec_body, hop, h0, ne_eq, not_true_eq_false, if_false]
  rfl

/-- C1 at a concrete input: `br` with displacement 0 at address 0 of the
all-zero state, whose delay slot holds the word 0 (`ld.b r0(r0),r0`), ends at
program counter 4 with the pc-updated flag set. -/
theorem br_commits_witness :
    decode_exec cfg0 fp0 0 (slot_fetch st0).2 (slot_fetch st0).1 = some (slot_result st0)
    ∧ (slot_result st0).pending_trap = 0
    ∧ decode_exec cfg0 fp0 1 st0 w_br = some { slot_result st0 with pc := 4, pc_updated := 1 } :=
  ⟨rfl, by decide,
    ((br_commits cfg0 fp0 0 st0 w_br (slot_result st0) rfl (by decide)).2
      (by decide) (by decide)).trans rfl⟩

/-- C2: when the delay-slot instruction of a delayed control transfer leaves a
pending trap, the handler ends with the program counter it started with and
with TRAP_IN_DELAY_SLOT or-ed into the pending-trap flags; nothing else of the
state the delay slot produced changes (the pc-updated flag is not set by the
branch and the target is not taken). This holds for `br`, `call`, taken `bc.t`
and `bnc.t`, `bri`, `bla` and, apart from the write to r1 that `calli` makes on
this path, for `calli`. -/
theorem delayed_branch_abort (cfg : Config) (fp : HostFP) (d : Nat) (s : State) (insn : Nat) :
    (∀ s', decode_exec cfg fp d (slot_fetch s).2 (slot_fetch s).1 = some s' →
        s'.pending_trap ≠ 0 →
        (insn_br (decode_exec cfg fp d) s insn
            = some { s' with pc := s.pc,
                             pending_trap := s'.pending_trap ||| TRAP_IN_DELAY_SLOT }
          ∧ insn_call (decode_exec cfg fp d) s insn
            = some { s' with pc := s.pc,
                             pending_trap := s'.pending_trap ||| TRAP_IN_DELAY_SLOT }
          ∧ (GET_PSR_CC s = 1 → insn_bct (decode_exec cfg fp d) s insn
            = some { s' with pc := s.pc,
                             pending_trap := s'.pending_trap ||| TRAP_IN_DELAY_SLOT })
          ∧ (GET_PSR_CC s = 0 → insn_bnct (decode_exec cfg fp d) s insn
            = some { s' with pc := s.pc,
                             pending_trap := s'.pending_trap ||| TRAP_IN_DELAY_SLOT })))
    ∧ (∀ s', decode_exec cfg fp d (slot_fetch (bri_pre s)).2 (slot_fetch (bri_pre s)).1 = some s' →
        s'.pending_trap ≠ 0 →
        insn_bri (decode_exec cfg fp d) s insn
          = some { s' with pc := s.pc,
                           pending_trap := s'.pending_trap ||| TRAP_IN_DELAY_SLOT })
    ∧ (∀ s', decode_exec cfg fp d (slot_fetch (calli_pre s)).2 (slot_fetch (calli_pre s)).1
          = some s' →
        s'.pending_trap ≠ 0 →
        insn_calli (decode_exec cfg fp d) s insn
          = some { set_iregval s' 1 (s.iregs (get_isrc1 insn)) with
                     pc := s.pc, pending_trap := s'.pending_trap ||| TRAP_IN_DELAY_SLOT })
    ∧ (∀ s', ¬ (cfg.trace_undefined = true ∧ get_isrc1 insn = get_isrc2 insn) →
        decode_exec cfg fp d (slot_fetch (bla_pre s insn)).2 (slot_fetch (bla_pre s insn)).1
          = some s' →
        s'.pending_trap ≠ 0 →
        insn_bla cfg (decode_exec cfg fp d) s insn
          = some { s' with pc := s.pc,
                           pending_trap := s'.pending_trap ||| TRAP_IN_DELAY_SLOT }) := by
  refine ⟨fun s' hX ht => ⟨?_, ?_, ?_, ?_⟩, fun s' hX ht => ?_, fun s' hX ht => ?_,
    fun s' hu hX ht => ?_⟩
  · simp only [insn_br, delay_slot_eq, hX, Option.map, ht, ne_eq, not_false_eq_true, if_true,
      delay_abort]
  · simp only [insn_call, delay_slot_eq, hX, Option.map, ht, ne_eq, not_false_eq_true, if_true,
      delay_abort]
  · intro hcc
    simp only [insn_bct, hcc, delay_slot_eq, hX, Option.map, ht, ne_eq, not_false_eq_true,
      if_true, delay_abort]
  · intro hcc
    simp only [insn_bnct, hcc, delay_slot_eq, hX, Option.map, ht, ne_eq, not_false_eq_true,
      if_true, delay_abort]
  · have e := delay_slot_eq (decode_exec cfg fp d) (bri_pre s)
    simp only [bri_pre] at e hX
    simp only [insn_bri, e, hX, Option.map, ht, ne_eq, not_false_eq_true, if_true, delay_abort]
  · have e := delay_slot_eq (decode_exec cfg fp d) (calli_pre s)
    simp only [calli_pre, set_iregval] at e hX
    simp only [insn_calli, set_iregval, e, hX, Option.map, ht, ne_eq, not_false_eq_true, if_true,
      delay_abort, get_iregval]
  · have e := delay_slot_eq (decode_exec cfg fp d) (bla_pre s insn)
    simp only [bla_pre, set_iregval] at e hX
    simp only [insn_bla, hu, if_false, get_iregval, set_iregval, e, hX, Option.map, ht, ne_eq,
      not_false_eq_true, if_true, delay_abort]

/-- C2 at a concrete input: `br` at address 0 whose delay slot holds a `trap`
instruction ends with the program counter 0 and the pending-trap flags
TRAP_NORMAL | TRAP_IN_DELAY_SLOT, the pc-updated flag still clear. -/
theorem delayed_branch_abort_witness :
    decode_exec cfg0 fp0 0 (slot_fetch (st_slot w_trap)).2 (slot_fetch (st_slot w_trap)).1
      = some (slot_result (st_slot w_trap))
    ∧ (slot_result (st_slot w_trap)).pending_trap ≠ 0
    ∧ (insn_br (decode_exec cfg0 fp0 0) (st_slot w_trap) w_br).map
        (fun r => (r.pc, r.pending_trap, r.pc_updated)) = some (0, 3, 0) :=
  ⟨rfl, by decide,
    (congrArg (Option.map (fun r => (r.pc, r.pending_trap, r.pc_updated)))
      (((delayed_branch_abort cfg0 fp0 0 (st_slot w_trap) w_br).1
        (slot_result (st_slot w_trap)) rfl (by decide)).1)).trans (by decide)⟩

/-- C12: the delay slot of `call` runs with the r1 the call started with; when
the delay slot returns without pending trap, `call` then writes
(PC + 8) mod 2^32 to r1 and sets the program counter to the target
(PC + 4 + 4 * sign_ext26) mod 2^32; when the delay slot leaves a pending trap,
`call` writes no register, so r1 holds what the delay slot left in it. -/
theorem call_link (cfg : Config) (fp : HostFP) (d : Nat) (s : State) (insn : Nat) (s' : State)
    (hX : decode_exec cfg fp d (slot_fetch s).2 (slot_fetch s).1 = some s') :
    (slot_fetch s).2.iregs 1 = s.iregs 1
    ∧ (s'.pending_trap = 0 →
        insn_call (decode_exec cfg fp d) s insn
          = some { set_iregval s' 1 (s.pc + 8) with
              pc := Int.toNat (((s.pc : Int) + 4 + 4 * sval 26 (insn &&& 0x03ffffff)) % 2 ^ 32),
              pc_updated := 1 }
        ∧ (set_iregval s' 1 (s.pc + 8)).iregs 1 = (s.pc + 8) % 2 ^ 32)
    ∧ (s'.pending_trap ≠ 0 →
        insn_call (decode_exec cfg fp d) s insn
          = some { s' with pc := s.pc,
                           pending_trap := s'.pending_trap ||| TRAP_IN_DELAY_SLOT }) := by
  refine ⟨by rw [slot_fetch_iregs], fun ht => ⟨?_, ?_⟩, fun ht => ?_⟩
  · simp only [insn_call, delay_slot_eq, hX, Option.map, ht, ne_eq, not_true_eq_false, if_false,
      target_lbroff_eq, set_iregval]
  · simp [set_iregval, u32]
  · simp only [insn_call, delay_slot_eq, hX, Option.map, ht, ne_eq, not_false_eq_true, if_true,
      delay_abort]

/-- C12 at a concrete input: `call` with displacement 0 at address 0 of the
all-zero state ends with r1 = 8 and the program counter 4. -/
theorem call_link_witness :
    decode_exec cfg0 fp0 0 (slot_fetch st0).2 (slot_fetch st0).1 = some (slot_result st0)
    ∧ (slot_result st0).pending_trap = 0
    ∧ (insn_call (decode_exec cfg0 fp0 0) st0 (enc_r 0x1b 0 0 0)).map
        (fun r => (r.iregs 1, r.pc, r.pc_updated)) = some (8, 4, 1) :=
  ⟨rfl, by decide,
    (congrArg (Option.map (fun r => (r.iregs 1, r.pc, r.pc_updated)))
      (((call_link cfg0 fp0 0 st0 (enc_r 0x1b 0 0 0) (slot_result st0) rfl).2.1
        (by decide)).1)).trans (by decide)⟩

/-- C14: `bc.t` with PSR.CC = 0 and `bnc.t` with PSR.CC = 1 (condition false)
return the state they started with except that the program counter is
(PC + 8) mod 2^32 and the pc-updated flag is set; the result does not depend
on the decoder or on the memory, so the delay slot is neither fetched nor
executed. -/
theorem untaken_delayed_branch (exec : State → Nat → Option State) (s : State) (insn : Nat) :
    (GET_PSR_CC s = 0 →
      insn_bct exec s insn = some { s with pc := (s.pc + 8) % 2 ^ 32, pc_updated := 1 })
    ∧ (GET_PSR_CC s = 1 →
      insn_bnct exec s insn = some { s with pc := (s.pc + 8) % 2 ^ 32, pc_updated := 1 }) := by
  constructor
  · intro h
    simp [insn_bct, h, u32]
  · intro h
    simp [insn_bnct, h, u32]

/-- C14 at a concrete input: in the all-zero state PSR.CC = 0, and `bc.t` at
address 0 ends at program counter 8 with the pc-updated flag set. -/
theorem untaken_delayed_branch_witness :
    GET_PSR_CC st0 = 0
    ∧ (insn_bct (decode_exec cfg0 fp0 0) st0 (enc_r 0x1d 0 0 0)).map
        (fun r => (r.pc, r.pc_updated)) = some (8, 1) :=
  ⟨by decide,
    (congrArg (Option.map (fun r => (r.pc, r.pc_updated)))
      ((untaken_delayed_branch (decode_exec cfg0 fp0 0) st0 (enc_r 0x1d 0 0 0)).1
        (by decide))).trans (by decide)⟩

/-- C15: when the delay slot of `bri` returns without pending trap, the program
counter becomes the value isrc1 held before the delay slot ran; when the
status register snapshotted before the delay slot had no trap bit set, nothing
else of the delay-slot state changes (apart from the pc-updated flag); when it
had one, PSR.U and PSR.IM receive the values of PSR.PU and PSR.PIM (and
`m_fir_gets_trap_addr` is cleared). -/
theorem bri_returns (cfg : Config) (fp : HostFP) (d : Nat) (s : State) (insn : Nat) (s' : State)
    (hX : decode_exec cfg fp d (slot_fetch (bri_pre s)).2 (slot_fetch (bri_pre s)).1 = some s')
    (ht : s'.pending_trap = 0) :
    (s.cregs CR_PSR &&& PSR_ALL_TRAP_BITS_MASK = 0 →
      insn_bri (decode_exec cfg fp d) s insn
        = some { s' with pc := s.iregs (get_isrc1 insn), pc_updated := 1 })
    ∧ (s.cregs CR_PSR &&& PSR_ALL_TRAP_BITS_MASK ≠ 0 →
      insn_bri (decode_exec cfg fp d) s insn
        = some { SET_PSR_IM (SET_PSR_U s' (GET_PSR_PU s')) (GET_PSR_PIM s') with
                   fir_gets_trap_addr := 0, pc := s.iregs (get_isrc1 insn), pc_updated := 1 }
      ∧ GET_PSR_U (SET_PSR_IM (SET_PSR_U s' (GET_PSR_PU s')) (GET_PSR_PIM s')) = GET_PSR_PU s'
      ∧ GET_PSR_IM (SET_PSR_IM (SET_PSR_U s' (GET_PSR_PU s')) (GET_PSR_PIM s'))
          = GET_PSR_PIM s') := by
  have e := delay_slot_eq (decode_exec cfg fp d) (bri_pre s)
  simp only [bri_pre] at e hX
  have hpim (x : State) (u : Nat) : GET_PSR_PIM (SET_PSR_U x u) = GET_PSR_PIM x := by
    simp only [GET_PSR_PIM, SET_PSR_U, setCreg, upd_same]
    exact getField_setField_other _ _ _ _ (by norm_num) (by norm_num)
  refine ⟨fun h0 => ?_, fun h1 => ⟨?_, ?_, ?_⟩⟩
  · simp only [insn_bri, e, hX, Option.map]
    rw [if_neg (by simp [ht]), if_neg (by simp [h0])]
    rfl
  · simp only [insn_bri, e, hX, Option.map]
    rw [if_neg (by simp [ht]), if_pos h1]
    simp only [hpim]
    rfl
  · simp only [GET_PSR_U, SET_PSR_IM, SET_PSR_U, setCreg, upd_same, GET_PSR_PU]
    rw [getField_setField_other _ _ _ _ (by norm_num) (by norm_num), getField_setField_same,
      getField_one_le]
  · simp only [GET_PSR_IM, SET_PSR_IM, setCreg, upd_same]
    rw [getField_setField_same]
    exact getField_one_le _ _

/-- C15 at a concrete input: `bri r1` at address 0 with r1 = 0x100 in a state
without trap bits ends at program counter 0x100. -/
theorem bri_returns_witness :
    decode_exec cfg0 fp0 0 (slot_fetch (bri_pre (st_r12 0x100 0))).2
        (slot_fetch (bri_pre (st_r12 0x100 0))).1 = some (slot_result (bri_pre (st_r12 0x100 0)))
    ∧ (slot_result (bri_pre (st_r12 0x100 0))).pending_trap = 0
    ∧ (st_r12 0x100 0).cregs CR_PSR &&& PSR_ALL_TRAP_BITS_MASK = 0
    ∧ (insn_bri (decode_exec cfg0 fp0 0) (st_r12 0x100 0) (enc_r 0x10 0 0 1)).map
        (fun r => (r.pc, r.pc_updated)) = some (0x100, 1) :=
  ⟨rfl, by decide, by decide,
    (congrArg (Option.map (fun r => (r.pc, r.pc_updated)))
      ((bri_returns cfg0 fp0 0 (st_r12 0x100 0) (enc_r 0x10 0 0 1)
        (slot_result (bri_pre (st_r12 0x100 0))) rfl (by decide)).1 (by decide))).trans
      (by decide)⟩

/-- C16, the code: for `bla` with isrc1 != isrc2 the delay slot runs with isrc2
already holding (isrc1 + isrc2) mod 2^32 (isrc2 not r0); when the delay slot
returns without pending trap the program counter becomes
(PC + 4 + 4 * sign_ext16(sbroff)) mod 2^32 if PSR.LCC is set at that point and
(PC + 8) mod 2^32 otherwise, and then PSR.LCC becomes 1 exactly when the
original isrc2 >= the two's complement negation of isrc1, which is the integer
-isrc1 unless isrc1 = -2^31; when the delay slot leaves a pending trap the
control registers are those the delay slot left. For isrc1 = -2^31 (pattern
0x80000000) the negation `-(INT32)isrc1` wraps to -2^31 and LCC is set for
every isrc2, although isrc2 >= -isrc1 = 2^31 holds for no 32-bit isrc2. -/
theorem bla_loop (cfg : Config) (fp : HostFP) (d : Nat) (s : State) (insn : Nat) (s' : State)
    (hne : get_isrc1 insn ≠ get_isrc2 insn)
    (hX : decode_exec cfg fp d (slot_fetch (bla_pre s insn)).2 (slot_fetch (bla_pre s insn)).1
            = some s') :
    (get_isrc2 insn ≠ 0 →
      (slot_fetch (bla_pre s insn)).2.iregs (get_isrc2 insn)
        = (s.iregs (get_isrc1 insn) + s.iregs (get_isrc2 insn)) % 2 ^ 32)
    ∧ (s'.pending_trap = 0 →
        insn_bla cfg (decode_exec cfg fp d) s insn
          = some { SET_PSR_LCC s'
                (if toS32 (s.iregs (get_isrc2 insn)) ≥ toS32 (neg32 (s.iregs (get_isrc1 insn)))
                  then 1 else 0) with
              pc := if GET_PSR_LCC s' ≠ 0 then
                      Int.toNat (((s.pc : Int) + 4
                        + 4 * sval 16 (((insn >>> 5) &&& 0xf800) ||| (insn &&& 0x07ff))) % 2 ^ 32)
                    else (s.pc + 8) % 2 ^ 32,
              pc_updated := 1 }
        ∧ GET_PSR_LCC (SET_PSR_LCC s'
              (if toS32 (s.iregs (get_isrc2 insn)) ≥ toS32 (neg32 (s.iregs (get_isrc1 insn)))
                then 1 else 0))
            = (if toS32 (s.iregs (get_isrc2 insn)) ≥ toS32 (neg32 (s.iregs (get_isrc1 insn)))
                then 1 else 0))
    ∧ (s.iregs (get_isrc1 insn) < 2 ^ 32 → s.iregs (get_isrc1 insn) ≠ 0x80000000 →
        toS32 (neg32 (s.iregs (get_isrc1 insn))) = - toS32 (s.iregs (get_isrc1 insn)))
    ∧ (s'.pending_trap ≠ 0 →
        insn_bla cfg (decode_exec cfg fp d) s insn
          = some { s' with pc := s.pc,
                           pending_trap := s'.pending_trap ||| TRAP_IN_DELAY_SLOT })
    ∧ (s.iregs (get_isrc1 insn) = 0x80000000 → s.iregs (get_isrc2 insn) < 2 ^ 32 →
        (if toS32 (s.iregs (get_isrc2 insn)) ≥ toS32 (neg32 (s.iregs (get_isrc1 insn)))
          then 1 else 0) = 1
        ∧ ¬ (toS32 (s.iregs (get_isrc2 insn)) ≥ - toS32 (s.iregs (get_isrc1 insn)))) := by
  have hu : ¬ (cfg.trace_undefined = true ∧ get_isrc1 insn = get_isrc2 insn) := fun h => hne h.2
  have e := delay_slot_eq (decode_exec cfg fp d) (bla_pre s insn)
  simp only [bla_pre, set_iregval] at e hX
  refine ⟨fun h2 => ?_, fun ht => ⟨?_, ?_⟩, fun ha hb => ?_, fun ht => ?_, fun ha hb => ?_⟩
  · rw [slot_fetch_iregs]
    simp [bla_pre, set_iregval, h2, u32]
  · simp only [insn_bla, hu, if_false, get_iregval, set_iregval, e, hX, Option.map]
    rw [if_neg (by simp [ht]), target_sbroff_eq]
    by_cases hl : GET_PSR_LCC s' ≠ 0
    · rw [if_pos (show GET_PSR_LCC { s' with pc := s.pc } ≠ 0 from hl), if_pos hl]
      rfl
    · rw [if_neg (show ¬ GET_PSR_LCC { s' with pc := s.pc } ≠ 0 from hl), if_neg hl]
      rfl
  · simp only [GET_PSR_LCC, SET_PSR_LCC, setCreg, upd_same]
    rw [getField_setField_same]
    split <;> rfl
  · rw [toS32_of_lt _ ha]
    unfold neg32 toS32
    have h32 : (2:Nat) ^ 32 = 4294967296 := by norm_num
    have h31 : (2:Nat) ^ 31 = 2147483648 := by norm_num
    simp only [Nat.mod_eq_of_lt ha, Nat.mod_mod]
    split_ifs <;> omega
  · simp only [insn_bla, hu, if_false, get_iregval, set_iregval, e, hX, Option.map, ht, ne_eq,
      not_false_eq_true, if_true, delay_abort]
  · have hn : toS32 (neg32 (s.iregs (get_isrc1 insn))) = -2 ^ 31 := by rw [ha]; decide
    have hm : toS32 (s.iregs (get_isrc1 insn)) = -2 ^ 31 := by rw [ha]; decide
    rw [hn, hm, toS32_of_lt _ hb]
    constructor
    · rw [if_pos (by split_ifs <;> omega)]
    · split_ifs <;> omega

/-- C16 at a concrete input: `bla r1,r2,0` at address 0 with r1 = 1, r2 = 2 and
PSR.LCC clear ends with r2 = 3, the program counter 8 and PSR.LCC = 1. -/
theorem bla_loop_witness :
    get_isrc1 (enc_r 0x2d 2 0 1) ≠ get_isrc2 (enc_r 0x2d 2 0 1)
    ∧ decode_exec cfg0 fp0 0 (slot_fetch (bla_pre (st_r12 1 2) (enc_r 0x2d 2 0 1))).2
        (slot_fetch (bla_pre (st_r12 1 2) (enc_r 0x2d 2 0 1))).1
        = some (slot_result (bla_pre (st_r12 1 2) (enc_r 0x2d 2 0 1)))
    ∧ (slot_result (bla_pre (st_r12 1 2) (enc_r 0x2d 2 0 1))).pending_trap = 0
    ∧ (insn_bla cfg0 (decode_exec cfg0 fp0 0) (st_r12 1 2) (enc_r 0x2d 2 0 1)).map
        (fun r => (r.iregs 2, r.pc, GET_PSR_LCC r)) = some (3, 8, 1) :=
  ⟨by decide, rfl, by decide,
    (congrArg (Option.map (fun r => (r.iregs 2, r.pc, GET_PSR_LCC r)))
      (((bla_loop cfg0 fp0 0 (st_r12 1 2) (enc_r 0x2d 2 0 1)
        (slot_result (bla_pre (st_r12 1 2) (enc_r 0x2d 2 0 1))) (by decide) rfl).2.1
        (by decide)).1)).trans (by decide)⟩

/-- C16, failing input: `bla r1,r2,0` at address 0 with r1 = 0x80000000
(-2^31) and r2 = 5. The delay slot leaves no pending trap and PSR.LCC is set
afterwards, although 5 >= -(-2^31) = 2^31 is false. -/
theorem bla_lcc_int_min :
    get_isrc1 (enc_r 0x2d 2 0 1) = 1 ∧ get_isrc2 (enc_r 0x2d 2 0 1) = 2
      ∧ (st_r12 0x80000000 5).iregs 1 = 0x80000000 ∧ (st_r12 0x80000000 5).iregs 2 = 5
      ∧ (insn_bla cfg0 (decode_exec cfg0 fp0 0) (st_r12 0x80000000 5) (enc_r 0x2d 2 0 1)).map
          (fun r => (r.pending_trap, GET_PSR_LCC r)) = some (0, 1)
      ∧ ¬ (toS32 5 ≥ - toS32 0x80000000) := by
  decide

/-- C13, the claim fails on the code: `calli r2` at address 0 with r1 = 5 and
the delay slot `or r1,r0,r3` ends without trap and with r3 = 8, so the delay
slot saw the new link value 8 and not the 5 that r1 held before the calli; and
with a `trap` in the delay slot r1 ends as 0x100 (the value of isrc1), not
5. -/
theorem calli_link_visible_in_slot :
    (st_calli (enc_r 0x38 0 3 1)).iregs 1 = 5
    ∧ (decode_exec cfg0 fp0 1 (st_calli (enc_r 0x38 0 3 1)) w_calli_r2).map
        (fun r => (r.pending_trap, r.iregs 3)) = some (0, 8)
    ∧ (decode_exec cfg0 fp0 1 (st_calli w_trap) w_calli_r2).map
        (fun r => (r.pending_trap, r.iregs 1)) = some (3, 0x100) := by
  refine ⟨by decide, by decide, by decide⟩

/-- C13 as amended: `calli` writes (PC + 8) mod 2^32 to r1 before the delay
slot runs, so the delay slot observes the new link value; when the delay slot
returns without pending trap, `calli` changes nothing else of the delay-slot
state except that the program counter becomes the value isrc1 held before the
calli and the pc-updated flag is set. -/
theorem calli_link (cfg : Config) (fp : HostFP) (d : Nat) (s : State) (insn : Nat) (s' : State)
    (hX : decode_exec cfg fp d (slot_fetch (calli_pre s)).2 (slot_fetch (calli_pre s)).1 = some s')
    (ht : s'.pending_trap = 0) :
    (slot_fetch (calli_pre s)).2.iregs 1 = (s.pc + 8) % 2 ^ 32
    ∧ insn_calli (decode_exec cfg fp d) s insn
        = some { s' with pc := s.iregs (get_isrc1 insn), pc_updated := 1 } := by
  constructor
  · rw [slot_fetch_iregs]
    simp [calli_pre, set_iregval, u32]
  · have e := delay_slot_eq (decode_exec cfg fp d) (calli_pre s)
    simp only [calli_pre, set_iregval] at e hX
    simp only [insn_calli, set_iregval, e, hX, Option.map, get_iregval]
    rw [if_neg (by simp [ht])]

/-- C13 as amended, at a concrete input: `calli r2` at address 0 with r1 = 5,
r2 = 0x100 and the delay slot `or r1,r0,r3` ends with r1 = 8, r3 = 8 and the
program counter 0x100. -/
theorem calli_link_witness :
    decode_exec cfg0 fp0 0 (slot_fetch (calli_pre (st_calli (enc_r 0x38 0 3 1)))).2
        (slot_fetch (calli_pre (st_calli (enc_r 0x38 0 3 1)))).1
      = some (slot_result (calli_pre (st_calli (enc_r 0x38 0 3 1))))
    ∧ (slot_result (calli_pre (st_calli (enc_r 0x38 0 3 1)))).pending_trap = 0
    ∧ (insn_calli (decode_exec cfg0 fp0 0) (st_calli (enc_r 0x38 0 3 1)) w_calli_r2).map
        (fun r => (r.iregs 1, r.iregs 3, r.pc, r.pc_updated)) = some (8, 8, 0x100, 1) :=
  ⟨rfl, by decide,
    (congrArg (Option.map (fun r => (r.iregs 1, r.iregs 3, r.pc, r.pc_updated)))
      ((calli_link cfg0 fp0 0 (st_calli (enc_r 0x38 0 3 1)) w_calli_r2
        (slot_result (calli_pre (st_calli (enc_r 0x38 0 3 1)))) rfl (by decide)).2)).trans
      (by decide)⟩

/-- C5: with address translation enabled, when the directory entry and the
page-table entry of a virtual address are both present, writable and
user-accessible (and, for a data write, the dirty bit of the page-table entry
is set), `get_address_translation` returns `(PTE & 0xfffff000) | (V & 0xfff)`,
leaves the pending trap and every control register (so every fault flag) as
they were, and afterwards both entries in memory equal their previous value
OR 0x20; no other byte of memory and no other part of the state changes. -/
theorem xlate_success (s : State) (v : Nat) (dr w : Bool)
    (_hate : GET_DIRBASE_ATE s ≠ 0)
    (hd : pde_val s v &&& 1 ≠ 0 ∧ pde_val s v &&& 2 ≠ 0 ∧ pde_val s v &&& 4 ≠ 0)
    (ht : pte_val s v &&& 1 ≠ 0 ∧ pte_val s v &&& 2 ≠ 0 ∧ pte_val s v &&& 4 ≠ 0)
    (hdirty : w = true → dr = true → pte_val s v &&& 0x40 ≠ 0) :
    (get_address_translation s v dr w).1 = (pte_val s v &&& 0xfffff000) ||| (v &&& 0xfff)
      ∧ (get_address_translation s v dr w).2.pending_trap = s.pending_trap
      ∧ (get_address_translation s v dr w).2.cregs = s.cregs
      ∧ rd32i (get_address_translation s v dr w).2 (pde_addr s v) = pde_val s v ||| 0x20
      ∧ rd32i (get_address_translation s v dr w).2 (pte_addr s v) = pte_val s v ||| 0x20
      ∧ (∀ x, (x < pde_addr s v ∨ pde_addr s v + 4 ≤ x) →
          (x < pte_addr s v ∨ pte_addr s v + 4 ≤ x) →
          (get_address_translation s v dr w).2.mem x = s.mem x)
      ∧ (get_address_translation s v dr w).2
          = { s with mem := (get_address_translation s v dr w).2.mem } := by
  have h1 : ¬ entry_faults s (pde_val s v) dr w := by
    unfold entry_faults
    rintro (h | h | h)
    · exact hd.1 h
    · exact hd.2.1 h.2.2.1
    · exact hd.2.2 h.2
  have h2 : ¬ entry_faults s (pte_val s v) dr w := by
    unfold entry_faults
    rintro (h | h | h)
    · exact ht.1 h
    · exact ht.2.1 h.2.2.1
    · exact ht.2.2 h.2
  have h3 : ¬ (w = true ∧ dr = true ∧ pte_val s v &&& 0x40 = 0) :=
    fun h => hdirty h.1 h.2.1 h.2.2
  rw [xlate_not_faulting s v dr w h1 h2, if_neg h3]
  exact ⟨rfl, rfl, rfl, (accessed_writeback_entries s v).1, (accessed_writeback_entries s v).2,
    fun x hx hy => accessed_writeback_mem_other s v x hx hy, rfl⟩

theorem xlate_success_witness :
    GET_DIRBASE_ATE (st_pg 0 0 0xABC 0x2007 0x3047) ≠ 0
      ∧ (get_address_translation (st_pg 0 0 0xABC 0x2007 0x3047) 0xABC true true).1 = 0x3ABC
      ∧ rd32i (get_address_translation (st_pg 0 0 0xABC 0x2007 0x3047) 0xABC true true).2 0x1000
          = 0x2027
      ∧ rd32i (get_address_translation (st_pg 0 0 0xABC 0x2007 0x3047) 0xABC true true).2 0x2000
          = 0x3067 :=
  have h := xlate_success (st_pg 0 0 0xABC 0x2007 0x3047) 0xABC true true (by decide)
    (by decide) (by decide) (by decide)
  ⟨by decide, h.1.trans (by decide), h.2.2.2.1.trans (by decide),
    h.2.2.2.2.1.trans (by decide)⟩

/-- C6: `get_address_translation` faults exactly under the stated condition
(`xlate_faults`: the directory entry, or when it passes the page-table entry,
has the present bit clear, or the access is a data write and the writable bit
is clear while PSR.U or EPSR.WP is set, or PSR.U is set and the user bit is
clear, or the access is a data write and the page-table dirty bit is clear).
When the condition holds the call returns 0, sets the pending trap to
`TRAP_NORMAL`, and sets PSR.DAT for a data reference and PSR.IAT for an
instruction fetch; when it does not hold the call returns the translated
address and leaves the pending trap and all control registers as they were. -/
theorem xlate_fault_iff (s : State) (v : Nat) (dr w : Bool) :
    (xlate_faults s v dr w →
      (get_address_translation s v dr w).1 = 0
        ∧ (get_address_translation s v dr w).2.pending_trap = TRAP_NORMAL
        ∧ (dr = true → GET_PSR_DAT (get_address_translation s v dr w).2 = 1)
        ∧ (dr = false → GET_PSR_IAT (get_address_translation s v dr w).2 = 1))
    ∧ (¬ xlate_faults s v dr w →
      (get_address_translation s v dr w).1 = (pte_val s v &&& 0xfffff000) ||| (v &&& 0xfff)
        ∧ (get_address_translation s v dr w).2.pending_trap = s.pending_trap
        ∧ (get_address_translation s v dr w).2.cregs = s.cregs) := by
  constructor
  · intro h
    by_cases hd : entry_faults s (pde_val s v) dr w
    · rw [xlate_faulting s v dr w (Or.inl hd)]
      obtain ⟨a, b, c, d, _⟩ := xlate_fault_flags s dr
      exact ⟨a, b, c, d⟩
    by_cases ht : entry_faults s (pte_val s v) dr w
    · rw [xlate_faulting s v dr w (Or.inr ⟨hd, ht⟩)]
      obtain ⟨a, b, c, d, _⟩ := xlate_fault_flags s dr
      exact ⟨a, b, c, d⟩
    have hq : w = true ∧ dr = true ∧ pte_val s v &&& 0x40 = 0 := by
      rcases h with h | ⟨_, h | h⟩
      · exact absurd h hd
      · exact absurd h ht
      · exact h
    rw [xlate_not_faulting s v dr w hd ht, if_pos hq]
    generalize accessed_writeback s v = t
    obtain ⟨a, b, c, _, _⟩ := xlate_fault_dat_flags t
    refine ⟨a, b, fun _ => c, ?_⟩
    intro h0
    rw [hq.2.1] at h0
    exact Bool.noConfusion h0
  · intro h
    unfold xlate_faults at h
    have hd : ¬ entry_faults s (pde_val s v) dr w := fun x => h (Or.inl x)
    have ht : ¬ entry_faults s (pte_val s v) dr w := fun x => h (Or.inr ⟨hd, Or.inl x⟩)
    have hq : ¬ (w = true ∧ dr = true ∧ pte_val s v &&& 0x40 = 0) :=
      fun x => h (Or.inr ⟨hd, Or.inr x⟩)
    rw [xlate_not_faulting s v dr w hd ht, if_neg hq]
    exact ⟨rfl, rfl, rfl⟩


/-- C7, counterexample: a word write of 0 to the console address 0xF83FE800 on
a page whose page-table entry is present but not writable (EPSR.WP set) ends
in a write-protection fault of the translator (PSR.DAT and the pending trap
are set, `m_exiting_readmem` is 2), and yet memory has been written: the
console hook has read the message length through `readmemi_emu` first, and
that translation has set the accessed bit of both entries. -/
theorem console_write_fault_writes_memory :
    GET_DIRBASE_ATE st_console_wp ≠ 0
      ∧ ¬ entry_faults st_console_wp (pde_val st_console_wp 0xF83FE800) true true
      ∧ entry_faults st_console_wp (pte_val st_console_wp 0xF83FE800) true true
      ∧ pte_val st_console_wp 0xF83FE800 &&& 1 ≠ 0
      ∧ (writememi_emu st_console_wp 0xF83FE800 4 0).exiting_readmem = 2
      ∧ rd32i st_console_wp 0x1F80 = 0x2007
      ∧ rd32i (writememi_emu st_console_wp 0xF83FE800 4 0) 0x1F80 = 0x2027
      ∧ rd32i st_console_wp 0x2FF8 = 0x3005
      ∧ rd32i (writememi_emu st_console_wp 0xF83FE800 4 0) 0x2FF8 = 0x3025 := by
  decide



/-- C7, amended: for a data write with translation enabled through
`fp_writemem_emu`, or through `writememi_emu` at an address other than the two
console addresses: when both entries pass the present/protection checks and
the page-table dirty bit is clear, memory afterwards is memory before with
nothing but the accessed-bit write-back of the two entries (each reads back
as its old value OR 0x20, the data is not written), PSR.DAT is 1 and the
pending trap is `TRAP_NORMAL`; when an entry fails the present or protection
check, memory is unchanged. -/
theorem write_fault_memory (s : State) (addr size data faddr fsize : Nat)
    (fdata : List Nat) (wmask : Nat) (hate : GET_DIRBASE_ATE s ≠ 0)
    (hc : addr ≠ 0xF83FE800 ∧ addr ≠ 0xF80ff800) :
    (¬ entry_faults s (pde_val s addr) true true → ¬ entry_faults s (pte_val s addr) true true →
      pte_val s addr &&& 0x40 = 0 →
        (writememi_emu s addr size data).mem = (accessed_writeback s addr).mem
        ∧ rd32i (writememi_emu s addr size data) (pde_addr s addr) = pde_val s addr ||| 0x20
        ∧ rd32i (writememi_emu s addr size data) (pte_addr s addr) = pte_val s addr ||| 0x20
        ∧ GET_PSR_DAT (writememi_emu s addr size data) = 1
        ∧ (writememi_emu s addr size data).pending_trap = TRAP_NORMAL)
    ∧ (¬ entry_faults s (pde_val s faddr) true true →
      ¬ entry_faults s (pte_val s faddr) true true → pte_val s faddr &&& 0x40 = 0 →
        (fp_writemem_emu s faddr fsize fdata wmask).mem = (accessed_writeback s faddr).mem
        ∧ rd32i (fp_writemem_emu s faddr fsize fdata wmask) (pde_addr s faddr)
            = pde_val s faddr ||| 0x20
        ∧ rd32i (fp_writemem_emu s faddr fsize fdata wmask) (pte_addr s faddr)
            = pte_val s faddr ||| 0x20
        ∧ GET_PSR_DAT (fp_writemem_emu s faddr fsize fdata wmask) = 1
        ∧ (fp_writemem_emu s faddr fsize fdata wmask).pending_trap = TRAP_NORMAL)
    ∧ ((entry_faults s (pde_val s addr) true true
          ∨ (¬ entry_faults s (pde_val s addr) true true
              ∧ entry_faults s (pte_val s addr) true true)) →
        (writememi_emu s addr size data).mem = s.mem)
    ∧ ((entry_faults s (pde_val s faddr) true true
          ∨ (¬ entry_faults s (pde_val s faddr) true true
              ∧ entry_faults s (pte_val s faddr) true true)) →
        (fp_writemem_emu s faddr fsize fdata wmask).mem = s.mem) := by
  have hdirty : ∀ a, ¬ entry_faults s (pde_val s a) true true →
      ¬ entry_faults s (pte_val s a) true true → pte_val s a &&& 0x40 = 0 →
      (get_address_translation s a true true).2
        = (xlate_fault_dat (accessed_writeback s a)).2 := by
    intro a h1 h2 h3
    rw [xlate_not_faulting s a true true h1 h2, if_pos ⟨rfl, rfl, h3⟩]
  have hfl : ∀ t : State, (xlate_fault_dat t).2.pending_trap ≠ 0
      ∧ GET_PSR_DAT (xlate_fault_dat t).2 = 1 := by
    intro t
    obtain ⟨_, b, c, _, _⟩ := xlate_fault_dat_flags t
    exact ⟨by rw [b]; decide, c⟩
  have hfl2 : (xlate_fault s true).2.pending_trap ≠ 0
      ∧ GET_PSR_DAT (xlate_fault s true).2 = 1 := by
    obtain ⟨_, b, c, _, _⟩ := xlate_fault_flags s true
    exact ⟨by rw [b]; decide, c rfl⟩
  refine ⟨?_, ?_, ?_, ?_⟩
  · intro h1 h2 h3
    have e := writememi_emu_fault s addr size data hate hc _ (hdirty addr h1 h2 h3)
      (hfl _).1 (hfl _).2
    obtain ⟨w1, _, w3, w4⟩ := write_dirty_fault_state _ _ 2 e 0
    refine ⟨w1, ?_, ?_, w3, w4⟩
    · rw [(write_dirty_fault_state _ _ 2 e _).2.1]
      exact (accessed_writeback_entries s addr).1
    · rw [(write_dirty_fault_state _ _ 2 e _).2.1]
      exact (accessed_writeback_entries s addr).2
  · intro h1 h2 h3
    have e := fp_writemem_emu_fault s faddr fsize fdata wmask hate _ (hdirty faddr h1 h2 h3)
      (hfl _).1 (hfl _).2
    obtain ⟨w1, _, w3, w4⟩ := write_dirty_fault_state _ _ 4 e 0
    refine ⟨w1, ?_, ?_, w3, w4⟩
    · rw [(write_dirty_fault_state _ _ 4 e _).2.1]
      exact (accessed_writeback_entries s faddr).1
    · rw [(write_dirty_fault_state _ _ 4 e _).2.1]
      exact (accessed_writeback_entries s faddr).2
  · intro h
    rw [writememi_emu_fault s addr size data hate hc _
      (congrArg Prod.snd (xlate_faulting s addr true true h)) hfl2.1 hfl2.2]
    rfl
  · intro h
    rw [fp_writemem_emu_fault s faddr fsize fdata wmask hate _
      (congrArg Prod.snd (xlate_faulting s faddr true true h)) hfl2.1 hfl2.2]
    rfl


theorem write_fault_memory_witness :
    GET_DIRBASE_ATE st_clean_page ≠ 0
      ∧ rd32i st_clean_page 0x2000 = 0x3007
      ∧ rd32i (writememi_emu st_clean_page 0xABC 4 0x55) 0x2000 = 0x3027
      ∧ GET_PSR_DAT (writememi_emu st_clean_page 0xABC 4 0x55) = 1
      ∧ (writememi_emu st_clean_page 0xABC 4 0x55).pending_trap = TRAP_NORMAL :=
  have h := (write_fault_memory st_clean_page 0xABC 4 0x55 0xABC 4 [] 0 (by decide)
    (by decide)).1 (by decide) (by decide) (by decide)
  ⟨by decide, by decide, h.2.2.1.trans (by decide), h.2.2.2.1, h.2.2.2.2⟩

/-! ## Floating-point pipelines -/

/-- C18, counterexample: three consecutive pipelined single-precision
multiplies f4*f5 -> f8, f6*f7 -> f9, f10*f11 -> f12 (distinct inputs, no
bypass). After the third, f12 does not hold the product computed by the first
(with the host arithmetic `fp0`, 2.0 = 0x40000000) but what stage 0 of the
multiplier pipeline held before the first (0x11111111); the product of the
first multiply is then in the last stage, M[2]. -/
theorem pfmul_ss_third_gets_old_stage :
    get_fregval_s (insn_fmul fp0 (insn_fmul fp0 (insn_fmul fp0 st_mul (w_pfmul_ss 4 5 8))
        (w_pfmul_ss 6 7 9)) (w_pfmul_ss 10 11 12)) 12 = 0x11111111
      ∧ fp0.mul_s (get_fregval_s st_mul 4) (get_fregval_s st_mul 5) = 0x40000000
      ∧ ((insn_fmul fp0 (insn_fmul fp0 (insn_fmul fp0 st_mul (w_pfmul_ss 4 5 8))
        (w_pfmul_ss 6 7 9)) (w_pfmul_ss 10 11 12)).M 2).val = 0x40000000 := by
  decide

/-- C18, amended: the multiplier pipe has three stages for single-precision
sources. For any four consecutive `pfmul.ss` m1..m4 (P bit set, S and R bits
and the pfmul3 bit clear), m1 without bypass and the destination of m4 not
f0/f1, the destination of m4 receives the product computed by m1; the
destination of m3 (not f0/f1) receives what stage 0 held before m1 when that
was a single. For three consecutive `pfmul.dd` (two stages) the destination of
m3 does receive the product computed by m1. -/
theorem pfmul_pipe_depth (fp : HostFP) (s : State) (w1 w2 w3 w4 : Nat)
    (hp : w1 &&& 0x400 ≠ 0 ∧ w2 &&& 0x400 ≠ 0 ∧ w3 &&& 0x400 ≠ 0 ∧ w4 &&& 0x400 ≠ 0)
    (h3 : w1 &&& 0x4 = 0 ∧ w2 &&& 0x4 = 0 ∧ w3 &&& 0x4 = 0 ∧ w4 &&& 0x4 = 0)
    (hnb : ¬ (get_fdest w1 ≠ 0 ∧ get_fsrc2 w1 = get_fdest w1)) :
    ((w1 &&& 0x100 = 0 ∧ w2 &&& 0x100 = 0 ∧ w3 &&& 0x100 = 0 ∧ w4 &&& 0x100 = 0) →
      (w1 &&& 0x080 = 0 ∧ w2 &&& 0x080 = 0 ∧ w3 &&& 0x080 = 0 ∧ w4 &&& 0x080 = 0) →
        (2 ≤ get_fdest w4 →
          get_fregval_s (insn_fmul fp (insn_fmul fp (insn_fmul fp (insn_fmul fp s w1) w2) w3) w4)
              (get_fdest w4)
            = fp.mul_s (get_fregval_s s (get_fsrc1 w1)) (get_fregval_s s (get_fsrc2 w1))
                % 2 ^ 32)
        ∧ (2 ≤ get_fdest w3 → (s.M 0).prec = 0 →
          get_fregval_s (insn_fmul fp (insn_fmul fp (insn_fmul fp s w1) w2) w3) (get_fdest w3)
            = union_s (s.M 0).val))
    ∧ ((w1 &&& 0x100 ≠ 0 ∧ w2 &&& 0x100 ≠ 0 ∧ w3 &&& 0x100 ≠ 0) →
      (w1 &&& 0x080 ≠ 0 ∧ w2 &&& 0x080 ≠ 0 ∧ w3 &&& 0x080 ≠ 0) → 2 ≤ get_fdest w3 →
        get_fregval_d (insn_fmul fp (insn_fmul fp (insn_fmul fp s w1) w2) w3) (get_fdest w3)
          = fp.mul_d (get_fregval_d s (get_fsrc1 w1)) (get_fregval_d s (get_fsrc2 w1))
              % 2 ^ 64) := by
  constructor
  · intro hs hr
    obtain ⟨a0, a1, a2, a3, _⟩ := pfmul_ss_step fp s w1 hp.1 hs.1 hr.1 h3.1
    rw [if_neg hnb] at a1
    obtain ⟨_, _, b2, b3, _⟩ := pfmul_ss_step fp (insn_fmul fp s w1) w2 hp.2.1 hs.2.1 hr.2.1
      h3.2.1
    obtain ⟨_, _, _, c3, c4⟩ := pfmul_ss_step fp (insn_fmul fp (insn_fmul fp s w1) w2) w3
      hp.2.2.1 hs.2.2.1 hr.2.2.1 h3.2.2.1
    obtain ⟨_, _, _, _, d4⟩ := pfmul_ss_step fp
      (insn_fmul fp (insn_fmul fp (insn_fmul fp s w1) w2) w3) w4
      hp.2.2.2 hs.2.2.2 hr.2.2.2 h3.2.2.2
    constructor
    · intro hd
      rw [d4 (by rw [c3, b2]; exact a0) hd, c3, b2, a1]
    · intro hd h0
      rw [c4 (by rw [b3, a2]; exact h0) hd, b3, a2]
  · intro hs hr hd
    obtain ⟨a0, a1, _, _⟩ := pfmul_dd_step fp s w1 hp.1 hs.1 hr.1 h3.1
    rw [if_neg hnb] at a1
    obtain ⟨_, _, b2, _⟩ := pfmul_dd_step fp (insn_fmul fp s w1) w2 hp.2.1 hs.2.1 hr.2.1 h3.2.1
    obtain ⟨_, _, _, c4⟩ := pfmul_dd_step fp (insn_fmul fp (insn_fmul fp s w1) w2) w3
      hp.2.2.1 hs.2.2 hr.2.2 h3.2.2.1
    rw [c4 (by rw [b2, a0]; decide) hd, b2, a1]

theorem pfmul_pipe_depth_witness :
    get_fregval_s (insn_fmul fp0 (insn_fmul fp0 (insn_fmul fp0 (insn_fmul fp0 st_mul
        (w_pfmul_ss 4 5 8)) (w_pfmul_ss 6 7 9)) (w_pfmul_ss 10 11 12)) (w_pfmul_ss 4 5 13)) 13
      = 0x40000000 :=
  ((pfmul_pipe_depth fp0 st_mul (w_pfmul_ss 4 5 8) (w_pfmul_ss 6 7 9) (w_pfmul_ss 10 11 12)
    (w_pfmul_ss 4 5 13) (by decide) (by decide) (by decide)).1 (by decide) (by decide)).1
    (by decide) |>.trans (by decide)

/-- C19: for `[p]fadd` / `[p]fsub` with a valid precision combination. In the
pipelined form the destination register (index >= 2) receives the contents A2
held before the instruction, as a double when the tag of A2 is double and as a
single otherwise; afterwards stage 2 is the old stage 1 and stage 1 the old
stage 0 (value and tag), and stage 0 holds the newly computed result
(`fadd_sub_tmp`) with the tag of the instruction's result precision. The
scalar form writes the new result to the destination and leaves the three
stages as they were. -/
theorem pfadd_pipeline (fp : HostFP) (s : State) (insn : Nat)
    (hv : insn &&& 0x180 ≠ 0x100) :
    (insn &&& 0x400 ≠ 0 →
      (2 ≤ get_fdest insn →
        ((s.A 2).prec ≠ 0 →
          get_fregval_d (insn_fadd_sub fp s insn) (get_fdest insn) = union_d (s.A 2).val)
        ∧ ((s.A 2).prec = 0 →
          get_fregval_s (insn_fadd_sub fp s insn) (get_fdest insn) = union_s (s.A 2).val))
      ∧ (insn_fadd_sub fp s insn).A 2 = s.A 1
      ∧ (insn_fadd_sub fp s insn).A 1 = s.A 0
      ∧ (insn &&& 0x080 ≠ 0 →
          (insn_fadd_sub fp s insn).A 0
            = { val := (fadd_sub_tmp fp s insn).1 % 2 ^ 64, prec := 1 })
      ∧ (insn &&& 0x080 = 0 →
          ((insn_fadd_sub fp s insn).A 0).prec = 0
          ∧ union_s ((insn_fadd_sub fp s insn).A 0).val = (fadd_sub_tmp fp s insn).2 % 2 ^ 32))
    ∧ (insn &&& 0x400 = 0 →
      (insn_fadd_sub fp s insn).A = s.A
      ∧ (2 ≤ get_fdest insn →
        (insn &&& 0x080 ≠ 0 →
          get_fregval_d (insn_fadd_sub fp s insn) (get_fdest insn)
            = (fadd_sub_tmp fp s insn).1 % 2 ^ 64)
        ∧ (insn &&& 0x080 = 0 →
          get_fregval_s (insn_fadd_sub fp s insn) (get_fdest insn)
            = (fadd_sub_tmp fp s insn).2 % 2 ^ 32))) := by
  rw [insn_fadd_sub_eq, if_neg hv]
  generalize fadd_sub_tmp fp s insn = t
  constructor
  · intro hp
    rw [if_neg hp]
    simp only [fsr_copy_bit_A, hp, ne_eq, not_false_eq_true, true_and]
    refine ⟨?_, ?_, ?_, ?_, ?_⟩
    · intro hd
      have e : ∀ (u : State) (r d g fr : Nat), get_fregval_d (advance_A u r d g) fr
          = get_fregval_d u fr := fun _ _ _ _ _ => rfl
      have e' : ∀ (u : State) (r d g fr : Nat), get_fregval_s (advance_A u r d g) fr
          = get_fregval_s u fr := fun _ _ _ _ _ => rfl
      rw [e, e']
      constructor
      · intro h
        rw [(set_fregval_by_get _ _ _ _ _ hd).1 h, if_pos h]
        exact Nat.mod_mod _ _
      · intro h
        rw [(set_fregval_by_get _ _ _ _ _ hd).2 h, if_pos h]
        exact Nat.mod_mod _ _
    · simp only [advance_A, set_fregval_by_A, fsr_copy_bit_A]
      rw [upd_other _ _ _ _ (by decide), upd_other _ _ _ _ (by decide), upd_same]
    · simp only [advance_A, set_fregval_by_A, fsr_copy_bit_A]
      rw [upd_other _ _ _ _ (by decide), upd_same]
    · intro hr
      simp only [advance_A, upd_same, hr, ne_eq, not_false_eq_true, if_true, stage_set_d,
        union_set_d]
    · intro hr
      simp only [advance_A, upd_same, hr, ne_eq, not_true_eq_false, if_false, stage_set_s,
        union_s_set_s, and_self]
  · intro hp
    rw [if_pos hp]
    refine ⟨set_fregval_by_A _ _ _ _ _, fun hd => set_fregval_by_get _ _ _ _ _ hd⟩

theorem pfadd_pipeline_witness :
    get_fregval_s (insn_fadd_sub fp0 st_add (w_pfadd_ss 4 5 8)) 8 = 0x44444444
      ∧ ((insn_fadd_sub fp0 st_add (w_pfadd_ss 4 5 8)).A 2).val = 0x33333333
      ∧ ((insn_fadd_sub fp0 st_add (w_pfadd_ss 4 5 8)).A 1).val = 0x22222222
      ∧ union_s ((insn_fadd_sub fp0 st_add (w_pfadd_ss 4 5 8)).A 0).val = 0x40000000 :=
  have h := (pfadd_pipeline fp0 st_add (w_pfadd_ss 4 5 8) (by decide)).1 (by decide)
  ⟨((h.1 (by decide)).2 (by decide)).trans (by decide),
    (congrArg Stage.val h.2.1).trans (by decide),
    (congrArg Stage.val h.2.2.1).trans (by decide),
    (h.2.2.2.2 (by decide)).2.trans (by decide)⟩

/-- C20, failing input: `pfmul.ss f4,f9,f9` (second source = destination) when
the last stage M[2] of the multiplier pipeline carries a double. With the
host arithmetic `fp_snd`, whose product is its second operand, the product
that enters stage 0 is 0: the second operand is neither the contents of the
last stage (0x4000000040000000, which is what f9 receives as a double) nor
what f9 held (0x40400000) but the initial 0.0 of the single-precision
temporary `sgl_last_stage_contents`, which the capture of a stage tagged
double leaves untouched. -/
theorem bypass_mixed_precision_uses_zero :
    get_fsrc2 (w_pfmul_ss 4 9 9) = get_fdest (w_pfmul_ss 4 9 9)
      ∧ (st_mixed.M 2).val = 0x4000000040000000
      ∧ get_fregval_s st_mixed 9 = 0x40400000
      ∧ union_s ((insn_fmul fp_snd st_mixed (w_pfmul_ss 4 9 9)).M 0).val = 0
      ∧ get_fregval_d (insn_fmul fp_snd st_mixed (w_pfmul_ss 4 9 9)) 9 = 0x4000000040000000 := by
  decide

/-- C20, where the code agrees with the claim: for a pipelined multiply or
add/subtract (valid precision combination) whose second source register is the
destination register (not f0), when the precision tag of the pipe's last stage
agrees with the source precision of the instruction: the second operand of the
computation is the contents of that last stage as it was before the
instruction, in the source precision, and the destination register is written
with the same stage contents in the width of the tag. The first operand of the
multiply is always the value of register fsrc1; the first operand of the
add/subtract is bypassed in the same way when fsrc1 is the destination. -/
theorem bypass_second_operand (fp : HostFP) (s : State) (insn : Nat)
    (hp : insn &&& 0x400 ≠ 0) (hb : get_fsrc2 insn = get_fdest insn)
    (hd : get_fdest insn ≠ 0) (hv : insn &&& 0x180 ≠ 0x100) :
    (¬ (insn &&& 0x4 ≠ 0 ∧ insn &&& 0x180 ≠ 0x180) →
      (insn_fmul fp s insn).M 0
          = (if insn &&& 0x080 ≠ 0 then stage_set_d (s.M 0) (fmul_tmp fp s insn).1
             else stage_set_s (s.M 0) (fmul_tmp fp s insn).2)
      ∧ (insn_fmul fp s insn).frg
          = (if (s.M (fmul_stages insn - 1)).prec ≠ 0 then
              set_fregval_d s (get_fdest insn) (union_d (s.M (fmul_stages insn - 1)).val)
             else set_fregval_s s (get_fdest insn)
              (union_s (s.M (fmul_stages insn - 1)).val)).frg
      ∧ (insn &&& 0x100 = 0 → (s.M (fmul_stages insn - 1)).prec = 0 →
          fmul_tmp fp s insn
            = (if insn &&& 0x080 ≠ 0 then
                fp.to_d (fp.mul_s (get_fregval_s s (get_fsrc1 insn))
                  (union_s (s.M (fmul_stages insn - 1)).val)) else 0,
               if insn &&& 0x080 ≠ 0 then 0 else
                fp.mul_s (get_fregval_s s (get_fsrc1 insn))
                  (union_s (s.M (fmul_stages insn - 1)).val)))
      ∧ (insn &&& 0x100 ≠ 0 → (s.M (fmul_stages insn - 1)).prec ≠ 0 →
          fmul_tmp fp s insn
            = (if insn &&& 0x080 ≠ 0 then
                fp.mul_d (get_fregval_d s (get_fsrc1 insn))
                  (union_d (s.M (fmul_stages insn - 1)).val) else 0,
               if insn &&& 0x080 ≠ 0 then 0 else
                fp.to_s (fp.mul_d (get_fregval_d s (get_fsrc1 insn))
                  (union_d (s.M (fmul_stages insn - 1)).val)))))
    ∧ (insn_fadd_sub fp s insn).A 0
        = (if insn &&& 0x080 ≠ 0 then stage_set_d (s.A 0) (fadd_sub_tmp fp s insn).1
           else stage_set_s (s.A 0) (fadd_sub_tmp fp s insn).2)
    ∧ (insn_fadd_sub fp s insn).frg
        = (if (s.A 2).prec ≠ 0 then set_fregval_d s (get_fdest insn) (union_d (s.A 2).val)
           else set_fregval_s s (get_fdest insn) (union_s (s.A 2).val)).frg
    ∧ (insn &&& 0x100 = 0 → (s.A 2).prec = 0 →
        fadd_sub_tmp fp s insn
          = (if insn &&& 0x080 ≠ 0 then
              fp.to_d ((if insn &&& 1 ≠ 0 then fp.sub_s else fp.add_s)
                (if get_fsrc1 insn = get_fdest insn then union_s (s.A 2).val
                 else get_fregval_s s (get_fsrc1 insn))
                (union_s (s.A 2).val)) else 0,
             if insn &&& 0x080 ≠ 0 then 0 else
              (if insn &&& 1 ≠ 0 then fp.sub_s else fp.add_s)
                (if get_fsrc1 insn = get_fdest insn then union_s (s.A 2).val
                 else get_fregval_s s (get_fsrc1 insn))
                (union_s (s.A 2).val)))
    ∧ (insn &&& 0x100 ≠ 0 → (s.A 2).prec ≠ 0 →
        fadd_sub_tmp fp s insn
          = (if insn &&& 0x080 ≠ 0 then
              (if insn &&& 1 ≠ 0 then fp.sub_d else fp.add_d)
                (if get_fsrc1 insn = get_fdest insn then union_d (s.A 2).val
                 else get_fregval_d s (get_fsrc1 insn))
                (union_d (s.A 2).val) else 0,
             if insn &&& 0x080 ≠ 0 then 0 else
              fp.to_s ((if insn &&& 1 ≠ 0 then fp.sub_d else fp.add_d)
                (if get_fsrc1 insn = get_fdest insn then union_d (s.A 2).val
                 else get_fregval_d s (get_fsrc1 insn))
                (union_d (s.A 2).val)))) := by
  refine ⟨?_, ?_, ?_, ?_, ?_⟩
  · intro h3
    rw [insn_fmul_eq, if_neg h3, if_neg hv, if_neg hp]
    refine ⟨?_, ?_, ?_, ?_⟩
    · rw [advance_M_zero, set_fregval_by_M, fsr_copy_bit_M]
    · generalize fmul_stages insn = n
      rw [advance_M_frg, fsr_copy_bit_M,
        set_fregval_by_frg s _ _ _ _ _ (fsr_copy_bit_frg _ _ _)]
      unfold set_fregval_by
      by_cases h : (s.M (n - 1)).prec ≠ 0
      · rw [if_pos h, if_pos h, if_pos ⟨hp, h⟩]
      · rw [if_neg h, if_neg h, if_pos ⟨hp, not_not.mp h⟩]
    · intro hs ht
      unfold fmul_stages at ht
      unfold fmul_tmp fmul_stages
      simp only [hs, hp, hb, hd, ne_eq, not_true_eq_false, false_and, and_false, if_false,
        not_false_eq_true, true_and, if_true, and_self, Nat.reduceSub, and_true] at ht ⊢
      simp only [ht, if_true]
    · intro hs ht
      unfold fmul_stages at ht
      unfold fmul_tmp fmul_stages
      by_cases h4 : insn &&& 0x4 = 0
      · simp only [hs, hp, hb, hd, h4, ne_eq, not_true_eq_false, false_and, and_false, if_false,
          not_false_eq_true, true_and, if_true, and_self, Nat.reduceSub, and_true] at ht ⊢
        simp only [ht, not_false_eq_true, if_true]
      · simp only [hs, hp, hb, hd, h4, ne_eq, not_true_eq_false, false_and, and_false, if_false,
          not_false_eq_true, true_and, if_true, and_self, Nat.reduceSub, and_true] at ht ⊢
        simp only [ht, not_false_eq_true, if_true]
  · rw [insn_fadd_sub_eq, if_neg hv, if_neg hp, advance_A_zero, set_fregval_by_A,
      fsr_copy_bit_A]
  · rw [insn_fadd_sub_eq, if_neg hv, if_neg hp, advance_A_frg, fsr_copy_bit_A,
      set_fregval_by_frg s _ _ _ _ _ (fsr_copy_bit_frg _ _ _)]
    unfold set_fregval_by
    by_cases h : (s.A 2).prec ≠ 0
    · rw [if_pos h, if_pos h, if_pos ⟨hp, h⟩]
    · rw [if_neg h, if_neg h, if_pos ⟨hp, not_not.mp h⟩]
  · intro hs ht
    unfold fadd_sub_tmp
    by_cases h1 : get_fsrc1 insn = get_fdest insn
    · by_cases hsub : insn &&& 1 = 0
      · simp only [hs, ht, hp, hb, hd, h1, hsub, ne_eq, not_true_eq_false, false_and, and_false,
          if_false, not_false_eq_true, true_and, if_true, and_self, and_true]
      · simp only [hs, ht, hp, hb, hd, h1, hsub, ne_eq, not_true_eq_false, false_and, and_false,
          if_false, not_false_eq_true, true_and, if_true, and_self, and_true]
    · by_cases hsub : insn &&& 1 = 0
      · simp only [hs, ht, hp, hb, hd, h1, hsub, ne_eq, not_true_eq_false, false_and, and_false,
          if_false, not_false_eq_true, true_and, if_true, and_self, and_true]
      · simp only [hs, ht, hp, hb, hd, h1, hsub, ne_eq, not_true_eq_false, false_and, and_false,
          if_false, not_false_eq_true, true_and, if_true, and_self, and_true]
  · intro hs ht
    unfold fadd_sub_tmp
    by_cases h1 : get_fsrc1 insn = get_fdest insn
    · by_cases hsub : insn &&& 1 = 0
      · simp only [hs, ht, hp, hb, hd, h1, hsub, ne_eq, not_true_eq_false, false_and, and_false,
          if_false, not_false_eq_true, true_and, if_true, and_self, and_true]
      · simp only [hs, ht, hp, hb, hd, h1, hsub, ne_eq, not_true_eq_false, false_and, and_false,
          if_false, not_false_eq_true, true_and, if_true, and_self, and_true]
    · by_cases hsub : insn &&& 1 = 0
      · simp only [hs, ht, hp, hb, hd, h1, hsub, ne_eq, not_true_eq_false, false_and, and_false,
          if_false, not_false_eq_true, true_and, if_true, and_self, and_true]
      · simp only [hs, ht, hp, hb, hd, h1, hsub, ne_eq, not_true_eq_false, false_and, and_false,
          if_false, not_false_eq_true, true_and, if_true, and_self, and_true]

theorem bypass_second_operand_witness :
    get_fsrc2 (w_pfmul_ss 4 9 9) = get_fdest (w_pfmul_ss 4 9 9)
      ∧ (st_bypass.M 2).val = 0x55555555
      ∧ get_fregval_s st_bypass 9 = 0x40400000
      ∧ fmul_tmp fp_snd st_bypass (w_pfmul_ss 4 9 9) = (0, 0x55555555) :=
  have h := (bypass_second_operand fp_snd st_bypass (w_pfmul_ss 4 9 9) (by decide) (by decide)
    (by decide) (by decide)).1 (by decide)
  ⟨by decide, by decide, by decide, (h.2.2.1 (by decide) (by decide)).trans (by decide)⟩

/-- C21, counterexample: the dual operation `pfmam.ss f4,f5,f8` with routing
code 0000 (P bit clear), for which the shared table routes the second adder
operand from the multiply pipe (`OP_MPIPE`). With the host arithmetic
`fp_snd`, whose sum is its second operand, the sum that enters stage 0 of the
adder pipeline is the last stage of the multiplier pipeline (0x66666666), not
the last stage of the adder pipeline (0x44444444); with routing code 0010,
which the table routes from the add pipe (flagged entry), `pfmam` again takes
the multiplier stage while `pfam` (P bit set) takes the adder stage. -/
theorem pfmam_reads_multiplier_stage :
    (src_opers.getD 0 ⟨0, 0, 0, 0, 0, 0⟩).A_unit_op2 = OP_MPIPE
      ∧ union_s (st_dual.M 2).val = 0x66666666
      ∧ union_s (st_dual.A 2).val = 0x44444444
      ∧ union_s ((insn_dualop fp_snd st_dual (w_dualop_ss 0 0 4 5 8)).A 0).val = 0x66666666
      ∧ (src_opers.getD 2 ⟨0, 0, 0, 0, 0, 0⟩).A_unit_op2 = OP_APIPE ||| FLAGM
      ∧ union_s ((insn_dualop fp_snd st_dual (w_dualop_ss 0 2 4 5 8)).A 0).val = 0x66666666
      ∧ union_s ((insn_dualop fp_snd st_dual (w_dualop_ss 0x400 2 4 5 8)).A 0).val
          = 0x44444444 := by
  decide

/-- C21, amended: for each of the 16 routing codes and each operand type `op`
that the shared table gives for the second multiplier operand or for an adder
operand: the variant with the P bit clear (pfmam/pfmsm) replaces every entry
that routes from the add pipe's last stage (all of them carry `FLAGM`) by
`OP_MPIPE`, so the operand is read from the multiply pipe's last stage (M[2]
as a single, M[1] as a double), and leaves every other entry, the
multiply-pipe entries included, as it is; the variant with the P bit set
(pfam/pfsm) uses the entry unchanged, reading the add pipe's last stage A[2]
where the table says so. The first multiplier operand is never a pipe
stage. -/
theorem pfmam_routing (s : State) (insn dpc op : Nat) (hd : dpc < 16)
    (hop : op = (src_opers.getD dpc ⟨0, 0, 0, 0, 0, 0⟩).M_unit_op2
      ∨ op = (src_opers.getD dpc ⟨0, 0, 0, 0, 0, 0⟩).A_unit_op1
      ∨ op = (src_opers.getD dpc ⟨0, 0, 0, 0, 0, 0⟩).A_unit_op2) :
    (op &&& not32 FLAGM = OP_APIPE →
        op &&& FLAGM ≠ 0 ∧ pfmam_adjust 0 op = OP_MPIPE
        ∧ get_fval_from_optype_s s insn (pfmam_adjust 0 op) = union_s (s.M 2).val
        ∧ get_fval_from_optype_d s insn (pfmam_adjust 0 op) = union_d (s.M 1).val
        ∧ get_fval_from_optype_s s insn op = union_s (s.A 2).val
        ∧ get_fval_from_optype_d s insn op = union_d (s.A 2).val)
    ∧ (op &&& not32 FLAGM ≠ OP_APIPE → pfmam_adjust 0 op = op)
    ∧ (op = OP_MPIPE →
        get_fval_from_optype_s s insn (pfmam_adjust 0 op) = union_s (s.M 2).val
        ∧ get_fval_from_optype_d s insn (pfmam_adjust 0 op) = union_d (s.M 1).val)
    ∧ (∀ p, p ≠ 0 → pfmam_adjust p op = op)
    ∧ ((src_opers.getD dpc ⟨0, 0, 0, 0, 0, 0⟩).M_unit_op1 = OP_KR
        ∨ (src_opers.getD dpc ⟨0, 0, 0, 0, 0, 0⟩).M_unit_op1 = OP_KI
        ∨ (src_opers.getD dpc ⟨0, 0, 0, 0, 0, 0⟩).M_unit_op1 = OP_SRC1) := by
  have hvals : op = OP_SRC1 ∨ op = OP_SRC2 ∨ op = OP_T ∨ op = OP_MPIPE
      ∨ op = OP_APIPE ||| FLAGM := by
    obtain ⟨h1, h2, h3⟩ := src_opers_values dpc hd
    rcases hop with h | h | h
    · rcases h1 with e | e
      · exact Or.inr (Or.inl (h.trans e))
      · exact Or.inr (Or.inr (Or.inr (Or.inr (h.trans e))))
    · rcases h2 with e | e | e
      · exact Or.inl (h.trans e)
      · exact Or.inr (Or.inr (Or.inl (h.trans e)))
      · exact Or.inr (Or.inr (Or.inr (Or.inr (h.trans e))))
    · rcases h3 with e | e | e
      · exact Or.inr (Or.inl (h.trans e))
      · exact Or.inr (Or.inr (Or.inr (Or.inl (h.trans e))))
      · exact Or.inr (Or.inr (Or.inr (Or.inr (h.trans e))))
  have hm1 : ∀ dpc, dpc < 16 →
      ((src_opers.getD dpc ⟨0, 0, 0, 0, 0, 0⟩).M_unit_op1 = OP_KR
        ∨ (src_opers.getD dpc ⟨0, 0, 0, 0, 0, 0⟩).M_unit_op1 = OP_KI
        ∨ (src_opers.getD dpc ⟨0, 0, 0, 0, 0, 0⟩).M_unit_op1 = OP_SRC1) := by
    decide
  refine ⟨?_, ?_, ?_, ?_, hm1 dpc hd⟩
  · intro h
    rcases hvals with e | e | e | e | e <;> subst e
    · exact absurd h (by decide)
    · exact absurd h (by decide)
    · exact absurd h (by decide)
    · exact absurd h (by decide)
    · exact ⟨by decide, by decide, rfl, rfl, rfl, rfl⟩
  · intro h
    rcases hvals with e | e | e | e | e <;> subst e
    · decide
    · decide
    · decide
    · decide
    · exact absurd (by decide) h
  · intro h
    subst h
    exact ⟨rfl, rfl⟩
  · intro p hp
    unfold pfmam_adjust
    rw [if_neg hp]

theorem pfmam_routing_witness :
    get_fval_from_optype_s st_dual (w_dualop_ss 0 2 4 5 8)
        (pfmam_adjust 0 (src_opers.getD 2 ⟨0, 0, 0, 0, 0, 0⟩).A_unit_op2) = 0x66666666
      ∧ get_fval_from_optype_s st_dual (w_dualop_ss 0 2 4 5 8)
        (src_opers.getD 2 ⟨0, 0, 0, 0, 0, 0⟩).A_unit_op2 = 0x44444444 :=
  have h := (pfmam_routing st_dual (w_dualop_ss 0 2 4 5 8) 2
    (src_opers.getD 2 ⟨0, 0, 0, 0, 0, 0⟩).A_unit_op2 (by decide) (Or.inr (Or.inr rfl))).1
    (by decide)
  ⟨h.2.2.1.trans (by decide), h.2.2.2.2.1.trans (by decide)⟩

/-- C22: no routing code is rejected for the multiply-accumulate variant. For
every dual-operation word with the P bit clear and a valid precision
combination (whatever its 4-bit routing code), `insn_dualop` does not take the
unrecognized-opcode path (the halt line keeps its value) and advances the
adder pipeline: stage 1 receives the old stage 0 and stage 2 the old
stage 1. -/
theorem pfmam_no_rejected_dpc (fp : HostFP) (s : State) (insn : Nat)
    (_hp : insn &&& 0x400 = 0) (hv : insn &&& 0x180 ≠ 0x100) :
    (insn_dualop fp s insn).halted = s.halted
      ∧ (insn_dualop fp s insn).A 1 = s.A 0
      ∧ (insn_dualop fp s insn).A 2 = s.A 1 := by
  obtain ⟨t, f1, d1, g1, f2, n, r2, d2, g2, f3, r3, d3, g3, e, a, b, c, rfl⟩ :=
    insn_dualop_shape fp s insn hv
  rw [e]
  refine ⟨?_, ?_, ?_⟩
  · show (fsr_copy_bit _ _ _).halted = _
    rw [fsr_copy_bit_halted]
    show (fsr_copy_bit _ _ _).halted = _
    rw [fsr_copy_bit_halted, set_fregval_by_halted]
  · rw [(advance_A_stages _ _ _ _).1, fsr_copy_bit_A]
    show (fsr_copy_bit _ _ _).A 0 = _
    rw [fsr_copy_bit_A, set_fregval_by_A]
  · rw [(advance_A_stages _ _ _ _).2, fsr_copy_bit_A]
    show (fsr_copy_bit _ _ _).A 1 = _
    rw [fsr_copy_bit_A, set_fregval_by_A]

theorem pfmam_no_rejected_dpc_witness :
    (insn_dualop fp0 st_dual (w_dualop_ss 0 15 4 5 8)).halted = false
      ∧ ((insn_dualop fp0 st_dual (w_dualop_ss 0 15 4 5 8)).A 1).val = 0x22222222
      ∧ ((insn_dualop fp0 st_dual (w_dualop_ss 0 15 4 5 8)).A 2).val = 0x33333333 :=
  have h := pfmam_no_rejected_dpc fp0 st_dual (w_dualop_ss 0 15 4 5 8) (by decide) (by decide)
  ⟨h.1, (congrArg Stage.val h.2.1).trans (by decide),
    (congrArg Stage.val h.2.2).trans (by decide)⟩

/-! ## Memory access -/

/-- C23: `fp_writemem_emu` with size 8 and a byte mask other than 0xff, when
the translation (if enabled) does not fault and the breakpoint does not
match, seen from the physical address `p.1` and the state `p.2` after the
translation. In little-endian mode the byte at `p.1 + k` (0 <= k <= 7)
becomes `data[k]` exactly when mask bit `0x80 >> k` is set, in big-endian mode
the byte at `p.1 + 7 - k`; a byte whose mask bit is clear and every byte
outside `p.1 .. p.1 + 7` keep their contents. -/
theorem masked_store (s : State) (addr : Nat) (data : List Nat) (wmask : Nat)
    (hm : wmask ≠ 0xff)
    (hnf : ¬ (GET_DIRBASE_ATE s ≠ 0
      ∧ (if GET_DIRBASE_ATE s ≠ 0 then get_address_translation s addr true true
          else (addr, s)).2.pending_trap ≠ 0
      ∧ GET_PSR_DAT (if GET_DIRBASE_ATE s ≠ 0 then get_address_translation s addr true true
          else (addr, s)).2 ≠ 0))
    (hbp : ¬ ((if GET_DIRBASE_ATE s ≠ 0 then get_address_translation s addr true true
          else (addr, s)).1 &&& not32 (8 - 1)
        = (if GET_DIRBASE_ATE s ≠ 0 then get_address_translation s addr true true
          else (addr, s)).2.cregs CR_DB
      ∧ GET_PSR_BW (if GET_DIRBASE_ATE s ≠ 0 then get_address_translation s addr true true
          else (addr, s)).2 ≠ 0)) :
    (∀ k, k < 8 →
      (fp_writemem_emu s addr 8 data wmask).mem
          (((if GET_DIRBASE_ATE s ≠ 0 then get_address_translation s addr true true
              else (addr, s)).1
            + (if GET_EPSR_BE (if GET_DIRBASE_ATE s ≠ 0 then
                  get_address_translation s addr true true else (addr, s)).2 ≠ 0
               then 7 - k else k)) % 2 ^ 32)
        = if wmask &&& (0x80 >>> k) ≠ 0 then data.getD k 0 % 256
          else (if GET_DIRBASE_ATE s ≠ 0 then get_address_translation s addr true true
              else (addr, s)).2.mem
            (((if GET_DIRBASE_ATE s ≠ 0 then get_address_translation s addr true true
                else (addr, s)).1
              + (if GET_EPSR_BE (if GET_DIRBASE_ATE s ≠ 0 then
                    get_address_translation s addr true true else (addr, s)).2 ≠ 0
                 then 7 - k else k)) % 2 ^ 32))
    ∧ (∀ x, (∀ k, k < 8 →
          x ≠ ((if GET_DIRBASE_ATE s ≠ 0 then get_address_translation s addr true true
              else (addr, s)).1 + k) % 2 ^ 32) →
        (fp_writemem_emu s addr 8 data wmask).mem x
          = (if GET_DIRBASE_ATE s ≠ 0 then get_address_translation s addr true true
              else (addr, s)).2.mem x) :=
  masked_store_aux s addr data wmask hm hnf hbp

theorem masked_store_witness :
    (fp_writemem_emu st_poison 0x100 8 [0x11, 0x22, 0x33, 0x44, 0x55, 0x66, 0x77, 0x88] 0x81).mem
        0x100 = 0x11
      ∧ (fp_writemem_emu st_poison 0x100 8 [0x11, 0x22, 0x33, 0x44, 0x55, 0x66, 0x77, 0x88]
        0x81).mem 0x101 = 0xEE
      ∧ (fp_writemem_emu st_poison 0x100 8 [0x11, 0x22, 0x33, 0x44, 0x55, 0x66, 0x77, 0x88]
        0x81).mem 0x107 = 0x88
      ∧ (fp_writemem_emu st_poison 0x100 8 [0x11, 0x22, 0x33, 0x44, 0x55, 0x66, 0x77, 0x88]
        0x81).mem 0x108 = 0xEE :=
  have h := masked_store st_poison 0x100 [0x11, 0x22, 0x33, 0x44, 0x55, 0x66, 0x77, 0x88] 0x81
    (by decide) (by decide) (by decide)
  ⟨(h.1 0 (by decide)).trans (by decide), (h.1 1 (by decide)).trans (by decide),
    (h.1 7 (by decide)).trans (by decide), (h.2 0x108 (by decide)).trans (by decide)⟩

/-- C24: `pst.d` with pixel size PS = 1 and PSR.PM bits 3..0 = 0001, without
fault (no alignment trap, no translation fault, no breakpoint match), seen
from the physical address and state after the translation. In big-endian mode
(EPSR.BE = 1) exactly the two lowest-addressed bytes of the 8-byte target are
written (with register bytes 7 and 6) and every other byte of memory keeps
its contents. In little-endian mode (EPSR.BE = 0) the two bytes written are
the highest-addressed ones, target + 6 and target + 7, and the two
lowest-addressed bytes keep their contents. -/
theorem pstd_low_pixel (cfg : Config) (s : State) (insn : Nat) (hps : GET_PSR_PS s = 1)
    (hpm : GET_PSR_PM s &&& 0xf = 1)
    (hal : ¬ (cfg.trace_unaligned = true ∧ pstd_eff s insn &&& (8 - 1) ≠ 0))
    (hnf : ¬ (GET_DIRBASE_ATE (pstd_pre s insn) ≠ 0 ∧ (pstd_xlate s insn).2.pending_trap ≠ 0
      ∧ GET_PSR_DAT (pstd_xlate s insn).2 ≠ 0))
    (hbp : ¬ ((pstd_xlate s insn).1 &&& not32 (8 - 1) = (pstd_xlate s insn).2.cregs CR_DB
      ∧ GET_PSR_BW (pstd_xlate s insn).2 ≠ 0)) :
    (GET_EPSR_BE (pstd_xlate s insn).2 ≠ 0 →
      (insn_pstd cfg s insn).mem ((pstd_xlate s insn).1 % 2 ^ 32)
          = s.frg (4 * get_fdest insn + 7) % 256
      ∧ (insn_pstd cfg s insn).mem (((pstd_xlate s insn).1 + 1) % 2 ^ 32)
          = s.frg (4 * get_fdest insn + 6) % 256
      ∧ ∀ x, x ≠ (pstd_xlate s insn).1 % 2 ^ 32 → x ≠ ((pstd_xlate s insn).1 + 1) % 2 ^ 32 →
          (insn_pstd cfg s insn).mem x = (pstd_xlate s insn).2.mem x)
    ∧ (GET_EPSR_BE (pstd_xlate s insn).2 = 0 →
      (insn_pstd cfg s insn).mem (((pstd_xlate s insn).1 + 6) % 2 ^ 32)
          = s.frg (4 * get_fdest insn + 6) % 256
      ∧ (insn_pstd cfg s insn).mem (((pstd_xlate s insn).1 + 7) % 2 ^ 32)
          = s.frg (4 * get_fdest insn + 7) % 256
      ∧ ∀ x, x ≠ ((pstd_xlate s insn).1 + 6) % 2 ^ 32 →
          x ≠ ((pstd_xlate s insn).1 + 7) % 2 ^ 32 →
          (insn_pstd cfg s insn).mem x = (pstd_xlate s insn).2.mem x) :=
  pstd_low_pixel_aux cfg s insn hps hpm hal hnf hbp

theorem pstd_low_pixel_witness :
    GET_EPSR_BE (st_pixel 0) = 0
      ∧ (insn_pstd cfg0 (st_pixel 0) w_pstd).mem 0x100 = 0xEE
      ∧ (insn_pstd cfg0 (st_pixel 0) w_pstd).mem 0x101 = 0xEE
      ∧ (insn_pstd cfg0 (st_pixel 0) w_pstd).mem 0x106 = 0x77
      ∧ (insn_pstd cfg0 (st_pixel 0) w_pstd).mem 0x107 = 0x88 :=
  have h := (pstd_low_pixel cfg0 (st_pixel 0) w_pstd (by decide) (by decide) (by decide)
    (by decide) (by decide)).2 (by decide)
  ⟨by decide, (h.2.2 0x100 (by decide) (by decide)).trans (by decide),
    (h.2.2 0x101 (by decide) (by decide)).trans (by decide), h.1.trans (by decide),
    h.2.1.trans (by decide)⟩

/-- C25: the debug-breakpoint check of the four memory-access routines, seen
from the physical address and state after a translation that does not fault
(`shim_xlate`). When the physical address with its low bits cleared
(`addr & ~(size - 1)`) equals DB and the enable bit is set (PSR.BR for the
reads, PSR.BW for the writes), PSR.DAT becomes 1, the pending trap becomes
`TRAP_NORMAL` and the raw memory primitive is not used: the integer read
returns 0, the block read leaves the buffer untouched, and a write leaves
memory as the translation left it. When the enable bit is clear or the address
differs, the access is performed by the raw primitive. -/
theorem breakpoint_match (s : State) (addr size data : Nat) (fdata : List Nat)
    (hr : ¬ (GET_DIRBASE_ATE s ≠ 0 ∧ (shim_xlate s addr false).2.pending_trap ≠ 0
      ∧ (GET_PSR_IAT (shim_xlate s addr false).2 ≠ 0
        ∨ GET_PSR_DAT (shim_xlate s addr false).2 ≠ 0)))
    (hw : ¬ (GET_DIRBASE_ATE (console_hook s addr data) ≠ 0
      ∧ (shim_xlate (console_hook s addr data) addr true).2.pending_trap ≠ 0
      ∧ (GET_PSR_IAT (shim_xlate (console_hook s addr data) addr true).2 ≠ 0
        ∨ GET_PSR_DAT (shim_xlate (console_hook s addr data) addr true).2 ≠ 0)))
    (hf : ¬ (GET_DIRBASE_ATE s ≠ 0 ∧ (shim_xlate s addr true).2.pending_trap ≠ 0
      ∧ GET_PSR_DAT (shim_xlate s addr true).2 ≠ 0)) :
    (db_match (shim_xlate s addr false) size (GET_PSR_BR (shim_xlate s addr false).2) →
      ((readmemi_emu s addr size).1 = 0
        ∧ GET_PSR_DAT (readmemi_emu s addr size).2 = 1
        ∧ (readmemi_emu s addr size).2.pending_trap = TRAP_NORMAL
        ∧ (readmemi_emu s addr size).2.mem = (shim_xlate s addr false).2.mem)
      ∧ ((fp_readmem_emu s addr size).1 = none
        ∧ GET_PSR_DAT (fp_readmem_emu s addr size).2 = 1
        ∧ (fp_readmem_emu s addr size).2.pending_trap = TRAP_NORMAL
        ∧ (fp_readmem_emu s addr size).2.mem = (shim_xlate s addr false).2.mem))
    ∧ (¬ db_match (shim_xlate s addr false) size (GET_PSR_BR (shim_xlate s addr false).2) →
      readmemi_emu s addr size
          = (if size = 1 then
              rd8 (shim_xlate s addr false).2 (shim_xlate s addr false).1 &&& 0xff
             else if size = 2 then
              rd16 (shim_xlate s addr false).2 (shim_xlate s addr false).1 &&& 0xffff
             else if size = 4 then
              rd32 (shim_xlate s addr false).2 (shim_xlate s addr false).1
             else 0, (shim_xlate s addr false).2)
      ∧ fp_readmem_emu s addr size
          = (some (frddata (shim_xlate s addr false).2 (shim_xlate s addr false).1 size),
              (shim_xlate s addr false).2))
    ∧ (db_match (shim_xlate (console_hook s addr data) addr true) size
        (GET_PSR_BW (shim_xlate (console_hook s addr data) addr true).2) →
      GET_PSR_DAT (writememi_emu s addr size data) = 1
        ∧ (writememi_emu s addr size data).pending_trap = TRAP_NORMAL
        ∧ (writememi_emu s addr size data).mem
            = (shim_xlate (console_hook s addr data) addr true).2.mem)
    ∧ (¬ db_match (shim_xlate (console_hook s addr data) addr true) size
        (GET_PSR_BW (shim_xlate (console_hook s addr data) addr true).2) →
      writememi_emu s addr size data
        = if size = 1 then
            wr8 (shim_xlate (console_hook s addr data) addr true).2
              (shim_xlate (console_hook s addr data) addr true).1 data
          else if size = 2 then
            wr16 (shim_xlate (console_hook s addr data) addr true).2
              (shim_xlate (console_hook s addr data) addr true).1 data
          else if size = 4 then
            wr32 (shim_xlate (console_hook s addr data) addr true).2
              (shim_xlate (console_hook s addr data) addr true).1 data
          else (shim_xlate (console_hook s addr data) addr true).2)
    ∧ (db_match (shim_xlate s addr true) size (GET_PSR_BW (shim_xlate s addr true).2) →
      ∀ wmask, GET_PSR_DAT (fp_writemem_emu s addr size fdata wmask) = 1
        ∧ (fp_writemem_emu s addr size fdata wmask).pending_trap = TRAP_NORMAL
        ∧ (fp_writemem_emu s addr size fdata wmask).mem = (shim_xlate s addr true).2.mem)
    ∧ (¬ db_match (shim_xlate s addr true) size (GET_PSR_BW (shim_xlate s addr true).2) →
      fp_writemem_emu s addr size fdata 0xff
        = fwrdata (shim_xlate s addr true).2 (shim_xlate s addr true).1 size fdata) := by
  have er : (if GET_DIRBASE_ATE s ≠ 0 then get_address_translation s addr true false
      else (addr, s)) = shim_xlate s addr false := rfl
  have ew : (if GET_DIRBASE_ATE (console_hook s addr data) ≠ 0 then
      get_address_translation (console_hook s addr data) addr true true
      else (addr, console_hook s addr data)) = shim_xlate (console_hook s addr data) addr true :=
    rfl
  have ef : (if GET_DIRBASE_ATE s ≠ 0 then get_address_translation s addr true true
      else (addr, s)) = shim_xlate s addr true := rfl
  unfold db_match
  refine ⟨?_, ?_, ?_, ?_, ?_, ?_⟩
  · intro hm
    unfold readmemi_emu fp_readmem_emu
    simp only [er]
    generalize shim_xlate s addr false = p at hr hm ⊢
    rw [if_neg hr, if_pos hm, if_neg hr, if_pos hm]
    exact ⟨⟨rfl, dat_trap_state p.2⟩, ⟨rfl, dat_trap_state p.2⟩⟩
  · intro hm
    unfold readmemi_emu fp_readmem_emu
    simp only [er]
    generalize shim_xlate s addr false = p at hr hm ⊢
    rw [if_neg hr, if_neg hm, if_neg hr, if_neg hm]
    refine ⟨?_, rfl⟩
    split_ifs <;> rfl
  · intro hm
    unfold writememi_emu
    simp only [ew]
    generalize shim_xlate (console_hook s addr data) addr true = p at hw hm ⊢
    rw [if_neg hw, if_pos hm]
    exact dat_trap_state p.2
  · intro hm
    unfold writememi_emu
    simp only [ew]
    generalize shim_xlate (console_hook s addr data) addr true = p at hw hm ⊢
    rw [if_neg hw, if_neg hm]
  · intro hm wmask
    unfold fp_writemem_emu
    simp only [ef]
    generalize shim_xlate s addr true = p at hf hm ⊢
    rw [if_neg hf, if_pos hm]
    exact dat_trap_state p.2
  · intro hm
    unfold fp_writemem_emu
    simp only [ef]
    generalize shim_xlate s addr true = p at hf hm ⊢
    rw [if_neg hf, if_neg hm, if_neg (by simp)]

theorem breakpoint_match_witness :
    (readmemi_emu (st_db 1) 0x102 4).1 = 0
      ∧ GET_PSR_DAT (readmemi_emu (st_db 1) 0x102 4).2 = 1
      ∧ (readmemi_emu (st_db 0) 0x102 4).1 = 0xEEEEEEEE
      ∧ (writememi_emu (st_db 2) 0x102 4 0x55).mem 0x102 = 0xEE
      ∧ (writememi_emu (st_db 0) 0x102 4 0x55).mem 0x102 = 0x55 :=
  have h1 := breakpoint_match (st_db 1) 0x102 4 0x55 [] (by decide) (by decide) (by decide)
  have h0 := breakpoint_match (st_db 0) 0x102 4 0x55 [] (by decide) (by decide) (by decide)
  have h2 := breakpoint_match (st_db 2) 0x102 4 0x55 [] (by decide) (by decide) (by decide)
  ⟨(h1.1 (by decide)).1.1, (h1.1 (by decide)).1.2.1,
    (congrArg Prod.fst (h0.2.1 (by decide)).1).trans (by decide),
    (congrArg (fun t => t 0x102) (h2.2.2.1 (by decide)).2.2).trans (by decide),
    (congrArg (fun t : State => t.mem 0x102) (h0.2.2.2.1 (by decide))).trans (by decide)⟩

/-- C26: with translation enabled and the directory entry of the accessed page
not present, "fld.l 8(r2)++,f8" ends in a translation fault (PSR.DAT set,
pending trap `TRAP_NORMAL`, `m_exiting_readmem` = 3, f8 untouched) and yet the
base register r2 has been advanced from 0xAB0 to 0xAB8; in the same situation
"pst.d f8,8(r2)" with pixel size 0 faults (`m_exiting_readmem` = 4) after
PSR.PM has been shifted from 0xFF to 0. -/
theorem auto_increment_survives_fault :
    GET_DIRBASE_ATE (st_fault 0) ≠ 0
      ∧ xlate_faults (st_fault 0) 0xAB8 true false
      ∧ (insn_fldy cfg0 (st_fault 0) w_fld_inc).exiting_readmem = 3
      ∧ (insn_fldy cfg0 (st_fault 0) w_fld_inc).pending_trap = TRAP_NORMAL
      ∧ GET_PSR_DAT (insn_fldy cfg0 (st_fault 0) w_fld_inc) = 1
      ∧ (st_fault 0).iregs 2 = 0xAB0
      ∧ (insn_fldy cfg0 (st_fault 0) w_fld_inc).iregs 2 = 0xAB8
      ∧ (insn_pstd cfg0 (st_fault 0xFF000000) w_pstd_r2).exiting_readmem = 4
      ∧ (insn_pstd cfg0 (st_fault 0xFF000000) w_pstd_r2).pending_trap = TRAP_NORMAL
      ∧ GET_PSR_PM (st_fault 0xFF000000) = 0xFF
      ∧ GET_PSR_PM (insn_pstd cfg0 (st_fault 0xFF000000) w_pstd_r2) = 0 := by
  decide

/-- C27: store/load round trip. With translation disabled, no stale
`m_exiting_readmem` marker, an effective address other than the two console
addresses, no breakpoint match and no alignment trap: `st.{b,s,l}` of a
register holding `v` followed by `ld.{b,s,l}` of the same size from the same
effective address into a destination register other than r0 leaves the
destination equal to `v` (32 bits) for size 4 and to the sign extension of the
low 8 * size bits of `v` for sizes 1 and 2. -/
theorem store_load_round_trip (cfg : Config) (s : State) (w_st w_ld : Nat)
    (hate : GET_DIRBASE_ATE s = 0) (hex : s.exiting_readmem = 0)
    (hsize : ldst_size_of w_ld = ldst_size_of w_st)
    (haddr : ldx_eff s w_ld = stx_eff s w_st)
    (hc : stx_eff s w_st ≠ 0xF83FE800 ∧ stx_eff s w_st ≠ 0xF80ff800)
    (hbw : ¬ (stx_eff s w_st &&& not32 (ldst_size_of w_st - 1) = s.cregs CR_DB
      ∧ GET_PSR_BW s ≠ 0))
    (hbr : ¬ (stx_eff s w_st &&& not32 (ldst_size_of w_st - 1) = s.cregs CR_DB
      ∧ GET_PSR_BR s ≠ 0))
    (hal : ¬ (cfg.trace_unaligned = true
      ∧ stx_eff s w_st &&& (ldst_size_of w_st - 1) ≠ 0))
    (hd : get_idest w_ld ≠ 0) :
    (insn_ldx cfg (insn_stx cfg s w_st) w_ld).iregs (get_idest w_ld)
      = if ldst_size_of w_st = 4 then u32 (s.iregs (get_isrc1 w_st))
        else sext (8 * ldst_size_of w_st) (s.iregs (get_isrc1 w_st)) :=
  store_load_aux cfg s w_st w_ld hate hex hsize haddr hc hbw hbr hal hd

theorem store_load_round_trip_witness :
    (st_r12 0x1234ABCD 0x100).iregs 1 = 0x1234ABCD
      ∧ stx_eff (st_r12 0x1234ABCD 0x100) w_st_s = 0x110
      ∧ ldst_size_of w_st_s = 2
      ∧ (insn_ldx cfg0 (insn_stx cfg0 (st_r12 0x1234ABCD 0x100) w_st_s) w_ld_s).iregs 3
          = 0xFFFFABCD :=
  ⟨by decide, by decide, by decide,
    (store_load_round_trip cfg0 (st_r12 0x1234ABCD 0x100) w_st_s w_ld_s (by decide) (by decide)
      (by decide) (by decide) (by decide) (by decide) (by decide) (by decide)
      (by decide)).trans (by decide)⟩

/-! ## Reset -/

/-- C28: after `i860_reset`, from every prior state, the program counter is
0xFFFFFF00, integer register 0 is 0, and the ATE bit of DIRBASE and the WP and
BE bits of EPSR are 0; the eight bytes of f0 and f1 are what they were before
the reset (the two calls `set_fregval_s (0, 0.0)` and `set_fregval_s (1, 0.0)`
are dropped by the guard of `set_fregval_s`), so they are zero only when they
were zero before. -/
theorem reset_state (s : State) :
    (i860_reset s).pc = 0xffffff00
      ∧ get_iregval (i860_reset s) 0 = 0
      ∧ GET_DIRBASE_ATE (i860_reset s) = 0
      ∧ GET_EPSR_WP (i860_reset s) = 0
      ∧ GET_EPSR_BE (i860_reset s) = 0
      ∧ (∀ b, b < 8 → (i860_reset s).frg b = s.frg b)
      ∧ get_fregval_d (i860_reset s) 0 = get_fregval_d s 0 :=
  reset_state_aux s

/-- C29: after `i860_reset` each integer register r1..r31 holds
`0x55aa5500 | i`, and each floating register f2..f31 holds 0.0 (all four
bytes zero), not a non-zero pattern. -/
theorem reset_registers (s : State) :
    (∀ i, 1 ≤ i → i ≤ 31 → get_iregval (i860_reset s) i = 0x55aa5500 ||| i)
      ∧ (∀ fr, 2 ≤ fr → fr ≤ 31 →
          get_fregval_s (i860_reset s) fr = 0
          ∧ ∀ k, k < 4 → (i860_reset s).frg (fr * 4 + k) = 0) :=
  reset_registers_aux s

/-! ## Decoder -/

/-- C30, counterexample: "br" at address 0 whose delay slot (address 4) holds
another "br". One re-entrant call does not suffice to execute it, two do: the
"br" in the delay slot is neither rejected nor ignored, it executes its own
delay slot (address 8) in a second, nested call of the decoder. -/
theorem nested_delay_slot :
    has_delay_slot w_br = 1
      ∧ (slot_fetch (st_slot w_br)).1 = w_br
      ∧ (decode_exec cfg0 fp0 1 (st_slot w_br) w_br).isSome = false
      ∧ (decode_exec cfg0 fp0 2 (st_slot w_br) w_br).isSome = true := by
  decide

/-- C30, amended: a word without delay slot (`has_delay_slot` = 0) is executed
without any re-entrant call of the decoder (depth 0 suffices). When the
delay-slot word of the instruction (`slot_word`, the word its handler fetches at
PC + 4) is not itself a delayed branch, one re-entrant call suffices, for every
state and memory. A call that needs more than one re-entrant call has a delay
slot whose word again has a delay slot, and it is the re-entrant call on that
very word that needs a further one: `decode_exec` does not reject or ignore a
delayed branch in a delay slot, it executes the delay slot of that branch in a
nested call. The nesting is not bounded: in a memory filled with "br" no number
of re-entrant calls suffices. -/
theorem reentry_depth (cfg : Config) (fp : HostFP) :
    (∀ (d : Nat) (s : State) (insn : Nat), has_delay_slot insn = 0 →
      (decode_exec cfg fp d s insn).isSome = true)
    ∧ (∀ (d : Nat) (s : State) (insn : Nat), has_delay_slot (slot_word s insn) = 0 →
      (decode_exec cfg fp (d + 1) s insn).isSome = true)
    ∧ (∀ (d : Nat) (s : State) (insn : Nat), decode_exec cfg fp (d + 1) s insn = none →
      has_delay_slot insn = 1
        ∧ has_delay_slot (slot_word s insn) = 1
        ∧ decode_exec cfg fp d (slot_fetch (slot_pre s insn)).2 (slot_word s insn) = none)
    ∧ (∀ d, decode_exec cfg fp d st_brs w_br = none) := by
  have h3 : ∀ (d : Nat) (s : State) (insn : Nat), decode_exec cfg fp (d + 1) s insn = none →
      has_delay_slot insn = 1
        ∧ has_delay_slot (slot_word s insn) = 1
        ∧ decode_exec cfg fp d (slot_fetch (slot_pre s insn)).2 (slot_word s insn) = none := by
    intro d s insn hn
    obtain ⟨h1, h2⟩ := decode_exec_body_none_slot cfg fp (decode_exec cfg fp d) s insn hn
    refine ⟨h1, ?_, h2⟩
    rcases (has_delay_slot_iff_aux (slot_word s insn)).2 with h | h
    · exact h
    · have := decode_exec_returns cfg fp d (slot_fetch (slot_pre s insn)).2 (slot_word s insn) h
      rw [h2] at this
      exact absurd this (by simp)
  refine ⟨fun d s insn h => decode_exec_returns cfg fp d s insn h, ?_, h3, ?_⟩
  · intro d s insn hw
    cases hr : decode_exec cfg fp (d + 1) s insn with
    | some x => rfl
    | none =>
      have := (h3 d s insn hr).2.1
      rw [hw] at this
      exact absurd this (by decide)
  · intro d
    exact decode_exec_brs cfg fp d st_brs rfl rfl rfl rfl rfl

/-- C30, witness: "br" at address 0 with "trap" in its delay slot: the slot word
has no delay slot and one re-entrant call suffices. -/
theorem reentry_depth_witness :
    has_delay_slot w_br = 1
      ∧ slot_word (st_slot w_trap) w_br = w_trap
      ∧ has_delay_slot (slot_word (st_slot w_trap) w_br) = 0
      ∧ (decode_exec cfg0 fp0 1 (st_slot w_trap) w_br).isSome = true :=
  ⟨by decide, by decide, by decide,
    (reentry_depth cfg0 fp0).2.1 0 (st_slot w_trap) w_br (by decide)⟩

/-- C3: integer register 0 is invariantly zero. `set_iregval (0, v)` stores 0
for every v; if r0 = 0 before `decode_exec`, then r0 = 0 in every state the
call returns, whatever the instruction word and the depth of the re-entrant
calls; a word without delay slot always returns; and r0 = 0 after
`i860_reset`. -/
theorem r0_invariant (cfg : Config) (fp : HostFP) (d : Nat) (s : State) (insn : Nat) :
    (∀ v, get_iregval (set_iregval s 0 v) 0 = 0)
      ∧ (get_iregval s 0 = 0 →
          ∀ t, decode_exec cfg fp d s insn = some t → get_iregval t 0 = 0)
      ∧ (has_delay_slot insn = 0 → (decode_exec cfg fp d s insn).isSome = true)
      ∧ get_iregval (i860_reset s) 0 = 0 := by
  refine ⟨fun v => ?_, fun h0 t ht => ?_, decode_exec_returns cfg fp d s insn,
    (reset_state_aux s).2.1⟩
  · show upd s.iregs 0 (if (0 : Nat) = 0 then 0 else u32 v) 0 = 0
    rw [upd_same]
    rfl
  · exact (keeps_decode_exec cfg fp d s insn t ht).1 h0

/-- C3, witness: "addu r1,r2,r0" with r1 = 5 and r2 = 7 writes its sum to r0,
which still reads 0. -/
theorem r0_invariant_witness :
    get_iregval (st_r12 5 7) 0 = 0
      ∧ get_iregval (insn_addu (st_r12 5 7) (enc_r 0x20 2 0 1)) 0 = 0 :=
  ⟨by decide, (r0_invariant cfg0 fp0 1 (st_r12 5 7) (enc_r 0x20 2 0 1)).2.1 (by decide) _ rfl⟩

/-- C4: the floating-point registers f0 and f1 (bytes 0..7 of the register
file) are invariantly zero. `set_fregval_s` and `set_fregval_d` drop every
write to index 0 or 1; if the bytes 0..7 are zero before `decode_exec`, they
are zero in every state the call returns, whatever the instruction word; a word
without delay slot always returns; and a non-pipelined fld.{l,d,q} with
destination f0 or f1 that reaches its memory read (the checks of the two trace
switches compiled out) leaves the bytes 0..7 zero whatever they were before. -/
theorem f0_f1_invariant (cfg : Config) (fp : HostFP) (d : Nat) (s : State) (insn : Nat) :
    (∀ fr v, fr ≤ 1 → set_fregval_s s fr v = s ∧ set_fregval_d s fr v = s)
      ∧ ((∀ b, b < 8 → s.frg b = 0) →
          ∀ t, decode_exec cfg fp d s insn = some t → ∀ b, b < 8 → t.frg b = 0)
      ∧ (has_delay_slot insn = 0 → (decode_exec cfg fp d s insn).isSome = true)
      ∧ (cfg.trace_undefined = false → cfg.trace_unaligned = false →
          insn &&& 0x40000000 = 0 → get_fdest insn < 2 →
          ∀ b, b < 8 → (insn_fldy cfg s insn).frg b = 0) := by
  refine ⟨fun fr v hfr => ?_, fun h0 t ht => ?_, decode_exec_returns cfg fp d s insn, ?_⟩
  · unfold set_fregval_s set_fregval_d
    rw [if_neg (by omega), if_neg (by omega)]
    exact ⟨rfl, rfl⟩
  · exact (keeps_decode_exec cfg fp d s insn t ht).2 h0
  · intro hu ha hp hf b hb
    unfold insn_fldy
    lift_lets
    intro isrc1 immsrc1 isrc2 fdest auto_inc piped size fdr eff s1 r src s2 bebuf s3 s4 l0
    have c1 : ¬ (piped ≠ 0 ∧ size = 16) := fun h => h.1 hp
    have c2 : ¬ (auto_inc ≠ 0 ∧ cfg.trace_undefined = true ∧ isrc1 = isrc2) := by
      rw [hu]
      exact fun h => Bool.noConfusion h.2.1
    have c3 : ¬ (cfg.trace_unaligned = true ∧ eff &&& (size - 1) ≠ 0) := by
      rw [ha]
      exact fun h => Bool.noConfusion h.1
    have c4 : piped = 0 := hp
    have c5 : fdest < 2 := hf
    rw [if_neg c1, if_neg c2, if_neg c3, if_pos c4, if_pos c5]
    exact frg_store_zero8 _ b hb

/-- C4, witness: "fld.l 0(r0),f0" in a memory filled with 0xEE: the bytes of
f0 and f1 are zero before and after. -/
theorem f0_f1_invariant_witness :
    st_poison.frg 0 = 0 ∧ st_poison.frg 7 = 0
      ∧ (insn_fldy cfg0 st_poison w_fld_f0).frg 0 = 0
      ∧ (insn_fldy cfg0 st_poison w_fld_f0).frg 7 = 0 :=
  ⟨rfl, rfl,
    (f0_f1_invariant cfg0 fp0 1 st_poison w_fld_f0).2.1 (fun _ _ => rfl) _ rfl 0 (by decide),
    (f0_f1_invariant cfg0 fp0 1 st_poison w_fld_f0).2.1 (fun _ _ => rfl) _ rfl 7 (by decide)⟩

/-! ## Floating-point source exception -/

/-- C31: the floating-point source exception is permanently disabled. For every
state and every word, `insn_frcp` and `insn_frsqr` leave the pending-trap flag
and PSR.FT as they were, and FSR.SE is afterwards either 0 or what it was.
When the host comparison finds the source operand equal to zero (for frsqr:
equal to zero or less than zero), the whole state is unchanged, destination
register included; for frsqr this covers the encodings .ss, .sd and .dd, and
the invalid .ds encoding takes the unrecognized-opcode path, which changes
nothing but the halt request. -/
theorem source_exception_disabled (fp : HostFP) (s : State) (insn : Nat) :
    ((insn_frcp fp s insn).pending_trap = s.pending_trap
        ∧ GET_PSR_FT (insn_frcp fp s insn) = GET_PSR_FT s
        ∧ (GET_FSR_SE (insn_frcp fp s insn) = 0
            ∨ GET_FSR_SE (insn_frcp fp s insn) = GET_FSR_SE s))
      ∧ ((insn_frsqr fp s insn).pending_trap = s.pending_trap
        ∧ GET_PSR_FT (insn_frsqr fp s insn) = GET_PSR_FT s
        ∧ (GET_FSR_SE (insn_frsqr fp s insn) = 0
            ∨ GET_FSR_SE (insn_frsqr fp s insn) = GET_FSR_SE s))
      ∧ (insn &&& 0x100 ≠ 0 → fp.eq_d (get_fregval_d s (get_fsrc2 insn)) 0 = true →
          insn_frcp fp s insn = s)
      ∧ (insn &&& 0x100 = 0 → fp.eq_d (fp.to_d (get_fregval_s s (get_fsrc2 insn))) 0 = true →
          insn_frcp fp s insn = s)
      ∧ (insn &&& 0x100 ≠ 0 → insn &&& 0x180 ≠ 0x100 →
          (fp.eq_d (get_fregval_d s (get_fsrc2 insn)) 0 = true
            ∨ fp.lt_d (get_fregval_d s (get_fsrc2 insn)) 0 = true) →
          insn_frsqr fp s insn = s)
      ∧ (insn &&& 0x100 = 0 →
          (fp.eq_d (fp.to_d (get_fregval_s s (get_fsrc2 insn))) 0 = true
            ∨ fp.lt_d (fp.to_d (get_fregval_s s (get_fsrc2 insn))) 0 = true) →
          insn_frsqr fp s insn = s)
      ∧ (insn &&& 0x180 = 0x100 → insn_frsqr fp s insn = { s with halted := true }) := by
  refine ⟨?_, ?_, ?_, ?_, ?_, ?_, ?_⟩
  · exact no_source_exception_aux s _ ((insn_frcp_shape fp s insn).imp_right Or.inr)
  · exact no_source_exception_aux s _ (insn_frsqr_shape fp s insn)
  · intro hp hz
    unfold insn_frcp
    simp only []
    rw [if_pos hp, if_pos hz]
  · intro hp hz
    unfold insn_frcp
    simp only []
    rw [if_neg (not_not.mpr hp), if_pos hz]
  · intro hp hv hz
    unfold insn_frsqr
    simp only []
    rw [if_neg hv, if_pos hp, if_pos hz]
  · intro hp hz
    have hv : insn &&& 0x180 ≠ 0x100 := by
      intro e
      have h1 : (insn &&& 0x180) &&& 0x100 = insn &&& 0x100 := by
        rw [Nat.land_assoc]; rfl
      rw [e, hp] at h1
      exact absurd h1 (by decide)
    unfold insn_frsqr
    simp only []
    rw [if_neg hv, if_neg (not_not.mpr hp), if_pos hz]
  · intro hv
    unfold insn_frsqr
    simp only []
    rw [if_pos hv]
    rfl

/-- C31, witness: "frcp.dd f6,f4" with f6 = 0.0 under a host arithmetic whose
`==` holds for equal patterns leaves the state unchanged. -/
theorem source_exception_disabled_witness :
    w_frcp_dd &&& 0x100 ≠ 0
      ∧ fp_eq.eq_d (get_fregval_d st0 (get_fsrc2 w_frcp_dd)) 0 = true
      ∧ insn_frcp fp_eq st0 w_frcp_dd = st0 :=
  ⟨by decide, by decide,
    (source_exception_disabled fp_eq st0 w_frcp_dd).2.2.1 (by decide) (by decide)⟩

/-! ## Conditional branches without delay slot -/

/-- C32: the branches bte, btne (register and 5-bit immediate form), bc and bnc
change nothing but the program counter and the pc-updated flag, which is set.
When the condition holds (isrc1 = isrc2 for bte, isrc1 ≠ isrc2 for btne, with
the zero-extended field insn[15:11] in place of isrc1 in the immediate forms;
PSR.CC = 1 for bc, PSR.CC = 0 for bnc) the program counter becomes
(PC + 4 + 4 * sign_ext(disp)) mod 2^32 and otherwise (PC + 4) mod 2^32, where
disp is insn[25:0] for bc and bnc and the split field insn[20:16]:insn[10:0]
(`sbroff_field`) for bte and btne. -/
theorem conditional_branches (s : State) (insn : Nat) :
    insn_bte s insn
        = { s with
            pc := if s.iregs (get_isrc1 insn) = s.iregs (get_isrc2 insn)
              then Int.toNat (((s.pc : Int) + 4 + 4 * sval 16 (sbroff_field insn)) % 2 ^ 32)
              else (s.pc + 4) % 2 ^ 32,
            pc_updated := 1 }
      ∧ insn_btne s insn
        = { s with
            pc := if s.iregs (get_isrc1 insn) ≠ s.iregs (get_isrc2 insn)
              then Int.toNat (((s.pc : Int) + 4 + 4 * sval 16 (sbroff_field insn)) % 2 ^ 32)
              else (s.pc + 4) % 2 ^ 32,
            pc_updated := 1 }
      ∧ insn_bte_imm s insn
        = { s with
            pc := if insn / 2 ^ 11 % 2 ^ 5 = s.iregs (get_isrc2 insn)
              then Int.toNat (((s.pc : Int) + 4 + 4 * sval 16 (sbroff_field insn)) % 2 ^ 32)
              else (s.pc + 4) % 2 ^ 32,
            pc_updated := 1 }
      ∧ insn_btne_imm s insn
        = { s with
            pc := if insn / 2 ^ 11 % 2 ^ 5 ≠ s.iregs (get_isrc2 insn)
              then Int.toNat (((s.pc : Int) + 4 + 4 * sval 16 (sbroff_field insn)) % 2 ^ 32)
              else (s.pc + 4) % 2 ^ 32,
            pc_updated := 1 }
      ∧ insn_bc s insn
        = { s with
            pc := if GET_PSR_CC s = 1
              then Int.toNat (((s.pc : Int) + 4 + 4 * sval 26 (insn % 2 ^ 26)) % 2 ^ 32)
              else (s.pc + 4) % 2 ^ 32,
            pc_updated := 1 }
      ∧ insn_bnc s insn
        = { s with
            pc := if GET_PSR_CC s = 0
              then Int.toNat (((s.pc : Int) + 4 + 4 * sval 26 (insn % 2 ^ 26)) % 2 ^ 32)
              else (s.pc + 4) % 2 ^ 32,
            pc_updated := 1 }
      ∧ sbroff_field insn = 2 ^ 11 * (insn / 2 ^ 16 % 2 ^ 5) + insn % 2 ^ 11 := by
  have hs := target_sbroff_eq s insn
  have hl := target_lbroff_eq s insn
  have e26 : insn &&& 0x03ffffff = insn % 2 ^ 26 := Nat.and_pow_two_sub_one_eq_mod insn 26
  rw [e26] at hl
  have e5 : (insn >>> 11) &&& 0x1f = insn / 2 ^ 11 % 2 ^ 5 := by
    rw [Nat.shiftRight_eq_div_pow]
    exact Nat.and_pow_two_sub_one_eq_mod _ 5
  have hs2 : target_sbroff s insn
      = Int.toNat (((s.pc : Int) + 4 + 4 * sval 16 (sbroff_field insn)) % 2 ^ 32) := hs
  refine ⟨?_, ?_, ?_, ?_, ?_, ?_, sbroff_field_eq insn⟩
  · unfold insn_bte get_iregval
    simp only []
    rw [branch_commit_eq, hs2]
  · unfold insn_btne get_iregval
    simp only []
    rw [branch_commit_eq, hs2]
  · unfold insn_bte_imm get_iregval
    simp only []
    rw [branch_commit_eq, hs2, e5]
  · unfold insn_btne_imm get_iregval
    simp only []
    rw [branch_commit_eq, hs2, e5]
  · unfold insn_bc
    rw [branch_commit_eq, hl]
  · unfold insn_bnc
    rw [branch_commit_eq, hl]

/-! ## Second-level decoding -/

/-- C33, the code: for a core escape word (primary opcode 0x13) the decoder
indexes `core_esc_decode_tbl` with `insn & 0x3`. A word with the escape opcode
4 selects entry 0, not entry 4 which holds the handler of intovr, and takes
the unrecognized-opcode path; the escape opcode 2 does dispatch to calli. -/
theorem intovr_unreachable (cfg : Config) (fp : HostFP) (d : Nat) (s : State) (insn : Nat)
    (he : s.exiting_ifetch = 0) (ho : (insn >>> 26) &&& 0x3f = 0x13) :
    (insn &&& 7 = 4 →
        (core_esc_decode_tbl.getD (insn &&& 7) (none, 0)).1 = some Handler.intovr
        ∧ decode_exec cfg fp (d + 1) s insn = some (unrecog_opcode s s.pc insn))
      ∧ (insn &&& 7 = 2 →
        (core_esc_decode_tbl.getD (insn &&& 7) (none, 0)).1 = some Handler.calli
        ∧ decode_exec cfg fp (d + 1) s insn
          = run_handler cfg fp (decode_exec cfg fp d) Handler.calli s insn) := by
  have hb : decode_exec cfg fp (d + 1) s insn
      = decode_exec_body cfg fp (decode_exec cfg fp d) s insn := rfl
  rw [hb]
  obtain ⟨_, _, _, _, b5, b6⟩ := decode_exec_body_cases cfg fp (decode_exec cfg fp d) s insn he
  obtain ⟨c1, c2⟩ := core_esc_decode_tbl_flags _ (and_mask_lt insn 3)
  have h8 := and_3_of_and_7 insn
  constructor
  · intro h4
    rw [h4] at h8
    have h3 : insn &&& 3 ≠ 2 := by rw [h8]; decide
    rw [h4]
    exact ⟨by decide, b6 ho (c2 h3).2⟩
  · intro h2
    rw [h2] at h8
    have h3 : insn &&& 3 = 2 := by rw [h8]; rfl
    rw [h2]
    refine ⟨by decide, ?_⟩
    rw [b5 ho (c1 h3).2]
    exact call_entry_some cfg fp _ _ Handler.calli s insn (c1 h3).1

/-- C33, witness: the word of intovr (0x4C000004) in a state with EPSR.OF
set. The handler `insn_intovr` would set PSR.IT and a normal pending trap; the
decoder halts the processor instead, with PSR.IT and the pending trap clear. -/
theorem intovr_unreachable_witness :
    st_of.exiting_ifetch = 0 ∧ (w_intovr >>> 26) &&& 0x3f = 0x13 ∧ w_intovr &&& 7 = 4
      ∧ GET_EPSR_OF st_of = 1
      ∧ GET_PSR_IT (insn_intovr st_of w_intovr) = 1
      ∧ (insn_intovr st_of w_intovr).pending_trap = TRAP_NORMAL
      ∧ (insn_intovr st_of w_intovr).halted = false
      ∧ GET_PSR_IT (unrecog_opcode st_of st_of.pc w_intovr) = 0
      ∧ (unrecog_opcode st_of st_of.pc w_intovr).pending_trap = 0
      ∧ (unrecog_opcode st_of st_of.pc w_intovr).halted = true
      ∧ decode_exec cfg0 fp0 1 st_of w_intovr
          = some (unrecog_opcode st_of st_of.pc w_intovr) :=
  ⟨by decide, by decide, by decide, by decide, by decide, by decide, by decide, by decide,
    by decide, by decide,
    ((intovr_unreachable cfg0 fp0 0 st_of w_intovr (by decide) (by decide)).1 (by decide)).2⟩

/-- C37: `has_delay_slot` agrees with the dispatcher. For every instruction word
`has_delay_slot` returns 1 exactly when the handler the decoder selects for
the word (`dispatched`) is one of bri, br, call, bc.t, bnc.t, bla and calli, and
0 for every other word, unrecognized ones included; and `dispatched` is what
`decode_exec` runs when `m_exiting_ifetch` is clear. -/
theorem has_delay_slot_agrees (cfg : Config) (fp : HostFP) (d : Nat) (s : State) (insn : Nat) :
    (has_delay_slot insn = 1 ↔
      ∃ h ∈ [Handler.bri, Handler.br, Handler.call, Handler.bct, Handler.bnct, Handler.bla,
          Handler.calli], dispatched insn = some h)
      ∧ (has_delay_slot insn = 1 ∨ has_delay_slot insn = 0)
      ∧ (s.exiting_ifetch = 0 →
          decode_exec cfg fp (d + 1) s insn
            = match dispatched insn with
              | some h => run_handler cfg fp (decode_exec cfg fp d) h (dispatch_state s insn) insn
              | none =>
                some (unrecog_opcode (dispatch_state s insn) (dispatch_state s insn).pc insn)) :=
  ⟨(has_delay_slot_iff_aux insn).1, (has_delay_slot_iff_aux insn).2,
    fun he => decode_exec_body_dispatched cfg fp (decode_exec cfg fp d) s insn he⟩

/-- C37, witness: the word of "br" in the state `st0`. -/
theorem has_delay_slot_agrees_witness :
    st0.exiting_ifetch = 0 ∧ has_delay_slot w_br = 1 ∧ dispatched w_br = some Handler.br
      ∧ decode_exec cfg0 fp0 1 st0 w_br
          = run_handler cfg0 fp0 (decode_exec cfg0 fp0 0) Handler.br st0 w_br :=
  ⟨by decide, by decide, by decide,
    (has_delay_slot_agrees cfg0 fp0 0 st0 w_br).2.2 (by decide)⟩

/-! ## Dual-operation routing table -/

/-- C38: the routing table of the dual operations is well formed. For every
instruction word the routing code `insn & 0xf` indexes within the 16 rows of
`src_opers`; for both variants (any value `p` of the P bit) every operand
selector of the selected row, after the P-clear substitution `pfmam_adjust` and
with the FLAGM bit stripped, is one of the seven operand kinds SRC1, SRC2, KI,
KR, T, MPIPE, APIPE that `get_fval_from_optype_s` and `get_fval_from_optype_d`
have a case for; and every row that loads a K register has KI or KR as its
first multiplier operand. -/
theorem routing_table_well_formed (insn p : Nat) :
    insn &&& 0xf < src_opers.length
      ∧ (src_opers.getD (insn &&& 0xf) ⟨0, 0, 0, 0, 0, 0⟩) ∈ src_opers
      ∧ (src_opers.getD (insn &&& 0xf) ⟨0, 0, 0, 0, 0, 0⟩).M_unit_op1 &&& not32 FLAGM
          ∈ operand_kinds
      ∧ pfmam_adjust p (src_opers.getD (insn &&& 0xf) ⟨0, 0, 0, 0, 0, 0⟩).M_unit_op2
          &&& not32 FLAGM ∈ operand_kinds
      ∧ pfmam_adjust p (src_opers.getD (insn &&& 0xf) ⟨0, 0, 0, 0, 0, 0⟩).A_unit_op1
          &&& not32 FLAGM ∈ operand_kinds
      ∧ pfmam_adjust p (src_opers.getD (insn &&& 0xf) ⟨0, 0, 0, 0, 0, 0⟩).A_unit_op2
          &&& not32 FLAGM ∈ operand_kinds
      ∧ (∀ row ∈ src_opers,
          row.K_loaded ≠ 0 → row.M_unit_op1 = OP_KI ∨ row.M_unit_op1 = OP_KR) := by
  have hlt : insn &&& 0xf < 16 := and_mask_lt insn 0xf
  obtain ⟨hlen, hrows⟩ := src_opers_rows
  have hmem : (src_opers.getD (insn &&& 0xf) ⟨0, 0, 0, 0, 0, 0⟩) ∈ src_opers := by
    rw [List.getD_eq_getElem _ _ (by rw [hlen]; exact hlt)]
    exact List.getElem_mem _
  obtain ⟨r1, r2, r3, r4, r5, r6, r7, _⟩ := hrows _ hmem
  refine ⟨by rw [hlen]; exact hlt, hmem, r1, ?_, ?_, ?_, fun row hr => (hrows row hr).2.2.2.2.2.2.2⟩
  · rcases pfmam_adjust_cases p (src_opers.getD (insn &&& 0xf) ⟨0, 0, 0, 0, 0, 0⟩).M_unit_op2
      with e | e <;> rw [e] <;> assumption
  · rcases pfmam_adjust_cases p (src_opers.getD (insn &&& 0xf) ⟨0, 0, 0, 0, 0, 0⟩).A_unit_op1
      with e | e <;> rw [e] <;> assumption
  · rcases pfmam_adjust_cases p (src_opers.getD (insn &&& 0xf) ⟨0, 0, 0, 0, 0, 0⟩).A_unit_op2
      with e | e <;> rw [e] <;> assumption

/-! ## Control-register stores -/

/-- C34: `st.c` respects the read-only and privileged control-register bits. A
store to FIR changes nothing. A store to EPSR leaves the EPSR bits of the mask
0x003e1fff as they were (and also those of 0x00c06000 when PSR.U is set) and
takes all other bits from the source register. A store to PSR in user mode
leaves the bits of `PSR_SUPERVISOR_ONLY_MASK` as they were and takes the others
from the source; in supervisor mode PSR becomes the source. A store to FSR
changes only bits of the mask 0x003e01ef, which it takes from the source. -/
theorem st_ctrl_masks (cfg : Config) (s : State) (insn : Nat) :
    (get_creg insn = CR_FIR → insn_st_ctrl cfg s insn = s)
      ∧ (get_creg insn = CR_EPSR → GET_PSR_U s = 0 →
          (insn_st_ctrl cfg s insn).cregs CR_EPSR &&& 0x003e1fff
              = s.cregs CR_EPSR &&& 0x003e1fff
          ∧ (insn_st_ctrl cfg s insn).cregs CR_EPSR &&& not32 0x003e1fff
              = s.iregs (get_isrc1 insn) &&& not32 0x003e1fff)
      ∧ (get_creg insn = CR_EPSR → GET_PSR_U s ≠ 0 →
          (insn_st_ctrl cfg s insn).cregs CR_EPSR &&& (0x003e1fff ||| 0x00c06000)
              = s.cregs CR_EPSR &&& (0x003e1fff ||| 0x00c06000)
          ∧ (insn_st_ctrl cfg s insn).cregs CR_EPSR &&& not32 (0x003e1fff ||| 0x00c06000)
              = s.iregs (get_isrc1 insn) &&& not32 (0x003e1fff ||| 0x00c06000))
      ∧ (get_creg insn = CR_PSR → GET_PSR_U s ≠ 0 →
          (insn_st_ctrl cfg s insn).cregs CR_PSR &&& PSR_SUPERVISOR_ONLY_MASK
              = s.cregs CR_PSR &&& PSR_SUPERVISOR_ONLY_MASK
          ∧ (insn_st_ctrl cfg s insn).cregs CR_PSR &&& not32 PSR_SUPERVISOR_ONLY_MASK
              = s.iregs (get_isrc1 insn) &&& not32 PSR_SUPERVISOR_ONLY_MASK)
      ∧ (get_creg insn = CR_PSR → GET_PSR_U s = 0 →
          (insn_st_ctrl cfg s insn).cregs CR_PSR = s.iregs (get_isrc1 insn))
      ∧ (get_creg insn = CR_FSR →
          (insn_st_ctrl cfg s insn).cregs CR_FSR &&& not32 0x003e01ef
              = s.cregs CR_FSR &&& not32 0x003e01ef
          ∧ (insn_st_ctrl cfg s insn).cregs CR_FSR &&& 0x003e01ef
              = s.iregs (get_isrc1 insn) &&& 0x003e01ef) := by
  refine ⟨?_, ?_, ?_, ?_, ?_, ?_⟩
  · intro hc
    rw [insn_st_ctrl_cregs cfg s insn (by rw [hc]; decide) (by rw [hc]; decide), hc]
    rfl
  · intro hc hu
    rw [insn_st_ctrl_cregs cfg s insn (by rw [hc]; decide) (by rw [hc]; decide), if_pos hc,
      if_neg (not_not.mpr hu)]
    simp only [upd_same]
    exact merge_masked _ _ 0x003e1fff (not32 0x003e1fff) (by decide)
  · intro hc hu
    rw [insn_st_ctrl_cregs cfg s insn (by rw [hc]; decide) (by rw [hc]; decide), if_pos hc,
      if_pos hu]
    simp only [upd_same]
    exact merge_masked _ _ (0x003e1fff ||| 0x00c06000) (not32 (0x003e1fff ||| 0x00c06000))
      (by decide)
  · intro hc hu
    rw [insn_st_ctrl_cregs cfg s insn (by rw [hc]; decide) (by rw [hc]; decide),
      if_neg (show ¬ get_creg insn = CR_EPSR by rw [hc]; decide), if_pos hc, if_pos hu]
    simp only [upd_same]
    exact merge_masked _ _ PSR_SUPERVISOR_ONLY_MASK (not32 PSR_SUPERVISOR_ONLY_MASK) (by decide)
  · intro hc hu
    rw [insn_st_ctrl_cregs cfg s insn (by rw [hc]; decide) (by rw [hc]; decide),
      if_neg (show ¬ get_creg insn = CR_EPSR by rw [hc]; decide), if_pos hc,
      if_neg (not_not.mpr hu)]
    simp only [upd_same]
  · intro hc
    rw [insn_st_ctrl_cregs cfg s insn (by rw [hc]; decide) (by rw [hc]; decide),
      if_neg (show ¬ get_creg insn = CR_EPSR by rw [hc]; decide),
      if_neg (show ¬ get_creg insn = CR_PSR by rw [hc]; decide), if_pos hc]
    simp only [upd_same]
    have h := merge_masked (s.cregs CR_FSR) (s.iregs (get_isrc1 insn)) 0x003e01ef
      (not32 0x003e01ef) (by decide)
    rw [Nat.or_comm] at h
    exact ⟨h.2, h.1⟩

/-- C34, witness: "st.c r1,epsr" in supervisor mode with r1 = 0xFFFFFFFF and
EPSR = 0 leaves EPSR = 0xFFC1E000. -/
theorem st_ctrl_masks_witness :
    get_creg (w_stc CR_EPSR) = CR_EPSR ∧ GET_PSR_U (st_r12 0xFFFFFFFF 0) = 0
      ∧ (insn_st_ctrl cfg0 (st_r12 0xFFFFFFFF 0) (w_stc CR_EPSR)).cregs CR_EPSR &&& 0x003e1fff
          = 0
      ∧ (insn_st_ctrl cfg0 (st_r12 0xFFFFFFFF 0) (w_stc CR_EPSR)).cregs CR_EPSR
          &&& not32 0x003e1fff = 0xFFC1E000 :=
  ⟨by decide, by decide,
    ((st_ctrl_masks cfg0 (st_r12 0xFFFFFFFF 0) (w_stc CR_EPSR)).2.1 (by decide)
      (by decide)).1.trans (by decide),
    ((st_ctrl_masks cfg0 (st_r12 0xFFFFFFFF 0) (w_stc CR_EPSR)).2.1 (by decide)
      (by decide)).2.trans (by decide)⟩

/-- C39, the code: "st.c isrc1,dirbase" with bit 0x20 (ITI) set in the source
register isrc1 (not r0) clears that bit in the source register itself before
it stores the register to DIRBASE, so the integer register isrc1 is
changed. -/
theorem st_ctrl_clobbers_source (cfg : Config) (s : State) (insn : Nat)
    (hc : get_creg insn = CR_DIRBASE) (hb : s.iregs (get_isrc1 insn) &&& 0x20 ≠ 0)
    (h1 : get_isrc1 insn ≠ 0) :
    (insn_st_ctrl cfg s insn).iregs (get_isrc1 insn)
        = u32 (s.iregs (get_isrc1 insn) &&& not32 0x20)
      ∧ (insn_st_ctrl cfg s insn).iregs (get_isrc1 insn) ≠ s.iregs (get_isrc1 insn)
      ∧ (insn_st_ctrl cfg s insn).cregs CR_DIRBASE
        = u32 (s.iregs (get_isrc1 insn) &&& not32 0x20) := by
  have hv : (insn_st_ctrl cfg s insn)
      = { set_iregval s (get_isrc1 insn) (s.iregs (get_isrc1 insn) &&& not32 0x20) with
          cregs := upd s.cregs CR_DIRBASE
            (u32 (s.iregs (get_isrc1 insn) &&& not32 0x20)) } := by
    have es1 : (if get_creg insn = CR_DIRBASE ∧ get_iregval s (get_isrc1 insn) &&& 0x20 ≠ 0 then
        set_iregval s (get_isrc1 insn) (get_iregval s (get_isrc1 insn) &&& not32 0x20)
        else s)
        = set_iregval s (get_isrc1 insn) (s.iregs (get_isrc1 insn) &&& not32 0x20) :=
      if_pos ⟨hc, hb⟩
    unfold insn_st_ctrl
    simp only []
    simp only [es1]
    rw [hc]
    rw [if_neg (show ¬ (cfg.trace_undefined = true ∧ CR_DIRBASE > 5) from
      fun h => absurd h.2 (by decide)),
      if_neg (show ¬ CR_DIRBASE = CR_EPSR by decide),
      if_neg (show ¬ CR_DIRBASE = CR_PSR by decide),
      if_neg (show ¬ CR_DIRBASE = CR_FSR by decide),
      if_pos (show CR_DIRBASE ≠ CR_FIR by decide)]
    simp only [get_iregval, set_iregval, upd_same, if_neg h1]
  have hi : (insn_st_ctrl cfg s insn).iregs (get_isrc1 insn)
      = u32 (s.iregs (get_isrc1 insn) &&& not32 0x20) := by
    rw [hv]
    simp only [set_iregval, upd_same, if_neg h1]
  refine ⟨hi, ?_, ?_⟩
  · rw [hi]
    intro e
    have h2 : (u32 (s.iregs (get_isrc1 insn) &&& not32 0x20)) &&& 0x20 = 0 := by
      unfold u32
      rw [← Nat.and_pow_two_sub_one_eq_mod, Nat.and_assoc, Nat.and_assoc]
      have : not32 0x20 &&& ((2 ^ 32 - 1) &&& 0x20) = 0 := by decide
      rw [this, Nat.and_zero]
    rw [e] at h2
    exact hb h2
  · rw [hv]
    simp only [upd_same]

/-- C39, witness: "st.c r1,dirbase" with r1 = 0x20 leaves r1 = 0. -/
theorem st_ctrl_clobbers_source_witness :
    get_creg (w_stc CR_DIRBASE) = CR_DIRBASE
      ∧ (st_r12 0x20 0).iregs (get_isrc1 (w_stc CR_DIRBASE)) = 0x20
      ∧ (insn_st_ctrl cfg0 (st_r12 0x20 0) (w_stc CR_DIRBASE)).iregs 1 = 0 :=
  ⟨by decide, by decide,
    (st_ctrl_clobbers_source cfg0 (st_r12 0x20 0) (w_stc CR_DIRBASE) (by decide) (by decide)
      (by decide)).1.trans (by decide)⟩

/-! ## Double shift -/

/-- C35: with a = isrc1, a 32-bit b = isrc2 and the shift count SC of PSR.SC
(always in 0..31), `shrd` writes to the destination the low 32 bits of
(a * 2^32 + b) shifted right by SC, which is b itself when SC = 0, and changes
no control register, so no flag. -/
theorem shrd_double_shift (s : State) (insn : Nat)
    (hb : s.iregs (get_isrc2 insn) < 2 ^ 32) :
    GET_PSR_SC s < 32
      ∧ insn_shrd s insn
        = set_iregval s (get_idest insn)
            (((s.iregs (get_isrc1 insn) * 2 ^ 32 + s.iregs (get_isrc2 insn)) >>> GET_PSR_SC s)
              % 2 ^ 32)
      ∧ (insn_shrd s insn).cregs = s.cregs
      ∧ (get_idest insn ≠ 0 →
          (insn_shrd s insn).iregs (get_idest insn)
            = ((s.iregs (get_isrc1 insn) * 2 ^ 32 + s.iregs (get_isrc2 insn)) >>> GET_PSR_SC s)
                % 2 ^ 32)
      ∧ (GET_PSR_SC s = 0 → get_idest insn ≠ 0 →
          (insn_shrd s insn).iregs (get_idest insn) = s.iregs (get_isrc2 insn)) := by
  have hsc := GET_PSR_SC_lt s
  have hv : (if GET_PSR_SC s = 0 then get_iregval s (get_isrc2 insn)
      else u32 (get_iregval s (get_isrc1 insn) <<< (32 - GET_PSR_SC s))
        ||| (get_iregval s (get_isrc2 insn) >>> GET_PSR_SC s))
      = ((s.iregs (get_isrc1 insn) * 2 ^ 32 + s.iregs (get_isrc2 insn)) >>> GET_PSR_SC s)
          % 2 ^ 32 := by
    unfold get_iregval
    by_cases h0 : GET_PSR_SC s = 0
    · rw [if_pos h0, h0, Nat.shiftRight_zero, Nat.mul_comm, Nat.mul_add_mod,
        Nat.mod_eq_of_lt hb]
    · rw [if_neg h0]
      exact shrd_value _ _ _ hb (by omega) hsc
  have he : insn_shrd s insn
      = set_iregval s (get_idest insn)
          (((s.iregs (get_isrc1 insn) * 2 ^ 32 + s.iregs (get_isrc2 insn)) >>> GET_PSR_SC s)
            % 2 ^ 32) := by
    unfold insn_shrd
    simp only []
    rw [hv]
  refine ⟨hsc, he, ?_, ?_, ?_⟩
  · rw [he]
    rfl
  · intro hd
    rw [he]
    simp only [set_iregval, upd_same, if_neg hd, u32, Nat.mod_mod]
  · intro h0 hd
    rw [he]
    simp only [set_iregval, upd_same, if_neg hd, u32, Nat.mod_mod]
    rw [h0, Nat.shiftRight_zero, Nat.mul_comm, Nat.mul_add_mod, Nat.mod_eq_of_lt hb]

/-- C35, witness: "shrd r1,r2,r3" with r1 = 0x12345678, r2 = 0x9ABCDEF0 and
SC = 4 writes 0x89ABCDEF to r3. -/
theorem shrd_double_shift_witness :
    (st_shrd 4).iregs (get_isrc2 (enc_r 0x2c 2 3 1)) < 2 ^ 32
      ∧ GET_PSR_SC (st_shrd 4) = 4
      ∧ (insn_shrd (st_shrd 4) (enc_r 0x2c 2 3 1)).iregs 3 = 0x89ABCDEF :=
  ⟨by decide, by decide,
    ((shrd_double_shift (st_shrd 4) (enc_r 0x2c 2 3 1) (by decide)).2.2.2.1
      (by decide)).trans (by decide)⟩

/-! ## Condition code of adds -/

/-- C36, the code: for 32-bit sources a = isrc1 and b = isrc2 read as signed
integers, `adds` sets PSR.CC exactly when b < -a, and clears it exactly when
b >= -a, as long as a is not -2^31. For a = -2^31 (pattern 0x80000000) the
negation `-(INT32)a` wraps to -2^31 and CC is cleared for every b, although
b < -a = 2^31 holds for every b and the true sum a + b is negative. The
immediate form, whose first source is a sign-extended 16-bit field and hence
never -2^31, sets CC exactly when b < -a. -/
theorem adds_cc_int_min (s : State) (insn : Nat)
    (ha : s.iregs (get_isrc1 insn) < 2 ^ 32) (hb : s.iregs (get_isrc2 insn) < 2 ^ 32) :
    (s.iregs (get_isrc1 insn) ≠ 0x80000000 →
        (GET_PSR_CC (insn_adds s insn) = 1
          ↔ toS32 (s.iregs (get_isrc2 insn)) < - toS32 (s.iregs (get_isrc1 insn)))
        ∧ (GET_PSR_CC (insn_adds s insn) = 0
          ↔ toS32 (s.iregs (get_isrc2 insn)) ≥ - toS32 (s.iregs (get_isrc1 insn))))
      ∧ (s.iregs (get_isrc1 insn) = 0x80000000 →
        GET_PSR_CC (insn_adds s insn) = 0
        ∧ toS32 (s.iregs (get_isrc2 insn)) < - toS32 (s.iregs (get_isrc1 insn))
        ∧ toS32 (s.iregs (get_isrc1 insn)) + toS32 (s.iregs (get_isrc2 insn)) < 0)
      ∧ ((GET_PSR_CC (insn_adds_imm s insn) = 1
          ↔ toS32 (s.iregs (get_isrc2 insn)) < - toS32 (sign_ext (get_imm16 insn) 16))
        ∧ (GET_PSR_CC (insn_adds_imm s insn) = 0
          ↔ toS32 (s.iregs (get_isrc2 insn)) ≥ - toS32 (sign_ext (get_imm16 insn) 16))) := by
  obtain ⟨h1, h2⟩ := adds_core_cc s (s.iregs (get_isrc1 insn)) (get_isrc2 insn) (get_idest insn)
    ha hb
  refine ⟨h1, h2, ?_⟩
  have hx := get_imm16_lt insn
  have he := sign_ext_sext 16 (get_imm16 insn) (by norm_num) (by norm_num) hx
  have hlt : sign_ext (get_imm16 insn) 16 < 2 ^ 32 := by
    rw [he]
    exact sext_lt 16 _ (by norm_num) (by norm_num)
  have hne : sign_ext (get_imm16 insn) 16 ≠ 0x80000000 := by
    rw [he]
    unfold sext
    split <;> omega
  exact (adds_core_cc s (sign_ext (get_imm16 insn) 16) (get_isrc2 insn) (get_idest insn)
    hlt hb).1 hne

/-- C36, witness: "adds r1,r2,r3" with r1 = 0x80000000 and r2 = 5 leaves
CC = 0 although 5 < 2^31 and -2^31 + 5 < 0. -/
theorem adds_cc_int_min_witness :
    (st_r12 0x80000000 5).iregs (get_isrc1 (enc_r 0x24 2 3 1)) = 0x80000000
      ∧ (st_r12 0x80000000 5).iregs (get_isrc2 (enc_r 0x24 2 3 1)) = 5
      ∧ GET_PSR_CC (insn_adds (st_r12 0x80000000 5) (enc_r 0x24 2 3 1)) = 0
      ∧ toS32 5 < - toS32 0x80000000
      ∧ toS32 0x80000000 + toS32 5 < 0 :=
  ⟨by decide, by decide,
    ((adds_cc_int_min (st_r12 0x80000000 5) (enc_r 0x24 2 3 1) (by decide) (by decide)).2.1
      (by decide)).1,
    by decide, by decide⟩

/-! ## Integer load on a breakpoint match -/

/-- C40, the code: an `ld.x` without address translation whose effective
address (low bits cleared) equals DB while PSR.BR is set, executed with
`m_exiting_readmem` clear. The shim raises the data-access trap (PSR.DAT set,
normal pending trap) and returns 0 without setting `m_exiting_readmem`, so the
handler commits the destination: idest holds 0 afterwards, whatever it held
before. -/
theorem ldx_breakpoint_commits_zero (cfg : Config) (s : State) (insn : Nat)
    (hate : GET_DIRBASE_ATE s = 0) (hex : s.exiting_readmem = 0)
    (hal : ¬ (cfg.trace_unaligned = true
      ∧ ldx_eff s insn &&& (ldst_size_of insn - 1) ≠ 0))
    (hm : ldx_eff s insn &&& not32 (ldst_size_of insn - 1) = s.cregs CR_DB)
    (hbr : GET_PSR_BR s ≠ 0) :
    insn_ldx cfg s insn
        = set_iregval { SET_PSR_DAT s 1 with pending_trap := TRAP_NORMAL } (get_idest insn) 0
      ∧ (readmemi_emu s (ldx_eff s insn) (ldst_size_of insn)).2.pending_trap = TRAP_NORMAL
      ∧ GET_PSR_DAT (readmemi_emu s (ldx_eff s insn) (ldst_size_of insn)).2 = 1
      ∧ (get_idest insn ≠ 0 → (insn_ldx cfg s insn).iregs (get_idest insn) = 0) := by
  have hr : readmemi_emu s (ldx_eff s insn) (ldst_size_of insn)
      = (0, { SET_PSR_DAT s 1 with pending_trap := TRAP_NORMAL }) := by
    unfold readmemi_emu
    simp only [hate, ne_eq, not_true_eq_false, if_false, false_and]
    rw [if_pos ⟨hm, hbr⟩]
  have he : insn_ldx cfg s insn
      = set_iregval { SET_PSR_DAT s 1 with pending_trap := TRAP_NORMAL } (get_idest insn) 0 := by
    unfold insn_ldx
    simp only []
    have e1 : (if insn &&& 0x04000000 ≠ 0 then
        u32 ((sign_ext (get_imm16 insn) 16
          &&& not32 (ldst_size (((insn >>> 27) &&& 2) ||| (insn &&& 1)) - 1))
          + get_iregval s (get_isrc2 insn))
        else u32 (get_iregval s (get_isrc1 insn) + get_iregval s (get_isrc2 insn)))
        = ldx_eff s insn := rfl
    have e2 : ldst_size (((insn >>> 27) &&& 2) ||| (insn &&& 1)) = ldst_size_of insn := rfl
    rw [e1, e2, if_neg hal, hr]
    have hx : ¬ ({ SET_PSR_DAT s 1 with pending_trap := TRAP_NORMAL } : State).exiting_readmem
        ≠ 0 := not_not.mpr hex
    simp only [if_neg hx, sign_ext_zero]
    split <;> rfl
  refine ⟨he, ?_, ?_, ?_⟩
  · rw [hr]
  · rw [hr]
    exact (dat_trap_state s).1
  · intro hd
    rw [he]
    simp only [set_iregval, upd_same, if_neg hd]
    rfl

/-- C40, witness: "ld.l 0(r2),r3" with r2 = DB = 0x100, PSR.BR set and
r3 = 0x1234 leaves r3 = 0 and a pending trap. -/
theorem ldx_breakpoint_commits_zero_witness :
    st_db_ld.iregs (get_idest w_ld_l) = 0x1234
      ∧ GET_PSR_BR st_db_ld = 1
      ∧ ldx_eff st_db_ld w_ld_l = st_db_ld.cregs CR_DB
      ∧ (insn_ldx cfg0 st_db_ld w_ld_l).iregs (get_idest w_ld_l) = 0
      ∧ (insn_ldx cfg0 st_db_ld w_ld_l).pending_trap = TRAP_NORMAL :=
  ⟨by decide, by decide, by decide,
    (ldx_breakpoint_commits_zero cfg0 st_db_ld w_ld_l (by decide) (by decide) (by decide)
      (by decide) (by decide)).2.2.2 (by decide),
    by decide⟩

end I860
